import Mathlib

/-!
# langsync worker: a shallow embedding of the job-execution engine

The Go sources under `src/worker` are translated function by function.

* Go `string` is `String`, Go `int` is `Int` (the counters live in integer
  database columns, far from the 64-bit range, so no wrap-around is modelled).
* A Go pointer that may be `nil` is an `Option`; dereferencing `none` is the
  outcome `Res.panic`.
* A Go `error` result is the outcome `Res.error`; `fmt.Errorf("... %w", err)`
  is `Err.wrap`.
* The relational store is the record `DB`; every gateway function of `db.go`
  is a state transformer whose effect is read off its SQL text.
* The interfaces `DataSourceApiClient` and `DocumentHelper` are records of
  response functions. Every response may depend on the whole history of calls.
* Every call that leaves the process (store, upstream, helper) is appended to
  `World.trace` in the order it is issued, whether or not it succeeds.
* `errgroup` fan-outs are run one task after the other in the iteration order
  of the collection, stopping at the first error. A Go map is an association
  list in its iteration order.
* Logging and telemetry segments have no influence on control flow and are
  left out.
* The closures handed to `backoff.RetryWithData` in `document_helper.go` and
  `linear.go` are functions from the outcome of `httpClient.Do` to an
  `Attempt`. JSON decoding of an error body and the formatting verb `%q` are
  parameters. The retry loop of the library is modelled for `sendRequest`
  only, as up to five more attempts after a transient outcome, each built
  from the one `*bytes.Reader` that holds the body.
* The consumer of `sqs.go` is modelled for one received message: the calls of
  the visibility heartbeat, driven by a list of timer and shutdown events, and
  the calls of the loop after the handler has returned.
* The paginated loops of `notion.go` take a bound on the number of requests;
  the Notion API is a record of decoded responses per cursor.
* The codecs of `db.go` work on scanned JSON (`Json`), not on bytes: a text
  that is no JSON is outside the model, object keys are compared exactly, and
  `json.Compact`, which the encoder applies to a `json.RawMessage`, is a
  parameter.
-/

namespace Worker

/-! ## Data model (`db.go`, `index.go`, `document_helper.go`) -/

abbrev Integration := String

def IntegrationNotion : Integration := "notion"
def IntegrationLinear : Integration := "linear"

/-- Instants of `time.Time`; only equality of instants is ever used. -/
abbrev Time := Nat

/-- Raw bytes of `json.RawMessage`. -/
abbrev RawMessage := String

/-- Account row (`db.go`, `Account`); e-mail, name, terms flag and the two
login timestamps are never read by the worker and are left out. -/
structure Account where
  Id : String
  IsSuspended : Bool
  IsSubscriber : Bool
  IsUnlimited : Bool
  TotalIndexedDocumentCount : Int
  TotalIndexDocumentTokens : Int
deriving DecidableEq, Repr

/-- Credentials of `NotionIntegrationConnection.Config`. -/
structure NotionConnectionConfig where
  AcessToken : String
  BotId : String
  WorkspaceId : String
  WorkspaceName : String
  WorkspaceIcon : String
deriving DecidableEq, Repr

/-- Credentials of `LinearIntegrationConnection.Config`. -/
structure LinearConnectionConfig where
  AccessToken : String
  TokenType : String
deriving DecidableEq, Repr

/-- The Go struct `IntegrationConnection`: the base fields and both embedded
payloads side by side. -/
structure IntegrationConnection where
  Account : String
  Integration : Integration
  ConnectedAt : String
  Notion : NotionConnectionConfig
  Linear : LinearConnectionConfig
deriving DecidableEq, Repr

abbrev VectorStoreType := String

def VectorStoreTypeWeaviate : VectorStoreType := "weaviate"
def VectorStoreTypeQdrant : VectorStoreType := "qdrant"
def VectorStoreTypeMilvus : VectorStoreType := "milvus"
def VectorStoreTypePinecone : VectorStoreType := "pinecone"

/-- The Go struct `VectorStore`: discriminator plus the two embedded payloads. -/
structure VectorStore where
  StoreType : VectorStoreType
  PineconeConfig : Option RawMessage
  WeaviateConfig : Option RawMessage
deriving DecidableEq, Repr

abbrev TextSplitterType := String

def TextSplitterTypeCharacter : TextSplitterType := "character"
def TextSplitterTypeRecursiveCharacter : TextSplitterType := "recursive_character"
def TextSplitterTypeToken : TextSplitterType := "token"

/-- Payload of `RecursiveCharacterTextSplitter.Config`; a nil slice is `none`. -/
structure RecursiveCharacterConfig where
  ChunkSize : Int
  ChunkOverlap : Int
  Separators : Option (List String)
deriving DecidableEq, Repr

structure TextSplitter where
  Typ : TextSplitterType
  Config : RecursiveCharacterConfig
deriving DecidableEq, Repr

/-- The Go struct `PipelineDataSource`; the two embedded per-integration
structs have no fields. -/
structure PipelineDataSource where
  Id : String
  IsEnabled : Bool
  IntegrationName : Integration
  TextSplitter : TextSplitter
deriving DecidableEq, Repr

abbrev DataSinkType := String

def DataSinkTypeVectorStore : DataSinkType := "vector_store"

structure PipelineDataSink where
  Id : String
  Typ : DataSinkType
  IsEnabled : Bool
  Config : VectorStore
deriving DecidableEq, Repr

abbrev EmbeddingType := String

def EmbeddingTypeOpenAI : EmbeddingType := "openai"

structure PipelineEmbeddingConfig where
  Typ : EmbeddingType
  ApiKey : String
deriving DecidableEq, Repr

structure PipelineConfig where
  DataSources : List PipelineDataSource
  Embeddings : PipelineEmbeddingConfig
  DataSinks : List PipelineDataSink
deriving DecidableEq, Repr

/-- Pipeline row; name, timestamps and the two flags are never read. -/
structure Pipeline where
  Id : String
  Account : String
  Config : PipelineConfig
deriving DecidableEq, Repr

abbrev PipelineRunTrigger := String

def PipelineRunTriggerManual : PipelineRunTrigger := "manual"
def PipelineRunTriggerSystem : PipelineRunTrigger := "system"
def PipelineRunTriggerIntegrationChangeEvent : PipelineRunTrigger := "integration_change_event"

abbrev SyncMode := String

def FullIndexSyncMode : SyncMode := "full_index"
def SingleDocumentSyncMode : SyncMode := "single_document"

abbrev ChangeAction := String

def ChangeActionCreate : ChangeAction := "create"
def ChangeActionUpdate : ChangeAction := "update"
def ChangeActionDelete : ChangeAction := "delete"

structure DocumentChange where
  Action : ChangeAction
  DocumentId : String
  DocumentType : String
deriving DecidableEq, Repr

structure IntegrationChangeEvent where
  Integration : Integration
  Change : DocumentChange
deriving DecidableEq, Repr

structure PipelineRun where
  Id : String
  Pipeline : String
  Trigger : PipelineRunTrigger
  SyncMode : SyncMode
  IntegrationChangeEvent : Option IntegrationChangeEvent
deriving DecidableEq, Repr

abbrev PipelineRunStepStatus := String

def PipelineRunStepStatusPending : PipelineRunStepStatus := "pending"
def PipelineRunStepStatusRunning : PipelineRunStepStatus := "running"
def PipelineRunStepStatusCompleted : PipelineRunStepStatus := "completed"
def PipelineRunStepStatusFailed : PipelineRunStepStatus := "failed"

structure RunError where
  Code : String
  Message : String
deriving DecidableEq, Repr

structure PipelineRunStep where
  Pipeline : String
  PipelineRun : String
  DataSource : String
  StartedAt : Option Time
  CompletedAt : Option Time
  Error : Option RunError
  Status : PipelineRunStepStatus
deriving DecidableEq, Repr

/-- Persisted mirror row (`db.go`, `Document`). -/
structure Document where
  AccountId : String
  PipelineId : String
  Integration : Integration
  DocumentType : String
  Id : String
  CreatedAt : Time
  UpdatedAt : Option Time
  FreshnessIndicator : Option String
  Title : String
  URL : String
  TokenCount : Int
  ExceedsTokenLimit : Bool
deriving DecidableEq, Repr

/-- Upstream listing projection (`index.go`, `IndexedDocument`). -/
structure IndexedDocument where
  Integration : Integration
  DocumentType : String
  Id : String
  Title : String
  URL : String
  FreshnessIndicator : String
deriving DecidableEq, Repr

/-- Pass-through value of type `map[string]any` handed from the upstream
client to the helper; the worker never looks inside. -/
abbrev Metadata := List (String × String)

/-- A Go `map[string]IndexedDocument` in its iteration order. -/
abbrev DocMap := List (String × IndexedDocument)

abbrev DocumentHelperErrorCode := String

def DocumentHelperErrorCodeInvalidEmbeddings : DocumentHelperErrorCode := "invalid_embeddings"
def DocumentHelperErrorCodeFlaggedContent : DocumentHelperErrorCode := "flagged_content"
def DocumentHelperErrorCodeUnknown : DocumentHelperErrorCode := "unknown"
def DocumentHelperErrorInvalidVectorStore : DocumentHelperErrorCode := "invalid_vector_store"
def DocumentHelperErrorInvalidTextSplitter : DocumentHelperErrorCode := "invalid_text_splitter"
def DocumentHelperErrorUpsertFailed : DocumentHelperErrorCode := "vector_store_upsert_failed"
def DocumentHelperErrorDeleteFailed : DocumentHelperErrorCode := "vector_store_delete_failed"

structure DocumentHelperError where
  Code : DocumentHelperErrorCode
  Message : String
  IsTransient : Bool
deriving DecidableEq, Repr

/-- Go error values: a leaf error, the typed `*DocumentHelperError` (which has
no `Unwrap`, hence is always a leaf), or `fmt.Errorf("msg%w", inner)`. -/
inductive Err where
  | other (msg : String)
  | helper (e : DocumentHelperError)
  | wrap (msg : String) (inner : Err)
deriving DecidableEq, Repr

/-- The call `errors.As(err, &docHelperError)` with a `*DocumentHelperError`
target: walk the `Unwrap` chain down to the first error of that type. -/
def Err.asDocumentHelperError : Err → Option DocumentHelperError
  | .other _ => none
  | .helper e => some e
  | .wrap _ inner => inner.asDocumentHelperError

structure IndexMessagePayload where
  PipelineId : String
  RunId : String
  DataSourceId : String
deriving DecidableEq, Repr

structure IndexMessage where
  Kind : String
  AccountId : String
  MessageId : String
  Payload : IndexMessagePayload
deriving DecidableEq, Repr

/-- The part of `types.Message` the handler reads. -/
structure Message where
  MessageId : String
  Body : Option String
deriving DecidableEq, Repr

/-! ## Calls that leave the process -/

/-- One call to the store, to an upstream client or to the helper, with its
arguments. The first seven are the reads of `db.go`, the next six its writes,
then the three methods of `DataSourceApiClient` and the three of
`DocumentHelper`. -/
inductive Event where
  | GetPipelineStep (pipelineRunId dataSourceId : String)
  | GetPipeline (pipelineId : String)
  | GetPipelineRun (pipelineRunId : String)
  | GetAccount (accountId : String)
  | GetIntegrationConnection (accountId : String) (integration : Integration)
  | GetDocumentForIntegration (accountId pipelineId : String) (integration : Integration)
      (documentType documentId : String)
  | GetMissingDocuments (accountId pipelineId : String) (integration : Integration)
      (existingIds : List String)
  | UpdatePipelineRunStep (pipelineRunId dataSourceId : String) (status : PipelineRunStepStatus)
      (error : Option RunError) (startedAt completedAt : Option Time)
  | SuspendAccount (accountId : String)
  | IncreaseTotalIndexedCount (accountId : String) (countToAdd : Int)
  | IncreaseTotalDocumentTokens (accountId : String) (tokensToAdd : Int)
  | UpsertDocument (document : Document)
  | DeleteDocument (accountId pipelineId : String) (integration : Integration)
      (documentType documentId : String)
  | ListDocuments (integration : IntegrationConnection)
  | GetDocumentContent (documentType id : String) (integration : IntegrationConnection)
  | GetDocument (documentType id : String) (integration : IntegrationConnection)
  | HelperIngestDocument (splitter : TextSplitter) (embeddings : PipelineEmbeddingConfig)
      (sinks : List PipelineDataSink) (openAIApiKey : String) (document : IndexedDocument)
      (textContent : String) (metadata : Metadata)
  | HelperDeleteDocument (sinks : List PipelineDataSink) (integration : Integration)
      (documentType documentId : String)
  | HelperCountDocumentTokens (textContent : String)
deriving DecidableEq, Repr

/-- The statements of `db.go` issued through `Exec`. -/
def Event.isStoreWrite : Event → Bool
  | .UpdatePipelineRunStep .. => true
  | .SuspendAccount .. => true
  | .IncreaseTotalIndexedCount .. => true
  | .IncreaseTotalDocumentTokens .. => true
  | .UpsertDocument .. => true
  | .DeleteDocument .. => true
  | _ => false

/-- Calls to a `DataSourceApiClient`. -/
def Event.isUpstreamCall : Event → Bool
  | .ListDocuments .. => true
  | .GetDocumentContent .. => true
  | .GetDocument .. => true
  | _ => false

/-- Calls to the `DocumentHelper`. -/
def Event.isHelperCall : Event → Bool
  | .HelperIngestDocument .. => true
  | .HelperDeleteDocument .. => true
  | .HelperCountDocumentTokens .. => true
  | _ => false

/-- Writes to the step row. -/
def Event.isStepWrite : Event → Bool
  | .UpdatePipelineRunStep .. => true
  | _ => false

/-- Additive updates of one of the two account counters. -/
def Event.isCounterUpdate : Event → Bool
  | .IncreaseTotalIndexedCount .. => true
  | .IncreaseTotalDocumentTokens .. => true
  | _ => false

/-- The interface `DataSourceApiClient` (`index.go`): each method answers from
the history of calls so far and its arguments. -/
structure DataSourceApiClient where
  ListDocuments : List Event → IntegrationConnection → Except Err DocMap
  GetDocumentContent : List Event → String → String → IntegrationConnection →
    Except Err (String × Metadata)
  GetDocument : List Event → String → String → IntegrationConnection → Except Err IndexedDocument

/-- The interface `DocumentHelper` (`document_helper.go`); `none` is a nil error. -/
structure DocumentHelper where
  IngestDocument : List Event → TextSplitter → PipelineEmbeddingConfig → List PipelineDataSink →
    String → IndexedDocument → String → Metadata → Option Err
  DeleteDocument : List Event → List PipelineDataSink → Integration → String → String → Option Err
  CountDocumentTokens : List Event → String → Except Err Int

/-- Everything `processIndexMessage` is closed over, and the surroundings it
runs in: the client table, the helper, the API key, the failures of the store
(by history and statement; `none` means the statement goes through), the
readings of `time.Now()` by the number of earlier readings, and
`json.Unmarshal` on a message body. -/
structure Env where
  clients : Integration → Option DataSourceApiClient
  documentHelper : DocumentHelper
  openAIApiKey : String
  storeError : List Event → Event → Option Err
  clock : Nat → Time
  unmarshal : String → Except Err IndexMessage

/-- Tables of the relational store. -/
structure DB where
  accounts : List Account
  pipelines : List Pipeline
  pipelineRuns : List PipelineRun
  steps : List PipelineRunStep
  connections : List IntegrationConnection
  documents : List Document
deriving DecidableEq, Repr

structure World where
  db : DB
  trace : List Event
  clockReads : Nat
deriving DecidableEq, Repr

/-- How a Go function ends: with a value (and a nil error), with a non-nil
error, or in a nil-pointer panic. -/
inductive Res (α : Type) where
  | ok (a : α)
  | error (e : Err)
  | panic
deriving DecidableEq, Repr

/-- Computations on the world. -/
def M (α : Type) : Type := World → Res α × World

def M.pure {α : Type} (a : α) : M α := fun w => (.ok a, w)

def M.bind {α β : Type} (m : M α) (f : α → M β) : M β := fun w =>
  match m w with
  | (.ok a, w1) => f a w1
  | (.error e, w1) => (.error e, w1)
  | (.panic, w1) => (.panic, w1)

instance : Monad M where
  pure := M.pure
  bind := M.bind

/-- The statement `return err` with a non-nil error. -/
def fail {α : Type} (e : Err) : M α := fun w => (.error e, w)

/-- A nil-pointer dereference. -/
def nilPanic {α : Type} : M α := fun w => (.panic, w)

/-- Dereference of a pointer. -/
def deref {α : Type} : Option α → M α
  | some a => M.pure a
  | none => nilPanic

/-- The idiom `if err != nil { return fmt.Errorf(msg+"%w", err) }` around a call. -/
def wrapErr {α : Type} (msg : String) (m : M α) : M α := fun w =>
  match m w with
  | (.error e, w1) => (.error (.wrap msg e), w1)
  | r => r

/-- A call whose error is inspected by the caller instead of being returned. -/
def catchErr (m : M Unit) : M (Option Err) := fun w =>
  match m w with
  | (.ok _, w1) => (.ok none, w1)
  | (.error e, w1) => (.ok (some e), w1)
  | (.panic, w1) => (.panic, w1)

/-- The helper `now()` of `index.go`: a fresh reading of `time.Now()`. -/
def now (env : Env) : M Time := fun w =>
  (.ok (env.clock w.clockReads), { w with clockReads := w.clockReads + 1 })

/-- One statement sent to the store: it is recorded, and unless the store
fails it yields `read` of the tables and leaves them as `write` of the tables. -/
def storeCall {α : Type} (env : Env) (ev : Event) (read : DB → α) (write : DB → DB) : M α :=
  fun w =>
    match env.storeError w.trace ev with
    | some e => (.error e, { w with trace := w.trace ++ [ev] })
    | none => (.ok (read w.db), { w with trace := w.trace ++ [ev], db := write w.db })

/-- One call to an upstream client or to the helper: it is recorded and
answered from the history before it. -/
def remoteCall {α : Type} (ev : Event) (answer : List Event → Except Err α) : M α :=
  fun w =>
    match answer w.trace with
    | .error e => (.error e, { w with trace := w.trace ++ [ev] })
    | .ok a => (.ok a, { w with trace := w.trace ++ [ev] })

/-! ## Persistence gateway (`db.go`) -/

def GetAccount (env : Env) (accountId : String) : M (Option Account) :=
  storeCall env (.GetAccount accountId)
    (fun db => db.accounts.find? (fun a => decide (a.Id = accountId))) id

def IncreaseTotalIndexedCount (env : Env) (accountId : String) (countToAdd : Int) : M Unit :=
  storeCall env (.IncreaseTotalIndexedCount accountId countToAdd) (fun _ => ())
    (fun db => { db with accounts := db.accounts.map (fun a =>
      if a.Id = accountId then
        { a with TotalIndexedDocumentCount := a.TotalIndexedDocumentCount + countToAdd }
      else a) })

def IncreaseTotalDocumentTokens (env : Env) (accountId : String) (tokensToAdd : Int) : M Unit :=
  storeCall env (.IncreaseTotalDocumentTokens accountId tokensToAdd) (fun _ => ())
    (fun db => { db with accounts := db.accounts.map (fun a =>
      if a.Id = accountId then
        { a with TotalIndexDocumentTokens := a.TotalIndexDocumentTokens + tokensToAdd }
      else a) })

def GetPipeline (env : Env) (pipelineId : String) : M (Option Pipeline) :=
  storeCall env (.GetPipeline pipelineId)
    (fun db => db.pipelines.find? (fun p => decide (p.Id = pipelineId))) id

def GetPipelineRun (env : Env) (pipelineRunId : String) : M (Option PipelineRun) :=
  storeCall env (.GetPipelineRun pipelineRunId)
    (fun db => db.pipelineRuns.find? (fun r => decide (r.Id = pipelineRunId))) id

def GetPipelineStep (env : Env) (pipelineRunId dataSourceId : String) :
    M (Option PipelineRunStep) :=
  storeCall env (.GetPipelineStep pipelineRunId dataSourceId)
    (fun db => db.steps.find? (fun s =>
      decide (s.PipelineRun = pipelineRunId ∧ s.DataSource = dataSourceId))) id

def SuspendAccount (env : Env) (accountId : String) : M Unit :=
  storeCall env (.SuspendAccount accountId) (fun _ => ())
    (fun db => { db with accounts := db.accounts.map (fun a =>
      if a.Id = accountId then { a with IsSuspended := true } else a) })

def UpdatePipelineRunStep (env : Env) (pipelineRunId dataSourceId : String)
    (status : PipelineRunStepStatus) (error : Option RunError)
    (startedAt completedAt : Option Time) : M Unit :=
  storeCall env (.UpdatePipelineRunStep pipelineRunId dataSourceId status error startedAt completedAt)
    (fun _ => ())
    (fun db => { db with steps := db.steps.map (fun s =>
      if s.PipelineRun = pipelineRunId ∧ s.DataSource = dataSourceId then
        { s with Status := status, Error := error, CompletedAt := completedAt,
                 StartedAt := startedAt }
      else s) })

/-- The uniqueness tuple `(account, pipeline, integration_name, document_type, id)`. -/
def documentHasKey (d : Document) (accountId pipelineId : String) (integration : Integration)
    (documentType documentId : String) : Bool :=
  decide (d.AccountId = accountId ∧ d.PipelineId = pipelineId ∧ d.Integration = integration ∧
    d.DocumentType = documentType ∧ d.Id = documentId)

def GetDocumentForIntegration (env : Env) (accountId pipelineId : String)
    (integration : Integration) (documentType documentId : String) : M (Option Document) :=
  storeCall env (.GetDocumentForIntegration accountId pipelineId integration documentType documentId)
    (fun db => db.documents.find? (fun d =>
      documentHasKey d accountId pipelineId integration documentType documentId)) id

def GetIntegrationConnection (env : Env) (accountId : String) (integration : Integration) :
    M (Option IntegrationConnection) :=
  storeCall env (.GetIntegrationConnection accountId integration)
    (fun db => db.connections.find? (fun c =>
      decide (c.Account = accountId ∧ c.Integration = integration))) id

/-- The statement `INSERT ... ON CONFLICT (key) DO UPDATE SET` every other column. -/
def upsertRows (document : Document) (rows : List Document) : List Document :=
  if rows.any (fun d => documentHasKey d document.AccountId document.PipelineId document.Integration
      document.DocumentType document.Id) then
    rows.map (fun d =>
      if documentHasKey d document.AccountId document.PipelineId document.Integration
          document.DocumentType document.Id then document else d)
  else rows ++ [document]

def UpsertDocument (env : Env) (document : Document) : M Unit :=
  storeCall env (.UpsertDocument document) (fun _ => ())
    (fun db => { db with documents := upsertRows document db.documents })

def DeleteDocument (env : Env) (accountId pipelineId : String) (integration : Integration)
    (documentType documentId : String) : M Unit :=
  storeCall env (.DeleteDocument accountId pipelineId integration documentType documentId)
    (fun _ => ())
    (fun db => { db with documents := db.documents.filter (fun d =>
      !(documentHasKey d accountId pipelineId integration documentType documentId)) })

/-- The rows selected by `WHERE account = $1 AND pipeline = $2 AND
integration_name = $3 AND id NOT IN (unnest($4))`. -/
def missingRows (accountId pipelineId : String) (integration : Integration)
    (existingIds : List String) (rows : List Document) : List Document :=
  rows.filter (fun d => decide (d.AccountId = accountId ∧ d.PipelineId = pipelineId ∧
    d.Integration = integration ∧ d.Id ∉ existingIds))

def GetMissingDocuments (env : Env) (accountId pipelineId : String) (integration : Integration)
    (existingIds : List String) : M (List Document) :=
  storeCall env (.GetMissingDocuments accountId pipelineId integration existingIds)
    (fun db => missingRows accountId pipelineId integration existingIds db.documents) id

/-! ## Run orchestrator and reconciliation engine (`index.go`) -/

def getDataSource (sources : List PipelineDataSource) (id : String) : Option PipelineDataSource :=
  sources.find? (fun source => decide (source.Id = id))

/-- The expression `clients[integration.Integration].ListDocuments(ctx, integration)`:
a missing table entry is a nil interface, and calling it panics. -/
def retrieveAllDocuments (env : Env) (integration : IntegrationConnection) : M DocMap := do
  let client ← deref (env.clients integration.Integration)
  remoteCall (.ListDocuments integration) (fun h => client.ListDocuments h integration)

def getDocumentTextContent (env : Env) (document : IndexedDocument)
    (integration : IntegrationConnection) : M (String × Metadata) := do
  let client ← deref (env.clients integration.Integration)
  remoteCall (.GetDocumentContent document.DocumentType document.Id integration)
    (fun h => client.GetDocumentContent h document.DocumentType document.Id integration)

def totalIndexedDocumentsLimit (isSubscriber : Bool) : Int :=
  if isSubscriber then 1000 else 100

def documentTokenLimit (isSubscriber : Bool) : Int :=
  if isSubscriber then 100000 else 1000

/-- The three methods of `documentHelper` as recorded calls. -/
def CountDocumentTokens (env : Env) (textContent : String) : M Int :=
  remoteCall (.HelperCountDocumentTokens textContent)
    (fun h => env.documentHelper.CountDocumentTokens h textContent)

def IngestDocument (env : Env) (splitter : TextSplitter) (embeddings : PipelineEmbeddingConfig)
    (sinks : List PipelineDataSink) (openAIApiKey : String) (doc : IndexedDocument)
    (textContent : String) (metadata : Metadata) : M Unit :=
  remoteCall (.HelperIngestDocument splitter embeddings sinks openAIApiKey doc textContent metadata)
    (fun h =>
      match env.documentHelper.IngestDocument h splitter embeddings sinks openAIApiKey doc
          textContent metadata with
      | some e => .error e
      | none => .ok ())

def HelperDeleteDocument (env : Env) (sinks : List PipelineDataSink) (integration : Integration)
    (documentType documentId : String) : M Unit :=
  remoteCall (.HelperDeleteDocument sinks integration documentType documentId)
    (fun h =>
      match env.documentHelper.DeleteDocument h sinks integration documentType documentId with
      | some e => .error e
      | none => .ok ())

/-- The condition `existingDoc != nil && existingDoc.FreshnessIndicator != nil &&
*existingDoc.FreshnessIndicator == doc.FreshnessIndicator`. -/
def alreadyFresh (existingDoc : Option Document) (doc : IndexedDocument) : Bool :=
  match existingDoc with
  | none => false
  | some d =>
    match d.FreshnessIndicator with
    | none => false
    | some f => decide (f = doc.FreshnessIndicator)

/-- The function `retrieveIngestAndUpsert`; the two pointer arguments are not
nil at either call site and are passed by value. -/
def retrieveIngestAndUpsert (env : Env) (doc : IndexedDocument) (pipeline : Pipeline)
    (dataSource : PipelineDataSource) (integrationConnection : IntegrationConnection)
    (tokenLimit : Int) : M Unit := do
  let existingDoc ← wrapErr "unable to get existing document, "
    (GetDocumentForIntegration env pipeline.Account pipeline.Id doc.Integration doc.DocumentType
      doc.Id)
  if alreadyFresh existingDoc doc then
    pure ()
  else do
    let content ← wrapErr "unable to get document text content, "
      (getDocumentTextContent env doc integrationConnection)
    let tokenCount ← wrapErr "unable to count document tokens, "
      (CountDocumentTokens env content.1)
    if tokenCount > tokenLimit then
      pure ()
    else do
      wrapErr "unable to ingest document, "
        (IngestDocument env dataSource.TextSplitter pipeline.Config.Embeddings
          pipeline.Config.DataSinks env.openAIApiKey doc content.1 content.2)
      let _ ← catchErr (IncreaseTotalDocumentTokens env pipeline.Account tokenCount)
      pure ()
    let now ← now env
    wrapErr "unable to upsert document, "
      (UpsertDocument env
        { AccountId := pipeline.Account
          PipelineId := pipeline.Id
          Integration := doc.Integration
          DocumentType := doc.DocumentType
          Id := doc.Id
          CreatedAt := now
          UpdatedAt := some now
          Title := doc.Title
          URL := doc.URL
          FreshnessIndicator := some doc.FreshnessIndicator
          TokenCount := tokenCount
          ExceedsTokenLimit := decide (tokenCount > tokenLimit) })

def deleteDocument (env : Env) (integration : Integration) (docType docId : String)
    (pipeline : Pipeline) : M Unit := do
  wrapErr "unable to delete document from sinks: "
    (HelperDeleteDocument env pipeline.Config.DataSinks integration docType docId)
  wrapErr "unable to delete document from db: "
    (DeleteDocument env pipeline.Account pipeline.Id integration docType docId)

/-- The assignment `sliced[k] = v` on a Go map. -/
def mapSet (m : DocMap) (k : String) (v : IndexedDocument) : DocMap :=
  if m.any (fun kv => decide (kv.1 = k)) then
    m.map (fun kv => if kv.1 = k then (k, v) else kv)
  else m ++ [(k, v)]

/-- The loop of `runFullIndex` that fills `sliced`: the first argument is what
is left of the iteration over `indexedDocs`, the second is `sliced` so far. -/
def sliceLoop (remainingAllowedDocs : Int) : DocMap → DocMap → DocMap
  | [], sliced => sliced
  | (k, v) :: rest, sliced =>
    if (sliced.length : Int) = remainingAllowedDocs then sliced
    else sliceLoop remainingAllowedDocs rest (mapSet sliced k v)

/-- The pair `g.Go(...)` for every element and `g.Wait()` of an `errgroup`:
the tasks one after the other, up to the first error. -/
def errgroupRun {α : Type} (task : α → M Unit) : List α → M Unit
  | [] => M.pure ()
  | a :: rest => M.bind (task a) (fun _ => errgroupRun task rest)

/-- Segment `CheckQuotas` of `runFullIndex`: yields the documents to ingest. -/
def checkQuotas (env : Env) (pipelineRunStep : PipelineRunStep) (account : Account)
    (indexedDocs : DocMap) : M DocMap :=
  if !account.IsUnlimited then do
    let remainingAllowedDocs :=
      totalIndexedDocumentsLimit account.IsSubscriber - account.TotalIndexedDocumentCount
    if remainingAllowedDocs = 0 then
      wrapErr "unable to update pipeline run step, "
        (UpdatePipelineRunStep env pipelineRunStep.PipelineRun pipelineRunStep.DataSource
          PipelineRunStepStatusFailed
          (some { Code := "limit_exceeded", Message := "Exceeded total indexed document limit" })
          none none)
    else
      pure ()
    let sliced := sliceLoop remainingAllowedDocs indexedDocs []
    wrapErr "unable to update quotas: "
      (IncreaseTotalIndexedCount env account.Id (sliced.length : Int))
    pure sliced
  else
    pure indexedDocs

/-- Segment `RetrieveAndIngestDocuments` of `runFullIndex`. -/
def retrieveAndIngestDocuments (env : Env) (dataSource : PipelineDataSource)
    (integrationConnection : IntegrationConnection) (pipeline : Pipeline) (account : Account)
    (indexedDocs : DocMap) : M Unit :=
  wrapErr "unable to upsert documents, "
    (errgroupRun (fun kv => retrieveIngestAndUpsert env kv.2 pipeline dataSource
      integrationConnection (documentTokenLimit account.IsSubscriber)) indexedDocs)

/-- Segment `DeleteDocuments` of `runFullIndex`. -/
def deleteDocuments (env : Env) (integrationConnection : IntegrationConnection)
    (pipeline : Pipeline) (indexedDocs : DocMap) : M Unit := do
  let foundDocIds := indexedDocs.map (fun kv => kv.2.Id)
  let deletedDocs ← wrapErr "unable to get deleted documents, "
    (GetMissingDocuments env pipeline.Account pipeline.Id integrationConnection.Integration
      foundDocIds)
  wrapErr "unable to delete documents, "
    (errgroupRun (fun doc => deleteDocument env doc.Integration doc.DocumentType doc.Id pipeline)
      deletedDocs)

def runFullIndex (env : Env) (dataSource : PipelineDataSource)
    (integrationConnection : IntegrationConnection) (pipeline : Pipeline)
    (pipelineRunStep : PipelineRunStep) (startedAt : Option Time) (account : Account) :
    M Unit := do
  let listed ← wrapErr "unable to run index, " (retrieveAllDocuments env integrationConnection)
  let indexedDocs ← checkQuotas env pipelineRunStep account listed
  retrieveAndIngestDocuments env dataSource integrationConnection pipeline account indexedDocs
  deleteDocuments env integrationConnection pipeline indexedDocs
  let completedAt ← now env
  wrapErr "unable to update pipeline run step, "
    (UpdatePipelineRunStep env pipelineRunStep.PipelineRun pipelineRunStep.DataSource
      PipelineRunStepStatusCompleted none startedAt (some completedAt))

def handleDocumentChange (env : Env) (dataSource : PipelineDataSource)
    (integrationConnection : IntegrationConnection) (pipeline : Pipeline)
    (change : DocumentChange) (tokenLimit : Int) : M Unit :=
  if change.Action = ChangeActionCreate ∨ change.Action = ChangeActionUpdate then do
    let linearClient ← deref (env.clients integrationConnection.Integration)
    let doc ← wrapErr "unable to get document, "
      (remoteCall (.GetDocument change.DocumentType change.DocumentId integrationConnection)
        (fun h => linearClient.GetDocument h change.DocumentType change.DocumentId
          integrationConnection))
    retrieveIngestAndUpsert env doc pipeline dataSource integrationConnection tokenLimit
  else if change.Action = ChangeActionDelete then
    deleteDocument env integrationConnection.Integration change.DocumentType change.DocumentId
      pipeline
  else
    pure ()

/-- The closure `checkFlaggedAndSuspend` of `processIndexMessage`. -/
def checkFlaggedAndSuspend (env : Env) (account : Account) (err : Err) : M Unit :=
  match err.asDocumentHelperError with
  | some docHelperError =>
    if docHelperError.Code = DocumentHelperErrorCodeFlaggedContent then
      wrapErr "unable to suspend account: " (SuspendAccount env account.Id)
    else
      pure ()
  | none => pure ()

/-- Case `FullIndexSyncMode` of the switch in `processIndexMessage`. -/
def fullIndexCase (env : Env) (dataSource : PipelineDataSource)
    (integrationConnection : IntegrationConnection) (pipeline : Pipeline)
    (pipelineRunStep : PipelineRunStep) (startedAt : Time) (account : Account) : M Unit := do
  let err ← catchErr (runFullIndex env dataSource integrationConnection pipeline pipelineRunStep
    (some startedAt) account)
  match err with
  | some err => do
    wrapErr "unable to check flagged and suspend: " (checkFlaggedAndSuspend env account err)
    wrapErr "unable to update pipeline run step, "
      (UpdatePipelineRunStep env pipelineRunStep.PipelineRun pipelineRunStep.DataSource
        PipelineRunStepStatusFailed
        (some { Code := "index_failed", Message := "Unable to run full index" })
        (some startedAt) none)
  | none => pure ()

/-- The part of case `SingleDocumentSyncMode` after the quota check. -/
def singleDocumentSync (env : Env) (dataSource : PipelineDataSource)
    (integrationConnection : IntegrationConnection) (pipeline : Pipeline)
    (pipelineRun : PipelineRun) (pipelineRunStep : PipelineRunStep) (startedAt : Time)
    (account : Account) : M Unit := do
  let err ←
    if pipelineRun.Trigger = PipelineRunTriggerIntegrationChangeEvent then do
      let event ← deref pipelineRun.IntegrationChangeEvent
      catchErr (handleDocumentChange env dataSource integrationConnection pipeline event.Change
        (documentTokenLimit account.IsSubscriber))
    else
      pure none
  match err with
  | some err => do
    wrapErr "unable to check flagged and suspend: " (checkFlaggedAndSuspend env account err)
    wrapErr "unable to update pipeline run step, "
      (UpdatePipelineRunStep env pipelineRunStep.PipelineRun pipelineRunStep.DataSource
        PipelineRunStepStatusFailed
        (some { Code := "single_document_sync_failed", Message := "Unable to sync single document" })
        (some startedAt) none)
  | none => do
    let completedAt ← now env
    wrapErr "unable to update pipeline run step, "
      (UpdatePipelineRunStep env pipelineRunStep.PipelineRun pipelineRunStep.DataSource
        PipelineRunStepStatusCompleted none (some startedAt) (some completedAt))

/-- Case `SingleDocumentSyncMode` of the switch in `processIndexMessage`. -/
def singleDocumentCase (env : Env) (dataSource : PipelineDataSource)
    (integrationConnection : IntegrationConnection) (pipeline : Pipeline)
    (pipelineRun : PipelineRun) (pipelineRunStep : PipelineRunStep) (startedAt : Time)
    (account : Account) : M Unit :=
  if !account.IsUnlimited then
    if account.TotalIndexedDocumentCount + 1 ≥ totalIndexedDocumentsLimit account.IsSubscriber then
      wrapErr "unable to update pipeline run step, "
        (UpdatePipelineRunStep env pipelineRunStep.PipelineRun pipelineRunStep.DataSource
          PipelineRunStepStatusFailed
          (some { Code := "limit_exceeded", Message := "Exceeded total indexed document limit" })
          (some startedAt) none)
    else do
      wrapErr "unable to update quotas: " (IncreaseTotalIndexedCount env account.Id 1)
      singleDocumentSync env dataSource integrationConnection pipeline pipelineRun pipelineRunStep
        startedAt account
  else
    singleDocumentSync env dataSource integrationConnection pipeline pipelineRun pipelineRunStep
      startedAt account

/-- The switch on `pipelineRun.SyncMode`, entered once the step is running. -/
def dispatchSyncMode (env : Env) (dataSource : PipelineDataSource)
    (integrationConnection : IntegrationConnection) (pipeline : Pipeline)
    (pipelineRun : Option PipelineRun) (pipelineRunStep : PipelineRunStep) (startedAt : Time)
    (account : Account) : M Unit := do
  let run ← deref pipelineRun
  if run.SyncMode = FullIndexSyncMode then
    fullIndexCase env dataSource integrationConnection pipeline pipelineRunStep startedAt account
  else if run.SyncMode = SingleDocumentSyncMode then
    singleDocumentCase env dataSource integrationConnection pipeline run pipelineRunStep
      startedAt account
  else
    pure ()

/-- The condition `dataSource.IsEnabled && !account.IsSuspended`, which reads
through the account pointer only when the data source is enabled; it yields
the account when the condition holds. -/
def gate (dataSource : PipelineDataSource) (account : Option Account) : M (Option Account) :=
  if dataSource.IsEnabled then do
    let a ← deref account
    pure (if a.IsSuspended then none else some a)
  else
    pure none

/-- The closure `innerHandler` of `processIndexMessage`. -/
def innerHandler (env : Env) (deserializedMsg : IndexMessage) : M Unit := do
  let pipelineRunStep ← wrapErr "unable to get step in stage, "
    (GetPipelineStep env deserializedMsg.Payload.RunId deserializedMsg.Payload.DataSourceId)
  let pipeline ← wrapErr "unable to get pipeline, "
    (GetPipeline env deserializedMsg.Payload.PipelineId)
  let pipelineRun ← wrapErr "unable to get pipeline run, "
    (GetPipelineRun env deserializedMsg.Payload.RunId)
  match pipelineRunStep with
  | none => pure ()
  | some step => do
    let pipeline ← deref pipeline
    match getDataSource pipeline.Config.DataSources step.DataSource with
    | none => fail (.other "data source not found")
    | some dataSource => do
      let integrationConnection ← wrapErr "unable to get integration connection, "
        (GetIntegrationConnection env pipeline.Account dataSource.IntegrationName)
      let account ← wrapErr "unable to get account: " (GetAccount env pipeline.Account)
      let startedAt ← now env
      let proceed ← gate dataSource account
      match proceed with
      | none => do
        let completedAt ← now env
        wrapErr "unable to update pipeline run step, "
          (UpdatePipelineRunStep env step.PipelineRun step.DataSource
            PipelineRunStepStatusCompleted none (some startedAt) (some completedAt))
      | some account => do
        wrapErr "unable to update pipeline run step, "
          (UpdatePipelineRunStep env step.PipelineRun step.DataSource
            PipelineRunStepStatusRunning none (some startedAt) none)
        match integrationConnection with
        | none => pure ()
        | some integrationConnection =>
          dispatchSyncMode env dataSource integrationConnection pipeline pipelineRun step
            startedAt account

/-- The handler returned by `processIndexMessage`. -/
def processIndexMessage (env : Env) (msg : Message) : M Unit :=
  match msg.Body with
  | none => fail (.other "message body is nil")
  | some body =>
    match env.unmarshal body with
    | .error err => fail (.wrap "unable to unmarshal message, " err)
    | .ok deserializedMsg =>
      wrapErr "unable to process index message, " (innerHandler env deserializedMsg)

/-! ## Attempt functions of the HTTP clients (`document_helper.go`, `linear.go`) -/

/-- An `http.Response` as far as the attempt functions read it. -/
structure HttpResponse where
  StatusCode : Int
  Body : String
deriving DecidableEq, Repr

def StatusOK : Int := 200
def StatusBadRequest : Int := 400
def StatusTooManyRequests : Int := 429

/-- What `httpClient.Do` hands back: a response, or an error together with
the answer to `err.(net.Error)` and `err.Timeout()`. -/
inductive DoOutcome
  | response (res : HttpResponse)
  | failure (err : Err) (isTimeout : Bool)

/-- What an attempt function hands to `backoff.RetryWithData`: a response with
a nil error, or a response (possibly nil) with a plain error, after which the
loop takes another attempt, or with an error wrapped by `backoff.Permanent`,
after which the loop stops. -/
inductive Attempt
  | success (res : HttpResponse)
  | transient (res : Option HttpResponse) (err : Err)
  | permanent (res : Option HttpResponse) (err : Err)

def Attempt.isSuccess : Attempt → Bool
  | .success _ => true
  | _ => false

def Attempt.isTransient : Attempt → Bool
  | .transient _ _ => true
  | _ => false

def Attempt.isPermanent : Attempt → Bool
  | .permanent _ _ => true
  | _ => false

/-- The attempt function of `sendRequest` (`document_helper.go`), given the
error of `http.NewRequestWithContext`, the outcome of `httpClient.Do` and the
decoder of `{error: DocumentHelperError}` from a response body. -/
def sendRequestAttempt (decode : String → Except Err DocumentHelperError)
    (requestError : Option Err) (outcome : DoOutcome) : Attempt :=
  match requestError with
  | some err => .permanent none (.wrap "unable to create request, " err)
  | none =>
    match outcome with
    | .failure err isTimeout =>
      if isTimeout then .transient none err
      else .permanent none (.wrap "unable to make request, " err)
    | .response res =>
      if res.StatusCode = StatusTooManyRequests then
        .transient (some res) (.other "too many requests")
      else if res.StatusCode = StatusBadRequest then
        match decode res.Body with
        | .error err => .permanent (some res) (.wrap "unable to decode error response, " err)
        | .ok respError =>
          if respError.Code ≠ "" then
            if respError.IsTransient then .transient (some res) (.helper respError)
            else .permanent (some res) (.helper respError)
          else .permanent (some res) (.other "bad request")
      else if res.StatusCode ≠ StatusOK then
        .permanent (some res) (.other ("unexpected status code " ++ toString res.StatusCode))
      else .success res

/-- One entry of `errors` in an error body of the Linear API. -/
structure LinearError where
  Message : String
  Code : String
deriving DecidableEq, Repr

/-- The attempt function of `listIssues` (`linear.go`), given the outcome of
`httpClient.Do`, the decoder of `{errors: [...]}` from a response body and
the formatting verb `%q`. -/
def listIssuesAttempt (decode : String → Except Err (List LinearError))
    (quote : String → String) (outcome : DoOutcome) : Attempt :=
  match outcome with
  | .failure err isTimeout =>
    if isTimeout then .transient none err else .permanent none err
  | .response res =>
    if res.StatusCode ≠ StatusOK then
      match decode res.Body with
      | .error err => .transient none err
      | .ok errors =>
        match errors with
        | [] => .permanent none (.other ("unexpected error " ++ toString res.StatusCode))
        | linearErr :: _ =>
          if linearErr.Code = "RATELIMITED" then
            .transient (some res) (.other "rate limited")
          else
            .permanent (some res)
              (.other ("unexpected error " ++ quote linearErr.Code ++ ": " ++ linearErr.Message))
    else .success res

/-- The attempt function of `getIssue` (`linear.go`). -/
def getIssueAttempt (decode : String → Except Err (List LinearError))
    (quote : String → String) (outcome : DoOutcome) : Attempt :=
  match outcome with
  | .failure err isTimeout =>
    if isTimeout then .transient none err else .permanent none err
  | .response res =>
    if res.StatusCode ≠ StatusOK then
      match decode res.Body with
      | .error err => .transient none err
      | .ok errors =>
        match errors with
        | [] => .permanent none (.other ("unexpected error " ++ toString res.StatusCode))
        | linearErr :: _ =>
          if linearErr.Code = "RATELIMITED" then
            .transient (some res) (.other "rate limited")
          else
            .permanent (some res)
              (.other ("unexpected error " ++ quote linearErr.Code ++ ": " ++ linearErr.Message))
    else .success res

/-! ## Queue consumer (`sqs.go`) -/

/-- The calls that the consumer makes to the queue for a received message. -/
inductive QueueCall
  | ChangeMessageVisibility (receiptHandle : Option String) (visibilityTimeout : Int)
  | DeleteMessage (receiptHandle : Option String)
deriving DecidableEq, Repr

/-- A `types.Message` as the consumer holds it: what the handler reads of it,
and its receipt handle. -/
structure ReceivedMessage where
  Message : Message
  ReceiptHandle : Option String
deriving DecidableEq, Repr

/-- What wakes up the goroutine of `applySQSHealthCheck` while the handler
runs: a tick of its 5-second ticker, or the worker's context being done. -/
inductive HealthEvent
  | tick
  | shutdown
deriving DecidableEq, Repr

/-- The call with which the goroutine of `applySQSHealthCheck` answers. -/
def healthCheckCall (msg : ReceivedMessage) : HealthEvent → QueueCall
  | .tick => .ChangeMessageVisibility msg.ReceiptHandle 15
  | .shutdown => .ChangeMessageVisibility msg.ReceiptHandle 0

/-- The function `applySQSHealthCheck`: the calls of its goroutine for the
events that occur while the handler runs, and what the handler returns. -/
def applySQSHealthCheck (events : List HealthEvent) (msg : ReceivedMessage)
    (handler : Message → Res Unit) : List QueueCall × Res Unit :=
  (events.map (healthCheckCall msg), handler msg.Message)

/-- The calls for one received message, by who makes them. -/
structure Consumed where
  healthCheck : List QueueCall
  worker : List QueueCall
deriving DecidableEq, Repr

/-- The body of the loop `for _, msg := range result.Messages` of
`startSQSWorker` for one message; a handler that panics ends the process, so
that no call follows. -/
def consumeMessage (events : List HealthEvent) (msg : ReceivedMessage)
    (handler : Message → Res Unit) : Consumed :=
  match applySQSHealthCheck events msg handler with
  | (calls, .error _) =>
    { healthCheck := calls, worker := [.ChangeMessageVisibility msg.ReceiptHandle 0] }
  | (calls, .ok _) =>
    { healthCheck := calls, worker := [.DeleteMessage msg.ReceiptHandle] }
  | (calls, .panic) =>
    { healthCheck := calls, worker := [] }

/-! ## The retry loop of `sendRequest` (`document_helper.go`) -/

/-- A `*bytes.Reader`: the bytes that have not been read from it yet. -/
abbrev BodyReader := String

/-- The request that `http.NewRequestWithContext` builds from a
`*bytes.Reader`: its content length is the number of unread bytes and its
body is the reader itself, so that `Body` is what goes over the wire. -/
structure HelperRequest where
  Method : String
  URL : String
  ContentLength : Nat
  Body : String
deriving DecidableEq, Repr

/-- One round trip of `httpClient.Do`: its outcome, and whether the transport
has read the request body to its end. -/
structure RoundTrip where
  outcome : DoOutcome
  bodyRead : Bool

/-- The loop of `backoff.RetryWithData` around the attempt function of
`sendRequest`. The first argument is the number of retries that
`backoff.WithMaxRetries` still grants, the second the number of the attempt;
`body` is the one reader that the caller passed in, which every attempt hands
to `http.NewRequestWithContext`; `sent` collects the requests made. The
waiting between attempts, the elapsed-time limit and the cancellation of the
context are left out. -/
def sendRequestLoop (decode : String → Except Err DocumentHelperError)
    (requestError : Option Err) (transport : Nat → HelperRequest → RoundTrip)
    (method url : String) :
    Nat → Nat → BodyReader → List HelperRequest → List HelperRequest × Attempt
  | retries, attempt, body, sent =>
    match requestError with
    | some err => (sent, .permanent none (.wrap "unable to create request, " err))
    | none =>
      let req : HelperRequest :=
        { Method := method, URL := url, ContentLength := body.length, Body := body }
      let roundTrip := transport attempt req
      let body := if roundTrip.bodyRead then "" else body
      match sendRequestAttempt decode none roundTrip.outcome, retries with
      | .transient _ _, retries + 1 =>
        sendRequestLoop decode requestError transport method url retries (attempt + 1) body
          (sent ++ [req])
      | result, _ => (sent ++ [req], result)

/-- The function `sendRequest`, which allows five retries. -/
def sendRequest (decode : String → Except Err DocumentHelperError)
    (requestError : Option Err) (transport : Nat → HelperRequest → RoundTrip)
    (method url : String) (body : BodyReader) : List HelperRequest × Attempt :=
  sendRequestLoop decode requestError transport method url 5 0 body []

/-! ## Notion listing (`notion.go`) -/

/-- One entry of `results` in a decoded response of the Notion search or of a
database query; `Title` stands for `extractTitle(result.Properties)`. An
entry of the search for databases is read for its `Id` only. -/
structure NotionResult where
  Id : String
  LastEditedTime : String
  Title : String
  URL : String
deriving DecidableEq, Repr

/-- The decoded response `searchResp` of one paginated request. -/
structure NotionSearchResponse where
  Results : List NotionResult
  NextCursor : Option String
  HasMore : Bool
deriving DecidableEq, Repr

/-- The Notion API as the client meets it after the retry loop and the decoding
of the response: what the search for pages, the search for databases and the
query of a database return for a start cursor. -/
structure NotionApi where
  searchPages : Option String → Except Err NotionSearchResponse
  searchDatabases : Option String → Except Err NotionSearchResponse
  queryDatabase : String → Option String → Except Err NotionSearchResponse

/-- The `IndexedDocument` that `loadAllPages` and `loadDatabasePages` build
from a result. -/
def notionPage (result : NotionResult) : IndexedDocument :=
  { Integration := IntegrationNotion
    DocumentType := "page"
    Id := result.Id
    Title := result.Title
    URL := result.URL
    FreshnessIndicator := result.LastEditedTime }

/-- The loop of `loadAllPages` from a start cursor on; the first argument bounds
the number of requests, and `none` is a loop that has not ended within it. -/
def loadAllPagesFrom (api : NotionApi) :
    Nat → Option String → DocMap → Option (Except Err DocMap)
  | 0, _, _ => none
  | fuel + 1, cursor, indexedDocuments =>
    match api.searchPages cursor with
    | .error err => some (.error err)
    | .ok searchResponse =>
      let indexedDocuments := searchResponse.Results.foldl
        (fun docs result => mapSet docs result.Id (notionPage result)) indexedDocuments
      if !searchResponse.HasMore then some (.ok indexedDocuments)
      else loadAllPagesFrom api fuel searchResponse.NextCursor indexedDocuments

def loadAllPages (api : NotionApi) (fuel : Nat) : Option (Except Err DocMap) :=
  loadAllPagesFrom api fuel none []

/-- The loop of `loadDatabaseIds` from a start cursor on. -/
def loadDatabaseIdsFrom (api : NotionApi) :
    Nat → Option String → List String → Option (Except Err (List String))
  | 0, _, _ => none
  | fuel + 1, cursor, databaseIds =>
    match api.searchDatabases cursor with
    | .error err => some (.error err)
    | .ok searchResponse =>
      let databaseIds := databaseIds ++ searchResponse.Results.map (fun result => result.Id)
      if !searchResponse.HasMore then some (.ok databaseIds)
      else loadDatabaseIdsFrom api fuel searchResponse.NextCursor databaseIds

def loadDatabaseIds (api : NotionApi) (fuel : Nat) : Option (Except Err (List String)) :=
  loadDatabaseIdsFrom api fuel none []

/-- The loop of `loadDatabasePages` from a start cursor on. -/
def loadDatabasePagesFrom (api : NotionApi) (databaseId : String) :
    Nat → Option String → List IndexedDocument → Option (Except Err (List IndexedDocument))
  | 0, _, _ => none
  | fuel + 1, cursor, indexedDocuments =>
    match api.queryDatabase databaseId cursor with
    | .error err => some (.error err)
    | .ok searchResponse =>
      let indexedDocuments := indexedDocuments ++ searchResponse.Results.map notionPage
      if !searchResponse.HasMore then some (.ok indexedDocuments)
      else loadDatabasePagesFrom api databaseId fuel searchResponse.NextCursor indexedDocuments

def loadDatabasePages (api : NotionApi) (fuel : Nat) (databaseId : String) :
    Option (Except Err (List IndexedDocument)) :=
  loadDatabasePagesFrom api databaseId fuel none []

/-- The loop `for _, databaseId := range databaseIds` of `ListDocuments`. -/
def loadDatabases (api : NotionApi) (fuel : Nat) :
    List String → DocMap → Option (Except Err DocMap)
  | [], allPages => some (.ok allPages)
  | databaseId :: rest, allPages =>
    match loadDatabasePages api fuel databaseId with
    | none => none
    | some (.error err) => some (.error err)
    | some (.ok databasePages) =>
      loadDatabases api fuel rest
        (databasePages.foldl (fun pages databasePage =>
          mapSet pages databasePage.Id databasePage) allPages)

/-- The method `NotionAPIClientImpl.ListDocuments`; the semaphore, whose
acquisition fails only when the context is done, is left out. -/
def NotionListDocuments (api : NotionApi) (fuel : Nat) : Option (Except Err DocMap) :=
  match loadAllPages api fuel with
  | none => none
  | some (.error err) => some (.error err)
  | some (.ok allPages) =>
    match loadDatabaseIds api fuel with
    | none => none
    | some (.error err) => some (.error err)
    | some (.ok databaseIds) => loadDatabases api fuel databaseIds allPages

/-- The expression `m[k]` on a Go map, with its `ok` flag. -/
def mapGet (m : DocMap) (k : String) : Option IndexedDocument :=
  (m.find? (fun kv => decide (kv.1 = k))).map Prod.snd

/-! ## JSON codecs of the tagged variants (`db.go`) -/

/-- A JSON text after scanning. A value that travels as bytes, which is what a
`json.RawMessage` holds, is `raw`; a number is an integer in the range of `int`,
the only kind of number the structs of `db.go` have a field for. -/
inductive Json where
  | null
  | bool (b : Bool)
  | number (n : Int)
  | string (s : String)
  | array (items : List Json)
  | object (members : List (String × Json))
  | raw (text : RawMessage)

/-- A string literal, with the quote and the backslash escaped. -/
def jsonQuote (s : String) : String :=
  "\"" ++ String.join (s.toList.map (fun c =>
    if c = Char.ofNat 34 then "\\\"" else if c = Char.ofNat 92 then "\\\\"
    else String.singleton c)) ++ "\""

mutual
/-- The bytes of a scanned value, in compact form. -/
def Json.render : Json → String
  | .null => "null"
  | .bool b => if b then "true" else "false"
  | .number n => toString n
  | .string s => jsonQuote s
  | .array items => "[" ++ Json.renderItems items ++ "]"
  | .object members => "\x7b" ++ Json.renderMembers members ++ "\x7d"
  | .raw text => text
def Json.renderItems : List Json → String
  | [] => ""
  | [item] => item.render
  | item :: rest => item.render ++ "," ++ Json.renderItems rest
def Json.renderMembers : List (String × Json) → String
  | [] => ""
  | [(key, value)] => jsonQuote key ++ ":" ++ value.render
  | (key, value) :: rest => jsonQuote key ++ ":" ++ value.render ++ "," ++ Json.renderMembers rest
end

/-- The error of `json.Unmarshal` for a value of the wrong kind. Which error is
reported when a text has several faults is not modelled. -/
def unmarshalTypeError : Err := .other "json: cannot unmarshal value into Go struct field"

/-- Decoding into a `string`: `null` leaves the target as it is. -/
def unmarshalString : Json → String → Except Err String
  | .string s, _ => .ok s
  | .null, current => .ok current
  | _, _ => .error unmarshalTypeError

/-- Decoding into a `bool`. -/
def unmarshalBool : Json → Bool → Except Err Bool
  | .bool b, _ => .ok b
  | .null, current => .ok current
  | _, _ => .error unmarshalTypeError

/-- Decoding into an `int`. -/
def unmarshalInt : Json → Int → Except Err Int
  | .number n, _ => .ok n
  | .null, current => .ok current
  | _, _ => .error unmarshalTypeError

/-- The elements of an array decoded into the elements of a fresh `[]string`. -/
def unmarshalStringItems : List Json → Except Err (List String)
  | [] => .ok []
  | item :: rest =>
    match unmarshalString item "" with
    | .error err => .error err
    | .ok s =>
      match unmarshalStringItems rest with
      | .error err => .error err
      | .ok tail => .ok (s :: tail)

/-- Decoding into a `[]string`: `null` makes the slice nil. -/
def unmarshalStrings : Json → Except Err (Option (List String))
  | .array items =>
    match unmarshalStringItems items with
    | .error err => .error err
    | .ok l => .ok (some l)
  | .null => .ok none
  | _ => .error unmarshalTypeError

/-- The method `UnmarshalJSON` of `json.RawMessage`, which the decoder calls with
the bytes of the value, also when the value is `null`. -/
def unmarshalRawMessage (value : Json) : Option RawMessage :=
  some value.render

/-- The members of an object decoded one after the other into a struct; `field`
stores one member and leaves the struct alone when no field carries the key.
Keys are compared exactly. -/
def unmarshalMembers {σ : Type} (field : String → Json → σ → Except Err σ) :
    List (String × Json) → σ → Except Err σ
  | [], target => .ok target
  | (key, value) :: rest, target =>
    match field key value target with
    | .error err => .error err
    | .ok target => unmarshalMembers field rest target

/-- The call `json.Unmarshal(data, &target)` with a struct as target: an object
is stored member by member, `null` has no effect, any other value is an error. -/
def unmarshalStruct {σ : Type} (field : String → Json → σ → Except Err σ)
    (data : Json) (target : σ) : Except Err σ :=
  match data with
  | .null => .ok target
  | .object members => unmarshalMembers field members target
  | _ => .error unmarshalTypeError

/-- What `json.Marshal` emits for a `json.RawMessage`: `null` for a nil one,
otherwise its bytes compacted. The parameter is `json.Compact`, which reports
bytes that are not a JSON text. -/
def marshalRawMessage (compact : RawMessage → Except Err RawMessage) :
    Option RawMessage → Except Err Json
  | none => .ok .null
  | some text =>
    match compact text with
    | .error err => .error (.wrap "json: error calling MarshalJSON for type json.RawMessage: " err)
    | .ok out => .ok (.raw out)

/-- What `json.Marshal` emits for a `[]string`. -/
def marshalStrings : Option (List String) → Json
  | none => .null
  | some l => .array (l.map Json.string)

/-! ### `VectorStore` -/

/-- The fields of `VectorStoreBase`. -/
def vectorStoreBaseField (key : String) (value : Json) (v : VectorStore) :
    Except Err VectorStore :=
  if key = "store_type" then
    match unmarshalString value v.StoreType with
    | .error err => .error err
    | .ok s => .ok { v with StoreType := s }
  else .ok v

/-- The field of the embedded `PineconeVectorStore`. -/
def pineconeVectorStoreField (key : String) (value : Json) (v : VectorStore) :
    Except Err VectorStore :=
  if key = "config" then .ok { v with PineconeConfig := unmarshalRawMessage value }
  else .ok v

/-- The field of the embedded `WeaviateVectorStore`. -/
def weaviateVectorStoreField (key : String) (value : Json) (v : VectorStore) :
    Except Err VectorStore :=
  if key = "config" then .ok { v with WeaviateConfig := unmarshalRawMessage value }
  else .ok v

/-- The method `(*VectorStore).UnmarshalJSON`; the first argument is the
receiver before the call, the result the receiver after a call without error. -/
def VectorStore.UnmarshalJSON (v : VectorStore) (data : Json) : Except Err VectorStore :=
  match unmarshalStruct vectorStoreBaseField data v with
  | .error err => .error err
  | .ok v =>
    if v.StoreType = VectorStoreTypePinecone then
      match unmarshalStruct pineconeVectorStoreField data v with
      | .error err => .error err
      | .ok v => .ok v
    else if v.StoreType = VectorStoreTypeWeaviate then
      match unmarshalStruct weaviateVectorStoreField data v with
      | .error err => .error err
      | .ok v => .ok v
    else .ok v

/-- The method `VectorStore.MarshalJSON`. -/
def VectorStore.MarshalJSON (compact : RawMessage → Except Err RawMessage) (v : VectorStore) :
    Except Err Json :=
  if v.StoreType = VectorStoreTypePinecone then
    match marshalRawMessage compact v.PineconeConfig with
    | .error err => .error err
    | .ok config => .ok (.object [("store_type", .string v.StoreType), ("config", config)])
  else if v.StoreType = VectorStoreTypeWeaviate then
    match marshalRawMessage compact v.WeaviateConfig with
    | .error err => .error err
    | .ok config => .ok (.object [("store_type", .string v.StoreType), ("config", config)])
  else .error (.other "unknown vector store type")

/-! ### `TextSplitter` -/

/-- The field of `TextSplitterBase`. -/
def textSplitterBaseField (key : String) (value : Json) (t : TextSplitter) :
    Except Err TextSplitter :=
  if key = "type" then
    match unmarshalString value t.Typ with
    | .error err => .error err
    | .ok s => .ok { t with Typ := s }
  else .ok t

/-- The fields of the anonymous struct `RecursiveCharacterTextSplitter.Config`. -/
def recursiveCharacterConfigField (key : String) (value : Json)
    (c : RecursiveCharacterConfig) : Except Err RecursiveCharacterConfig :=
  if key = "chunk_size" then
    match unmarshalInt value c.ChunkSize with
    | .error err => .error err
    | .ok n => .ok { c with ChunkSize := n }
  else if key = "chunk_overlap" then
    match unmarshalInt value c.ChunkOverlap with
    | .error err => .error err
    | .ok n => .ok { c with ChunkOverlap := n }
  else if key = "separators" then
    match unmarshalStrings value with
    | .error err => .error err
    | .ok l => .ok { c with Separators := l }
  else .ok c

/-- The field of the embedded `RecursiveCharacterTextSplitter`. -/
def recursiveCharacterTextSplitterField (key : String) (value : Json) (t : TextSplitter) :
    Except Err TextSplitter :=
  if key = "config" then
    match unmarshalStruct recursiveCharacterConfigField value t.Config with
    | .error err => .error err
    | .ok c => .ok { t with Config := c }
  else .ok t

/-- The method `(*TextSplitter).UnmarshalJSON`. -/
def TextSplitter.UnmarshalJSON (t : TextSplitter) (data : Json) : Except Err TextSplitter :=
  match unmarshalStruct textSplitterBaseField data t with
  | .error err => .error err
  | .ok t =>
    if t.Typ = TextSplitterTypeRecursiveCharacter then
      match unmarshalStruct recursiveCharacterTextSplitterField data t with
      | .error err => .error err
      | .ok t => .ok t
    else .ok t

/-- The method `TextSplitter.MarshalJSON`. -/
def TextSplitter.MarshalJSON (t : TextSplitter) : Except Err Json :=
  if t.Typ = TextSplitterTypeRecursiveCharacter then
    .ok (.object [("type", .string t.Typ),
      ("config", .object [("chunk_size", .number t.Config.ChunkSize),
        ("chunk_overlap", .number t.Config.ChunkOverlap),
        ("separators", marshalStrings t.Config.Separators)])])
  else .error (.other "unknown text splitter type")

/-! ### `PipelineDataSource` -/

/-- The fields of `PipelineDataSourceBase`. -/
def pipelineDataSourceBaseField (key : String) (value : Json) (p : PipelineDataSource) :
    Except Err PipelineDataSource :=
  if key = "id" then
    match unmarshalString value p.Id with
    | .error err => .error err
    | .ok s => .ok { p with Id := s }
  else if key = "is_enabled" then
    match unmarshalBool value p.IsEnabled with
    | .error err => .error err
    | .ok b => .ok { p with IsEnabled := b }
  else if key = "integration_name" then
    match unmarshalString value p.IntegrationName with
    | .error err => .error err
    | .ok s => .ok { p with IntegrationName := s }
  else if key = "text_splitter" then
    match p.TextSplitter.UnmarshalJSON value with
    | .error err => .error err
    | .ok t => .ok { p with TextSplitter := t }
  else .ok p

/-- The embedded `NotionDataSource` and `LinearDataSource` have no field. -/
def emptyStructField (_key : String) (_value : Json) (p : PipelineDataSource) :
    Except Err PipelineDataSource :=
  .ok p

/-- The method `(*PipelineDataSource).UnmarshalJSON`. -/
def PipelineDataSource.UnmarshalJSON (p : PipelineDataSource) (data : Json) :
    Except Err PipelineDataSource :=
  match unmarshalStruct pipelineDataSourceBaseField data p with
  | .error err => .error err
  | .ok p =>
    if p.IntegrationName = IntegrationNotion then
      match unmarshalStruct emptyStructField data p with
      | .error err => .error err
      | .ok p => .ok p
    else if p.IntegrationName = IntegrationLinear then
      match unmarshalStruct emptyStructField data p with
      | .error err => .error err
      | .ok p => .ok p
    else .ok p

/-! ### `PipelineDataSink` -/

/-- The fields of `PipelineDataSinkBase`. -/
def pipelineDataSinkBaseField (key : String) (value : Json) (d : PipelineDataSink) :
    Except Err PipelineDataSink :=
  if key = "id" then
    match unmarshalString value d.Id with
    | .error err => .error err
    | .ok s => .ok { d with Id := s }
  else if key = "type" then
    match unmarshalString value d.Typ with
    | .error err => .error err
    | .ok s => .ok { d with Typ := s }
  else if key = "is_enabled" then
    match unmarshalBool value d.IsEnabled with
    | .error err => .error err
    | .ok b => .ok { d with IsEnabled := b }
  else .ok d

/-- The field of the embedded `VectorStoreDataSink`. -/
def vectorStoreDataSinkField (key : String) (value : Json) (d : PipelineDataSink) :
    Except Err PipelineDataSink :=
  if key = "config" then
    match d.Config.UnmarshalJSON value with
    | .error err => .error err
    | .ok v => .ok { d with Config := v }
  else .ok d

/-- The method `(*PipelineDataSink).UnmarshalJSON`. -/
def PipelineDataSink.UnmarshalJSON (d : PipelineDataSink) (data : Json) :
    Except Err PipelineDataSink :=
  match unmarshalStruct pipelineDataSinkBaseField data d with
  | .error err => .error err
  | .ok d =>
    if d.Typ = DataSinkTypeVectorStore then
      match unmarshalStruct vectorStoreDataSinkField data d with
      | .error err => .error err
      | .ok d => .ok d
    else .ok d

/-- The method `PipelineDataSink.MarshalJSON`; an error of the method of the
nested `VectorStore` comes back as a `json.MarshalerError` around it. -/
def PipelineDataSink.MarshalJSON (compact : RawMessage → Except Err RawMessage)
    (d : PipelineDataSink) : Except Err Json :=
  if d.Typ = DataSinkTypeVectorStore then
    match d.Config.MarshalJSON compact with
    | .error err => .error (.wrap "json: error calling MarshalJSON for type main.VectorStore: " err)
    | .ok config =>
      .ok (.object [("id", .string d.Id), ("type", .string d.Typ),
        ("is_enabled", .bool d.IsEnabled), ("config", config)])
  else .error (.other "unknown data sink type")

/-! ### `PipelineEmbeddingConfig` -/

/-- The field of `PipelineEmbeddingConfigBase`. -/
def pipelineEmbeddingConfigBaseField (key : String) (value : Json)
    (e : PipelineEmbeddingConfig) : Except Err PipelineEmbeddingConfig :=
  if key = "type" then
    match unmarshalString value e.Typ with
    | .error err => .error err
    | .ok s => .ok { e with Typ := s }
  else .ok e

/-- The field of the anonymous struct `OpenAIEmbeddingConfig.Config`. -/
def openAIConfigField (key : String) (value : Json) (apiKey : String) : Except Err String :=
  if key = "api_key" then unmarshalString value apiKey else .ok apiKey

/-- The field of the embedded `OpenAIEmbeddingConfig`. -/
def openAIEmbeddingConfigField (key : String) (value : Json) (e : PipelineEmbeddingConfig) :
    Except Err PipelineEmbeddingConfig :=
  if key = "config" then
    match unmarshalStruct openAIConfigField value e.ApiKey with
    | .error err => .error err
    | .ok s => .ok { e with ApiKey := s }
  else .ok e

/-- The method `(*PipelineEmbeddingConfig).UnmarshalJSON`. -/
def PipelineEmbeddingConfig.UnmarshalJSON (e : PipelineEmbeddingConfig) (data : Json) :
    Except Err PipelineEmbeddingConfig :=
  match unmarshalStruct pipelineEmbeddingConfigBaseField data e with
  | .error err => .error err
  | .ok e =>
    if e.Typ = EmbeddingTypeOpenAI then
      match unmarshalStruct openAIEmbeddingConfigField data e with
      | .error err => .error err
      | .ok e => .ok e
    else .ok e

/-- The method `PipelineEmbeddingConfig.MarshalJSON`. -/
def PipelineEmbeddingConfig.MarshalJSON (e : PipelineEmbeddingConfig) : Except Err Json :=
  if e.Typ = EmbeddingTypeOpenAI then
    .ok (.object [("type", .string e.Typ), ("config", .object [("api_key", .string e.ApiKey)])])
  else .error (.other "unknown embedding type")

/-! ### `IntegrationConnection` -/

/-- The fields of `IntegrationConnectionBase`. -/
def integrationConnectionBaseField (key : String) (value : Json) (i : IntegrationConnection) :
    Except Err IntegrationConnection :=
  if key = "account" then
    match unmarshalString value i.Account with
    | .error err => .error err
    | .ok s => .ok { i with Account := s }
  else if key = "integration_name" then
    match unmarshalString value i.Integration with
    | .error err => .error err
    | .ok s => .ok { i with Integration := s }
  else if key = "connected_at" then
    match unmarshalString value i.ConnectedAt with
    | .error err => .error err
    | .ok s => .ok { i with ConnectedAt := s }
  else .ok i

/-- The fields of the anonymous struct `NotionIntegrationConnection.Config`. -/
def notionConnectionConfigField (key : String) (value : Json) (c : NotionConnectionConfig) :
    Except Err NotionConnectionConfig :=
  if key = "access_token" then
    match unmarshalString value c.AcessToken with
    | .error err => .error err
    | .ok s => .ok { c with AcessToken := s }
  else if key = "bot_id" then
    match unmarshalString value c.BotId with
    | .error err => .error err
    | .ok s => .ok { c with BotId := s }
  else if key = "workspace_id" then
    match unmarshalString value c.WorkspaceId with
    | .error err => .error err
    | .ok s => .ok { c with WorkspaceId := s }
  else if key = "workspace_name" then
    match unmarshalString value c.WorkspaceName with
    | .error err => .error err
    | .ok s => .ok { c with WorkspaceName := s }
  else if key = "workspace_icon" then
    match unmarshalString value c.WorkspaceIcon with
    | .error err => .error err
    | .ok s => .ok { c with WorkspaceIcon := s }
  else .ok c

/-- The fields of the anonymous struct `LinearIntegrationConnection.Config`. -/
def linearConnectionConfigField (key : String) (value : Json) (c : LinearConnectionConfig) :
    Except Err LinearConnectionConfig :=
  if key = "access_token" then
    match unmarshalString value c.AccessToken with
    | .error err => .error err
    | .ok s => .ok { c with AccessToken := s }
  else if key = "token_type" then
    match unmarshalString value c.TokenType with
    | .error err => .error err
    | .ok s => .ok { c with TokenType := s }
  else .ok c

/-- The field of the embedded `NotionIntegrationConnection`. -/
def notionIntegrationConnectionField (key : String) (value : Json)
    (i : IntegrationConnection) : Except Err IntegrationConnection :=
  if key = "config" then
    match unmarshalStruct notionConnectionConfigField value i.Notion with
    | .error err => .error err
    | .ok c => .ok { i with Notion := c }
  else .ok i

/-- The field of the embedded `LinearIntegrationConnection`. -/
def linearIntegrationConnectionField (key : String) (value : Json)
    (i : IntegrationConnection) : Except Err IntegrationConnection :=
  if key = "config" then
    match unmarshalStruct linearConnectionConfigField value i.Linear with
    | .error err => .error err
    | .ok c => .ok { i with Linear := c }
  else .ok i

/-- The method `(*IntegrationConnection).UnmarshalJSON`. -/
def IntegrationConnection.UnmarshalJSON (i : IntegrationConnection) (data : Json) :
    Except Err IntegrationConnection :=
  match unmarshalStruct integrationConnectionBaseField data i with
  | .error err => .error err
  | .ok i =>
    if i.Integration = IntegrationNotion then
      match unmarshalStruct notionIntegrationConnectionField data i with
      | .error err => .error err
      | .ok i => .ok i
    else if i.Integration = IntegrationLinear then
      match unmarshalStruct linearIntegrationConnectionField data i with
      | .error err => .error err
      | .ok i => .ok i
    else .ok i

/-! ## Concrete surroundings used to run the model -/

def exDoc (id fresh : String) : IndexedDocument :=
  { Integration := "linear", DocumentType := "issue", Id := id, Title := "t", URL := "u",
    FreshnessIndicator := fresh }

def exClient (listing : DocMap) : DataSourceApiClient :=
  { ListDocuments := fun _ _ => .ok listing
    GetDocumentContent := fun _ _ _ _ => .ok ("text", [])
    GetDocument := fun _ _ id _ => .ok (exDoc id "f1") }

def exHelper (tokens : Int) (ingestError : Option Err) : DocumentHelper :=
  { IngestDocument := fun _ _ _ _ _ _ _ _ => ingestError
    DeleteDocument := fun _ _ _ _ _ => none
    CountDocumentTokens := fun _ _ => .ok tokens }

def exMessage : IndexMessage :=
  { Kind := "index", AccountId := "acct", MessageId := "m1",
    Payload := { PipelineId := "P1", RunId := "R1", DataSourceId := "D1" } }

def exEnv (listing : DocMap) (tokens : Int) (ingestError : Option Err)
    (storeError : List Event → Event → Option Err) : Env :=
  { clients := fun i => if i = "linear" then some (exClient listing) else none
    documentHelper := exHelper tokens ingestError
    openAIApiKey := "key"
    storeError := storeError
    clock := fun n => n
    unmarshal := fun _ => .ok exMessage }

def exSplitter : TextSplitter :=
  { Typ := "recursive_character", Config := { ChunkSize := 100, ChunkOverlap := 0, Separators := none } }

def exDataSource : PipelineDataSource :=
  { Id := "D1", IsEnabled := true, IntegrationName := "linear", TextSplitter := exSplitter }

def exPipeline : Pipeline :=
  { Id := "P1", Account := "acct",
    Config := { DataSources := [exDataSource], Embeddings := { Typ := "openai", ApiKey := "k" },
                DataSinks := [] } }

def exConnection : IntegrationConnection :=
  { Account := "acct", Integration := "linear", ConnectedAt := "",
    Notion := { AcessToken := "", BotId := "", WorkspaceId := "", WorkspaceName := "", WorkspaceIcon := "" },
    Linear := { AccessToken := "tok", TokenType := "Bearer" } }

def exAccount (count : Int) : Account :=
  { Id := "acct", IsSuspended := false, IsSubscriber := false, IsUnlimited := false,
    TotalIndexedDocumentCount := count, TotalIndexDocumentTokens := 0 }

def exStep : PipelineRunStep :=
  { Pipeline := "P1", PipelineRun := "R1", DataSource := "D1", StartedAt := none,
    CompletedAt := none, Error := none, Status := "pending" }

def exRow (id fresh : String) : Document :=
  { AccountId := "acct", PipelineId := "P1", Integration := "linear", DocumentType := "issue",
    Id := id, CreatedAt := 0, UpdatedAt := none, FreshnessIndicator := some fresh, Title := "t",
    URL := "u", TokenCount := 5, ExceedsTokenLimit := false }

def exChangeEvent (action : ChangeAction) : IntegrationChangeEvent :=
  { Integration := "linear"
    Change := { Action := action, DocumentId := "A", DocumentType := "issue" } }

def exRun (mode : SyncMode) (trigger : PipelineRunTrigger) (action : ChangeAction) : PipelineRun :=
  { Id := "R1", Pipeline := "P1", Trigger := trigger, SyncMode := mode
    IntegrationChangeEvent := some (exChangeEvent action) }

def exWorld (count : Int) (run : PipelineRun) (rows : List Document) : World :=
  { db := { accounts := [exAccount count], pipelines := [exPipeline], pipelineRuns := [run],
            steps := [exStep], connections := [exConnection], documents := rows },
    trace := [], clockReads := 0 }

def noStoreError : List Event → Event → Option Err := fun _ _ => none

/-- A store that refuses exactly the statement `SuspendAccount`. -/
def suspendFails : List Event → Event → Option Err := fun _ ev =>
  match ev with
  | .SuspendAccount _ => some (.other "connection reset")
  | _ => none

def exFlagged : Err :=
  .helper { Code := DocumentHelperErrorCodeFlaggedContent, Message := "flagged", IsTransient := false }

/-- The world `exWorld` without any step row. -/
def exStaleWorld : World :=
  { db := { accounts := [exAccount 0], pipelines := [exPipeline],
            pipelineRuns := [exRun FullIndexSyncMode PipelineRunTriggerManual ChangeActionCreate],
            steps := [], connections := [exConnection], documents := [] },
    trace := [], clockReads := 0 }

/-- The `Unwrap` chain of an error, outermost first. -/
def Err.chain : Err → List Err
  | .other msg => [.other msg]
  | .helper e => [.helper e]
  | .wrap msg inner => .wrap msg inner :: inner.chain

/-- Following the wording of the specification: the cause chain of the error
contains a `DocumentHelperError` whose code is `flagged_content`. -/
def Err.chainHasFlaggedContent (err : Err) : Bool :=
  err.chain.any (fun x =>
    match x with
    | .helper e => decide (e.Code = DocumentHelperErrorCodeFlaggedContent)
    | _ => false)

/-- The call `SuspendAccount`. -/
def Event.isSuspension : Event → Bool
  | .SuspendAccount .. => true
  | _ => false

/-- The statement `update account set is_suspended = true where id = $1` on the rows. -/
def suspendRows (accountId : String) (rows : List Account) : List Account :=
  rows.map (fun a => if a.Id = accountId then { a with IsSuspended := true } else a)

/-- Surroundings in which the helper rejects every ingest as flagged content. -/
def exFlaggedEnv (storeError : List Event → Event → Option Err) : Env :=
  exEnv [("A", exDoc "A" "f1")] 10 (some exFlagged) storeError

def exFullIndexWorld : World :=
  exWorld 0 (exRun FullIndexSyncMode PipelineRunTriggerManual ChangeActionCreate) []

def exSingleDocumentWorld : World :=
  exWorld 0 (exRun SingleDocumentSyncMode PipelineRunTriggerIntegrationChangeEvent
    ChangeActionCreate) []

/-- The tuple `(account, pipeline, integration_name, document_type, id)` of a row. -/
def documentKey (d : Document) : String × String × Integration × String × String :=
  (d.AccountId, d.PipelineId, d.Integration, d.DocumentType, d.Id)

/-- The lookup `GetDocumentForIntegration`, the first call of `retrieveIngestAndUpsert`. -/
def Event.isLookup : Event → Bool
  | .GetDocumentForIntegration .. => true
  | _ => false

/-- The call `IncreaseTotalIndexedCount`. -/
def Event.isIndexedCountUpdate : Event → Bool
  | .IncreaseTotalIndexedCount .. => true
  | _ => false

/-- Every run of `m` only appends calls, and each appended call satisfies `P`. -/
@[irreducible] def TraceGrows (P : Event → Prop) {α : Type} (m : M α) : Prop :=
  ∀ w, ∃ suffix, (m w).2.trace = w.trace ++ suffix ∧ ∀ ev ∈ suffix, P ev

/-- The calls of the quota block for an account that is not unlimited. -/
def quotaCalls (pipelineRunStep : PipelineRunStep) (account : Account) (count : Nat) :
    List Event :=
  (if totalIndexedDocumentsLimit account.IsSubscriber - account.TotalIndexedDocumentCount = 0 then
    [Event.UpdatePipelineRunStep pipelineRunStep.PipelineRun pipelineRunStep.DataSource
      PipelineRunStepStatusFailed
      (some { Code := "limit_exceeded", Message := "Exceeded total indexed document limit" })
      none none]
  else []) ++ [Event.IncreaseTotalIndexedCount account.Id (count : Int)]

/-- The calls of `retrieveIngestAndUpsert` that follow its lookup. -/
def Event.isIngestStep : Event → Bool
  | .GetDocumentContent .. => true
  | .HelperCountDocumentTokens .. => true
  | .HelperIngestDocument .. => true
  | .IncreaseTotalDocumentTokens .. => true
  | .UpsertDocument .. => true
  | _ => false

/-- The calls of the segment `DeleteDocuments`. -/
def Event.isDriftStep : Event → Bool
  | .GetMissingDocuments .. => true
  | .HelperDeleteDocument .. => true
  | .DeleteDocument .. => true
  | _ => false

/-- The lookup that `retrieveIngestAndUpsert` issues first for a listed document. -/
def lookupOf (pipeline : Pipeline) (kv : String × IndexedDocument) : Event :=
  .GetDocumentForIntegration pipeline.Account pipeline.Id kv.2.Integration kv.2.DocumentType
    kv.2.Id

/-- The documents that the segment `CheckQuotas` of `runFullIndex` hands on to
the ingestion: the listing itself for an unlimited account, otherwise what
the slicing loop keeps of it. -/
def quotaTruncated (account : Account) (listing : DocMap) : DocMap :=
  if account.IsUnlimited then listing
  else sliceLoop
    (totalIndexedDocumentsLimit account.IsSubscriber - account.TotalIndexedDocumentCount)
    listing []

/-- What a full index over a truncated listing `processed` may call: its
lookups are lookups of documents in `processed`, and its only update of the
indexed-document counter adds the size of `processed`, for an account that is
not unlimited. -/
def FullIndexCall (pipeline : Pipeline) (account : Account) (processed : DocMap) (ev : Event) :
    Prop :=
  (ev.isLookup = true → ∃ kv ∈ processed, ev = lookupOf pipeline kv) ∧
  (ev.isIndexedCountUpdate = true → account.IsUnlimited = false ∧
    ev = .IncreaseTotalIndexedCount account.Id (processed.length : Int))

/-- A listing of two issues. -/
def exListing : DocMap := [("A", exDoc "A" "f1"), ("B", exDoc "B" "f2")]

/-- The world `exFullIndexWorld` whose pipeline has no data source at all. -/
def exNoSourceWorld : World :=
  { exFullIndexWorld with
    db := { exFullIndexWorld.db with
      pipelines := [{ exPipeline with
        Config := { exPipeline.Config with DataSources := [] } }] } }

/-- The segment `RunIndex` of `innerHandler`: what the handler does with the
step, the pipeline, the run, the data source, the connection and the account
that the segment `FetchRunDetails` has fetched. -/
def runIndexSegment (env : Env) (dataSource : PipelineDataSource)
    (integrationConnection : Option IntegrationConnection) (pipeline : Pipeline)
    (pipelineRun : Option PipelineRun) (step : PipelineRunStep) (account : Option Account) :
    M Unit := do
  let startedAt ← now env
  let proceed ← gate dataSource account
  match proceed with
  | none => do
    let completedAt ← now env
    wrapErr "unable to update pipeline run step, "
      (UpdatePipelineRunStep env step.PipelineRun step.DataSource
        PipelineRunStepStatusCompleted none (some startedAt) (some completedAt))
  | some account => do
    wrapErr "unable to update pipeline run step, "
      (UpdatePipelineRunStep env step.PipelineRun step.DataSource
        PipelineRunStepStatusRunning none (some startedAt) none)
    match integrationConnection with
    | none => pure ()
    | some integrationConnection =>
      dispatchSyncMode env dataSource integrationConnection pipeline pipelineRun step
        startedAt account

/-- The calls of the segment `FetchRunDetails` of `innerHandler`. -/
def fetchCalls (m : IndexMessage) (pipeline : Pipeline) (dataSource : PipelineDataSource) :
    List Event :=
  [.GetPipelineStep m.Payload.RunId m.Payload.DataSourceId,
   .GetPipeline m.Payload.PipelineId,
   .GetPipelineRun m.Payload.RunId,
   .GetIntegrationConnection pipeline.Account dataSource.IntegrationName,
   .GetAccount pipeline.Account]

/-- The run row that `GetPipelineRun` finds for the message. -/
def fetchedRun (w : World) (m : IndexMessage) : Option PipelineRun :=
  w.db.pipelineRuns.find? (fun r => decide (r.Id = m.Payload.RunId))

/-- The connection row that `GetIntegrationConnection` finds for the data source. -/
def fetchedConnection (w : World) (pipeline : Pipeline) (dataSource : PipelineDataSource) :
    Option IntegrationConnection :=
  w.db.connections.find? (fun c =>
    decide (c.Account = pipeline.Account ∧ c.Integration = dataSource.IntegrationName))

/-- The account row that `GetAccount` finds for the pipeline. -/
def fetchedAccount (w : World) (pipeline : Pipeline) : Option Account :=
  w.db.accounts.find? (fun a => decide (a.Id = pipeline.Account))

/-- The segment `FetchRunDetails` goes through in world `w` for message `m`:
the step row, the pipeline row and the data source of the step exist, and the
store answers each of the five reads. -/
structure Fetched (env : Env) (m : IndexMessage) (w : World) (step : PipelineRunStep)
    (pipeline : Pipeline) (dataSource : PipelineDataSource) : Prop where
  step_found : w.db.steps.find? (fun s =>
    decide (s.PipelineRun = m.Payload.RunId ∧ s.DataSource = m.Payload.DataSourceId)) = some step
  pipeline_found : w.db.pipelines.find? (fun p => decide (p.Id = m.Payload.PipelineId)) =
    some pipeline
  source_found : getDataSource pipeline.Config.DataSources step.DataSource = some dataSource
  reads_answered : ∀ pre ev post, fetchCalls m pipeline dataSource = pre ++ ev :: post →
    env.storeError (w.trace ++ pre) ev = none

/-- The world in which the segment `RunIndex` starts. -/
def afterFetch (w : World) (m : IndexMessage) (pipeline : Pipeline)
    (dataSource : PipelineDataSource) : World :=
  { w with trace := w.trace ++ fetchCalls m pipeline dataSource }

/-- The status that a write to the step row sets. -/
def Event.stepStatus : Event → Option PipelineRunStepStatus
  | .UpdatePipelineRunStep _ _ status _ _ _ => some status
  | _ => none

/-- The world `exFullIndexWorld` without any integration connection. -/
def exNoConnectionWorld : World :=
  { exFullIndexWorld with db := { exFullIndexWorld.db with connections := [] } }

/-- The world `exFullIndexWorld` whose data source is disabled. -/
def exDisabledWorld : World :=
  { exFullIndexWorld with
    db := { exFullIndexWorld.db with
      pipelines := [{ exPipeline with
        Config := { exPipeline.Config with
          DataSources := [{ exDataSource with IsEnabled := false }] } }] } }

/-- What the switch on the sync mode may send to the store for the step row:
the completed write, which carries the handler's `startedAt` and a completion
time, or one of the failed writes, none of which carries a completion time;
the failed write of the quota block of `runFullIndex` carries no start time
either. Calls other than step writes are not restricted. -/
def DispatchStepWrite (step : PipelineRunStep) (startedAt : Time) : Event → Prop
  | .UpdatePipelineRunStep runId dsId status error started completed =>
    runId = step.PipelineRun ∧ dsId = step.DataSource ∧
    ((status = PipelineRunStepStatusCompleted ∧ error = none ∧ started = some startedAt ∧
        ∃ completedAt, completed = some completedAt) ∨
     (status = PipelineRunStepStatusFailed ∧ started = some startedAt ∧ completed = none ∧
        (error = some { Code := "index_failed", Message := "Unable to run full index" } ∨
         error = some { Code := "single_document_sync_failed",
                        Message := "Unable to sync single document" } ∨
         error = some { Code := "limit_exceeded",
                        Message := "Exceeded total indexed document limit" })) ∨
     (status = PipelineRunStepStatusFailed ∧ started = none ∧ completed = none ∧
        error = some { Code := "limit_exceeded",
                       Message := "Exceeded total indexed document limit" }))
  | _ => True

/-- The timestamps that a write to the step row carries, by the status it
sets: `running` comes with a start time and no completion time, `completed`
with both, `failed` with no completion time, and with a start time when its
error code is `index_failed` or `single_document_sync_failed`; no other
status is written. Calls other than step writes are not restricted. -/
def StepTimestamps : Event → Prop
  | .UpdatePipelineRunStep _ _ status error started completed =>
    (status = PipelineRunStepStatusRunning ∧ started.isSome = true ∧ completed = none) ∨
    (status = PipelineRunStepStatusCompleted ∧ started.isSome = true ∧
      completed.isSome = true) ∨
    (status = PipelineRunStepStatusFailed ∧ completed = none ∧
      ∀ e, error = some e → e.Code = "index_failed" ∨ e.Code = "single_document_sync_failed" →
        started.isSome = true)
  | _ => True

/-- In a run of calls no step write sets `pending`, and a step write that sets
`running` is preceded by no other step write. -/
def RunningFirst (calls : List Event) : Prop :=
  ∀ pre ev post, calls = pre ++ ev :: post →
    ev.stepStatus ≠ some PipelineRunStepStatusPending ∧
    (ev.stepStatus = some PipelineRunStepStatusRunning → ∀ e ∈ pre, e.stepStatus = none)

/-- Every run of `m` only appends calls, and the appended calls as a whole
satisfy `S`. -/
@[irreducible] def TraceShape (S : List Event → Prop) {α : Type} (m : M α) : Prop :=
  ∀ w, ∃ suffix, (m w).2.trace = w.trace ++ suffix ∧ S suffix

/-- A call that is no step write, or a step write that sets a terminal status. -/
def Event.isTerminalOrNoStepWrite (ev : Event) : Bool :=
  match ev.stepStatus with
  | none => true
  | some status =>
    decide (status = PipelineRunStepStatusCompleted ∨ status = PipelineRunStepStatusFailed)

/-- The world `exFullIndexWorld` whose step row is already `completed`. -/
def exCompletedWorld : World :=
  { exFullIndexWorld with
    db := { exFullIndexWorld.db with
      steps := [{ exStep with Status := PipelineRunStepStatusCompleted
                              StartedAt := some 0, CompletedAt := some 1 }] } }

/-- Surroundings whose helper refuses every delete. -/
def exDeleteFailsEnv : Env :=
  { exEnv [] 10 none noStoreError with
    documentHelper := { exHelper 10 none with
      DeleteDocument := fun _ _ _ _ _ => some (.other "sink unreachable") } }

/-- A decoder of helper error bodies that knows two bodies. -/
def exDecodeHelperError (body : String) : Except Err DocumentHelperError :=
  if body = "transient" then
    .ok { Code := "vector_store_upsert_failed", Message := "try again", IsTransient := true }
  else if body = "flagged" then
    .ok { Code := DocumentHelperErrorCodeFlaggedContent, Message := "flagged",
          IsTransient := false }
  else if body = "empty" then
    .ok { Code := "", Message := "", IsTransient := false }
  else .error (.other "invalid character")

/-- A decoder of Linear error bodies that knows three bodies. -/
def exDecodeLinearErrors (body : String) : Except Err (List LinearError) :=
  if body = "ratelimited" then .ok [{ Message := "slow down", Code := "RATELIMITED" }]
  else if body = "forbidden" then .ok [{ Message := "no access", Code := "FORBIDDEN" }]
  else if body = "none" then .ok []
  else .error (.other "invalid character")

/-- The identity of a step row. -/
def stepKey (s : PipelineRunStep) : String × String := (s.PipelineRun, s.DataSource)

/-- What the handler reads of an account row apart from its two counters. -/
def accountCore (a : Account) : String × Bool × Bool × Bool :=
  (a.Id, a.IsSuspended, a.IsSubscriber, a.IsUnlimited)

/-- The tables `after` hold the rows of `before` up to the mutable columns of
the step rows, the two counters of the account rows, and the mirror. -/
def SameRows (before after : DB) : Prop :=
  after.pipelines = before.pipelines ∧ after.pipelineRuns = before.pipelineRuns ∧
  after.connections = before.connections ∧
  after.steps.map stepKey = before.steps.map stepKey ∧
  after.accounts.map accountCore = before.accounts.map accountCore

/-- Every run of `m` leaves the tables as `SameRows` of what it found. -/
@[irreducible] def KeepsRows {α : Type} (m : M α) : Prop :=
  ∀ w, SameRows w.db (m w).2.db

/-- The world `exFullIndexWorld` without the pipeline row. -/
def exNoPipelineWorld : World :=
  { exFullIndexWorld with db := { exFullIndexWorld.db with pipelines := [] } }

/-- The world `exFullIndexWorld` without the pipeline-run row. -/
def exNoRunWorld : World :=
  { exFullIndexWorld with db := { exFullIndexWorld.db with pipelineRuns := [] } }

/-- The world `exFullIndexWorld` without the account row. -/
def exNoAccountWorld : World :=
  { exFullIndexWorld with db := { exFullIndexWorld.db with accounts := [] } }

/-- The world `exSingleDocumentWorld` whose run carries no change event. -/
def exNoEventWorld : World :=
  { exSingleDocumentWorld with
    db := { exSingleDocumentWorld.db with
      pipelineRuns := [{ exRun SingleDocumentSyncMode PipelineRunTriggerIntegrationChangeEvent
        ChangeActionCreate with IntegrationChangeEvent := none }] } }

/-- Every run of `m` leaves the reading `f` of the tables as it found it. -/
@[irreducible] def Preserves {α β : Type} (f : DB → β) (m : M α) : Prop :=
  ∀ w, f (m w).2.db = f w.db

/-- The indexed-document counter of every account row, by account id. -/
def indexedCounts (db : DB) : List (String × Int) :=
  db.accounts.map (fun a => (a.Id, a.TotalIndexedDocumentCount))

/-- The message `m1` as received, with receipt handle `rh`. -/
def exReceived : ReceivedMessage :=
  { Message := { MessageId := "m1", Body := some "{}" }
    ReceiptHandle := some "rh" }

/-- A helper that answers the first request with 429 and every later one
with 200, each time after the request body has been read. -/
def exThrottledOnce (attempt : Nat) (_ : HelperRequest) : RoundTrip :=
  { outcome := .response { StatusCode := if attempt = 0 then 429 else 200, Body := "" }
    bodyRead := true }

/-- The zero value of `VectorStore`. -/
def zeroVectorStore : VectorStore :=
  { StoreType := "", PineconeConfig := none, WeaviateConfig := none }

/-- The zero value of `TextSplitter`. -/
def zeroTextSplitter : TextSplitter :=
  { Typ := "", Config := { ChunkSize := 0, ChunkOverlap := 0, Separators := none } }

/-- The zero value of `PipelineDataSource`. -/
def zeroPipelineDataSource : PipelineDataSource :=
  { Id := "", IsEnabled := false, IntegrationName := "", TextSplitter := zeroTextSplitter }

/-- The zero value of `PipelineDataSink`. -/
def zeroPipelineDataSink : PipelineDataSink :=
  { Id := "", Typ := "", IsEnabled := false, Config := zeroVectorStore }

/-- The zero value of `PipelineEmbeddingConfig`. -/
def zeroPipelineEmbeddingConfig : PipelineEmbeddingConfig :=
  { Typ := "", ApiKey := "" }

/-- The zero value of `IntegrationConnection`. -/
def zeroIntegrationConnection : IntegrationConnection :=
  { Account := "", Integration := "", ConnectedAt := ""
    Notion := { AcessToken := "", BotId := "", WorkspaceId := "", WorkspaceName := "",
                WorkspaceIcon := "" }
    Linear := { AccessToken := "", TokenType := "" } }

/-- A vector store with exactly the payload of its discriminator populated, by
the bytes `cfg`. -/
def VectorStore.Populated (v : VectorStore) (cfg : RawMessage) : Prop :=
  v = { StoreType := VectorStoreTypePinecone, PineconeConfig := some cfg, WeaviateConfig := none } ∨
  v = { StoreType := VectorStoreTypeWeaviate, PineconeConfig := none, WeaviateConfig := some cfg }

/-- The function `json.Compact` on the texts of the examples: no bytes are not a
JSON text, the blank after a colon goes, a text without blanks stays. -/
def exCompact (text : RawMessage) : Except Err RawMessage :=
  if text = "" then .error (.other "unexpected end of JSON input")
  else if text = "\x7b\"environment\": \"us-east\"\x7d" then
    .ok "\x7b\"environment\":\"us-east\"\x7d"
  else .ok text

/-- A Pinecone store as the database column holds it, a blank after the colon. -/
def exSpacedStore : VectorStore :=
  { StoreType := VectorStoreTypePinecone
    PineconeConfig := some "\x7b\"environment\": \"us-east\"\x7d"
    WeaviateConfig := none }

/-- A workspace whose search for pages answers on two result pages, `p1` and
then `p2`, and whose one database `db1` answers its query on two result pages,
`p2` in a newer edit and then `p3`. -/
def exNotionApi : NotionApi :=
  { searchPages := fun cursor =>
      match cursor with
      | none =>
        .ok { Results := [{ Id := "p1", LastEditedTime := "t1", Title := "One", URL := "u1" }]
              NextCursor := some "c1"
              HasMore := true }
      | some _ =>
        .ok { Results := [{ Id := "p2", LastEditedTime := "t1", Title := "Two", URL := "u2" }]
              NextCursor := none
              HasMore := false }
    searchDatabases := fun _ =>
      .ok { Results := [{ Id := "db1", LastEditedTime := "t1", Title := "", URL := "d1" }]
            NextCursor := none
            HasMore := false }
    queryDatabase := fun _ cursor =>
      match cursor with
      | none =>
        .ok { Results := [{ Id := "p2", LastEditedTime := "t2", Title := "Two", URL := "u2" }]
              NextCursor := some "c2"
              HasMore := true }
      | some _ =>
        .ok { Results := [{ Id := "p3", LastEditedTime := "t1", Title := "Three", URL := "u3" }]
              NextCursor := none
              HasMore := false } }

/-- The two result pages of the search for pages of `exNotionApi`. -/
def exNotionFreePages : List NotionSearchResponse :=
  [{ Results := [{ Id := "p1", LastEditedTime := "t1", Title := "One", URL := "u1" }]
     NextCursor := some "c1"
     HasMore := true },
   { Results := [{ Id := "p2", LastEditedTime := "t1", Title := "Two", URL := "u2" }]
     NextCursor := none
     HasMore := false }]

/-- The result page of the search for databases of `exNotionApi`. -/
def exNotionDatabases : List NotionSearchResponse :=
  [{ Results := [{ Id := "db1", LastEditedTime := "t1", Title := "", URL := "d1" }]
     NextCursor := none
     HasMore := false }]

/-- The two result pages of a database query of `exNotionApi`. -/
def exNotionDatabasePages : List NotionSearchResponse :=
  [{ Results := [{ Id := "p2", LastEditedTime := "t2", Title := "Two", URL := "u2" }]
     NextCursor := some "c2"
     HasMore := true },
   { Results := [{ Id := "p3", LastEditedTime := "t1", Title := "Three", URL := "u3" }]
     NextCursor := none
     HasMore := false }]

/-- The responses `responses` are what a paginated request delivers, result
page by result page, when it is started at `cursor` and continued at the
`next_cursor` of each response: all of them announce more results but the
last. -/
def Paged (respond : Option String → Except Err NotionSearchResponse) :
    Option String → List NotionSearchResponse → Prop
  | _, [] => False
  | cursor, response :: rest =>
    respond cursor = .ok response ∧
    match rest with
    | [] => response.HasMore = false
    | _ :: _ => response.HasMore = true ∧ Paged respond response.NextCursor rest

/-- The results of all result pages, in the order of delivery. -/
def allResults (responses : List NotionSearchResponse) : List NotionResult :=
  responses.flatMap (fun response => response.Results)

/-- The upstream clients and the helper answer a call by its arguments alone,
whatever calls went before it. -/
def RespondsAlike (env : Env) : Prop :=
  (∀ integration client, env.clients integration = some client →
    (∀ h1 h2 connection, client.ListDocuments h1 connection = client.ListDocuments h2 connection) ∧
    (∀ h1 h2 documentType id connection,
      client.GetDocumentContent h1 documentType id connection =
        client.GetDocumentContent h2 documentType id connection) ∧
    (∀ h1 h2 documentType id connection,
      client.GetDocument h1 documentType id connection =
        client.GetDocument h2 documentType id connection)) ∧
  (∀ h1 h2 splitter embeddings sinks key doc text metadata,
    env.documentHelper.IngestDocument h1 splitter embeddings sinks key doc text metadata =
      env.documentHelper.IngestDocument h2 splitter embeddings sinks key doc text metadata) ∧
  (∀ h1 h2 sinks integration documentType id,
    env.documentHelper.DeleteDocument h1 sinks integration documentType id =
      env.documentHelper.DeleteDocument h2 sinks integration documentType id) ∧
  (∀ h1 h2 text,
    env.documentHelper.CountDocumentTokens h1 text =
      env.documentHelper.CountDocumentTokens h2 text)

/-- A listing as both clients build it: a Go map, which holds a key once, and
every document under its own id. -/
def KeyedById (listing : DocMap) : Prop :=
  (listing.map Prod.fst).Nodup ∧ ∀ kv ∈ listing, kv.1 = kv.2.Id

/-- The quota of `account` admits a handling of `run`: the account is
unlimited, or the run is a single-document run and passes the check of that
branch, or it is a full index, something is left of the quota and every
listing that the upstream returns fits into what is left. -/
def QuotaAdmits (env : Env) (connection : IntegrationConnection) (run : PipelineRun)
    (account : Account) : Prop :=
  account.IsUnlimited = true ∨
  (run.SyncMode = SingleDocumentSyncMode ∧
    account.TotalIndexedDocumentCount + 1 < totalIndexedDocumentsLimit account.IsSubscriber) ∨
  (run.SyncMode = FullIndexSyncMode ∧
    0 < totalIndexedDocumentsLimit account.IsSubscriber - account.TotalIndexedDocumentCount ∧
    ∀ client history listing, env.clients connection.Integration = some client →
      client.ListDocuments history connection = .ok listing →
      (listing.length : Int) ≤
        totalIndexedDocumentsLimit account.IsSubscriber - account.TotalIndexedDocumentCount)

/-- The write that sets the step of the message to `completed`. -/
def Event.isCompletedWrite (step : PipelineRunStep) : Event → Prop
  | .UpdatePipelineRunStep runId dsId status error _ _ =>
    runId = step.PipelineRun ∧ dsId = step.DataSource ∧
      status = PipelineRunStepStatusCompleted ∧ error = none
  | _ => False

/-- The world after the write that sets the step to `running`, when the store
accepts the write. -/
def afterRunning (env : Env) (step : PipelineRunStep) (w : World) : World :=
  { db := { w.db with steps := w.db.steps.map (fun s =>
        if s.PipelineRun = step.PipelineRun ∧ s.DataSource = step.DataSource then
          { s with Status := PipelineRunStepStatusRunning, Error := none,
                   CompletedAt := none, StartedAt := some (env.clock w.clockReads) }
        else s) }
    trace := w.trace ++
      [.UpdatePipelineRunStep step.PipelineRun step.DataSource PipelineRunStepStatusRunning
        none (some (env.clock w.clockReads)) none]
    clockReads := w.clockReads + 1 }

/-- A computation has ended the handling of the step with success: the mirror
is the one of `w`, the last call has set the step to `completed`, and every
row of the step has that status. -/
def EndsCompleted (step : PipelineRunStep) (w w2 : World) : Prop :=
  w2.db.documents = w.db.documents ∧
  (∃ ev, w2.trace.getLast? = some ev ∧ ev.isCompletedWrite step) ∧
  ∀ row ∈ w2.db.steps, row.PipelineRun = step.PipelineRun →
    row.DataSource = step.DataSource → row.Status = PipelineRunStepStatusCompleted

/-- The world that the first handling of a single-document run for the created
issue `A` leaves behind, starting from `exSingleDocumentWorld`: the account
stands at one document of its quota. -/
def exSingleDocumentReplayWorld : World :=
  { db :=
      { accounts := [{ exAccount 1 with TotalIndexDocumentTokens := 10 }]
        pipelines := [exPipeline]
        pipelineRuns := [exRun SingleDocumentSyncMode PipelineRunTriggerIntegrationChangeEvent
          ChangeActionCreate]
        steps := [{ exStep with Status := PipelineRunStepStatusCompleted
                                StartedAt := some 0, CompletedAt := some 2 }]
        connections := [exConnection]
        documents := [{ exRow "A" "f1" with CreatedAt := 1, UpdatedAt := some 1,
                                            TokenCount := 10 }] }
    trace :=
      [.GetPipelineStep "R1" "D1", .GetPipeline "P1", .GetPipelineRun "R1",
       .GetIntegrationConnection "acct" "linear", .GetAccount "acct",
       .UpdatePipelineRunStep "R1" "D1" PipelineRunStepStatusRunning none (some 0) none,
       .IncreaseTotalIndexedCount "acct" 1,
       .GetDocument "issue" "A" exConnection,
       .GetDocumentForIntegration "acct" "P1" "linear" "issue" "A",
       .GetDocumentContent "issue" "A" exConnection,
       .HelperCountDocumentTokens "text",
       .HelperIngestDocument exSplitter exPipeline.Config.Embeddings [] "key" (exDoc "A" "f1")
        "text" [],
       .IncreaseTotalDocumentTokens "acct" 10,
       .UpsertDocument { exRow "A" "f1" with CreatedAt := 1, UpdatedAt := some 1,
                                             TokenCount := 10 },
       .UpdatePipelineRunStep "R1" "D1" PipelineRunStepStatusCompleted none (some 0) (some 2)]
    clockReads := 3 }

/-- The world that the first handling of a full index over the listing of the
one issue `A` leaves behind for an account that stood at 99 of its 100
documents: the quota is used up. -/
def exQuotaReplayWorld : World :=
  { db :=
      { accounts := [{ exAccount 100 with TotalIndexDocumentTokens := 10 }]
        pipelines := [exPipeline]
        pipelineRuns := [exRun FullIndexSyncMode PipelineRunTriggerManual ChangeActionCreate]
        steps := [{ exStep with Status := PipelineRunStepStatusCompleted
                                StartedAt := some 0, CompletedAt := some 2 }]
        connections := [exConnection]
        documents := [{ exRow "A" "f1" with CreatedAt := 1, UpdatedAt := some 1,
                                            TokenCount := 10 }] }
    trace :=
      [.GetPipelineStep "R1" "D1", .GetPipeline "P1", .GetPipelineRun "R1",
       .GetIntegrationConnection "acct" "linear", .GetAccount "acct",
       .UpdatePipelineRunStep "R1" "D1" PipelineRunStepStatusRunning none (some 0) none,
       .ListDocuments exConnection,
       .IncreaseTotalIndexedCount "acct" 1,
       .GetDocumentForIntegration "acct" "P1" "linear" "issue" "A",
       .GetDocumentContent "issue" "A" exConnection,
       .HelperCountDocumentTokens "text",
       .HelperIngestDocument exSplitter exPipeline.Config.Embeddings [] "key" (exDoc "A" "f1")
        "text" [],
       .IncreaseTotalDocumentTokens "acct" 10,
       .UpsertDocument { exRow "A" "f1" with CreatedAt := 1, UpdatedAt := some 1,
                                             TokenCount := 10 },
       .GetMissingDocuments "acct" "P1" "linear" ["A"],
       .UpdatePipelineRunStep "R1" "D1" PipelineRunStepStatusCompleted none (some 0) (some 2)]
    clockReads := 3 }

/-! ## Basic facts about computations -/

theorem bind_eq {α β : Type} (m : M α) (f : α → M β) : (m >>= f) = M.bind m f := rfl

theorem pure_eq {α : Type} (a : α) : (pure a : M α) = M.pure a := rfl

theorem M.bind_ok_iff {α β : Type} (m : M α) (f : α → M β) (w w2 : World) (b : β) :
    M.bind m f w = (.ok b, w2) ↔ ∃ a w1, m w = (.ok a, w1) ∧ f a w1 = (.ok b, w2) := by
  unfold M.bind
  constructor
  · intro h
    rcases hm : m w with ⟨r, w1⟩
    rw [hm] at h
    cases r with
    | ok a => exact ⟨a, w1, rfl, h⟩
    | error e => simp at h
    | panic => simp at h
  · rintro ⟨a, w1, hm, hf⟩
    rw [hm]
    exact hf

theorem wrapErr_ok_iff {α : Type} (msg : String) (m : M α) (w w2 : World) (a : α) :
    wrapErr msg m w = (.ok a, w2) ↔ m w = (.ok a, w2) := by
  unfold wrapErr
  rcases hm : m w with ⟨r, w1⟩
  cases r <;> simp

theorem storeCall_ok_iff {α : Type} (env : Env) (ev : Event) (read : DB → α) (write : DB → DB)
    (w w2 : World) (a : α) :
    storeCall env ev read write w = (.ok a, w2) ↔
      env.storeError w.trace ev = none ∧ a = read w.db ∧
        w2 = { w with trace := w.trace ++ [ev], db := write w.db } := by
  unfold storeCall
  cases h : env.storeError w.trace ev <;> simp [eq_comm]

theorem M.pure_bind {α β : Type} (a : α) (f : α → M β) : M.bind (M.pure a) f = f a := rfl

theorem M.pure_apply {α : Type} (a : α) (w : World) : M.pure a w = (.ok a, w) := rfl

theorem deref_some {α : Type} (a : α) : deref (some a) = M.pure a := rfl

theorem bind_deref_none {α β : Type} (f : α → M β) (w : World) :
    M.bind (deref none) f w = (.panic, w) := rfl

theorem wrapErr_storeCall {α : Type} (msg : String) (env : Env) (ev : Event) (read : DB → α)
    (write : DB → DB) (w : World) :
    wrapErr msg (storeCall env ev read write) w =
      match env.storeError w.trace ev with
      | some e => (.error (.wrap msg e), { w with trace := w.trace ++ [ev] })
      | none => (.ok (read w.db), { w with trace := w.trace ++ [ev], db := write w.db }) := by
  unfold wrapErr storeCall
  cases env.storeError w.trace ev <;> rfl

theorem bind_wrapErr_storeCall {α β : Type} (msg : String) (env : Env) (ev : Event)
    (read : DB → α) (write : DB → DB) (f : α → M β) (w : World) :
    M.bind (wrapErr msg (storeCall env ev read write)) f w =
      match env.storeError w.trace ev with
      | some e => (.error (.wrap msg e), { w with trace := w.trace ++ [ev] })
      | none => f (read w.db) { w with trace := w.trace ++ [ev], db := write w.db } := by
  unfold M.bind wrapErr storeCall
  cases env.storeError w.trace ev <;> rfl

theorem bind_catchErr_storeCall {β : Type} (env : Env) (ev : Event) (read : DB → Unit)
    (write : DB → DB) (f : Option Err → M β) (w : World) :
    M.bind (catchErr (storeCall env ev read write)) f w =
      match env.storeError w.trace ev with
      | some e => f (some e) { w with trace := w.trace ++ [ev] }
      | none => f none { w with trace := w.trace ++ [ev], db := write w.db } := by
  unfold M.bind catchErr storeCall
  cases env.storeError w.trace ev <;> rfl

theorem wrapErr_remoteCall {α : Type} (msg : String) (ev : Event)
    (answer : List Event → Except Err α) (w : World) :
    wrapErr msg (remoteCall ev answer) w =
      match answer w.trace with
      | .error e => (.error (.wrap msg e), { w with trace := w.trace ++ [ev] })
      | .ok a => (.ok a, { w with trace := w.trace ++ [ev] }) := by
  unfold wrapErr remoteCall
  cases answer w.trace <;> rfl

theorem bind_wrapErr_remoteCall {α β : Type} (msg : String) (ev : Event)
    (answer : List Event → Except Err α) (f : α → M β) (w : World) :
    M.bind (wrapErr msg (remoteCall ev answer)) f w =
      match answer w.trace with
      | .error e => (.error (.wrap msg e), { w with trace := w.trace ++ [ev] })
      | .ok a => f a { w with trace := w.trace ++ [ev] } := by
  unfold M.bind wrapErr remoteCall
  cases answer w.trace <;> rfl

theorem bind_now {β : Type} (env : Env) (f : Time → M β) (w : World) :
    M.bind (now env) f w = f (env.clock w.clockReads) { w with clockReads := w.clockReads + 1 } :=
  rfl

theorem traceGrows_iff (P : Event → Prop) {α : Type} (m : M α) :
    TraceGrows P m ↔ ∀ w, ∃ suffix, (m w).2.trace = w.trace ++ suffix ∧ ∀ ev ∈ suffix, P ev := by
  unfold TraceGrows
  exact Iff.rfl

theorem grows_pure (P : Event → Prop) {α : Type} (a : α) : TraceGrows P (M.pure a) :=
  (traceGrows_iff P _).mpr fun w => ⟨[], by simp [M.pure], by simp⟩

theorem grows_fail (P : Event → Prop) {α : Type} (e : Err) : TraceGrows P (fail e : M α) :=
  (traceGrows_iff P _).mpr fun w => ⟨[], by simp [fail], by simp⟩

theorem grows_deref (P : Event → Prop) {α : Type} (o : Option α) : TraceGrows P (deref o) := by
  rw [traceGrows_iff]
  intro w
  cases o <;> exact ⟨[], by simp [deref, nilPanic, M.pure], by simp⟩

theorem grows_now (P : Event → Prop) (env : Env) : TraceGrows P (now env) :=
  (traceGrows_iff P _).mpr fun w => ⟨[], by simp [now], by simp⟩

theorem grows_bind (P : Event → Prop) {α β : Type} (m : M α) (f : α → M β)
    (hm : TraceGrows P m) (hf : ∀ a, TraceGrows P (f a)) : TraceGrows P (M.bind m f) := by
  rw [traceGrows_iff] at hm ⊢
  intro w
  obtain ⟨s1, h1, hp1⟩ := hm w
  unfold M.bind
  rcases hmw : m w with ⟨r, w1⟩
  rw [hmw] at h1
  cases r with
  | ok a =>
    obtain ⟨s2, h2, hp2⟩ := (traceGrows_iff P _).mp (hf a) w1
    refine ⟨s1 ++ s2, ?_, ?_⟩
    · simp only [h2]
      simp only [] at h1
      rw [h1, List.append_assoc]
    · intro ev hev
      rcases List.mem_append.mp hev with h | h
      · exact hp1 ev h
      · exact hp2 ev h
  | error e => exact ⟨s1, h1, hp1⟩
  | panic => exact ⟨s1, h1, hp1⟩

theorem grows_wrapErr (P : Event → Prop) {α : Type} (msg : String) (m : M α)
    (hm : TraceGrows P m) : TraceGrows P (wrapErr msg m) := by
  rw [traceGrows_iff] at hm ⊢
  intro w
  obtain ⟨s1, h1, hp1⟩ := hm w
  unfold wrapErr
  rcases hmw : m w with ⟨r, w1⟩
  rw [hmw] at h1
  cases r <;> exact ⟨s1, h1, hp1⟩

theorem grows_catchErr (P : Event → Prop) (m : M Unit) (hm : TraceGrows P m) :
    TraceGrows P (catchErr m) := by
  rw [traceGrows_iff] at hm ⊢
  intro w
  obtain ⟨s1, h1, hp1⟩ := hm w
  unfold catchErr
  rcases hmw : m w with ⟨r, w1⟩
  rw [hmw] at h1
  cases r <;> exact ⟨s1, h1, hp1⟩

theorem grows_storeCall (P : Event → Prop) {α : Type} (env : Env) (ev : Event) (read : DB → α)
    (write : DB → DB) (hev : P ev) : TraceGrows P (storeCall env ev read write) := by
  rw [traceGrows_iff]
  intro w
  refine ⟨[ev], ?_, by simpa using hev⟩
  unfold storeCall
  cases env.storeError w.trace ev <;> rfl

theorem grows_remoteCall (P : Event → Prop) {α : Type} (ev : Event)
    (answer : List Event → Except Err α) (hev : P ev) : TraceGrows P (remoteCall ev answer) := by
  rw [traceGrows_iff]
  intro w
  refine ⟨[ev], ?_, by simpa using hev⟩
  unfold remoteCall
  cases answer w.trace <;> rfl

theorem grows_errgroupRun (P : Event → Prop) {α : Type} (task : α → M Unit)
    (ht : ∀ a, TraceGrows P (task a)) (l : List α) : TraceGrows P (errgroupRun task l) := by
  induction l with
  | nil => exact grows_pure P ()
  | cons a rest ih => exact grows_bind P _ _ (ht a) (fun _ => ih)

theorem retrieveIngestAndUpsert_no_suspension (env : Env) (doc : IndexedDocument)
    (pipeline : Pipeline) (dataSource : PipelineDataSource)
    (integrationConnection : IntegrationConnection) (tokenLimit : Int) :
    TraceGrows (fun ev => ev.isSuspension = false)
      (retrieveIngestAndUpsert env doc pipeline dataSource integrationConnection tokenLimit) := by
  unfold retrieveIngestAndUpsert getDocumentTextContent CountDocumentTokens IngestDocument
    GetDocumentForIntegration IncreaseTotalDocumentTokens UpsertDocument
  simp only [bind_eq, pure_eq]
  repeat' first
    | exact grows_pure _ _
    | exact grows_now _ _
    | exact grows_deref _ _
    | exact grows_fail _ _
    | exact grows_storeCall _ _ _ _ _ rfl
    | exact grows_remoteCall _ _ _ rfl
    | refine grows_errgroupRun _ _ (fun _ => ?_) _
    | refine grows_bind _ _ _ ?_ (fun _ => ?_)
    | refine grows_wrapErr _ _ _ ?_
    | refine grows_catchErr _ _ ?_
    | split

theorem deleteDocument_no_suspension (env : Env) (integration : Integration)
    (docType docId : String) (pipeline : Pipeline) :
    TraceGrows (fun ev => ev.isSuspension = false)
      (deleteDocument env integration docType docId pipeline) := by
  unfold deleteDocument HelperDeleteDocument DeleteDocument
  simp only [bind_eq, pure_eq]
  repeat' first
    | exact grows_pure _ _
    | exact grows_now _ _
    | exact grows_deref _ _
    | exact grows_fail _ _
    | exact grows_storeCall _ _ _ _ _ rfl
    | exact grows_remoteCall _ _ _ rfl
    | refine grows_errgroupRun _ _ (fun _ => ?_) _
    | refine grows_bind _ _ _ ?_ (fun _ => ?_)
    | refine grows_wrapErr _ _ _ ?_

theorem checkQuotas_no_suspension (env : Env) (pipelineRunStep : PipelineRunStep)
    (account : Account) (indexedDocs : DocMap) :
    TraceGrows (fun ev => ev.isSuspension = false)
      (checkQuotas env pipelineRunStep account indexedDocs) := by
  unfold checkQuotas UpdatePipelineRunStep IncreaseTotalIndexedCount
  simp only [bind_eq, pure_eq]
  repeat' first
    | exact grows_pure _ _
    | exact grows_now _ _
    | exact grows_deref _ _
    | exact grows_fail _ _
    | exact grows_storeCall _ _ _ _ _ rfl
    | exact grows_remoteCall _ _ _ rfl
    | refine grows_errgroupRun _ _ (fun _ => ?_) _
    | refine grows_bind _ _ _ ?_ (fun _ => ?_)
    | refine grows_wrapErr _ _ _ ?_
    | refine grows_catchErr _ _ ?_
    | split

theorem runFullIndex_no_suspension (env : Env) (dataSource : PipelineDataSource)
    (integrationConnection : IntegrationConnection) (pipeline : Pipeline)
    (pipelineRunStep : PipelineRunStep) (startedAt : Option Time) (account : Account) :
    TraceGrows (fun ev => ev.isSuspension = false)
      (runFullIndex env dataSource integrationConnection pipeline pipelineRunStep startedAt
        account) := by
  unfold runFullIndex retrieveAllDocuments retrieveAndIngestDocuments deleteDocuments
    GetMissingDocuments UpdatePipelineRunStep
  simp only [bind_eq, pure_eq]
  repeat' first
    | exact grows_pure _ _
    | exact grows_now _ _
    | exact grows_deref _ _
    | exact grows_fail _ _
    | exact grows_storeCall _ _ _ _ _ rfl
    | exact grows_remoteCall _ _ _ rfl
    | exact retrieveIngestAndUpsert_no_suspension ..
    | exact deleteDocument_no_suspension ..
    | exact checkQuotas_no_suspension ..
    | refine grows_errgroupRun _ _ (fun _ => ?_) _
    | refine grows_bind _ _ _ ?_ (fun _ => ?_)
    | refine grows_wrapErr _ _ _ ?_

theorem handleDocumentChange_no_suspension (env : Env) (dataSource : PipelineDataSource)
    (integrationConnection : IntegrationConnection) (pipeline : Pipeline)
    (change : DocumentChange) (tokenLimit : Int) :
    TraceGrows (fun ev => ev.isSuspension = false)
      (handleDocumentChange env dataSource integrationConnection pipeline change tokenLimit) := by
  unfold handleDocumentChange
  simp only [bind_eq, pure_eq]
  repeat' first
    | exact grows_pure _ _
    | exact grows_now _ _
    | exact grows_deref _ _
    | exact grows_fail _ _
    | exact grows_storeCall _ _ _ _ _ rfl
    | exact grows_remoteCall _ _ _ rfl
    | exact retrieveIngestAndUpsert_no_suspension ..
    | exact deleteDocument_no_suspension ..
    | exact checkQuotas_no_suspension ..
    | refine grows_errgroupRun _ _ (fun _ => ?_) _
    | refine grows_bind _ _ _ ?_ (fun _ => ?_)
    | refine grows_wrapErr _ _ _ ?_
    | refine grows_catchErr _ _ ?_
    | split

theorem chainHasFlaggedContent_iff (err : Err) :
    err.chainHasFlaggedContent = true ↔
      ∃ e, err.asDocumentHelperError = some e ∧ e.Code = DocumentHelperErrorCodeFlaggedContent := by
  induction err with
  | other msg => simp [Err.chainHasFlaggedContent, Err.chain, Err.asDocumentHelperError]
  | helper e => simp [Err.chainHasFlaggedContent, Err.chain, Err.asDocumentHelperError]
  | wrap msg inner ih =>
    simpa [Err.chainHasFlaggedContent, Err.chain, Err.asDocumentHelperError] using ih

/-- The recovery code shared by both sync modes, run after an error `err`:
`checkFlaggedAndSuspend(err)` followed by the write of the failed step. -/
theorem recovery_apply (env : Env) (account : Account) (pipelineRunId dataSourceId : String)
    (runError : RunError) (startedAt : Time) (err : Err) (w1 : World) :
    M.bind (wrapErr "unable to check flagged and suspend: " (checkFlaggedAndSuspend env account err))
        (fun _ => wrapErr "unable to update pipeline run step, "
          (UpdatePipelineRunStep env pipelineRunId dataSourceId PipelineRunStepStatusFailed
            (some runError) (some startedAt) none)) w1 =
      if err.chainHasFlaggedContent = true then
        match env.storeError w1.trace (.SuspendAccount account.Id) with
        | some se =>
          (.error (.wrap "unable to check flagged and suspend: "
              (.wrap "unable to suspend account: " se)),
            { w1 with trace := w1.trace ++ [.SuspendAccount account.Id] })
        | none =>
          wrapErr "unable to update pipeline run step, "
            (UpdatePipelineRunStep env pipelineRunId dataSourceId PipelineRunStepStatusFailed
              (some runError) (some startedAt) none)
            { w1 with trace := w1.trace ++ [.SuspendAccount account.Id],
                      db := { w1.db with accounts := suspendRows account.Id w1.db.accounts } }
      else
        wrapErr "unable to update pipeline run step, "
          (UpdatePipelineRunStep env pipelineRunId dataSourceId PipelineRunStepStatusFailed
            (some runError) (some startedAt) none) w1 := by
  by_cases hflag : err.chainHasFlaggedContent = true
  · obtain ⟨e, he, hcode⟩ := (chainHasFlaggedContent_iff err).mp hflag
    simp only [hflag, if_true, checkFlaggedAndSuspend, he, hcode, SuspendAccount]
    unfold M.bind wrapErr storeCall
    cases env.storeError w1.trace (.SuspendAccount account.Id) <;> simp [suspendRows]
  · have hnot : ¬ ∃ e, err.asDocumentHelperError = some e ∧
        e.Code = DocumentHelperErrorCodeFlaggedContent :=
      fun h => hflag ((chainHasFlaggedContent_iff err).mpr h)
    simp only [hflag, if_false]
    unfold checkFlaggedAndSuspend
    cases he : err.asDocumentHelperError with
    | none => simp [pure_eq, M.bind, wrapErr, M.pure]
    | some e =>
      have hne : ¬ e.Code = DocumentHelperErrorCodeFlaggedContent := fun hc => hnot ⟨e, he, hc⟩
      simp [hne, pure_eq, M.bind, wrapErr, M.pure]

theorem wrapErr_updateStep_trace (env : Env) (msg : String) (pipelineRunId dataSourceId : String)
    (status : PipelineRunStepStatus) (error : Option RunError) (startedAt completedAt : Option Time)
    (w : World) :
    (wrapErr msg (UpdatePipelineRunStep env pipelineRunId dataSourceId status error startedAt
        completedAt) w).2.trace =
      w.trace ++ [.UpdatePipelineRunStep pipelineRunId dataSourceId status error startedAt
        completedAt] ∧
    (wrapErr msg (UpdatePipelineRunStep env pipelineRunId dataSourceId status error startedAt
        completedAt) w).2.db.accounts = w.db.accounts ∧
    (env.storeError w.trace (.UpdatePipelineRunStep pipelineRunId dataSourceId status error
        startedAt completedAt) = none →
      (wrapErr msg (UpdatePipelineRunStep env pipelineRunId dataSourceId status error startedAt
        completedAt) w).1 = .ok ()) := by
  unfold UpdatePipelineRunStep
  rw [wrapErr_storeCall]
  cases env.storeError w.trace (.UpdatePipelineRunStep pipelineRunId dataSourceId status error
    startedAt completedAt) <;> simp

/-- What the recovery code does after an error `err` that surfaced in world
`w1`, where the failing call had extended the trace of `w` by `s1`. -/
theorem recovery_post (env : Env) (account : Account) (pipelineRunId dataSourceId : String)
    (runError : RunError) (startedAt : Time) (err : Err) (w w1 : World) (s1 : List Event)
    (r : Res Unit × World)
    (hr : r = M.bind (wrapErr "unable to check flagged and suspend: "
          (checkFlaggedAndSuspend env account err))
        (fun _ => wrapErr "unable to update pipeline run step, "
          (UpdatePipelineRunStep env pipelineRunId dataSourceId PipelineRunStepStatusFailed
            (some runError) (some startedAt) none)) w1)
    (hw1 : w1.trace = w.trace ++ s1) (hs1 : ∀ ev ∈ s1, ev.isSuspension = false) :
    (∃ suffix, r.2.trace = w.trace ++ suffix ∧
      (Event.SuspendAccount account.Id ∈ suffix ↔ err.chainHasFlaggedContent = true) ∧
      (∀ ev ∈ suffix, ev.isSuspension = true → ev = .SuspendAccount account.Id)) ∧
    (err.chainHasFlaggedContent = true →
      env.storeError w1.trace (.SuspendAccount account.Id) = none →
      r.2.trace = w1.trace ++ [.SuspendAccount account.Id,
        .UpdatePipelineRunStep pipelineRunId dataSourceId PipelineRunStepStatusFailed
          (some runError) (some startedAt) none] ∧
      r.2.db.accounts = suspendRows account.Id w1.db.accounts ∧
      (env.storeError (w1.trace ++ [.SuspendAccount account.Id])
          (.UpdatePipelineRunStep pipelineRunId dataSourceId PipelineRunStepStatusFailed
            (some runError) (some startedAt) none) = none → r.1 = .ok ())) ∧
    (err.chainHasFlaggedContent = false →
      r.2.trace = w1.trace ++ [.UpdatePipelineRunStep pipelineRunId dataSourceId
        PipelineRunStepStatusFailed (some runError) (some startedAt) none] ∧
      (env.storeError w1.trace
          (.UpdatePipelineRunStep pipelineRunId dataSourceId PipelineRunStepStatusFailed
            (some runError) (some startedAt) none) = none → r.1 = .ok ())) := by
  have hnos : Event.SuspendAccount account.Id ∉ s1 := fun h => by
    simpa [Event.isSuspension] using hs1 _ h
  rw [recovery_apply] at hr
  by_cases hflag : err.chainHasFlaggedContent = true
  · simp only [hflag, if_true] at hr
    cases hs : env.storeError w1.trace (.SuspendAccount account.Id) with
    | some se =>
      simp only [hs] at hr
      subst hr
      refine ⟨⟨s1 ++ [.SuspendAccount account.Id], by simp [hw1], by simp [hflag], ?_⟩,
        by simp, by simp [hflag]⟩
      intro ev hev hsus
      rcases List.mem_append.mp hev with h | h
      · simp [hs1 ev h] at hsus
      · simpa using h
    | none =>
      simp only [hs] at hr
      obtain ⟨ht, ha, hok⟩ := wrapErr_updateStep_trace env "unable to update pipeline run step, "
        pipelineRunId dataSourceId PipelineRunStepStatusFailed (some runError) (some startedAt) none
        { w1 with trace := w1.trace ++ [.SuspendAccount account.Id],
                  db := { w1.db with accounts := suspendRows account.Id w1.db.accounts } }
      rw [← hr] at ht ha hok
      refine ⟨⟨s1 ++ [.SuspendAccount account.Id, .UpdatePipelineRunStep pipelineRunId
          dataSourceId PipelineRunStepStatusFailed (some runError) (some startedAt) none],
          by simp [ht, hw1], by simp [hflag], ?_⟩, ?_, by simp [hflag]⟩
      · intro ev hev hsus
        rcases List.mem_append.mp hev with h | h
        · simp [hs1 ev h] at hsus
        · simp at h
          rcases h with h | h
          · exact h
          · subst h
            simp [Event.isSuspension] at hsus
      · intro _ _
        exact ⟨by simpa using ht, ha, hok⟩
  · have hflag' : err.chainHasFlaggedContent = false := by simpa using hflag
    simp only [hflag', Bool.false_eq_true, if_false] at hr
    obtain ⟨ht, _, hok⟩ := wrapErr_updateStep_trace env "unable to update pipeline run step, "
      pipelineRunId dataSourceId PipelineRunStepStatusFailed (some runError) (some startedAt) none w1
    rw [← hr] at ht hok
    refine ⟨⟨s1 ++ [.UpdatePipelineRunStep pipelineRunId dataSourceId
        PipelineRunStepStatusFailed (some runError) (some startedAt) none],
        by simp [ht, hw1], ?_, ?_⟩, by simp [hflag'], fun _ => ⟨ht, hok⟩⟩
    · simp [hflag', hnos]
    · intro ev hev hsus
      rcases List.mem_append.mp hev with h | h
      · simp [hs1 ev h] at hsus
      · simp at h
        subst h
        simp [Event.isSuspension] at hsus

theorem fullIndexCase_of_error (env : Env) (dataSource : PipelineDataSource)
    (integrationConnection : IntegrationConnection) (pipeline : Pipeline)
    (pipelineRunStep : PipelineRunStep) (startedAt : Time) (account : Account) (w w1 : World)
    (err : Err)
    (h : runFullIndex env dataSource integrationConnection pipeline pipelineRunStep
      (some startedAt) account w = (.error err, w1)) :
    fullIndexCase env dataSource integrationConnection pipeline pipelineRunStep startedAt account
        w =
      M.bind (wrapErr "unable to check flagged and suspend: "
          (checkFlaggedAndSuspend env account err))
        (fun _ => wrapErr "unable to update pipeline run step, "
          (UpdatePipelineRunStep env pipelineRunStep.PipelineRun pipelineRunStep.DataSource
            PipelineRunStepStatusFailed
            (some { Code := "index_failed", Message := "Unable to run full index" })
            (some startedAt) none)) w1 := by
  unfold fullIndexCase
  simp only [bind_eq]
  conv_lhs => unfold M.bind catchErr
  simp only [h]
  rfl

theorem singleDocumentSync_of_error (env : Env) (dataSource : PipelineDataSource)
    (integrationConnection : IntegrationConnection) (pipeline : Pipeline)
    (pipelineRun : PipelineRun) (pipelineRunStep : PipelineRunStep) (startedAt : Time)
    (account : Account) (event : IntegrationChangeEvent) (w w1 : World) (err : Err)
    (htrigger : pipelineRun.Trigger = PipelineRunTriggerIntegrationChangeEvent)
    (hevent : pipelineRun.IntegrationChangeEvent = some event)
    (h : handleDocumentChange env dataSource integrationConnection pipeline event.Change
      (documentTokenLimit account.IsSubscriber) w = (.error err, w1)) :
    singleDocumentSync env dataSource integrationConnection pipeline pipelineRun pipelineRunStep
        startedAt account w =
      M.bind (wrapErr "unable to check flagged and suspend: "
          (checkFlaggedAndSuspend env account err))
        (fun _ => wrapErr "unable to update pipeline run step, "
          (UpdatePipelineRunStep env pipelineRunStep.PipelineRun pipelineRunStep.DataSource
            PipelineRunStepStatusFailed
            (some { Code := "single_document_sync_failed",
                    Message := "Unable to sync single document" })
            (some startedAt) none)) w1 := by
  unfold singleDocumentSync
  simp only [bind_eq, htrigger, if_true, hevent, deref_some, M.pure_bind]
  conv_lhs => unfold M.bind catchErr
  simp only [h]
  rfl

theorem traceGrows_apply (P : Event → Prop) {α : Type} (m : M α) (hm : TraceGrows P m)
    (w w1 : World) (r : Res α) (h : m w = (r, w1)) :
    ∃ s1, w1.trace = w.trace ++ s1 ∧ ∀ ev ∈ s1, P ev := by
  obtain ⟨s1, h1, h2⟩ := (traceGrows_iff P m).mp hm w
  rw [h] at h1
  exact ⟨s1, h1, h2⟩

theorem bind_deref {α β : Type} (o : Option α) (f : α → M β) (w : World) :
    M.bind (deref o) f w = match o with
      | some a => f a w
      | none => (.panic, w) := by
  cases o <;> rfl

theorem remoteCall_ok_iff {α : Type} (ev : Event) (answer : List Event → Except Err α)
    (w w2 : World) (a : α) :
    remoteCall ev answer w = (.ok a, w2) ↔
      answer w.trace = .ok a ∧ w2 = { w with trace := w.trace ++ [ev] } := by
  unfold remoteCall
  cases h : answer w.trace <;> simp [eq_comm]

theorem documentHasKey_iff (d : Document) (accountId pipelineId : String)
    (integration : Integration) (documentType documentId : String) :
    documentHasKey d accountId pipelineId integration documentType documentId = true ↔
      documentKey d = (accountId, pipelineId, integration, documentType, documentId) := by
  simp [documentHasKey, documentKey]

theorem getDocumentTextContent_ok_db (env : Env) (msg : String) (doc : IndexedDocument)
    (integrationConnection : IntegrationConnection) (w w1 : World) (content : String × Metadata)
    (h : wrapErr msg (getDocumentTextContent env doc integrationConnection) w =
      (.ok content, w1)) :
    w1.db = w.db := by
  rw [wrapErr_ok_iff] at h
  unfold getDocumentTextContent at h
  simp only [bind_eq] at h
  rw [bind_deref] at h
  split at h
  · rw [remoteCall_ok_iff] at h
    rw [h.2]
  · simp at h

theorem retrieveIngestAndUpsert_ok_documents (env : Env) (doc : IndexedDocument)
    (pipeline : Pipeline) (dataSource : PipelineDataSource)
    (integrationConnection : IntegrationConnection) (tokenLimit : Int) (w w1 : World)
    (h : retrieveIngestAndUpsert env doc pipeline dataSource integrationConnection tokenLimit w =
      (.ok (), w1)) :
    (w1.db.documents = w.db.documents ∧
      ∃ row ∈ w.db.documents, documentHasKey row pipeline.Account pipeline.Id doc.Integration
        doc.DocumentType doc.Id = true) ∨
    (∃ nd : Document, documentHasKey nd pipeline.Account pipeline.Id doc.Integration
        doc.DocumentType doc.Id = true ∧
      w1.db.documents = upsertRows nd w.db.documents) := by
  simp only [retrieveIngestAndUpsert, bind_eq, pure_eq, GetDocumentForIntegration,
    CountDocumentTokens, IngestDocument, IncreaseTotalDocumentTokens,
    UpsertDocument] at h
  rw [bind_wrapErr_storeCall] at h
  split at h
  · simp at h
  · split at h
    · rename_i hfresh
      cases h
      left
      refine ⟨rfl, ?_⟩
      cases hf : w.db.documents.find? (fun d => documentHasKey d pipeline.Account pipeline.Id
          doc.Integration doc.DocumentType doc.Id) with
      | none => simp [hf, alreadyFresh] at hfresh
      | some r =>
        have hk := List.find?_some hf
        exact ⟨r, List.mem_of_find?_eq_some hf, hk⟩
    · right
      rw [M.bind_ok_iff] at h
      obtain ⟨content, wa, hcontent, h⟩ := h
      have hdb0 := getDocumentTextContent_ok_db env _ doc integrationConnection _ wa content
        hcontent
      have hdb : wa.db = w.db := hdb0
      rw [bind_wrapErr_remoteCall] at h
      split at h
      · simp at h
      · rename_i tokenCount _
        split at h
        · rw [M.pure_bind, bind_now, wrapErr_storeCall] at h
          split at h
          · simp at h
          · cases h
            simp only [hdb]
            exact ⟨_, by simp [documentHasKey], rfl⟩
        · rw [bind_wrapErr_remoteCall] at h
          split at h
          · simp at h
          · rw [bind_catchErr_storeCall] at h
            split at h
            · rw [M.pure_bind, bind_now, wrapErr_storeCall] at h
              split at h
              · simp at h
              · cases h
                simp only [hdb]
                exact ⟨_, by simp [documentHasKey], rfl⟩
            · rw [M.pure_bind, bind_now, wrapErr_storeCall] at h
              split at h
              · simp at h
              · cases h
                simp only [hdb]
                exact ⟨_, by simp [documentHasKey], rfl⟩

/-! ### The quota loop -/

theorem mapSet_of_not_mem (m : DocMap) (k : String) (v : IndexedDocument)
    (h : k ∉ m.map Prod.fst) : mapSet m k v = m ++ [(k, v)] := by
  unfold mapSet
  have : m.any (fun kv => decide (kv.1 = k)) = false := by
    rw [List.any_eq_false]
    intro kv hkv
    simp only [decide_eq_true_eq]
    intro hk
    exact h (List.mem_map.mpr ⟨kv, hkv, hk⟩)
  simp [this]

theorem sliceLoop_eq (r : Int) (rest sliced : DocMap)
    (hnodup : ((sliced ++ rest).map Prod.fst).Nodup) (hlen : (sliced.length : Int) ≤ r) :
    sliceLoop r rest sliced = sliced ++ rest.take (r.toNat - sliced.length) := by
  induction rest generalizing sliced with
  | nil => simp [sliceLoop]
  | cons kv rest ih =>
    obtain ⟨k, v⟩ := kv
    unfold sliceLoop
    by_cases hfull : (sliced.length : Int) = r
    · have : r.toNat - sliced.length = 0 := by omega
      simp [hfull, this]
    · have hk : k ∉ sliced.map Prod.fst := by
        intro hmem
        rw [List.map_append, List.nodup_append] at hnodup
        exact hnodup.2.2 hmem (by simp)
      rw [if_neg hfull, mapSet_of_not_mem _ _ _ hk]
      have hnodup' : (((sliced ++ [(k, v)]) ++ rest).map Prod.fst).Nodup := by
        simpa using hnodup
      have hlen' : (((sliced ++ [(k, v)]).length : Nat) : Int) ≤ r := by
        simp only [List.length_append, List.length_singleton]
        omega
      rw [ih _ hnodup' hlen']
      have hpos : r.toNat - sliced.length = (r.toNat - (sliced ++ [(k, v)]).length) + 1 := by
        simp only [List.length_append, List.length_singleton]
        omega
      rw [hpos, List.take_succ_cons]
      simp

theorem sliceLoop_take (r : Int) (listing : DocMap) (hnodup : (listing.map Prod.fst).Nodup)
    (hr : 0 ≤ r) : sliceLoop r listing [] = listing.take r.toNat := by
  have := sliceLoop_eq r listing [] (by simpa using hnodup) (by simpa using hr)
  simpa using this

/-! ### Upserts -/

theorem mem_upsertRows (nd row : Document) (rows : List Document)
    (h : row ∈ upsertRows nd rows) : row ∈ rows ∨ row = nd := by
  unfold upsertRows at h
  split at h
  · obtain ⟨d, hd, hrow⟩ := List.mem_map.mp h
    split at hrow
    · exact Or.inr hrow.symm
    · exact Or.inl (hrow ▸ hd)
  · rcases List.mem_append.mp h with h | h
    · exact Or.inl h
    · exact Or.inr (by simpa using h)

theorem mem_upsertRows_self (nd : Document) (rows : List Document) : nd ∈ upsertRows nd rows := by
  unfold upsertRows
  split
  · rename_i hany
    obtain ⟨d, hd, hkey⟩ := List.any_eq_true.mp hany
    exact List.mem_map.mpr ⟨d, hd, by simp [hkey]⟩
  · simp

theorem mem_upsertRows_of_mem (nd row : Document) (rows : List Document) (h : row ∈ rows)
    (hkey : documentHasKey row nd.AccountId nd.PipelineId nd.Integration nd.DocumentType nd.Id =
      false) :
    row ∈ upsertRows nd rows := by
  unfold upsertRows
  split
  · exact List.mem_map.mpr ⟨row, h, by simp [hkey]⟩
  · exact List.mem_append.mpr (Or.inl h)

theorem documentHasKey_self (nd : Document) :
    documentHasKey nd nd.AccountId nd.PipelineId nd.Integration nd.DocumentType nd.Id = true := by
  simp [documentHasKey]

theorem documentKey_eq_of_hasKey (a b : Document)
    (h : documentHasKey a b.AccountId b.PipelineId b.Integration b.DocumentType b.Id = true) :
    documentKey a = documentKey b := by
  simpa [documentHasKey_iff, documentKey] using h

theorem upsertRows_keeps_keys (nd row : Document) (rows : List Document) (h : row ∈ rows) :
    ∃ row' ∈ upsertRows nd rows, documentKey row' = documentKey row := by
  cases hkey : documentHasKey row nd.AccountId nd.PipelineId nd.Integration nd.DocumentType nd.Id
  · exact ⟨row, mem_upsertRows_of_mem nd row rows h hkey, rfl⟩
  · exact ⟨nd, mem_upsertRows_self nd rows, (documentKey_eq_of_hasKey row nd hkey).symm⟩

/-! ### The ingest fan-out on a run without errors -/

theorem retrieveIngestAndUpsert_ok_rows (env : Env) (doc : IndexedDocument)
    (pipeline : Pipeline) (dataSource : PipelineDataSource)
    (integrationConnection : IntegrationConnection) (tokenLimit : Int) (w w1 : World)
    (h : retrieveIngestAndUpsert env doc pipeline dataSource integrationConnection tokenLimit w =
      (.ok (), w1)) :
    (∀ row ∈ w1.db.documents, row ∈ w.db.documents ∨
      documentHasKey row pipeline.Account pipeline.Id doc.Integration doc.DocumentType doc.Id =
        true) ∧
    (∀ row ∈ w.db.documents,
      documentHasKey row pipeline.Account pipeline.Id doc.Integration doc.DocumentType doc.Id =
        false → row ∈ w1.db.documents) ∧
    (∃ row ∈ w1.db.documents,
      documentHasKey row pipeline.Account pipeline.Id doc.Integration doc.DocumentType doc.Id =
        true) ∧
    (∀ row ∈ w.db.documents, ∃ row' ∈ w1.db.documents, documentKey row' = documentKey row) := by
  rcases retrieveIngestAndUpsert_ok_documents env doc pipeline dataSource integrationConnection
    tokenLimit w w1 h with ⟨hsame, row, hrow, hkey⟩ | ⟨nd, hnd, hup⟩
  · rw [hsame]
    exact ⟨fun r hr => Or.inl hr, fun r hr _ => hr, ⟨row, hrow, hkey⟩, fun r hr => ⟨r, hr, rfl⟩⟩
  · rw [hup]
    have hndkey := (documentHasKey_iff nd _ _ _ _ _).mp hnd
    simp only [documentKey, Prod.mk.injEq] at hndkey
    obtain ⟨h1, h2, h3, h4, h5⟩ := hndkey
    refine ⟨?_, ?_, ⟨nd, mem_upsertRows_self nd _, hnd⟩, fun r hr => upsertRows_keeps_keys nd r _ hr⟩
    · intro r hr
      rcases mem_upsertRows nd r _ hr with h | h
      · exact Or.inl h
      · exact Or.inr (h ▸ hnd)
    · intro r hr hkey
      refine mem_upsertRows_of_mem nd r _ hr ?_
      rw [h1, h2, h3, h4, h5]
      exact hkey

theorem documentHasKey_congr (a b : Document) (h : documentKey a = documentKey b)
    (accountId pipelineId : String) (integration : Integration) (documentType documentId : String) :
    documentHasKey a accountId pipelineId integration documentType documentId =
      documentHasKey b accountId pipelineId integration documentType documentId := by
  simp only [documentKey, Prod.mk.injEq] at h
  obtain ⟨h1, h2, h3, h4, h5⟩ := h
  simp [documentHasKey, h1, h2, h3, h4, h5]

theorem ingest_ok_rows (env : Env) (pipeline : Pipeline) (dataSource : PipelineDataSource)
    (integrationConnection : IntegrationConnection) (tokenLimit : Int) (docs : DocMap) :
    ∀ (w w2 : World),
      errgroupRun (fun kv => retrieveIngestAndUpsert env kv.2 pipeline dataSource
        integrationConnection tokenLimit) docs w = (.ok (), w2) →
      (∀ row ∈ w2.db.documents, row ∈ w.db.documents ∨
        ∃ kv ∈ docs, documentHasKey row pipeline.Account pipeline.Id kv.2.Integration
          kv.2.DocumentType kv.2.Id = true) ∧
      (∀ row ∈ w.db.documents,
        (∀ kv ∈ docs, documentHasKey row pipeline.Account pipeline.Id kv.2.Integration
          kv.2.DocumentType kv.2.Id = false) → row ∈ w2.db.documents) ∧
      (∀ kv ∈ docs, ∃ row ∈ w2.db.documents,
        documentHasKey row pipeline.Account pipeline.Id kv.2.Integration kv.2.DocumentType
          kv.2.Id = true) ∧
      (∀ row ∈ w.db.documents, ∃ row' ∈ w2.db.documents, documentKey row' = documentKey row) := by
  induction docs with
  | nil =>
    intro w w2 h
    cases h
    exact ⟨fun r hr => Or.inl hr, fun r hr _ => hr, by simp, fun r hr => ⟨r, hr, rfl⟩⟩
  | cons kv rest ih =>
    intro w w2 h
    unfold errgroupRun at h
    rw [M.bind_ok_iff] at h
    obtain ⟨_, w1, htask, hrest⟩ := h
    obtain ⟨t1, t2, t3, t4⟩ := retrieveIngestAndUpsert_ok_rows env kv.2 pipeline dataSource
      integrationConnection tokenLimit w w1 htask
    obtain ⟨r1, r2, r3, r4⟩ := ih w1 w2 hrest
    refine ⟨?_, ?_, ?_, ?_⟩
    · intro row hrow
      rcases r1 row hrow with h | ⟨kv', hkv', hk⟩
      · rcases t1 row h with h | h
        · exact Or.inl h
        · exact Or.inr ⟨kv, by simp, h⟩
      · exact Or.inr ⟨kv', by simp [hkv'], hk⟩
    · intro row hrow hno
      exact r2 row (t2 row hrow (hno kv (by simp))) (fun kv' hkv' => hno kv' (by simp [hkv']))
    · intro kv' hkv'
      rcases List.mem_cons.mp hkv' with h | h
      · subst h
        obtain ⟨row, hrow, hk⟩ := t3
        obtain ⟨row', hrow', hkey⟩ := r4 row hrow
        exact ⟨row', hrow', by rw [documentHasKey_congr row' row hkey]; exact hk⟩
      · exact r3 kv' h
    · intro row hrow
      obtain ⟨row1, hrow1, hk1⟩ := t4 row hrow
      obtain ⟨row2, hrow2, hk2⟩ := r4 row1 hrow1
      exact ⟨row2, hrow2, hk2.trans hk1⟩

/-! ### The drift deletion on a run without errors -/

theorem deleteDocument_ok (env : Env) (integration : Integration) (docType docId : String)
    (pipeline : Pipeline) (w w1 : World)
    (h : deleteDocument env integration docType docId pipeline w = (.ok (), w1)) :
    w1.db.documents = w.db.documents.filter (fun d =>
      !(documentHasKey d pipeline.Account pipeline.Id integration docType docId)) ∧
    w1.trace = w.trace ++
      [.HelperDeleteDocument pipeline.Config.DataSinks integration docType docId,
       .DeleteDocument pipeline.Account pipeline.Id integration docType docId] := by
  simp only [deleteDocument, bind_eq, HelperDeleteDocument, DeleteDocument] at h
  rw [bind_wrapErr_remoteCall] at h
  split at h
  · simp at h
  · rw [wrapErr_storeCall] at h
    split at h
    · simp at h
    · cases h
      simp

theorem deletes_ok (env : Env) (pipeline : Pipeline) (deletedDocs : List Document) :
    ∀ (w w2 : World),
      errgroupRun (fun doc => deleteDocument env doc.Integration doc.DocumentType doc.Id pipeline)
        deletedDocs w = (.ok (), w2) →
      (∀ row, row ∈ w2.db.documents ↔ row ∈ w.db.documents ∧
        ∀ x ∈ deletedDocs, documentHasKey row pipeline.Account pipeline.Id x.Integration
          x.DocumentType x.Id = false) ∧
      ∃ suffix, w2.trace = w.trace ++ suffix ∧
        ∀ x ∈ deletedDocs, Event.HelperDeleteDocument pipeline.Config.DataSinks x.Integration
          x.DocumentType x.Id ∈ suffix := by
  induction deletedDocs with
  | nil =>
    intro w w2 h
    cases h
    exact ⟨by simp, [], by simp, by simp⟩
  | cons x rest ih =>
    intro w w2 h
    unfold errgroupRun at h
    rw [M.bind_ok_iff] at h
    obtain ⟨_, w1, htask, hrest⟩ := h
    obtain ⟨hdocs, htrace⟩ := deleteDocument_ok env x.Integration x.DocumentType x.Id pipeline w w1
      htask
    obtain ⟨r1, s, hs, r2⟩ := ih w1 w2 hrest
    refine ⟨?_, [.HelperDeleteDocument pipeline.Config.DataSinks x.Integration x.DocumentType x.Id,
      .DeleteDocument pipeline.Account pipeline.Id x.Integration x.DocumentType x.Id] ++ s,
      by rw [hs, htrace, List.append_assoc], ?_⟩
    · intro row
      rw [r1 row, hdocs]
      simp only [List.mem_filter, Bool.not_eq_true', List.mem_cons, forall_eq_or_imp]
      tauto
    · intro y hy
      rcases List.mem_cons.mp hy with h | h
      · subst h
        simp
      · exact List.mem_append.mpr (Or.inr (r2 y h))

theorem deleteDocuments_ok (env : Env) (integrationConnection : IntegrationConnection)
    (pipeline : Pipeline) (indexedDocs : DocMap) (w w2 : World)
    (h : deleteDocuments env integrationConnection pipeline indexedDocs w = (.ok (), w2)) :
    (∀ row, row ∈ w2.db.documents ↔ row ∈ w.db.documents ∧
      ∀ x ∈ missingRows pipeline.Account pipeline.Id integrationConnection.Integration
          (indexedDocs.map (fun kv => kv.2.Id)) w.db.documents,
        documentHasKey row pipeline.Account pipeline.Id x.Integration x.DocumentType x.Id =
          false) ∧
    ∃ suffix, w2.trace = w.trace ++ suffix ∧
      ∀ x ∈ missingRows pipeline.Account pipeline.Id integrationConnection.Integration
          (indexedDocs.map (fun kv => kv.2.Id)) w.db.documents,
        Event.HelperDeleteDocument pipeline.Config.DataSinks x.Integration x.DocumentType x.Id ∈
          suffix := by
  simp only [deleteDocuments, bind_eq, GetMissingDocuments] at h
  rw [bind_wrapErr_storeCall] at h
  split at h
  · simp at h
  · rw [wrapErr_ok_iff] at h
    obtain ⟨r1, s, hs, r2⟩ := deletes_ok env pipeline _ _ w2 h
    refine ⟨r1, Event.GetMissingDocuments pipeline.Account pipeline.Id
      integrationConnection.Integration (indexedDocs.map (fun kv => kv.2.Id)) :: s, ?_,
      fun x hx => List.mem_cons_of_mem _ (r2 x hx)⟩
    rw [hs]
    simp

/-! ### The quota block and the whole full index on a run without errors -/

theorem checkQuotas_ok (env : Env) (pipelineRunStep : PipelineRunStep) (account : Account)
    (indexedDocs docs : DocMap) (w w1 : World)
    (h : checkQuotas env pipelineRunStep account indexedDocs w = (.ok docs, w1)) :
    w1.db.documents = w.db.documents ∧
    (account.IsUnlimited = true → docs = indexedDocs ∧ w1 = w) ∧
    (account.IsUnlimited = false →
      docs = sliceLoop (totalIndexedDocumentsLimit account.IsSubscriber -
        account.TotalIndexedDocumentCount) indexedDocs [] ∧
      w1.trace = w.trace ++ quotaCalls pipelineRunStep account docs.length) := by
  unfold checkQuotas at h
  cases hunl : account.IsUnlimited with
  | true =>
    simp only [hunl, Bool.not_true, Bool.false_eq_true, if_false, pure_eq] at h
    cases h
    simp
  | false =>
    simp only [hunl, Bool.not_false, if_true, bind_eq, pure_eq, UpdatePipelineRunStep,
      IncreaseTotalIndexedCount] at h
    by_cases hzero : totalIndexedDocumentsLimit account.IsSubscriber -
        account.TotalIndexedDocumentCount = 0
    · simp only [hzero, if_true] at h
      rw [bind_wrapErr_storeCall] at h
      split at h
      · simp at h
      · rw [bind_wrapErr_storeCall] at h
        split at h
        · simp at h
        · cases h
          simp [quotaCalls, hzero]
    · simp only [hzero, if_false, M.pure_bind] at h
      rw [bind_wrapErr_storeCall] at h
      split at h
      · simp at h
      · cases h
        simp [quotaCalls, hzero]

theorem runFullIndex_ok (env : Env) (dataSource : PipelineDataSource)
    (integrationConnection : IntegrationConnection) (pipeline : Pipeline)
    (pipelineRunStep : PipelineRunStep) (startedAt : Option Time) (account : Account)
    (w w4 : World)
    (h : runFullIndex env dataSource integrationConnection pipeline pipelineRunStep startedAt
      account w = (.ok (), w4)) :
    ∃ client listing docs w1 w2 w3,
      env.clients integrationConnection.Integration = some client ∧
      client.ListDocuments w.trace integrationConnection = .ok listing ∧
      checkQuotas env pipelineRunStep account listing
        { w with trace := w.trace ++ [.ListDocuments integrationConnection] } = (.ok docs, w1) ∧
      errgroupRun (fun kv => retrieveIngestAndUpsert env kv.2 pipeline dataSource
        integrationConnection (documentTokenLimit account.IsSubscriber)) docs w1 = (.ok (), w2) ∧
      deleteDocuments env integrationConnection pipeline docs w2 = (.ok (), w3) ∧
      w4.db.documents = w3.db.documents ∧
      w4.trace = w3.trace ++ [.UpdatePipelineRunStep pipelineRunStep.PipelineRun
        pipelineRunStep.DataSource PipelineRunStepStatusCompleted none startedAt
        (some (env.clock w3.clockReads))] := by
  simp only [runFullIndex, bind_eq, retrieveAllDocuments, retrieveAndIngestDocuments] at h
  rw [M.bind_ok_iff] at h
  obtain ⟨listing, w0, hlist, h⟩ := h
  rw [wrapErr_ok_iff, bind_deref] at hlist
  split at hlist
  · rename_i client hclient
    rw [remoteCall_ok_iff] at hlist
    obtain ⟨hl, hw0⟩ := hlist
    subst hw0
    rw [M.bind_ok_iff] at h
    obtain ⟨docs, w1, hquota, h⟩ := h
    rw [M.bind_ok_iff] at h
    obtain ⟨_, w2, hingest, h⟩ := h
    rw [wrapErr_ok_iff] at hingest
    rw [M.bind_ok_iff] at h
    obtain ⟨_, w3, hdelete, h⟩ := h
    rw [bind_now, UpdatePipelineRunStep, wrapErr_storeCall] at h
    split at h
    · simp at h
    · cases h
      exact ⟨client, listing, docs, w1, w2, w3, hclient, hl, hquota, hingest, hdelete, rfl, rfl⟩
  · simp at hlist

theorem mem_mapSet (m : DocMap) (k : String) (v : IndexedDocument) (kv : String × IndexedDocument)
    (h : kv ∈ mapSet m k v) : kv ∈ m ∨ kv = (k, v) := by
  unfold mapSet at h
  split at h
  · obtain ⟨x, hx, hkv⟩ := List.mem_map.mp h
    split at hkv
    · exact Or.inr hkv.symm
    · exact Or.inl (hkv ▸ hx)
  · rcases List.mem_append.mp h with h | h
    · exact Or.inl h
    · exact Or.inr (by simpa using h)

theorem mem_sliceLoop (r : Int) (rest sliced : DocMap) (kv : String × IndexedDocument)
    (h : kv ∈ sliceLoop r rest sliced) : kv ∈ sliced ∨ kv ∈ rest := by
  induction rest generalizing sliced with
  | nil => exact Or.inl (by simpa [sliceLoop] using h)
  | cons x rest ih =>
    obtain ⟨k, v⟩ := x
    unfold sliceLoop at h
    split at h
    · exact Or.inl h
    · rcases ih _ h with h | h
      · rcases mem_mapSet _ _ _ _ h with h | h
        · exact Or.inl h
        · exact Or.inr (by simp [h])
      · exact Or.inr (List.mem_cons_of_mem _ h)

/-! ### Which calls a full index makes -/

theorem TraceGrows.mono {P Q : Event → Prop} {α : Type} {m : M α} (h : TraceGrows P m)
    (hPQ : ∀ ev, P ev → Q ev) : TraceGrows Q m := by
  rw [traceGrows_iff] at h ⊢
  intro w
  obtain ⟨s, hs, hp⟩ := h w
  exact ⟨s, hs, fun ev hev => hPQ ev (hp ev hev)⟩

theorem grows_bind_of_ret (P : Event → Prop) {α β : Type} (Q : α → Prop) (m : M α)
    (f : α → M β) (hm : TraceGrows P m) (hret : ∀ w a w1, m w = (.ok a, w1) → Q a)
    (hf : ∀ a, Q a → TraceGrows P (f a)) : TraceGrows P (M.bind m f) := by
  rw [traceGrows_iff] at hm ⊢
  intro w
  obtain ⟨s1, h1, hp1⟩ := hm w
  unfold M.bind
  rcases hmw : m w with ⟨r, w1⟩
  rw [hmw] at h1
  cases r with
  | ok a =>
    obtain ⟨s2, h2, hp2⟩ := (traceGrows_iff P _).mp (hf a (hret w a w1 hmw)) w1
    refine ⟨s1 ++ s2, ?_, ?_⟩
    · simp only [h2]
      simp only [] at h1
      rw [h1, List.append_assoc]
    · intro ev hev
      rcases List.mem_append.mp hev with h | h
      · exact hp1 ev h
      · exact hp2 ev h
  | error e => exact ⟨s1, h1, hp1⟩
  | panic => exact ⟨s1, h1, hp1⟩

theorem grows_errgroupRun_mem (P : Event → Prop) {α : Type} (task : α → M Unit) (l : List α)
    (ht : ∀ a ∈ l, TraceGrows P (task a)) : TraceGrows P (errgroupRun task l) := by
  induction l with
  | nil => exact grows_pure P ()
  | cons a rest ih =>
    exact grows_bind P _ _ (ht a (by simp)) (fun _ => ih (fun b hb => ht b (by simp [hb])))

theorem grows_after_first (P : Event → Prop) {α β : Type} (msg : String) (env : Env) (ev : Event)
    (read : DB → α) (write : DB → DB) (k : α → M β) (hk : ∀ a, TraceGrows P (k a)) (w : World) :
    ∃ s, (M.bind (wrapErr msg (storeCall env ev read write)) k w).2.trace = w.trace ++ ev :: s ∧
      ∀ e ∈ s, P e := by
  rw [bind_wrapErr_storeCall]
  split
  · exact ⟨[], by simp, by simp⟩
  · obtain ⟨s, hs, hp⟩ := (traceGrows_iff P _).mp (hk (read w.db))
      { w with trace := w.trace ++ [ev], db := write w.db }
    exact ⟨s, by rw [hs]; simp, hp⟩

theorem retrieveIngestAndUpsert_trace (env : Env) (doc : IndexedDocument)
    (pipeline : Pipeline) (dataSource : PipelineDataSource)
    (integrationConnection : IntegrationConnection) (tokenLimit : Int) (w : World) :
    ∃ s, (retrieveIngestAndUpsert env doc pipeline dataSource integrationConnection tokenLimit
        w).2.trace =
      w.trace ++ Event.GetDocumentForIntegration pipeline.Account pipeline.Id doc.Integration
        doc.DocumentType doc.Id :: s ∧
      ∀ e ∈ s, e.isIngestStep = true := by
  unfold retrieveIngestAndUpsert getDocumentTextContent CountDocumentTokens IngestDocument
    GetDocumentForIntegration IncreaseTotalDocumentTokens UpsertDocument
  simp only [bind_eq, pure_eq]
  refine grows_after_first _ _ _ _ _ _ _ (fun _ => ?_) w
  repeat' first
    | exact grows_pure _ _
    | exact grows_now _ _
    | exact grows_deref _ _
    | exact grows_storeCall _ _ _ _ _ rfl
    | exact grows_remoteCall _ _ _ rfl
    | refine grows_bind _ _ _ ?_ (fun _ => ?_)
    | refine grows_wrapErr _ _ _ ?_
    | refine grows_catchErr _ _ ?_
    | split

theorem deleteDocuments_grows (env : Env) (integrationConnection : IntegrationConnection)
    (pipeline : Pipeline) (indexedDocs : DocMap) :
    TraceGrows (fun ev => ev.isDriftStep = true)
      (deleteDocuments env integrationConnection pipeline indexedDocs) := by
  unfold deleteDocuments GetMissingDocuments deleteDocument HelperDeleteDocument DeleteDocument
  simp only [bind_eq, pure_eq]
  repeat' first
    | exact grows_storeCall _ _ _ _ _ rfl
    | exact grows_remoteCall _ _ _ rfl
    | refine grows_errgroupRun _ _ (fun _ => ?_) _
    | refine grows_bind _ _ _ ?_ (fun _ => ?_)
    | refine grows_wrapErr _ _ _ ?_

theorem ingest_grows (env : Env) (pipeline : Pipeline) (dataSource : PipelineDataSource)
    (integrationConnection : IntegrationConnection) (tokenLimit : Int) (docs : DocMap) :
    TraceGrows (fun ev => ev.isIngestStep = true ∨ ∃ kv ∈ docs, ev = lookupOf pipeline kv)
      (errgroupRun (fun kv => retrieveIngestAndUpsert env kv.2 pipeline dataSource
        integrationConnection tokenLimit) docs) := by
  refine grows_errgroupRun_mem _ _ _ (fun kv hkv => ?_)
  rw [traceGrows_iff]
  intro w
  obtain ⟨s, hs, hp⟩ := retrieveIngestAndUpsert_trace env kv.2 pipeline dataSource
    integrationConnection tokenLimit w
  refine ⟨_ :: s, hs, ?_⟩
  intro ev hev
  rcases List.mem_cons.mp hev with h | h
  · exact Or.inr ⟨kv, hkv, h⟩
  · exact Or.inl (hp ev h)

theorem isLookup_of_isIngestStep (e : Event) (h : e.isIngestStep = true) :
    e.isLookup = false := by
  cases e <;> first | rfl | (simp [Event.isIngestStep] at h)

theorem isIndexedCountUpdate_of_isIngestStep (e : Event) (h : e.isIngestStep = true) :
    e.isIndexedCountUpdate = false := by
  cases e <;> first | rfl | (simp [Event.isIngestStep] at h)

theorem isLookup_of_isDriftStep (e : Event) (h : e.isDriftStep = true) :
    e.isLookup = false := by
  cases e <;> first | rfl | (simp [Event.isDriftStep] at h)

theorem isIndexedCountUpdate_of_isDriftStep (e : Event) (h : e.isDriftStep = true) :
    e.isIndexedCountUpdate = false := by
  cases e <;> first | rfl | (simp [Event.isDriftStep] at h)

theorem ingest_ok_trace (env : Env) (pipeline : Pipeline) (dataSource : PipelineDataSource)
    (integrationConnection : IntegrationConnection) (tokenLimit : Int) (docs : DocMap) :
    ∀ (w w2 : World),
      errgroupRun (fun kv => retrieveIngestAndUpsert env kv.2 pipeline dataSource
        integrationConnection tokenLimit) docs w = (.ok (), w2) →
      ∃ s, w2.trace = w.trace ++ s ∧ s.filter Event.isLookup = docs.map (lookupOf pipeline) ∧
        s.filter Event.isIndexedCountUpdate = [] := by
  induction docs with
  | nil =>
    intro w w2 h
    cases h
    exact ⟨[], by simp, by simp, by simp⟩
  | cons kv rest ih =>
    intro w w2 h
    unfold errgroupRun at h
    rw [M.bind_ok_iff] at h
    obtain ⟨_, w1, htask, hrest⟩ := h
    obtain ⟨s1, hs1, hp1⟩ := retrieveIngestAndUpsert_trace env kv.2 pipeline dataSource
      integrationConnection tokenLimit w
    rw [htask] at hs1
    obtain ⟨s2, hs2, hl2, hc2⟩ := ih w1 w2 hrest
    have hl1 : s1.filter Event.isLookup = [] := by
      rw [List.filter_eq_nil_iff]
      intro e he
      simp [isLookup_of_isIngestStep e (hp1 e he)]
    have hc1 : s1.filter Event.isIndexedCountUpdate = [] := by
      rw [List.filter_eq_nil_iff]
      intro e he
      simp [isIndexedCountUpdate_of_isIngestStep e (hp1 e he)]
    refine ⟨lookupOf pipeline kv :: s1 ++ s2, ?_, ?_, ?_⟩
    · rw [hs2]
      simp only [] at hs1
      rw [hs1]
      simp [lookupOf]
    · simp [List.filter_cons, lookupOf, Event.isLookup, hl1, hl2]
    · simp [List.filter_cons, lookupOf, Event.isIndexedCountUpdate, hc1, hc2]

theorem checkQuotas_ok_eq (env : Env) (pipelineRunStep : PipelineRunStep) (account : Account)
    (listing docs : DocMap) (w w1 : World)
    (h : checkQuotas env pipelineRunStep account listing w = (.ok docs, w1)) :
    docs = quotaTruncated account listing := by
  obtain ⟨-, h2, h3⟩ := checkQuotas_ok env pipelineRunStep account listing docs w w1 h
  unfold quotaTruncated
  cases hunl : account.IsUnlimited with
  | true => simp [(h2 hunl).1]
  | false => simp [(h3 hunl).1]

theorem checkQuotas_calls (env : Env) (pipeline : Pipeline) (pipelineRunStep : PipelineRunStep)
    (account : Account) (listing : DocMap) :
    TraceGrows (FullIndexCall pipeline account (quotaTruncated account listing))
      (checkQuotas env pipelineRunStep account listing) := by
  unfold checkQuotas
  cases hunl : account.IsUnlimited with
  | true =>
    simp only [Bool.not_true, Bool.false_eq_true, if_false, pure_eq]
    exact grows_pure _ _
  | false =>
    simp only [Bool.not_false, if_true, bind_eq, pure_eq, UpdatePipelineRunStep,
      IncreaseTotalIndexedCount]
    repeat' first
      | exact grows_pure _ _
      | exact grows_storeCall _ _ _ _ _
          (by simp [FullIndexCall, Event.isLookup, Event.isIndexedCountUpdate, quotaTruncated,
            hunl])
      | refine grows_bind _ _ _ ?_ (fun _ => ?_)
      | refine grows_wrapErr _ _ _ ?_
      | split

theorem runFullIndex_after_listing (env : Env) (dataSource : PipelineDataSource)
    (integrationConnection : IntegrationConnection) (pipeline : Pipeline)
    (pipelineRunStep : PipelineRunStep) (startedAt : Option Time) (account : Account)
    (w : World) (client : DataSourceApiClient) (listing : DocMap)
    (hclient : env.clients integrationConnection.Integration = some client)
    (hlist : client.ListDocuments w.trace integrationConnection = .ok listing) :
    runFullIndex env dataSource integrationConnection pipeline pipelineRunStep startedAt account
        w =
      M.bind (checkQuotas env pipelineRunStep account listing) (fun indexedDocs =>
        M.bind (retrieveAndIngestDocuments env dataSource integrationConnection pipeline account
          indexedDocs) (fun _ =>
        M.bind (deleteDocuments env integrationConnection pipeline indexedDocs) (fun _ =>
        M.bind (now env) (fun completedAt =>
          wrapErr "unable to update pipeline run step, "
            (UpdatePipelineRunStep env pipelineRunStep.PipelineRun pipelineRunStep.DataSource
              PipelineRunStepStatusCompleted none startedAt (some completedAt))))))
        { w with trace := w.trace ++ [.ListDocuments integrationConnection] } := by
  simp only [runFullIndex, bind_eq, retrieveAllDocuments, hclient, deref_some, M.pure_bind]
  rw [bind_wrapErr_remoteCall, hlist]

theorem runFullIndex_calls (env : Env) (dataSource : PipelineDataSource)
    (integrationConnection : IntegrationConnection) (pipeline : Pipeline)
    (pipelineRunStep : PipelineRunStep) (startedAt : Option Time) (account : Account)
    (w : World) (client : DataSourceApiClient) (listing : DocMap)
    (hclient : env.clients integrationConnection.Integration = some client)
    (hlist : client.ListDocuments w.trace integrationConnection = .ok listing) :
    ∃ suffix,
      (runFullIndex env dataSource integrationConnection pipeline pipelineRunStep startedAt
        account w).2.trace = w.trace ++ Event.ListDocuments integrationConnection :: suffix ∧
      ∀ ev ∈ suffix, FullIndexCall pipeline account (quotaTruncated account listing) ev := by
  rw [runFullIndex_after_listing env dataSource integrationConnection pipeline pipelineRunStep
    startedAt account w client listing hclient hlist]
  have hgrow : TraceGrows (FullIndexCall pipeline account (quotaTruncated account listing))
      (M.bind (checkQuotas env pipelineRunStep account listing) (fun indexedDocs =>
        M.bind (retrieveAndIngestDocuments env dataSource integrationConnection pipeline account
          indexedDocs) (fun _ =>
        M.bind (deleteDocuments env integrationConnection pipeline indexedDocs) (fun _ =>
        M.bind (now env) (fun completedAt =>
          wrapErr "unable to update pipeline run step, "
            (UpdatePipelineRunStep env pipelineRunStep.PipelineRun pipelineRunStep.DataSource
              PipelineRunStepStatusCompleted none startedAt (some completedAt))))))) := by
    refine grows_bind_of_ret _ (fun docs => docs = quotaTruncated account listing) _ _
      (checkQuotas_calls env pipeline pipelineRunStep account listing)
      (fun w0 docs w1 h => checkQuotas_ok_eq env pipelineRunStep account listing docs w0 w1 h)
      (fun docs hdocs => ?_)
    subst hdocs
    refine grows_bind _ _ _ ?_ (fun _ => grows_bind _ _ _ ?_ (fun _ =>
      grows_bind _ _ _ (grows_now _ _) (fun _ => grows_wrapErr _ _ _ ?_)))
    · unfold retrieveAndIngestDocuments
      refine grows_wrapErr _ _ _ ((ingest_grows env pipeline dataSource integrationConnection
        (documentTokenLimit account.IsSubscriber) _).mono ?_)
      rintro ev (h | ⟨kv, hkv, rfl⟩)
      · exact ⟨fun hl => by simp [isLookup_of_isIngestStep ev h] at hl,
          fun hc => by simp [isIndexedCountUpdate_of_isIngestStep ev h] at hc⟩
      · exact ⟨fun _ => ⟨kv, hkv, rfl⟩, fun hc => by simp [lookupOf, Event.isIndexedCountUpdate] at hc⟩
    · refine (deleteDocuments_grows env integrationConnection pipeline _).mono ?_
      intro ev h
      exact ⟨fun hl => by simp [isLookup_of_isDriftStep ev h] at hl,
        fun hc => by simp [isIndexedCountUpdate_of_isDriftStep ev h] at hc⟩
    · unfold UpdatePipelineRunStep
      exact grows_storeCall _ _ _ _ _
        (by simp [FullIndexCall, Event.isLookup, Event.isIndexedCountUpdate])
  obtain ⟨s, hs, hp⟩ := (traceGrows_iff _ _).mp hgrow
    { w with trace := w.trace ++ [.ListDocuments integrationConnection] }
  exact ⟨s, by rw [hs]; simp, hp⟩

theorem runFullIndex_ok_calls (env : Env) (dataSource : PipelineDataSource)
    (integrationConnection : IntegrationConnection) (pipeline : Pipeline)
    (pipelineRunStep : PipelineRunStep) (startedAt : Option Time) (account : Account)
    (w w4 : World) (client : DataSourceApiClient) (listing : DocMap)
    (hclient : env.clients integrationConnection.Integration = some client)
    (hlist : client.ListDocuments w.trace integrationConnection = .ok listing)
    (hrun : runFullIndex env dataSource integrationConnection pipeline pipelineRunStep startedAt
      account w = (.ok (), w4)) :
    ∃ suffix, w4.trace = w.trace ++ Event.ListDocuments integrationConnection :: suffix ∧
      suffix.filter Event.isLookup = (quotaTruncated account listing).map (lookupOf pipeline) ∧
      suffix.filter Event.isIndexedCountUpdate =
        if account.IsUnlimited then []
        else [.IncreaseTotalIndexedCount account.Id
          ((quotaTruncated account listing).length : Int)] := by
  obtain ⟨client', listing', docs, w1, w2, w3, hclient', hlist', hquota, hingest, hdelete, -,
    htrace4⟩ := runFullIndex_ok env dataSource integrationConnection pipeline pipelineRunStep
      startedAt account w w4 hrun
  rw [hclient] at hclient'
  cases hclient'
  rw [hlist] at hlist'
  cases hlist'
  have hdocs := checkQuotas_ok_eq env pipelineRunStep account listing docs _ w1 hquota
  obtain ⟨-, hq2, hq3⟩ := checkQuotas_ok env pipelineRunStep account listing docs _ w1 hquota
  obtain ⟨s2, hs2, hl2, hc2⟩ := ingest_ok_trace env pipeline dataSource integrationConnection
    (documentTokenLimit account.IsSubscriber) docs w1 w2 hingest
  obtain ⟨s3, hs3, hp3⟩ := traceGrows_apply _ _
    (deleteDocuments_grows env integrationConnection pipeline docs) w2 w3 _ hdelete
  have hl3 : s3.filter Event.isLookup = [] := by
    rw [List.filter_eq_nil_iff]
    intro e he
    simp [isLookup_of_isDriftStep e (hp3 e he)]
  have hc3 : s3.filter Event.isIndexedCountUpdate = [] := by
    rw [List.filter_eq_nil_iff]
    intro e he
    simp [isIndexedCountUpdate_of_isDriftStep e (hp3 e he)]
  rw [← hdocs]
  cases hunl : account.IsUnlimited with
  | true =>
    obtain ⟨-, hw1⟩ := hq2 hunl
    subst hw1
    refine ⟨s2 ++ s3 ++ [.UpdatePipelineRunStep pipelineRunStep.PipelineRun
      pipelineRunStep.DataSource PipelineRunStepStatusCompleted none startedAt
      (some (env.clock w3.clockReads))], ?_, ?_, ?_⟩
    · rw [htrace4, hs3, hs2]
      simp
    · simp [List.filter_append, hl2, hl3, Event.isLookup]
    · simp [List.filter_append, hc2, hc3, Event.isIndexedCountUpdate]
  | false =>
    obtain ⟨-, hw1⟩ := hq3 hunl
    refine ⟨quotaCalls pipelineRunStep account docs.length ++ s2 ++ s3 ++
      [.UpdatePipelineRunStep pipelineRunStep.PipelineRun
      pipelineRunStep.DataSource PipelineRunStepStatusCompleted none startedAt
      (some (env.clock w3.clockReads))], ?_, ?_, ?_⟩
    · rw [htrace4, hs3, hs2, hw1]
      simp
    · unfold quotaCalls
      split <;> simp [List.filter_append, List.filter_cons, hl2, hl3, Event.isLookup]
    · unfold quotaCalls
      split <;> simp [List.filter_append, List.filter_cons, hc2, hc3, Event.isIndexedCountUpdate]

theorem innerHandler_fetched (env : Env) (m : IndexMessage) (w : World)
    (step : PipelineRunStep) (pipeline : Pipeline) (dataSource : PipelineDataSource)
    (hf : Fetched env m w step pipeline dataSource) :
    innerHandler env m w =
      runIndexSegment env dataSource (fetchedConnection w pipeline dataSource) pipeline
        (fetchedRun w m) step (fetchedAccount w pipeline) (afterFetch w m pipeline dataSource) := by
  have hstep : w.db.steps.find? (fun s =>
      decide (s.PipelineRun = m.Payload.RunId) && decide (s.DataSource = m.Payload.DataSourceId)) =
      some step := by
    simpa using hf.step_found
  have h1 := hf.reads_answered [] _ _ rfl
  have h2 := hf.reads_answered [_] _ _ rfl
  have h3 := hf.reads_answered [_, _] _ _ rfl
  have h4 := hf.reads_answered [_, _, _] _ _ rfl
  have h5 := hf.reads_answered [_, _, _, _] _ _ rfl
  simp only [List.append_nil] at h1
  simp [innerHandler, runIndexSegment, afterFetch, fetchCalls, fetchedConnection, fetchedRun,
    fetchedAccount, bind_eq, M.bind, wrapErr, GetPipelineStep, GetPipeline, GetPipelineRun,
    GetIntegrationConnection, GetAccount, storeCall, h1, h2, h3, h4, h5, hstep,
    hf.pipeline_found, hf.source_found, pure_eq, M.pure, deref]

theorem processIndexMessage_fetched (env : Env) (msg : Message) (body : String)
    (m : IndexMessage) (w : World) (step : PipelineRunStep) (pipeline : Pipeline)
    (dataSource : PipelineDataSource)
    (hbody : msg.Body = some body) (hdecode : env.unmarshal body = .ok m)
    (hf : Fetched env m w step pipeline dataSource) :
    processIndexMessage env msg w =
      wrapErr "unable to process index message, "
        (runIndexSegment env dataSource (fetchedConnection w pipeline dataSource) pipeline
          (fetchedRun w m) step (fetchedAccount w pipeline)) (afterFetch w m pipeline dataSource) := by
  simp only [processIndexMessage, hbody, hdecode]
  unfold wrapErr
  rw [innerHandler_fetched env m w step pipeline dataSource hf]

theorem exFetched (count : Int) (run : PipelineRun) (rows : List Document) (listing : DocMap)
    (tokens : Int) (ingestError : Option Err) :
    Fetched (exEnv listing tokens ingestError noStoreError) exMessage (exWorld count run rows)
      exStep exPipeline exDataSource :=
  ⟨rfl, rfl, rfl, fun _ _ _ _ => rfl⟩

theorem retrieveIngestAndUpsert_no_stepWrite (env : Env) (doc : IndexedDocument)
    (pipeline : Pipeline) (dataSource : PipelineDataSource)
    (integrationConnection : IntegrationConnection) (tokenLimit : Int) :
    TraceGrows (fun ev => ev.isStepWrite = false)
      (retrieveIngestAndUpsert env doc pipeline dataSource integrationConnection tokenLimit) := by
  unfold retrieveIngestAndUpsert getDocumentTextContent CountDocumentTokens IngestDocument
    GetDocumentForIntegration IncreaseTotalDocumentTokens UpsertDocument
  simp only [bind_eq, pure_eq]
  repeat' first
    | exact grows_pure _ _
    | exact grows_now _ _
    | exact grows_deref _ _
    | exact grows_fail _ _
    | exact grows_storeCall _ _ _ _ _ rfl
    | exact grows_remoteCall _ _ _ rfl
    | refine grows_bind _ _ _ ?_ (fun _ => ?_)
    | refine grows_wrapErr _ _ _ ?_
    | refine grows_catchErr _ _ ?_
    | split

theorem deleteDocument_no_stepWrite (env : Env) (integration : Integration)
    (docType docId : String) (pipeline : Pipeline) :
    TraceGrows (fun ev => ev.isStepWrite = false)
      (deleteDocument env integration docType docId pipeline) := by
  unfold deleteDocument HelperDeleteDocument DeleteDocument
  simp only [bind_eq, pure_eq]
  repeat' first
    | exact grows_storeCall _ _ _ _ _ rfl
    | exact grows_remoteCall _ _ _ rfl
    | refine grows_bind _ _ _ ?_ (fun _ => ?_)
    | refine grows_wrapErr _ _ _ ?_

theorem handleDocumentChange_no_stepWrite (env : Env) (dataSource : PipelineDataSource)
    (integrationConnection : IntegrationConnection) (pipeline : Pipeline)
    (change : DocumentChange) (tokenLimit : Int) :
    TraceGrows (fun ev => ev.isStepWrite = false)
      (handleDocumentChange env dataSource integrationConnection pipeline change tokenLimit) := by
  unfold handleDocumentChange
  simp only [bind_eq, pure_eq]
  repeat' first
    | exact grows_pure _ _
    | exact grows_deref _ _
    | exact retrieveIngestAndUpsert_no_stepWrite _ _ _ _ _ _
    | exact deleteDocument_no_stepWrite _ _ _ _ _
    | exact grows_remoteCall _ _ _ rfl
    | refine grows_bind _ _ _ ?_ (fun _ => ?_)
    | refine grows_wrapErr _ _ _ ?_
    | split

theorem dispatchStepWrite_of_no_stepWrite (step : PipelineRunStep) (startedAt : Time)
    (ev : Event) (h : ev.isStepWrite = false) : DispatchStepWrite step startedAt ev := by
  cases ev <;> trivial

theorem runFullIndex_stepWrites (env : Env) (dataSource : PipelineDataSource)
    (integrationConnection : IntegrationConnection) (pipeline : Pipeline)
    (pipelineRunStep : PipelineRunStep) (startedAt : Time) (account : Account) :
    TraceGrows (DispatchStepWrite pipelineRunStep startedAt)
      (runFullIndex env dataSource integrationConnection pipeline pipelineRunStep
        (some startedAt) account) := by
  unfold runFullIndex retrieveAllDocuments retrieveAndIngestDocuments deleteDocuments checkQuotas
    GetMissingDocuments UpdatePipelineRunStep IncreaseTotalIndexedCount
  simp only [bind_eq, pure_eq]
  repeat' first
    | exact grows_pure _ _
    | exact grows_now _ _
    | exact grows_deref _ _
    | exact grows_fail _ _
    | exact (retrieveIngestAndUpsert_no_stepWrite _ _ _ _ _ _).mono
        (dispatchStepWrite_of_no_stepWrite _ _)
    | exact (deleteDocument_no_stepWrite _ _ _ _ _).mono (dispatchStepWrite_of_no_stepWrite _ _)
    | exact grows_storeCall _ _ _ _ _ (by simp [DispatchStepWrite])
    | exact grows_remoteCall _ _ _ (by simp [DispatchStepWrite])
    | refine grows_errgroupRun _ _ (fun _ => ?_) _
    | refine grows_bind _ _ _ ?_ (fun _ => ?_)
    | refine grows_wrapErr _ _ _ ?_
    | refine grows_catchErr _ _ ?_
    | split

theorem dispatchSyncMode_stepWrites (env : Env) (dataSource : PipelineDataSource)
    (integrationConnection : IntegrationConnection) (pipeline : Pipeline)
    (pipelineRun : Option PipelineRun) (pipelineRunStep : PipelineRunStep) (startedAt : Time)
    (account : Account) :
    TraceGrows (DispatchStepWrite pipelineRunStep startedAt)
      (dispatchSyncMode env dataSource integrationConnection pipeline pipelineRun
        pipelineRunStep startedAt account) := by
  unfold dispatchSyncMode fullIndexCase singleDocumentCase singleDocumentSync
    checkFlaggedAndSuspend UpdatePipelineRunStep IncreaseTotalIndexedCount SuspendAccount
  simp only [bind_eq, pure_eq]
  repeat' first
    | exact grows_pure _ _
    | exact grows_now _ _
    | exact grows_deref _ _
    | exact grows_fail _ _
    | exact runFullIndex_stepWrites _ _ _ _ _ _ _
    | exact (handleDocumentChange_no_stepWrite _ _ _ _ _ _).mono
        (dispatchStepWrite_of_no_stepWrite _ _)
    | exact grows_storeCall _ _ _ _ _ (by simp [DispatchStepWrite])
    | refine grows_bind _ _ _ ?_ (fun _ => ?_)
    | refine grows_wrapErr _ _ _ ?_
    | refine grows_catchErr _ _ ?_
    | split

theorem gate_grows (P : Event → Prop) (dataSource : PipelineDataSource)
    (account : Option Account) : TraceGrows P (gate dataSource account) := by
  unfold gate
  simp only [bind_eq, pure_eq]
  split
  · exact grows_bind _ _ _ (grows_deref _ _) (fun _ => grows_pure _ _)
  · exact grows_pure _ _

theorem stepTimestamps_of_dispatch (step : PipelineRunStep) (startedAt : Time) (ev : Event)
    (h : DispatchStepWrite step startedAt ev) : StepTimestamps ev := by
  cases ev with
  | UpdatePipelineRunStep runId dsId status error started completed =>
    simp only [DispatchStepWrite] at h
    simp only [StepTimestamps]
    rcases h with ⟨_, _, h | h | h⟩
    · obtain ⟨h1, _, h3, c, h4⟩ := h
      exact Or.inr (Or.inl ⟨h1, by simp [h3], by simp [h4]⟩)
    · obtain ⟨h1, h2, h3, _⟩ := h
      exact Or.inr (Or.inr ⟨h1, h3, fun _ _ _ => by simp [h2]⟩)
    · obtain ⟨h1, _, h3, h4⟩ := h
      refine Or.inr (Or.inr ⟨h1, h3, fun e he hc => ?_⟩)
      rw [h4] at he
      cases he
      simp at hc
  | _ => trivial

theorem terminal_of_dispatch (step : PipelineRunStep) (startedAt : Time) (ev : Event)
    (h : DispatchStepWrite step startedAt ev) : ev.isTerminalOrNoStepWrite = true := by
  cases ev with
  | UpdatePipelineRunStep runId dsId status error started completed =>
    simp only [DispatchStepWrite] at h
    rcases h with ⟨_, _, h | h | h⟩ <;>
      simp [Event.isTerminalOrNoStepWrite, Event.stepStatus, h.1]
  | _ => rfl

theorem traceShape_iff (S : List Event → Prop) {α : Type} (m : M α) :
    TraceShape S m ↔ ∀ w, ∃ suffix, (m w).2.trace = w.trace ++ suffix ∧ S suffix := by
  unfold TraceShape
  exact Iff.rfl

theorem runningFirst_of_terminal (calls : List Event)
    (h : ∀ ev ∈ calls, ev.isTerminalOrNoStepWrite = true) : RunningFirst calls := by
  intro pre ev post hcalls
  have hev := h ev (by simp [hcalls])
  unfold Event.isTerminalOrNoStepWrite at hev
  cases hs : ev.stepStatus with
  | none => simp
  | some status =>
    rw [hs] at hev
    simp only [decide_eq_true_eq] at hev
    rcases hev with h1 | h1 <;> subst h1
    · exact ⟨by decide, fun hr => absurd hr (by decide)⟩
    · exact ⟨by decide, fun hr => absurd hr (by decide)⟩

theorem runningFirst_append (reads calls : List Event)
    (hreads : ∀ ev ∈ reads, ev.stepStatus = none) (hcalls : RunningFirst calls) :
    RunningFirst (reads ++ calls) := by
  intro pre ev post h
  rcases List.append_eq_append_iff.mp h with ⟨a, ha, hb⟩ | ⟨c, hc, hd⟩
  · -- pre = reads ++ a, calls = a ++ ev :: post
    obtain ⟨h1, h2⟩ := hcalls a ev post hb
    refine ⟨h1, fun hr e he => ?_⟩
    rw [ha] at he
    rcases List.mem_append.mp he with he | he
    · exact hreads e he
    · exact h2 hr e he
  · -- reads = pre ++ c, ev :: post = c ++ calls
    cases c with
    | nil =>
      simp only [List.nil_append] at hd
      simp only [List.append_nil] at hc
      obtain ⟨h1, h2⟩ := hcalls [] ev post hd.symm
      refine ⟨h1, fun _ e he => ?_⟩
      rw [← hc] at he
      exact hreads e he
    | cons x rest =>
      simp only [List.cons_append, List.cons.injEq] at hd
      have hmem : ev ∈ reads := by
        rw [hc, hd.1]
        simp
      have hnone := hreads ev hmem
      refine ⟨by simp [hnone], fun hr => ?_⟩
      rw [hnone] at hr
      cases hr

theorem runningFirst_cons (ev : Event) (calls : List Event)
    (hev : ev.stepStatus = some PipelineRunStepStatusRunning)
    (h : ∀ e ∈ calls, e.isTerminalOrNoStepWrite = true) : RunningFirst (ev :: calls) := by
  intro pre e post hcalls
  cases pre with
  | nil =>
    simp only [List.nil_append, List.cons.injEq] at hcalls
    rw [← hcalls.1, hev]
    exact ⟨by decide, fun _ _ he => by simp at he⟩
  | cons x rest =>
    simp only [List.cons_append, List.cons.injEq] at hcalls
    refine ⟨((runningFirst_of_terminal calls h) rest e post hcalls.2).1, fun hr => ?_⟩
    have hmem : e ∈ calls := by rw [hcalls.2]; simp
    have ht := h e hmem
    unfold Event.isTerminalOrNoStepWrite at ht
    rw [hr] at ht
    exact absurd ht (by decide)

theorem shape_of_grows {α : Type} (m : M α)
    (h : TraceGrows (fun ev => ev.isTerminalOrNoStepWrite = true) m) :
    TraceShape RunningFirst m := by
  rw [traceShape_iff]
  rw [traceGrows_iff] at h
  intro w
  obtain ⟨s, hs, hp⟩ := h w
  exact ⟨s, hs, runningFirst_of_terminal s hp⟩

theorem shape_bind_reads {α β : Type} (m : M α) (f : α → M β)
    (hm : TraceGrows (fun ev => ev.stepStatus = none) m)
    (hf : ∀ a, TraceShape RunningFirst (f a)) : TraceShape RunningFirst (M.bind m f) := by
  rw [traceShape_iff]
  rw [traceGrows_iff] at hm
  intro w
  obtain ⟨s1, h1, hp1⟩ := hm w
  unfold M.bind
  rcases hmw : m w with ⟨r, w1⟩
  rw [hmw] at h1
  cases r with
  | ok a =>
    obtain ⟨s2, h2, hp2⟩ := (traceShape_iff _ _).mp (hf a) w1
    refine ⟨s1 ++ s2, ?_, runningFirst_append s1 s2 hp1 hp2⟩
    simp only [h2]
    simp only [] at h1
    rw [h1, List.append_assoc]
  | error e =>
    refine ⟨s1, h1, ?_⟩
    have := runningFirst_append s1 [] hp1 (fun pre ev post h => by simp at h)
    simpa using this
  | panic =>
    refine ⟨s1, h1, ?_⟩
    have := runningFirst_append s1 [] hp1 (fun pre ev post h => by simp at h)
    simpa using this

theorem shape_wrapErr (S : List Event → Prop) {α : Type} (msg : String) (m : M α)
    (hm : TraceShape S m) : TraceShape S (wrapErr msg m) := by
  rw [traceShape_iff] at hm ⊢
  intro w
  obtain ⟨s1, h1, hp1⟩ := hm w
  unfold wrapErr
  rcases hmw : m w with ⟨r, w1⟩
  rw [hmw] at h1
  cases r <;> exact ⟨s1, h1, hp1⟩

theorem shape_running_first {β : Type} (msg : String) (env : Env) (ev : Event)
    (write : DB → DB) (k : Unit → M β)
    (hev : ev.stepStatus = some PipelineRunStepStatusRunning)
    (hk : ∀ a, TraceGrows (fun e => e.isTerminalOrNoStepWrite = true) (k a)) :
    TraceShape RunningFirst
      (M.bind (wrapErr msg (storeCall env ev (fun _ => ()) write)) k) := by
  rw [traceShape_iff]
  intro w
  obtain ⟨s, hs, hp⟩ := grows_after_first _ msg env ev (fun _ => ()) write k hk w
  exact ⟨ev :: s, hs, runningFirst_cons ev s hev hp⟩

theorem wrapErr_snd {α : Type} (msg : String) (m : M α) (w : World) :
    (wrapErr msg m w).2 = (m w).2 := by
  unfold wrapErr
  rcases m w with ⟨r, w1⟩
  cases r <;> rfl

theorem wrapErr_fst_ok {α : Type} (msg : String) (m : M α) (w : World) (a : α)
    (h : (m w).1 = .ok a) : (wrapErr msg m w).1 = .ok a := by
  unfold wrapErr
  rcases hm : m w with ⟨r, w1⟩
  rw [hm] at h
  cases r <;> simp_all

theorem storeCall_trace {α : Type} (env : Env) (ev : Event) (read : DB → α) (write : DB → DB)
    (w : World) : (storeCall env ev read write w).2.trace = w.trace ++ [ev] := by
  unfold storeCall
  cases env.storeError w.trace ev <;> rfl

theorem storeCall_fst_ok {α : Type} (env : Env) (ev : Event) (read : DB → α) (write : DB → DB)
    (w : World) (h : env.storeError w.trace ev = none) :
    storeCall env ev read write w =
      (.ok (read w.db), { w with trace := w.trace ++ [ev], db := write w.db }) := by
  unfold storeCall
  rw [h]

/-! ### The mirror after a full index that went through -/

theorem find?_filter_of_imp {α : Type} (p q : α → Bool) (l : List α)
    (h : ∀ a ∈ l, p a = true → q a = true) : (l.filter q).find? p = l.find? p := by
  induction l with
  | nil => rfl
  | cons a rest ih =>
    have ih' := ih (fun b hb => h b (List.mem_cons_of_mem _ hb))
    cases hq : q a with
    | true =>
      rw [List.filter_cons_of_pos hq]
      simp only [List.find?_cons]
      cases p a <;> simp [ih']
    | false =>
      have hp : p a = false := by
        cases hpa : p a with
        | false => rfl
        | true =>
          have := h a (List.mem_cons_self _ _) hpa
          rw [hq] at this
          cases this
      rw [List.filter_cons_of_neg (by simp [hq])]
      simp only [List.find?_cons, hp]
      exact ih'

theorem find?_map_replace (nd : Document) (p q : Document → Bool) (rows : List Document)
    (hnd : p nd = false) (hrows : ∀ d ∈ rows, q d = true → p d = false) :
    (rows.map (fun d => if q d = true then nd else d)).find? p = rows.find? p := by
  induction rows with
  | nil => rfl
  | cons a rest ih =>
    have ih' := ih (fun d hd => hrows d (List.mem_cons_of_mem _ hd))
    simp only [List.map_cons, List.find?_cons]
    cases hq : q a with
    | true =>
      have hpa := hrows a (List.mem_cons_self _ _) hq
      simp only [if_true, hnd, hpa]
      exact ih'
    | false =>
      simp only [Bool.false_eq_true, if_false]
      cases p a
      · exact ih'
      · rfl

theorem find?_upsertRows_other (nd : Document) (rows : List Document) (p : Document → Bool)
    (hnd : p nd = false)
    (hrows : ∀ d ∈ rows, documentHasKey d nd.AccountId nd.PipelineId nd.Integration
      nd.DocumentType nd.Id = true → p d = false) :
    (upsertRows nd rows).find? p = rows.find? p := by
  unfold upsertRows
  split
  · exact find?_map_replace nd p _ rows hnd hrows
  · rw [List.find?_append]
    cases rows.find? p <;> simp [hnd]

theorem find?_map_replace_self (nd : Document) (q : Document → Bool) (rows : List Document)
    (hnd : q nd = true) (hany : rows.any q = true) :
    (rows.map (fun d => if q d = true then nd else d)).find? q = some nd := by
  induction rows with
  | nil => simp at hany
  | cons a rest ih =>
    simp only [List.map_cons, List.find?_cons]
    cases hq : q a with
    | true => simp [hnd]
    | false =>
      simp only [Bool.false_eq_true, if_false, hq]
      apply ih
      simpa [hq] using hany

theorem find?_upsertRows_self (nd : Document) (rows : List Document) :
    (upsertRows nd rows).find? (fun d => documentHasKey d nd.AccountId nd.PipelineId
      nd.Integration nd.DocumentType nd.Id) = some nd := by
  unfold upsertRows
  split
  · rename_i hany
    exact find?_map_replace_self nd _ rows (documentHasKey_self nd) hany
  · rename_i hany
    rw [List.find?_append]
    have hnone : rows.find? (fun d => documentHasKey d nd.AccountId nd.PipelineId
        nd.Integration nd.DocumentType nd.Id) = none := by
      rw [List.find?_eq_none]
      intro d hd hk
      exact hany (List.any_eq_true.mpr ⟨d, hd, hk⟩)
    rw [hnone]
    simp [documentHasKey_self nd]

theorem retrieveIngestAndUpsert_ok_upsert (env : Env) (doc : IndexedDocument)
    (pipeline : Pipeline) (dataSource : PipelineDataSource)
    (integrationConnection : IntegrationConnection) (tokenLimit : Int) (w w1 : World)
    (h : retrieveIngestAndUpsert env doc pipeline dataSource integrationConnection tokenLimit w =
      (.ok (), w1)) :
    (w1.db.documents = w.db.documents ∧
      alreadyFresh (w.db.documents.find? (fun d => documentHasKey d pipeline.Account pipeline.Id
        doc.Integration doc.DocumentType doc.Id)) doc = true) ∨
    (∃ nd : Document, nd.AccountId = pipeline.Account ∧ nd.PipelineId = pipeline.Id ∧
      nd.Integration = doc.Integration ∧ nd.DocumentType = doc.DocumentType ∧ nd.Id = doc.Id ∧
      nd.FreshnessIndicator = some doc.FreshnessIndicator ∧
      w1.db.documents = upsertRows nd w.db.documents) := by
  simp only [retrieveIngestAndUpsert, bind_eq, pure_eq, GetDocumentForIntegration,
    CountDocumentTokens, IngestDocument, IncreaseTotalDocumentTokens,
    UpsertDocument] at h
  rw [bind_wrapErr_storeCall] at h
  split at h
  · simp at h
  · split at h
    · rename_i hfresh
      cases h
      exact Or.inl ⟨rfl, hfresh⟩
    · right
      rw [M.bind_ok_iff] at h
      obtain ⟨content, wa, hcontent, h⟩ := h
      have hdb0 := getDocumentTextContent_ok_db env _ doc integrationConnection _ wa content
        hcontent
      have hdb : wa.db = w.db := hdb0
      rw [bind_wrapErr_remoteCall] at h
      split at h
      · simp at h
      · rename_i tokenCount _
        split at h
        · rw [M.pure_bind, bind_now, wrapErr_storeCall] at h
          split at h
          · simp at h
          · cases h
            simp only [hdb]
            exact ⟨_, rfl, rfl, rfl, rfl, rfl, rfl, rfl⟩
        · rw [bind_wrapErr_remoteCall] at h
          split at h
          · simp at h
          · rw [bind_catchErr_storeCall] at h
            split at h
            · rw [M.pure_bind, bind_now, wrapErr_storeCall] at h
              split at h
              · simp at h
              · cases h
                simp only [hdb]
                exact ⟨_, rfl, rfl, rfl, rfl, rfl, rfl, rfl⟩
            · rw [M.pure_bind, bind_now, wrapErr_storeCall] at h
              split at h
              · simp at h
              · cases h
                simp only [hdb]
                exact ⟨_, rfl, rfl, rfl, rfl, rfl, rfl, rfl⟩

theorem retrieveIngestAndUpsert_ok_fresh (env : Env) (doc : IndexedDocument)
    (pipeline : Pipeline) (dataSource : PipelineDataSource)
    (integrationConnection : IntegrationConnection) (tokenLimit : Int) (w w1 : World)
    (h : retrieveIngestAndUpsert env doc pipeline dataSource integrationConnection tokenLimit w =
      (.ok (), w1)) :
    alreadyFresh (w1.db.documents.find? (fun d => documentHasKey d pipeline.Account pipeline.Id
      doc.Integration doc.DocumentType doc.Id)) doc = true := by
  rcases retrieveIngestAndUpsert_ok_upsert env doc pipeline dataSource integrationConnection
    tokenLimit w w1 h with ⟨hsame, hfresh⟩ | ⟨nd, h1, h2, h3, h4, h5, h6, hup⟩
  · rw [hsame]
    exact hfresh
  · rw [hup]
    have := find?_upsertRows_self nd w.db.documents
    rw [h1, h2, h3, h4, h5] at this
    rw [this]
    simp [alreadyFresh, h6]

theorem retrieveIngestAndUpsert_ok_find (env : Env) (doc : IndexedDocument)
    (pipeline : Pipeline) (dataSource : PipelineDataSource)
    (integrationConnection : IntegrationConnection) (tokenLimit : Int) (w w1 : World)
    (accountId pipelineId : String) (integration : Integration)
    (documentType documentId : String) (hid : doc.Id ≠ documentId)
    (h : retrieveIngestAndUpsert env doc pipeline dataSource integrationConnection tokenLimit w =
      (.ok (), w1)) :
    w1.db.documents.find? (fun d => documentHasKey d accountId pipelineId integration
        documentType documentId) =
      w.db.documents.find? (fun d => documentHasKey d accountId pipelineId integration
        documentType documentId) := by
  rcases retrieveIngestAndUpsert_ok_upsert env doc pipeline dataSource integrationConnection
    tokenLimit w w1 h with ⟨hsame, -⟩ | ⟨nd, h1, h2, h3, h4, h5, h6, hup⟩
  · rw [hsame]
  · rw [hup]
    apply find?_upsertRows_other
    · simp only [documentHasKey, decide_eq_false_iff_not, h5]
      intro hk
      exact hid hk.2.2.2.2
    · intro d hd
      simp only [documentHasKey, decide_eq_true_eq, decide_eq_false_iff_not, h5]
      intro hk hk2
      exact hid (hk.2.2.2.2.symm.trans hk2.2.2.2.2)

theorem ingest_ok_find (env : Env) (pipeline : Pipeline) (dataSource : PipelineDataSource)
    (integrationConnection : IntegrationConnection) (tokenLimit : Int)
    (accountId pipelineId : String) (integration : Integration)
    (documentType documentId : String) (docs : DocMap) :
    ∀ (w w2 : World), (∀ kv ∈ docs, kv.2.Id ≠ documentId) →
      errgroupRun (fun kv => retrieveIngestAndUpsert env kv.2 pipeline dataSource
        integrationConnection tokenLimit) docs w = (.ok (), w2) →
      w2.db.documents.find? (fun d => documentHasKey d accountId pipelineId integration
          documentType documentId) =
        w.db.documents.find? (fun d => documentHasKey d accountId pipelineId integration
          documentType documentId) := by
  induction docs with
  | nil =>
    intro w w2 _ h
    cases h
    rfl
  | cons kv rest ih =>
    intro w w2 hid h
    unfold errgroupRun at h
    rw [M.bind_ok_iff] at h
    obtain ⟨_, w1, htask, hrest⟩ := h
    rw [ih w1 w2 (fun x hx => hid x (List.mem_cons_of_mem _ hx)) hrest]
    exact retrieveIngestAndUpsert_ok_find env kv.2 pipeline dataSource integrationConnection
      tokenLimit w w1 _ _ _ _ _ (hid kv (List.mem_cons_self _ _)) htask

theorem ingest_ok_fresh (env : Env) (pipeline : Pipeline) (dataSource : PipelineDataSource)
    (integrationConnection : IntegrationConnection) (tokenLimit : Int) (docs : DocMap) :
    ∀ (w w2 : World), (docs.map (fun kv => kv.2.Id)).Nodup →
      errgroupRun (fun kv => retrieveIngestAndUpsert env kv.2 pipeline dataSource
        integrationConnection tokenLimit) docs w = (.ok (), w2) →
      ∀ kv ∈ docs, alreadyFresh (w2.db.documents.find? (fun d => documentHasKey d
        pipeline.Account pipeline.Id kv.2.Integration kv.2.DocumentType kv.2.Id)) kv.2 = true := by
  induction docs with
  | nil =>
    intro w w2 _ _ kv hkv
    simp at hkv
  | cons x rest ih =>
    intro w w2 hnodup h kv hkv
    unfold errgroupRun at h
    rw [M.bind_ok_iff] at h
    obtain ⟨_, w1, htask, hrest⟩ := h
    simp only [List.map_cons, List.nodup_cons] at hnodup
    rcases List.mem_cons.mp hkv with hx | hx
    · subst hx
      rw [ingest_ok_find env pipeline dataSource integrationConnection tokenLimit _ _ _ _ _ rest
        w1 w2 ?_ hrest]
      · exact retrieveIngestAndUpsert_ok_fresh env kv.2 pipeline dataSource integrationConnection
          tokenLimit w w1 htask
      · intro y hy hyid
        exact hnodup.1 (List.mem_map.mpr ⟨y, hy, hyid⟩)
    · exact ih w1 w2 hnodup.2 hrest kv hx

theorem deletes_ok_find (env : Env) (pipeline : Pipeline) (integration : Integration)
    (documentType documentId : String) (deletedDocs : List Document) :
    ∀ (w w2 : World), (∀ x ∈ deletedDocs, x.Id ≠ documentId) →
      errgroupRun (fun doc => deleteDocument env doc.Integration doc.DocumentType doc.Id pipeline)
        deletedDocs w = (.ok (), w2) →
      w2.db.documents.find? (fun d => documentHasKey d pipeline.Account pipeline.Id integration
          documentType documentId) =
        w.db.documents.find? (fun d => documentHasKey d pipeline.Account pipeline.Id integration
          documentType documentId) := by
  induction deletedDocs with
  | nil =>
    intro w w2 _ h
    cases h
    rfl
  | cons x rest ih =>
    intro w w2 hid h
    unfold errgroupRun at h
    rw [M.bind_ok_iff] at h
    obtain ⟨_, w1, htask, hrest⟩ := h
    rw [ih w1 w2 (fun y hy => hid y (List.mem_cons_of_mem _ hy)) hrest]
    rw [(deleteDocument_ok env x.Integration x.DocumentType x.Id pipeline w w1 htask).1]
    apply find?_filter_of_imp
    intro d _ hd
    simp only [documentHasKey, decide_eq_true_eq, Bool.not_eq_true', decide_eq_false_iff_not]
      at hd ⊢
    intro hk
    exact hid x (List.mem_cons_self _ _) (hk.2.2.2.2.symm.trans hd.2.2.2.2)

theorem deleteDocuments_ok_find (env : Env) (integrationConnection : IntegrationConnection)
    (pipeline : Pipeline) (indexedDocs : DocMap) (w w2 : World) (integration : Integration)
    (documentType documentId : String)
    (hid : documentId ∈ indexedDocs.map (fun kv => kv.2.Id))
    (h : deleteDocuments env integrationConnection pipeline indexedDocs w = (.ok (), w2)) :
    w2.db.documents.find? (fun d => documentHasKey d pipeline.Account pipeline.Id integration
        documentType documentId) =
      w.db.documents.find? (fun d => documentHasKey d pipeline.Account pipeline.Id integration
        documentType documentId) := by
  simp only [deleteDocuments, bind_eq, GetMissingDocuments] at h
  rw [bind_wrapErr_storeCall] at h
  split at h
  · simp at h
  · rw [wrapErr_ok_iff] at h
    have := deletes_ok_find env pipeline integration documentType documentId _ _ w2 ?_ h
    · exact this
    · intro x hx hxid
      simp only [id, missingRows, List.mem_filter, decide_eq_true_eq] at hx
      exact hx.2.2.2.2 (hxid ▸ hid)

theorem deleteDocuments_ok_missing (env : Env) (integrationConnection : IntegrationConnection)
    (pipeline : Pipeline) (indexedDocs : DocMap) (w w2 : World)
    (h : deleteDocuments env integrationConnection pipeline indexedDocs w = (.ok (), w2)) :
    missingRows pipeline.Account pipeline.Id integrationConnection.Integration
      (indexedDocs.map (fun kv => kv.2.Id)) w2.db.documents = [] := by
  obtain ⟨hrows, -⟩ := deleteDocuments_ok env integrationConnection pipeline indexedDocs w w2 h
  rw [List.eq_nil_iff_forall_not_mem]
  intro row hrow
  simp only [missingRows, List.mem_filter, decide_eq_true_eq] at hrow
  obtain ⟨hmem, h1, h2, h3, h4⟩ := hrow
  obtain ⟨hmem0, hall⟩ := (hrows row).mp hmem
  have hx : row ∈ missingRows pipeline.Account pipeline.Id integrationConnection.Integration
      (indexedDocs.map (fun kv => kv.2.Id)) w.db.documents := by
    simp only [missingRows, List.mem_filter, decide_eq_true_eq]
    exact ⟨hmem0, h1, h2, h3, h4⟩
  have := hall row hx
  simp [documentHasKey, h1, h2] at this

/-! ### Rows that a full index leaves alone -/

theorem keepsRows_iff {α : Type} (m : M α) :
    KeepsRows m ↔ ∀ w, SameRows w.db (m w).2.db := by
  unfold KeepsRows
  exact Iff.rfl

theorem SameRows.refl (db : DB) : SameRows db db := ⟨rfl, rfl, rfl, rfl, rfl⟩

theorem SameRows.trans {a b c : DB} (h1 : SameRows a b) (h2 : SameRows b c) : SameRows a c :=
  ⟨h2.1.trans h1.1, h2.2.1.trans h1.2.1, h2.2.2.1.trans h1.2.2.1,
    h2.2.2.2.1.trans h1.2.2.2.1, h2.2.2.2.2.trans h1.2.2.2.2⟩

theorem keeps_pure {α : Type} (a : α) : KeepsRows (M.pure a) :=
  (keepsRows_iff _).mpr fun w => SameRows.refl w.db

theorem keeps_fail {α : Type} (e : Err) : KeepsRows (fail e : M α) :=
  (keepsRows_iff _).mpr fun w => SameRows.refl w.db

theorem keeps_deref {α : Type} (o : Option α) : KeepsRows (deref o) := by
  rw [keepsRows_iff]
  intro w
  cases o <;> exact SameRows.refl w.db

theorem keeps_now (env : Env) : KeepsRows (now env) :=
  (keepsRows_iff _).mpr fun w => SameRows.refl w.db

theorem keeps_bind {α β : Type} (m : M α) (f : α → M β) (hm : KeepsRows m)
    (hf : ∀ a, KeepsRows (f a)) : KeepsRows (M.bind m f) := by
  rw [keepsRows_iff] at hm ⊢
  intro w
  have h1 := hm w
  unfold M.bind
  rcases hmw : m w with ⟨r, w1⟩
  rw [hmw] at h1
  cases r with
  | ok a => exact h1.trans ((keepsRows_iff _).mp (hf a) w1)
  | error e => exact h1
  | panic => exact h1

theorem keeps_wrapErr {α : Type} (msg : String) (m : M α) (hm : KeepsRows m) :
    KeepsRows (wrapErr msg m) := by
  rw [keepsRows_iff] at hm ⊢
  intro w
  rw [wrapErr_snd]
  exact hm w

theorem keeps_catchErr (m : M Unit) (hm : KeepsRows m) : KeepsRows (catchErr m) := by
  rw [keepsRows_iff] at hm ⊢
  intro w
  have h1 := hm w
  unfold catchErr
  rcases hmw : m w with ⟨r, w1⟩
  rw [hmw] at h1
  cases r <;> exact h1

theorem keeps_storeCall {α : Type} (env : Env) (ev : Event) (read : DB → α) (write : DB → DB)
    (hwrite : ∀ db, SameRows db (write db)) : KeepsRows (storeCall env ev read write) := by
  rw [keepsRows_iff]
  intro w
  unfold storeCall
  cases env.storeError w.trace ev
  · exact hwrite w.db
  · exact SameRows.refl w.db

theorem keeps_remoteCall {α : Type} (ev : Event) (answer : List Event → Except Err α) :
    KeepsRows (remoteCall ev answer) := by
  rw [keepsRows_iff]
  intro w
  unfold remoteCall
  cases answer w.trace <;> exact SameRows.refl w.db

theorem keeps_errgroupRun {α : Type} (task : α → M Unit) (ht : ∀ a, KeepsRows (task a))
    (l : List α) : KeepsRows (errgroupRun task l) := by
  induction l with
  | nil => exact keeps_pure ()
  | cons a rest ih => exact keeps_bind _ _ (ht a) (fun _ => ih)

theorem sameRows_steps (db : DB) (f : PipelineRunStep → PipelineRunStep)
    (hf : ∀ s, stepKey (f s) = stepKey s) :
    SameRows db { db with steps := db.steps.map f } := by
  refine ⟨rfl, rfl, rfl, ?_, rfl⟩
  simp only [List.map_map]
  exact List.map_congr_left (fun s _ => hf s)

theorem sameRows_accounts (db : DB) (f : Account → Account)
    (hf : ∀ a, accountCore (f a) = accountCore a) :
    SameRows db { db with accounts := db.accounts.map f } := by
  refine ⟨rfl, rfl, rfl, rfl, ?_⟩
  simp only [List.map_map]
  exact List.map_congr_left (fun a _ => hf a)

theorem sameRows_documents (db : DB) (rows : List Document) :
    SameRows db { db with documents := rows } := ⟨rfl, rfl, rfl, rfl, rfl⟩

theorem updateStep_keeps (env : Env) (pipelineRunId dataSourceId : String)
    (status : PipelineRunStepStatus) (error : Option RunError)
    (startedAt completedAt : Option Time) :
    KeepsRows (UpdatePipelineRunStep env pipelineRunId dataSourceId status error startedAt
      completedAt) := by
  unfold UpdatePipelineRunStep
  refine keeps_storeCall _ _ _ _ (fun db => sameRows_steps db _ (fun s => ?_))
  split <;> rfl

theorem runFullIndex_keeps (env : Env) (dataSource : PipelineDataSource)
    (integrationConnection : IntegrationConnection) (pipeline : Pipeline)
    (pipelineRunStep : PipelineRunStep) (startedAt : Option Time) (account : Account) :
    KeepsRows (runFullIndex env dataSource integrationConnection pipeline pipelineRunStep
      startedAt account) := by
  unfold runFullIndex retrieveAllDocuments retrieveAndIngestDocuments deleteDocuments checkQuotas
    retrieveIngestAndUpsert getDocumentTextContent CountDocumentTokens IngestDocument
    deleteDocument HelperDeleteDocument
    GetMissingDocuments IncreaseTotalIndexedCount GetDocumentForIntegration
    IncreaseTotalDocumentTokens UpsertDocument DeleteDocument
  simp only [bind_eq, pure_eq]
  repeat' first
    | exact keeps_pure _
    | exact keeps_now _
    | exact keeps_deref _
    | exact keeps_fail _
    | exact updateStep_keeps _ _ _ _ _ _ _
    | exact keeps_remoteCall _ _
    | exact keeps_storeCall _ _ _ _ (fun db => SameRows.refl db)
    | exact keeps_storeCall _ _ _ _ (fun db => sameRows_documents db _)
    | exact keeps_storeCall _ _ _ _ (fun db => sameRows_accounts db _ (fun a => by
        split <;> rfl))
    | refine keeps_errgroupRun _ (fun _ => ?_) _
    | refine keeps_bind _ _ ?_ (fun _ => ?_)
    | refine keeps_wrapErr _ _ ?_
    | refine keeps_catchErr _ ?_
    | split

theorem find?_of_map_eq {α β : Type} (g : α → β) (q : β → Bool) (l1 l2 : List α)
    (h : l1.map g = l2.map g) :
    (l1.find? (fun a => q (g a))).map g = (l2.find? (fun a => q (g a))).map g := by
  have e1 : (l1.map g).find? q = (l1.find? (fun a => q (g a))).map g := by
    rw [List.find?_map]
    rfl
  have e2 : (l2.map g).find? q = (l2.find? (fun a => q (g a))).map g := by
    rw [List.find?_map]
    rfl
  rw [← e1, ← e2, h]

/-! ### A full index over a mirror that is already up to date -/

theorem M.bind_of_ok {α β : Type} (m : M α) (f : α → M β) (w w1 : World) (a : α)
    (h : m w = (.ok a, w1)) : M.bind m f w = f a w1 := by
  unfold M.bind
  rw [h]

theorem wrapErr_of_ok {α : Type} (msg : String) (m : M α) (w w1 : World) (a : α)
    (h : m w = (.ok a, w1)) : wrapErr msg m w = (.ok a, w1) := by
  unfold wrapErr
  rw [h]

theorem retrieveIngestAndUpsert_of_fresh (env : Env) (doc : IndexedDocument)
    (pipeline : Pipeline) (dataSource : PipelineDataSource)
    (integrationConnection : IntegrationConnection) (tokenLimit : Int) (w : World)
    (hstore : ∀ history ev, env.storeError history ev = none)
    (hfresh : alreadyFresh (w.db.documents.find? (fun d => documentHasKey d pipeline.Account
      pipeline.Id doc.Integration doc.DocumentType doc.Id)) doc = true) :
    retrieveIngestAndUpsert env doc pipeline dataSource integrationConnection tokenLimit w =
      (.ok (), { w with trace := w.trace ++
        [.GetDocumentForIntegration pipeline.Account pipeline.Id doc.Integration
          doc.DocumentType doc.Id] }) := by
  simp only [retrieveIngestAndUpsert, bind_eq, GetDocumentForIntegration]
  rw [bind_wrapErr_storeCall]
  simp only [hstore, id, hfresh, if_true]
  rfl

theorem ingest_replay (env : Env) (pipeline : Pipeline) (dataSource : PipelineDataSource)
    (integrationConnection : IntegrationConnection) (tokenLimit : Int)
    (hstore : ∀ history ev, env.storeError history ev = none) (docs : DocMap) :
    ∀ w : World,
      (∀ kv ∈ docs, alreadyFresh (w.db.documents.find? (fun d => documentHasKey d
        pipeline.Account pipeline.Id kv.2.Integration kv.2.DocumentType kv.2.Id)) kv.2 = true) →
      errgroupRun (fun kv => retrieveIngestAndUpsert env kv.2 pipeline dataSource
        integrationConnection tokenLimit) docs w =
        (.ok (), { w with trace := w.trace ++ docs.map (lookupOf pipeline) }) := by
  induction docs with
  | nil =>
    intro w _
    simp [errgroupRun, M.pure]
  | cons kv rest ih =>
    intro w hfresh
    unfold errgroupRun
    rw [M.bind_of_ok _ _ w _ () (retrieveIngestAndUpsert_of_fresh env kv.2 pipeline dataSource
      integrationConnection tokenLimit w hstore (hfresh kv (List.mem_cons_self _ _)))]
    have h2 := ih { w with trace := w.trace ++
      [.GetDocumentForIntegration pipeline.Account pipeline.Id kv.2.Integration
        kv.2.DocumentType kv.2.Id] } (fun x hx => hfresh x (List.mem_cons_of_mem _ hx))
    rw [h2]
    simp [lookupOf]

theorem deleteDocuments_replay (env : Env) (integrationConnection : IntegrationConnection)
    (pipeline : Pipeline) (indexedDocs : DocMap) (w : World)
    (hstore : ∀ history ev, env.storeError history ev = none)
    (hmissing : missingRows pipeline.Account pipeline.Id integrationConnection.Integration
      (indexedDocs.map (fun kv => kv.2.Id)) w.db.documents = []) :
    deleteDocuments env integrationConnection pipeline indexedDocs w =
      (.ok (), { w with trace := w.trace ++
        [.GetMissingDocuments pipeline.Account pipeline.Id integrationConnection.Integration
          (indexedDocs.map (fun kv => kv.2.Id))] }) := by
  simp only [deleteDocuments, bind_eq, GetMissingDocuments]
  rw [bind_wrapErr_storeCall]
  simp only [hstore, id, hmissing]
  rfl

theorem runFullIndex_replay (env : Env) (dataSource : PipelineDataSource)
    (integrationConnection : IntegrationConnection) (pipeline : Pipeline)
    (pipelineRunStep : PipelineRunStep) (startedAt : Option Time) (account : Account)
    (w : World) (client : DataSourceApiClient) (listing : DocMap)
    (hstore : ∀ history ev, env.storeError history ev = none)
    (hunlimited : account.IsUnlimited = true)
    (hclient : env.clients integrationConnection.Integration = some client)
    (hlist : client.ListDocuments w.trace integrationConnection = .ok listing)
    (hfresh : ∀ kv ∈ listing, alreadyFresh (w.db.documents.find? (fun d => documentHasKey d
      pipeline.Account pipeline.Id kv.2.Integration kv.2.DocumentType kv.2.Id)) kv.2 = true)
    (hmissing : missingRows pipeline.Account pipeline.Id integrationConnection.Integration
      (listing.map (fun kv => kv.2.Id)) w.db.documents = []) :
    ∃ w1, runFullIndex env dataSource integrationConnection pipeline pipelineRunStep startedAt
        account w = (.ok (), w1) ∧
      w1.db.documents = w.db.documents ∧
      w1.trace = w.trace ++ [.ListDocuments integrationConnection] ++
        listing.map (lookupOf pipeline) ++
        [.GetMissingDocuments pipeline.Account pipeline.Id integrationConnection.Integration
          (listing.map (fun kv => kv.2.Id)),
         .UpdatePipelineRunStep pipelineRunStep.PipelineRun pipelineRunStep.DataSource
          PipelineRunStepStatusCompleted none startedAt (some (env.clock w.clockReads))] := by
  rw [runFullIndex_after_listing env dataSource integrationConnection pipeline pipelineRunStep
    startedAt account w client listing hclient hlist]
  have hq : ∀ v : World, checkQuotas env pipelineRunStep account listing v = (.ok listing, v) := by
    intro v
    simp [checkQuotas, hunlimited, pure_eq, M.pure]
  rw [M.bind_of_ok _ _ _ _ _ (hq _)]
  unfold retrieveAndIngestDocuments
  have hing := ingest_replay env pipeline dataSource integrationConnection
    (documentTokenLimit account.IsSubscriber) hstore listing
    { w with trace := w.trace ++ [.ListDocuments integrationConnection] } hfresh
  rw [M.bind_of_ok _ _ _ _ () (wrapErr_of_ok _ _ _ _ () hing)]
  have hdel := deleteDocuments_replay env integrationConnection pipeline listing
    { w with trace := w.trace ++ [.ListDocuments integrationConnection] ++
        listing.map (lookupOf pipeline) } hstore hmissing
  rw [M.bind_of_ok _ _ _ _ () hdel]
  rw [bind_now, UpdatePipelineRunStep, wrapErr_storeCall]
  simp only [hstore]
  exact ⟨_, rfl, rfl, by simp⟩

theorem fullIndexCase_of_ok (env : Env) (dataSource : PipelineDataSource)
    (integrationConnection : IntegrationConnection) (pipeline : Pipeline)
    (pipelineRunStep : PipelineRunStep) (startedAt : Time) (account : Account) (w w1 : World)
    (h : runFullIndex env dataSource integrationConnection pipeline pipelineRunStep
      (some startedAt) account w = (.ok (), w1)) :
    fullIndexCase env dataSource integrationConnection pipeline pipelineRunStep startedAt account
        w = (.ok (), w1) := by
  unfold fullIndexCase
  simp only [bind_eq]
  conv_lhs => unfold M.bind catchErr
  simp only [h]
  rfl

theorem fullIndexCase_of_panic (env : Env) (dataSource : PipelineDataSource)
    (integrationConnection : IntegrationConnection) (pipeline : Pipeline)
    (pipelineRunStep : PipelineRunStep) (startedAt : Time) (account : Account) (w w1 : World)
    (h : runFullIndex env dataSource integrationConnection pipeline pipelineRunStep
      (some startedAt) account w = (.panic, w1)) :
    fullIndexCase env dataSource integrationConnection pipeline pipelineRunStep startedAt account
        w = (.panic, w1) := by
  unfold fullIndexCase
  simp only [bind_eq]
  conv_lhs => unfold M.bind catchErr
  simp only [h]

theorem processIndexMessage_full_index (env : Env) (msg : Message) (body : String)
    (m : IndexMessage) (w : World) (step : PipelineRunStep) (pipeline : Pipeline)
    (dataSource : PipelineDataSource) (connection : IntegrationConnection) (run : PipelineRun)
    (account : Account)
    (hbody : msg.Body = some body) (hdecode : env.unmarshal body = .ok m)
    (hf : Fetched env m w step pipeline dataSource)
    (hconnection : fetchedConnection w pipeline dataSource = some connection)
    (hrun : fetchedRun w m = some run) (hmode : run.SyncMode = FullIndexSyncMode)
    (haccount : fetchedAccount w pipeline = some account)
    (henabled : dataSource.IsEnabled = true) (hactive : account.IsSuspended = false)
    (hrunning : env.storeError (w.trace ++ fetchCalls m pipeline dataSource)
      (.UpdatePipelineRunStep step.PipelineRun step.DataSource PipelineRunStepStatusRunning
        none (some (env.clock w.clockReads)) none) = none) :
    processIndexMessage env msg w =
      wrapErr "unable to process index message, "
        (fullIndexCase env dataSource connection pipeline step (env.clock w.clockReads) account)
        { db := { w.db with steps := w.db.steps.map (fun s =>
              if s.PipelineRun = step.PipelineRun ∧ s.DataSource = step.DataSource then
                { s with Status := PipelineRunStepStatusRunning, Error := none,
                         CompletedAt := none, StartedAt := some (env.clock w.clockReads) }
              else s) }
          trace := w.trace ++ fetchCalls m pipeline dataSource ++
            [.UpdatePipelineRunStep step.PipelineRun step.DataSource
              PipelineRunStepStatusRunning none (some (env.clock w.clockReads)) none]
          clockReads := w.clockReads + 1 } := by
  have hgate : gate dataSource (some account) = M.pure (some account) := by
    unfold gate
    simp [henabled, hactive, pure_eq, bind_eq, deref_some, M.pure_bind]
  rw [processIndexMessage_fetched env msg body m w step pipeline dataSource hbody hdecode hf]
  unfold wrapErr
  simp only [runIndexSegment, hconnection, hrun, haccount, bind_eq, hgate, M.pure_bind,
    bind_now, UpdatePipelineRunStep, afterFetch]
  rw [bind_wrapErr_storeCall]
  simp only [hrunning, dispatchSyncMode, bind_eq, deref_some, M.pure_bind, hmode, if_true]

/-! ### Readings of the tables that a computation leaves alone -/

theorem preserves_iff {α β : Type} (f : DB → β) (m : M α) :
    Preserves f m ↔ ∀ w, f (m w).2.db = f w.db := by
  unfold Preserves
  exact Iff.rfl

theorem preserves_pure {α β : Type} (f : DB → β) (a : α) : Preserves f (M.pure a) :=
  (preserves_iff f _).mpr fun _ => rfl

theorem preserves_fail {α β : Type} (f : DB → β) (e : Err) : Preserves f (fail e : M α) :=
  (preserves_iff f _).mpr fun _ => rfl

theorem preserves_deref {α β : Type} (f : DB → β) (o : Option α) : Preserves f (deref o) := by
  rw [preserves_iff]
  intro w
  cases o <;> rfl

theorem preserves_now {β : Type} (f : DB → β) (env : Env) : Preserves f (now env) :=
  (preserves_iff f _).mpr fun _ => rfl

theorem preserves_bind {α γ β : Type} (f : DB → β) (m : M α) (k : α → M γ)
    (hm : Preserves f m) (hk : ∀ a, Preserves f (k a)) : Preserves f (M.bind m k) := by
  rw [preserves_iff] at hm ⊢
  intro w
  have h1 := hm w
  unfold M.bind
  rcases hmw : m w with ⟨r, w1⟩
  rw [hmw] at h1
  cases r with
  | ok a => exact ((preserves_iff f _).mp (hk a) w1).trans h1
  | error e => exact h1
  | panic => exact h1

theorem preserves_wrapErr {α β : Type} (f : DB → β) (msg : String) (m : M α)
    (hm : Preserves f m) : Preserves f (wrapErr msg m) := by
  rw [preserves_iff] at hm ⊢
  intro w
  rw [wrapErr_snd]
  exact hm w

theorem preserves_catchErr {β : Type} (f : DB → β) (m : M Unit) (hm : Preserves f m) :
    Preserves f (catchErr m) := by
  rw [preserves_iff] at hm ⊢
  intro w
  have h1 := hm w
  unfold catchErr
  rcases hmw : m w with ⟨r, w1⟩
  rw [hmw] at h1
  cases r <;> exact h1

theorem preserves_storeCall {α β : Type} (f : DB → β) (env : Env) (ev : Event) (read : DB → α)
    (write : DB → DB) (hwrite : ∀ db, f (write db) = f db) :
    Preserves f (storeCall env ev read write) := by
  rw [preserves_iff]
  intro w
  unfold storeCall
  cases env.storeError w.trace ev
  · exact hwrite w.db
  · rfl

theorem preserves_remoteCall {α β : Type} (f : DB → β) (ev : Event)
    (answer : List Event → Except Err α) : Preserves f (remoteCall ev answer) := by
  rw [preserves_iff]
  intro w
  unfold remoteCall
  cases answer w.trace <;> rfl

theorem preserves_errgroupRun {α β : Type} (f : DB → β) (task : α → M Unit)
    (ht : ∀ a, Preserves f (task a)) (l : List α) : Preserves f (errgroupRun task l) := by
  induction l with
  | nil => exact preserves_pure f ()
  | cons a rest ih => exact preserves_bind f _ _ (ht a) (fun _ => ih)

theorem indexedCounts_accounts (db : DB) (g : Account → Account)
    (hg : ∀ a, (g a).Id = a.Id ∧ (g a).TotalIndexedDocumentCount = a.TotalIndexedDocumentCount) :
    indexedCounts { db with accounts := db.accounts.map g } = indexedCounts db := by
  unfold indexedCounts
  simp only [List.map_map]
  exact List.map_congr_left (fun a _ => by simp [(hg a).1, (hg a).2])

theorem retrieveIngestAndUpsert_counts (env : Env) (doc : IndexedDocument)
    (pipeline : Pipeline) (dataSource : PipelineDataSource)
    (integrationConnection : IntegrationConnection) (tokenLimit : Int) :
    Preserves indexedCounts
      (retrieveIngestAndUpsert env doc pipeline dataSource integrationConnection tokenLimit) := by
  unfold retrieveIngestAndUpsert getDocumentTextContent CountDocumentTokens IngestDocument
    GetDocumentForIntegration IncreaseTotalDocumentTokens UpsertDocument
  simp only [bind_eq, pure_eq]
  repeat' first
    | exact preserves_pure _ _
    | exact preserves_now _ _
    | exact preserves_deref _ _
    | exact preserves_remoteCall _ _ _
    | exact preserves_storeCall _ _ _ _ _ (fun _ => rfl)
    | exact preserves_storeCall _ _ _ _ _ (fun db => indexedCounts_accounts db _ (fun a => by
        split <;> exact ⟨rfl, rfl⟩))
    | refine preserves_bind _ _ _ ?_ (fun _ => ?_)
    | refine preserves_wrapErr _ _ _ ?_
    | refine preserves_catchErr _ _ ?_
    | split

theorem retrieveIngestAndUpsert_ingest_only (env : Env) (doc : IndexedDocument)
    (pipeline : Pipeline) (dataSource : PipelineDataSource)
    (integrationConnection : IntegrationConnection) (tokenLimit : Int) :
    TraceGrows (fun ev => ev.isDriftStep = false ∧ ev.isStepWrite = false ∧
        ev.isIndexedCountUpdate = false)
      (retrieveIngestAndUpsert env doc pipeline dataSource integrationConnection tokenLimit) := by
  unfold retrieveIngestAndUpsert getDocumentTextContent CountDocumentTokens IngestDocument
    GetDocumentForIntegration IncreaseTotalDocumentTokens UpsertDocument
  simp only [bind_eq, pure_eq]
  repeat' first
    | exact grows_pure _ _
    | exact grows_now _ _
    | exact grows_deref _ _
    | exact grows_storeCall _ _ _ _ _ ⟨rfl, rfl, rfl⟩
    | exact grows_remoteCall _ _ _ ⟨rfl, rfl, rfl⟩
    | refine grows_bind _ _ _ ?_ (fun _ => ?_)
    | refine grows_wrapErr _ _ _ ?_
    | refine grows_catchErr _ _ ?_
    | split

theorem M.bind_of_error {α β : Type} (m : M α) (f : α → M β) (w w1 : World) (e : Err)
    (h : m w = (.error e, w1)) : M.bind m f w = (.error e, w1) := by
  unfold M.bind
  rw [h]

theorem wrapErr_of_error {α : Type} (msg : String) (m : M α) (w w1 : World) (e : Err)
    (h : m w = (.error e, w1)) : wrapErr msg m w = (.error (.wrap msg e), w1) := by
  unfold wrapErr
  rw [h]

theorem processIndexMessage_single_document (env : Env) (msg : Message) (body : String)
    (m : IndexMessage) (w : World) (step : PipelineRunStep) (pipeline : Pipeline)
    (dataSource : PipelineDataSource) (connection : IntegrationConnection) (run : PipelineRun)
    (account : Account)
    (hbody : msg.Body = some body) (hdecode : env.unmarshal body = .ok m)
    (hf : Fetched env m w step pipeline dataSource)
    (hconnection : fetchedConnection w pipeline dataSource = some connection)
    (hrun : fetchedRun w m = some run) (hmode : run.SyncMode = SingleDocumentSyncMode)
    (haccount : fetchedAccount w pipeline = some account)
    (henabled : dataSource.IsEnabled = true) (hactive : account.IsSuspended = false)
    (hrunning : env.storeError (w.trace ++ fetchCalls m pipeline dataSource)
      (.UpdatePipelineRunStep step.PipelineRun step.DataSource PipelineRunStepStatusRunning
        none (some (env.clock w.clockReads)) none) = none) :
    processIndexMessage env msg w =
      wrapErr "unable to process index message, "
        (singleDocumentCase env dataSource connection pipeline run step (env.clock w.clockReads)
          account)
        { db := { w.db with steps := w.db.steps.map (fun s =>
              if s.PipelineRun = step.PipelineRun ∧ s.DataSource = step.DataSource then
                { s with Status := PipelineRunStepStatusRunning, Error := none,
                         CompletedAt := none, StartedAt := some (env.clock w.clockReads) }
              else s) }
          trace := w.trace ++ fetchCalls m pipeline dataSource ++
            [.UpdatePipelineRunStep step.PipelineRun step.DataSource
              PipelineRunStepStatusRunning none (some (env.clock w.clockReads)) none]
          clockReads := w.clockReads + 1 } := by
  have hgate : gate dataSource (some account) = M.pure (some account) := by
    unfold gate
    simp [henabled, hactive, pure_eq, bind_eq, deref_some, M.pure_bind]
  have hne : SingleDocumentSyncMode ≠ FullIndexSyncMode := by decide
  rw [processIndexMessage_fetched env msg body m w step pipeline dataSource hbody hdecode hf]
  unfold wrapErr
  simp only [runIndexSegment, hconnection, hrun, haccount, bind_eq, hgate, M.pure_bind,
    bind_now, UpdatePipelineRunStep, afterFetch]
  rw [bind_wrapErr_storeCall]
  simp only [hrunning, dispatchSyncMode, bind_eq, deref_some, M.pure_bind, hmode, hne,
    if_false, if_true]

theorem deleteDocument_counts (env : Env) (integration : Integration)
    (docType docId : String) (pipeline : Pipeline) :
    Preserves indexedCounts (deleteDocument env integration docType docId pipeline) := by
  unfold deleteDocument HelperDeleteDocument DeleteDocument
  simp only [bind_eq, pure_eq]
  repeat' first
    | exact preserves_storeCall _ _ _ _ _ (fun _ => rfl)
    | exact preserves_remoteCall _ _ _
    | refine preserves_bind _ _ _ ?_ (fun _ => ?_)
    | refine preserves_wrapErr _ _ _ ?_

theorem deleteDocument_no_countUpdate (env : Env) (integration : Integration)
    (docType docId : String) (pipeline : Pipeline) :
    TraceGrows (fun ev => ev.isIndexedCountUpdate = false)
      (deleteDocument env integration docType docId pipeline) := by
  unfold deleteDocument HelperDeleteDocument DeleteDocument
  simp only [bind_eq, pure_eq]
  repeat' first
    | exact grows_storeCall _ _ _ _ _ rfl
    | exact grows_remoteCall _ _ _ rfl
    | refine grows_bind _ _ _ ?_ (fun _ => ?_)
    | refine grows_wrapErr _ _ _ ?_

theorem singleDocumentSync_counts (env : Env) (dataSource : PipelineDataSource)
    (integrationConnection : IntegrationConnection) (pipeline : Pipeline)
    (pipelineRun : PipelineRun) (pipelineRunStep : PipelineRunStep) (startedAt : Time)
    (account : Account) :
    Preserves indexedCounts
      (singleDocumentSync env dataSource integrationConnection pipeline pipelineRun
        pipelineRunStep startedAt account) := by
  unfold singleDocumentSync handleDocumentChange checkFlaggedAndSuspend UpdatePipelineRunStep
    SuspendAccount
  simp only [bind_eq, pure_eq]
  repeat' first
    | exact preserves_pure _ _
    | exact preserves_now _ _
    | exact preserves_deref _ _
    | exact retrieveIngestAndUpsert_counts _ _ _ _ _ _
    | exact deleteDocument_counts _ _ _ _ _
    | exact preserves_remoteCall _ _ _
    | exact preserves_storeCall _ _ _ _ _ (fun _ => rfl)
    | exact preserves_storeCall _ _ _ _ _ (fun db => indexedCounts_accounts db _ (fun a => by
        split <;> exact ⟨rfl, rfl⟩))
    | refine preserves_bind _ _ _ ?_ (fun _ => ?_)
    | refine preserves_wrapErr _ _ _ ?_
    | refine preserves_catchErr _ _ ?_
    | split

theorem singleDocumentSync_no_countUpdate (env : Env) (dataSource : PipelineDataSource)
    (integrationConnection : IntegrationConnection) (pipeline : Pipeline)
    (pipelineRun : PipelineRun) (pipelineRunStep : PipelineRunStep) (startedAt : Time)
    (account : Account) :
    TraceGrows (fun ev => ev.isIndexedCountUpdate = false)
      (singleDocumentSync env dataSource integrationConnection pipeline pipelineRun
        pipelineRunStep startedAt account) := by
  unfold singleDocumentSync handleDocumentChange checkFlaggedAndSuspend UpdatePipelineRunStep
    SuspendAccount
  simp only [bind_eq, pure_eq]
  repeat' first
    | exact grows_pure _ _
    | exact grows_now _ _
    | exact grows_deref _ _
    | exact (retrieveIngestAndUpsert_ingest_only _ _ _ _ _ _).mono (fun _ h => h.2.2)
    | exact deleteDocument_no_countUpdate _ _ _ _ _
    | exact grows_remoteCall _ _ _ rfl
    | exact grows_storeCall _ _ _ _ _ rfl
    | refine grows_bind _ _ _ ?_ (fun _ => ?_)
    | refine grows_wrapErr _ _ _ ?_
    | refine grows_catchErr _ _ ?_
    | split

/-! ### Maps filled by assignment, and the Notion listing -/

theorem mapGet_mapSet (m : DocMap) (k : String) (v : IndexedDocument) (k' : String) :
    mapGet (mapSet m k v) k' = if k' = k then some v else mapGet m k' := by
  unfold mapGet mapSet
  split
  · rename_i hany
    rw [List.find?_map]
    by_cases hk : k' = k
    · subst hk
      rw [if_pos rfl]
      have hfun : ((fun kv : String × IndexedDocument => decide (kv.1 = k')) ∘
          fun kv => if kv.1 = k' then (k', v) else kv)
          = fun kv => decide (kv.1 = k') := by
        funext kv
        by_cases h : kv.1 = k' <;> simp [h]
      rw [hfun]
      obtain ⟨x, hx, hxk⟩ := List.any_eq_true.mp hany
      cases hfind : m.find? (fun kv => decide (kv.1 = k')) with
      | none =>
        have := List.find?_eq_none.mp hfind x hx
        exact absurd hxk this
      | some y =>
        have hy := List.find?_some hfind
        simp only [decide_eq_true_eq] at hy
        simp [hy]
    · rw [if_neg hk]
      have hfun : ((fun kv : String × IndexedDocument => decide (kv.1 = k')) ∘
          fun kv => if kv.1 = k then (k, v) else kv)
          = fun kv => decide (kv.1 = k') := by
        funext kv
        by_cases h : kv.1 = k
        · have h1 : ¬ k = k' := fun h' => hk h'.symm
          have h2 : ¬ kv.1 = k' := fun h' => hk (h'.symm.trans h)
          simp [h, h1, h2]
        · simp [h]
      rw [hfun]
      cases hfind : m.find? (fun kv => decide (kv.1 = k')) with
      | none => rfl
      | some y =>
        have hy := List.find?_some hfind
        simp only [decide_eq_true_eq] at hy
        have : ¬ y.1 = k := fun h' => hk (hy.symm.trans h')
        simp [this]
  · rename_i hany
    rw [List.find?_append]
    by_cases hk : k' = k
    · subst hk
      rw [if_pos rfl]
      have hnone : m.find? (fun kv => decide (kv.1 = k')) = none := by
        rw [List.find?_eq_none]
        intro x hx hxk
        exact hany (List.any_eq_true.mpr ⟨x, hx, hxk⟩)
      rw [hnone]
      simp
    · rw [if_neg hk]
      have h1 : ¬ k = k' := fun h' => hk h'.symm
      simp [h1]

theorem mapGet_isSome_iff (m : DocMap) (k : String) :
    (mapGet m k).isSome = true ↔ k ∈ m.map Prod.fst := by
  unfold mapGet
  rw [show ∀ o : Option (String × IndexedDocument), (o.map Prod.snd).isSome = o.isSome from
    fun o => by cases o <;> rfl, List.find?_isSome]
  constructor
  · rintro ⟨x, hx, hxk⟩
    simp only [decide_eq_true_eq] at hxk
    exact List.mem_map.mpr ⟨x, hx, hxk⟩
  · intro h
    obtain ⟨x, hx, hxk⟩ := List.mem_map.mp h
    exact ⟨x, hx, by simpa using hxk⟩

theorem mapGet_foldl_mapSet (pages : List IndexedDocument) (m : DocMap) (k : String) :
    mapGet (pages.foldl (fun docs page => mapSet docs page.Id page) m) k
      = (pages.reverse.find? (fun page => decide (page.Id = k))).or (mapGet m k) := by
  induction pages generalizing m with
  | nil => simp
  | cons page rest ih =>
    rw [List.foldl_cons, ih, mapGet_mapSet, List.reverse_cons, List.find?_append]
    cases hfind : rest.reverse.find? (fun page => decide (page.Id = k)) with
    | some d => simp
    | none =>
      by_cases hk : k = page.Id
      · have : page.Id = k := hk.symm
        simp [hk]
      · have : ¬ page.Id = k := fun h => hk h.symm
        simp [hk, this]

theorem keyed_foldl_mapSet (pages : List IndexedDocument) (m : DocMap)
    (hm : ∀ kv ∈ m, kv.2.Id = kv.1) :
    ∀ kv ∈ pages.foldl (fun docs page => mapSet docs page.Id page) m, kv.2.Id = kv.1 := by
  induction pages generalizing m with
  | nil => simpa using hm
  | cons page rest ih =>
    rw [List.foldl_cons]
    apply ih
    intro kv hkv
    rcases mem_mapSet _ _ _ _ hkv with h | h
    · exact hm kv h
    · rw [h]

theorem keyed_foldl_notionPage (results : List NotionResult) (m : DocMap)
    (hm : ∀ kv ∈ m, kv.2.Id = kv.1) :
    ∀ kv ∈ results.foldl (fun docs result => mapSet docs result.Id (notionPage result)) m,
      kv.2.Id = kv.1 := by
  induction results generalizing m with
  | nil => simpa using hm
  | cons result rest ih =>
    rw [List.foldl_cons]
    apply ih
    intro kv hkv
    rcases mem_mapSet _ _ _ _ hkv with h | h
    · exact hm kv h
    · rw [h]; rfl

theorem loadAllPagesFrom_keyed (api : NotionApi) (fuel : Nat) (cursor : Option String)
    (m free : DocMap) (hm : ∀ kv ∈ m, kv.2.Id = kv.1)
    (h : loadAllPagesFrom api fuel cursor m = some (.ok free)) :
    ∀ kv ∈ free, kv.2.Id = kv.1 := by
  induction fuel generalizing cursor m with
  | zero => simp [loadAllPagesFrom] at h
  | succ fuel ih =>
    unfold loadAllPagesFrom at h
    split at h
    · simp at h
    · rename_i searchResponse _
      simp only at h
      split at h
      · cases h
        exact keyed_foldl_notionPage _ _ hm
      · exact ih _ _ (keyed_foldl_notionPage _ _ hm) h

theorem loadDatabases_of_ok (api : NotionApi) (fuel : Nat)
    (pages : String → List IndexedDocument) (databaseIds : List String) (allPages : DocMap)
    (hpages : ∀ id ∈ databaseIds, loadDatabasePages api fuel id = some (.ok (pages id))) :
    loadDatabases api fuel databaseIds allPages
      = some (.ok ((databaseIds.flatMap pages).foldl
          (fun docs page => mapSet docs page.Id page) allPages)) := by
  induction databaseIds generalizing allPages with
  | nil => rfl
  | cons id rest ih =>
    unfold loadDatabases
    rw [hpages id (List.mem_cons_self _ _)]
    simp only
    rw [ih _ (fun id' h => hpages id' (List.mem_cons_of_mem _ h))]
    simp [List.foldl_append]

/-! ### The codecs of the tagged variants -/

theorem unmarshalMembers_invariant {σ β : Type} (field : String → Json → σ → Except Err σ)
    (f : σ → β) (hfield : ∀ key value s s', field key value s = .ok s' → f s' = f s)
    (members : List (String × Json)) (s s' : σ)
    (h : unmarshalMembers field members s = .ok s') : f s' = f s := by
  induction members generalizing s with
  | nil =>
    simp only [unmarshalMembers] at h
    cases h
    rfl
  | cons member rest ih =>
    obtain ⟨key, value⟩ := member
    simp only [unmarshalMembers] at h
    split at h
    · cases h
    · rename_i s1 h1
      rw [ih s1 h, hfield key value s s1 h1]

theorem unmarshalStruct_invariant {σ β : Type} (field : String → Json → σ → Except Err σ)
    (f : σ → β) (hfield : ∀ key value s s', field key value s = .ok s' → f s' = f s)
    (data : Json) (s s' : σ) (h : unmarshalStruct field data s = .ok s') : f s' = f s := by
  unfold unmarshalStruct at h
  split at h
  · cases h
    rfl
  · exact unmarshalMembers_invariant field f hfield _ s s' h
  · cases h

theorem vectorStoreBaseField_payload (key : String) (value : Json) (v v' : VectorStore)
    (h : vectorStoreBaseField key value v = .ok v') :
    (v'.PineconeConfig, v'.WeaviateConfig) = (v.PineconeConfig, v.WeaviateConfig) := by
  unfold vectorStoreBaseField at h
  split at h
  · split at h
    · cases h
    · cases h
      rfl
  · cases h
    rfl

theorem textSplitterBaseField_payload (key : String) (value : Json) (t t' : TextSplitter)
    (h : textSplitterBaseField key value t = .ok t') : t'.Config = t.Config := by
  unfold textSplitterBaseField at h
  split at h
  · split at h
    · cases h
    · cases h
      rfl
  · cases h
    rfl

theorem pipelineDataSinkBaseField_payload (key : String) (value : Json)
    (d d' : PipelineDataSink)
    (h : pipelineDataSinkBaseField key value d = .ok d') : d'.Config = d.Config := by
  unfold pipelineDataSinkBaseField at h
  repeat' split at h
  all_goals first
    | (cases h; rfl)
    | cases h

theorem pipelineEmbeddingConfigBaseField_payload (key : String) (value : Json)
    (e e' : PipelineEmbeddingConfig)
    (h : pipelineEmbeddingConfigBaseField key value e = .ok e') : e'.ApiKey = e.ApiKey := by
  unfold pipelineEmbeddingConfigBaseField at h
  repeat' split at h
  all_goals first
    | (cases h; rfl)
    | cases h

theorem integrationConnectionBaseField_payload (key : String) (value : Json)
    (i i' : IntegrationConnection)
    (h : integrationConnectionBaseField key value i = .ok i') :
    (i'.Notion, i'.Linear) = (i.Notion, i.Linear) := by
  unfold integrationConnectionBaseField at h
  repeat' split at h
  all_goals first
    | (cases h; rfl)
    | cases h

theorem unmarshalStringItems_strings (l : List String) :
    unmarshalStringItems (l.map Json.string) = .ok l := by
  induction l with
  | nil => rfl
  | cons s rest ih => simp [unmarshalStringItems, unmarshalString, ih]

theorem unmarshalStrings_marshalStrings (l : Option (List String)) :
    unmarshalStrings (marshalStrings l) = .ok l := by
  cases l with
  | none => rfl
  | some l => simp [marshalStrings, unmarshalStrings, unmarshalStringItems_strings]

theorem vectorStore_round_trip (compact : RawMessage → Except Err RawMessage)
    (v : VectorStore) (cfg : RawMessage) (hv : v.Populated cfg) (hcfg : compact cfg = .ok cfg) :
    v.MarshalJSON compact
      = .ok (.object [("store_type", .string v.StoreType), ("config", .raw cfg)]) ∧
    zeroVectorStore.UnmarshalJSON
      (.object [("store_type", .string v.StoreType), ("config", .raw cfg)]) = .ok v := by
  rcases hv with hv | hv
  · subst hv
    constructor
    · simp [VectorStore.MarshalJSON, marshalRawMessage, hcfg]
    · simp [VectorStore.UnmarshalJSON, unmarshalStruct, unmarshalMembers, vectorStoreBaseField,
        pineconeVectorStoreField, unmarshalString, unmarshalRawMessage, Json.render,
        zeroVectorStore]
  · subst hv
    constructor
    · simp [VectorStore.MarshalJSON, marshalRawMessage, hcfg, VectorStoreTypeWeaviate,
        VectorStoreTypePinecone]
    · simp [VectorStore.UnmarshalJSON, unmarshalStruct, unmarshalMembers, vectorStoreBaseField,
        weaviateVectorStoreField, unmarshalString, unmarshalRawMessage, Json.render,
        zeroVectorStore, VectorStoreTypeWeaviate, VectorStoreTypePinecone]

/-! ### The paginated loaders of the Notion client -/

theorem allResults_cons (response : NotionSearchResponse) (rest : List NotionSearchResponse) :
    allResults (response :: rest) = response.Results ++ allResults rest := by
  simp [allResults]

theorem loadAllPagesFrom_paged (api : NotionApi) (responses : List NotionSearchResponse) :
    ∀ (fuel : Nat) (cursor : Option String) (m : DocMap),
      Paged api.searchPages cursor responses → responses.length ≤ fuel →
      loadAllPagesFrom api fuel cursor m =
        some (.ok ((allResults responses).foldl
          (fun docs result => mapSet docs result.Id (notionPage result)) m)) := by
  induction responses with
  | nil =>
    intro fuel cursor m h
    exact absurd h (by simp [Paged])
  | cons response rest ih =>
    intro fuel cursor m h hfuel
    cases fuel with
    | zero => simp at hfuel
    | succ fuel =>
      unfold Paged at h
      obtain ⟨hresp, hrest⟩ := h
      unfold loadAllPagesFrom
      rw [hresp]
      cases rest with
      | nil =>
        simp only at hrest
        simp [hrest, allResults]
      | cons next rest =>
        simp only at hrest
        simp only [hrest.1, Bool.not_true, Bool.false_eq_true, if_false]
        rw [ih fuel response.NextCursor _ hrest.2 (by simpa using hfuel)]
        simp only [allResults_cons, List.foldl_append]

theorem loadDatabaseIdsFrom_paged (api : NotionApi) (responses : List NotionSearchResponse) :
    ∀ (fuel : Nat) (cursor : Option String) (ids : List String),
      Paged api.searchDatabases cursor responses → responses.length ≤ fuel →
      loadDatabaseIdsFrom api fuel cursor ids =
        some (.ok (ids ++ (allResults responses).map (fun result => result.Id))) := by
  induction responses with
  | nil =>
    intro fuel cursor ids h
    exact absurd h (by simp [Paged])
  | cons response rest ih =>
    intro fuel cursor ids h hfuel
    cases fuel with
    | zero => simp at hfuel
    | succ fuel =>
      unfold Paged at h
      obtain ⟨hresp, hrest⟩ := h
      unfold loadDatabaseIdsFrom
      rw [hresp]
      cases rest with
      | nil =>
        simp only at hrest
        simp [hrest, allResults]
      | cons next rest =>
        simp only at hrest
        simp only [hrest.1, Bool.not_true, Bool.false_eq_true, if_false]
        rw [ih fuel response.NextCursor _ hrest.2 (by simpa using hfuel)]
        simp [allResults_cons]

theorem loadDatabasePagesFrom_paged (api : NotionApi) (databaseId : String)
    (responses : List NotionSearchResponse) :
    ∀ (fuel : Nat) (cursor : Option String) (docs : List IndexedDocument),
      Paged (api.queryDatabase databaseId) cursor responses → responses.length ≤ fuel →
      loadDatabasePagesFrom api databaseId fuel cursor docs =
        some (.ok (docs ++ (allResults responses).map notionPage)) := by
  induction responses with
  | nil =>
    intro fuel cursor docs h
    exact absurd h (by simp [Paged])
  | cons response rest ih =>
    intro fuel cursor docs h hfuel
    cases fuel with
    | zero => simp at hfuel
    | succ fuel =>
      unfold Paged at h
      obtain ⟨hresp, hrest⟩ := h
      unfold loadDatabasePagesFrom
      rw [hresp]
      cases rest with
      | nil =>
        simp only at hrest
        simp [hrest, allResults]
      | cons next rest =>
        simp only at hrest
        simp only [hrest.1, Bool.not_true, Bool.false_eq_true, if_false]
        rw [ih fuel response.NextCursor _ hrest.2 (by simpa using hfuel)]
        simp [allResults_cons]

theorem keys_mapSet (m : DocMap) (k : String) (v : IndexedDocument) :
    (mapSet m k v).map Prod.fst =
      if k ∈ m.map Prod.fst then m.map Prod.fst else m.map Prod.fst ++ [k] := by
  by_cases hk : k ∈ m.map Prod.fst
  · rw [if_pos hk]
    unfold mapSet
    have hany : m.any (fun kv => decide (kv.1 = k)) = true := by
      obtain ⟨kv, hkv, hkey⟩ := List.mem_map.mp hk
      exact List.any_eq_true.mpr ⟨kv, hkv, by simpa using hkey⟩
    rw [if_pos hany, List.map_map]
    apply List.map_congr_left
    intro kv _
    by_cases h : kv.1 = k <;> simp [h]
  · rw [if_neg hk, mapSet_of_not_mem m k v hk]
    simp

theorem nodup_keys_foldl_mapSet (pages : List IndexedDocument) (m : DocMap)
    (hm : (m.map Prod.fst).Nodup) :
    ((pages.foldl (fun docs page => mapSet docs page.Id page) m).map Prod.fst).Nodup := by
  induction pages generalizing m with
  | nil => simpa using hm
  | cons page rest ih =>
    rw [List.foldl_cons]
    apply ih
    rw [keys_mapSet]
    split
    · exact hm
    · rename_i hk
      rw [List.nodup_append]
      exact ⟨hm, by simp, by
        intro a ha hb
        rw [List.mem_singleton] at hb
        exact hk (hb ▸ ha)⟩

/-! ### Handling a message a second time -/

theorem updateStep_apply (env : Env) (msg : String) (pipelineRunId dataSourceId : String)
    (status : PipelineRunStepStatus) (error : Option RunError) (startedAt completedAt : Option Time)
    (w : World) (hstore : ∀ history ev, env.storeError history ev = none) :
    wrapErr msg (UpdatePipelineRunStep env pipelineRunId dataSourceId status error startedAt
        completedAt) w =
      (.ok (), { w with
        trace := w.trace ++ [.UpdatePipelineRunStep pipelineRunId dataSourceId status error
          startedAt completedAt]
        db := { w.db with steps := w.db.steps.map (fun s =>
          if s.PipelineRun = pipelineRunId ∧ s.DataSource = dataSourceId then
            { s with Status := status, Error := error, CompletedAt := completedAt,
                     StartedAt := startedAt }
          else s) } }) := by
  unfold UpdatePipelineRunStep
  rw [wrapErr_storeCall]
  simp only [hstore]

theorem completedWrite_ends (env : Env) (step : PipelineRunStep)
    (startedAt completedAt : Option Time) (w0 w : World)
    (hstore : ∀ history ev, env.storeError history ev = none)
    (hdocs : w.db.documents = w0.db.documents) :
    ∃ w2, wrapErr "unable to update pipeline run step, "
        (UpdatePipelineRunStep env step.PipelineRun step.DataSource
          PipelineRunStepStatusCompleted none startedAt completedAt) w = (.ok (), w2) ∧
      EndsCompleted step w0 w2 ∧ SameRows w.db w2.db := by
  refine ⟨_, updateStep_apply env _ _ _ _ _ _ _ w hstore,
    ⟨hdocs, ⟨.UpdatePipelineRunStep step.PipelineRun step.DataSource
      PipelineRunStepStatusCompleted none startedAt completedAt, by simp,
      ⟨rfl, rfl, rfl, rfl⟩⟩, ?_⟩, ?_⟩
  · intro row hrow h1 h2
    simp only [List.mem_map] at hrow
    obtain ⟨s, -, hs⟩ := hrow
    split at hs
    · rw [← hs]
    · rename_i hne
      rw [← hs] at h1 h2
      exact absurd ⟨h1, h2⟩ hne
  · exact sameRows_steps w.db _ (fun s => by split <;> rfl)

theorem gate_of_disabled (dataSource : PipelineDataSource) (account : Option Account)
    (h : dataSource.IsEnabled = false) : gate dataSource account = M.pure none := by
  unfold gate
  simp [h, pure_eq]

theorem gate_of_account (dataSource : PipelineDataSource) (account : Account)
    (h : dataSource.IsEnabled = true) :
    gate dataSource (some account) =
      M.pure (if account.IsSuspended then none else some account) := by
  unfold gate
  simp [h, pure_eq, bind_eq, deref_some, M.pure_bind]

theorem runIndexSegment_gated (env : Env) (dataSource : PipelineDataSource)
    (connection : Option IntegrationConnection) (pipeline : Pipeline)
    (run : Option PipelineRun) (step : PipelineRunStep) (account : Option Account) (w : World)
    (hgate : gate dataSource account = M.pure none) :
    runIndexSegment env dataSource connection pipeline run step account w =
      wrapErr "unable to update pipeline run step, "
        (UpdatePipelineRunStep env step.PipelineRun step.DataSource
          PipelineRunStepStatusCompleted none (some (env.clock w.clockReads))
          (some (env.clock (w.clockReads + 1))))
        { w with clockReads := w.clockReads + 1 + 1 } := by
  simp only [runIndexSegment, bind_eq, hgate, M.pure_bind, bind_now]

theorem runIndexSegment_running (env : Env) (dataSource : PipelineDataSource)
    (connection : Option IntegrationConnection) (pipeline : Pipeline)
    (run : Option PipelineRun) (step : PipelineRunStep) (account : Option Account)
    (proceed : Account) (w : World)
    (hstore : ∀ history ev, env.storeError history ev = none)
    (hgate : gate dataSource account = M.pure (some proceed)) :
    runIndexSegment env dataSource connection pipeline run step account w =
      match connection with
      | none => (.ok (), afterRunning env step w)
      | some connection =>
        dispatchSyncMode env dataSource connection pipeline run step (env.clock w.clockReads)
          proceed (afterRunning env step w) := by
  simp only [runIndexSegment, bind_eq, hgate, M.pure_bind, bind_now, UpdatePipelineRunStep]
  rw [bind_wrapErr_storeCall]
  simp only [hstore]
  cases connection <;> rfl

theorem sameRows_afterRunning (env : Env) (step : PipelineRunStep) (w : World) :
    SameRows w.db (afterRunning env step w).db :=
  sameRows_steps w.db _ (fun s => by split <;> rfl)

theorem fetched_transfer (env : Env) (m : IndexMessage) (w w1 : World) (step : PipelineRunStep)
    (pipeline : Pipeline) (dataSource : PipelineDataSource)
    (hf : Fetched env m w step pipeline dataSource)
    (hstore : ∀ history ev, env.storeError history ev = none)
    (hk : SameRows w.db w1.db) :
    ∃ step1, Fetched env m w1 step1 pipeline dataSource ∧
      step1.PipelineRun = step.PipelineRun ∧ step1.DataSource = step.DataSource ∧
      fetchedConnection w1 pipeline dataSource = fetchedConnection w pipeline dataSource ∧
      fetchedRun w1 m = fetchedRun w m ∧
      (fetchedAccount w1 pipeline).map accountCore =
        (fetchedAccount w pipeline).map accountCore := by
  obtain ⟨hkp, hkr, hkc, hks, hka⟩ := hk
  have hs : (w1.db.steps.find? (fun s => decide (s.PipelineRun = m.Payload.RunId ∧
        s.DataSource = m.Payload.DataSourceId))).map stepKey =
      (w.db.steps.find? (fun s => decide (s.PipelineRun = m.Payload.RunId ∧
        s.DataSource = m.Payload.DataSourceId))).map stepKey :=
    find?_of_map_eq stepKey
      (fun k => decide (k.1 = m.Payload.RunId ∧ k.2 = m.Payload.DataSourceId)) _ _ hks
  rw [hf.step_found] at hs
  have ha : (w1.db.accounts.find? (fun a => decide (a.Id = pipeline.Account))).map
        accountCore =
      (w.db.accounts.find? (fun a => decide (a.Id = pipeline.Account))).map accountCore :=
    find?_of_map_eq accountCore (fun k => decide (k.1 = pipeline.Account)) _ _ hka
  cases hstep1 : w1.db.steps.find? (fun s => decide (s.PipelineRun = m.Payload.RunId ∧
      s.DataSource = m.Payload.DataSourceId)) with
  | none =>
    rw [hstep1] at hs
    cases hs
  | some step1 =>
    rw [hstep1] at hs
    simp only [Option.map_some', Option.some.injEq, stepKey, Prod.mk.injEq] at hs
    obtain ⟨hrunId, hdsId⟩ := hs
    refine ⟨step1, ⟨hstep1, by rw [hkp]; exact hf.pipeline_found,
      by rw [hdsId]; exact hf.source_found, fun _ _ _ _ => hstore _ _⟩, hrunId, hdsId, ?_, ?_, ha⟩
    · unfold fetchedConnection
      rw [hkc]
    · unfold fetchedRun
      rw [hkr]

theorem sliceLoop_all (r : Int) (listing : DocMap) (hkeys : (listing.map Prod.fst).Nodup)
    (hr : (listing.length : Int) ≤ r) : sliceLoop r listing [] = listing := by
  rw [sliceLoop_take r listing hkeys (by omega)]
  exact List.take_of_length_le (by omega)

theorem checkQuotas_admits (env : Env) (pipelineRunStep : PipelineRunStep) (account : Account)
    (listing : DocMap) (w : World)
    (hstore : ∀ history ev, env.storeError history ev = none)
    (hkeys : (listing.map Prod.fst).Nodup)
    (hq : account.IsUnlimited = true ∨
      (0 < totalIndexedDocumentsLimit account.IsSubscriber - account.TotalIndexedDocumentCount ∧
        (listing.length : Int) ≤
          totalIndexedDocumentsLimit account.IsSubscriber - account.TotalIndexedDocumentCount)) :
    ∃ wq, checkQuotas env pipelineRunStep account listing w = (.ok listing, wq) ∧
      wq.db.documents = w.db.documents ∧ wq.clockReads = w.clockReads := by
  unfold checkQuotas
  cases hunl : account.IsUnlimited with
  | true =>
    simp only [Bool.not_true, Bool.false_eq_true, if_false, pure_eq]
    exact ⟨w, rfl, rfl, rfl⟩
  | false =>
    rcases hq with hq | ⟨hpos, hfit⟩
    · rw [hunl] at hq
      cases hq
    · have hne : ¬ totalIndexedDocumentsLimit account.IsSubscriber -
          account.TotalIndexedDocumentCount = 0 := by omega
      simp only [Bool.not_false, if_true, bind_eq, pure_eq, hne, if_false, M.pure_bind,
        IncreaseTotalIndexedCount, sliceLoop_all _ listing hkeys hfit]
      rw [bind_wrapErr_storeCall]
      simp only [hstore]
      exact ⟨_, rfl, rfl, rfl⟩

theorem runFullIndex_again (env : Env) (dataSource : PipelineDataSource)
    (integrationConnection : IntegrationConnection) (pipeline : Pipeline)
    (pipelineRunStep : PipelineRunStep) (startedAt : Option Time) (account : Account)
    (w : World) (client : DataSourceApiClient) (listing : DocMap)
    (hstore : ∀ history ev, env.storeError history ev = none)
    (hclient : env.clients integrationConnection.Integration = some client)
    (hlist : client.ListDocuments w.trace integrationConnection = .ok listing)
    (hkeys : (listing.map Prod.fst).Nodup)
    (hq : account.IsUnlimited = true ∨
      (0 < totalIndexedDocumentsLimit account.IsSubscriber - account.TotalIndexedDocumentCount ∧
        (listing.length : Int) ≤
          totalIndexedDocumentsLimit account.IsSubscriber - account.TotalIndexedDocumentCount))
    (hfresh : ∀ kv ∈ listing, alreadyFresh (w.db.documents.find? (fun d => documentHasKey d
      pipeline.Account pipeline.Id kv.2.Integration kv.2.DocumentType kv.2.Id)) kv.2 = true)
    (hmissing : missingRows pipeline.Account pipeline.Id integrationConnection.Integration
      (listing.map (fun kv => kv.2.Id)) w.db.documents = []) :
    ∃ w2, runFullIndex env dataSource integrationConnection pipeline pipelineRunStep startedAt
        account w = (.ok (), w2) ∧ EndsCompleted pipelineRunStep w w2 := by
  rw [runFullIndex_after_listing env dataSource integrationConnection pipeline pipelineRunStep
    startedAt account w client listing hclient hlist]
  obtain ⟨wq, hquota, hqdocs, -⟩ := checkQuotas_admits env pipelineRunStep account listing
    { w with trace := w.trace ++ [.ListDocuments integrationConnection] } hstore hkeys hq
  rw [M.bind_of_ok _ _ _ _ _ hquota]
  unfold retrieveAndIngestDocuments
  have hing := ingest_replay env pipeline dataSource integrationConnection
    (documentTokenLimit account.IsSubscriber) hstore listing wq (by rw [hqdocs]; exact hfresh)
  rw [M.bind_of_ok _ _ _ _ () (wrapErr_of_ok _ _ _ _ () hing)]
  have hdel := deleteDocuments_replay env integrationConnection pipeline listing
    { wq with trace := wq.trace ++ listing.map (lookupOf pipeline) } hstore
    (by rw [show ({ wq with trace := wq.trace ++ listing.map (lookupOf pipeline) } : World).db =
      wq.db from rfl, hqdocs]; exact hmissing)
  rw [M.bind_of_ok _ _ _ _ () hdel, bind_now]
  obtain ⟨w2, h2, hends, -⟩ := completedWrite_ends env pipelineRunStep startedAt
    (some (env.clock wq.clockReads)) w
    { db := wq.db
      trace := wq.trace ++ listing.map (lookupOf pipeline) ++
        [.GetMissingDocuments pipeline.Account pipeline.Id integrationConnection.Integration
          (listing.map (fun kv => kv.2.Id))]
      clockReads := wq.clockReads + 1 } hstore hqdocs
  exact ⟨w2, h2, hends⟩

theorem fullIndexTail_counts (env : Env) (dataSource : PipelineDataSource)
    (integrationConnection : IntegrationConnection) (pipeline : Pipeline)
    (pipelineRunStep : PipelineRunStep) (startedAt : Option Time) (account : Account)
    (indexedDocs : DocMap) :
    Preserves indexedCounts
      (M.bind (retrieveAndIngestDocuments env dataSource integrationConnection pipeline account
          indexedDocs) (fun _ =>
        M.bind (deleteDocuments env integrationConnection pipeline indexedDocs) (fun _ =>
        M.bind (now env) (fun completedAt =>
          wrapErr "unable to update pipeline run step, "
            (UpdatePipelineRunStep env pipelineRunStep.PipelineRun pipelineRunStep.DataSource
              PipelineRunStepStatusCompleted none startedAt (some completedAt)))))) := by
  unfold retrieveAndIngestDocuments deleteDocuments GetMissingDocuments UpdatePipelineRunStep
  simp only [bind_eq, pure_eq]
  repeat' first
    | exact preserves_now _ _
    | exact retrieveIngestAndUpsert_counts _ _ _ _ _ _
    | exact deleteDocument_counts _ _ _ _ _
    | exact preserves_storeCall _ _ _ _ _ (fun _ => rfl)
    | refine preserves_errgroupRun _ _ (fun _ => ?_) _
    | refine preserves_bind _ _ _ ?_ (fun _ => ?_)
    | refine preserves_wrapErr _ _ _ ?_

theorem checkQuotas_ok_counts (env : Env) (pipelineRunStep : PipelineRunStep) (account : Account)
    (indexedDocs docs : DocMap) (w w1 : World)
    (h : checkQuotas env pipelineRunStep account indexedDocs w = (.ok docs, w1)) :
    indexedCounts w1.db = w.db.accounts.map (fun a =>
      (a.Id, if a.Id = account.Id ∧ account.IsUnlimited = false then
        a.TotalIndexedDocumentCount + (docs.length : Int)
      else a.TotalIndexedDocumentCount)) := by
  unfold checkQuotas at h
  cases hunl : account.IsUnlimited with
  | true =>
    simp only [hunl, Bool.not_true, Bool.false_eq_true, if_false, pure_eq] at h
    cases h
    simp [indexedCounts]
  | false =>
    simp only [hunl, Bool.not_false, if_true, bind_eq, pure_eq, UpdatePipelineRunStep,
      IncreaseTotalIndexedCount] at h
    by_cases hzero : totalIndexedDocumentsLimit account.IsSubscriber -
        account.TotalIndexedDocumentCount = 0
    · simp only [hzero, if_true] at h
      rw [bind_wrapErr_storeCall] at h
      split at h
      · simp at h
      · rw [bind_wrapErr_storeCall] at h
        split at h
        · simp at h
        · cases h
          simp only [indexedCounts, List.map_map, and_true]
          apply List.map_congr_left
          intro a _
          by_cases ha : a.Id = account.Id <;> simp [ha]
    · simp only [hzero, if_false, M.pure_bind] at h
      rw [bind_wrapErr_storeCall] at h
      split at h
      · simp at h
      · cases h
        simp only [indexedCounts, List.map_map, and_true]
        apply List.map_congr_left
        intro a _
        by_cases ha : a.Id = account.Id <;> simp [ha]

theorem find?_of_map_eq_map {α β γ : Type} (g1 : α → γ) (g2 : β → γ) (q : γ → Bool)
    (l1 : List α) (l2 : List β) (h : l1.map g1 = l2.map g2) :
    (l1.find? (fun a => q (g1 a))).map g1 = (l2.find? (fun b => q (g2 b))).map g2 := by
  have e1 : (l1.map g1).find? q = (l1.find? (fun a => q (g1 a))).map g1 := by
    rw [List.find?_map]
    rfl
  have e2 : (l2.map g2).find? q = (l2.find? (fun b => q (g2 b))).map g2 := by
    rw [List.find?_map]
    rfl
  rw [← e1, ← e2, h]

theorem runFullIndex_first (env : Env) (dataSource : PipelineDataSource)
    (integrationConnection : IntegrationConnection) (pipeline : Pipeline)
    (pipelineRunStep : PipelineRunStep) (startedAt : Option Time) (account : Account)
    (w w4 : World)
    (h : runFullIndex env dataSource integrationConnection pipeline pipelineRunStep startedAt
      account w = (.ok (), w4)) :
    ∃ client listing docs,
      env.clients integrationConnection.Integration = some client ∧
      client.ListDocuments w.trace integrationConnection = .ok listing ∧
      docs = quotaTruncated account listing ∧
      ((docs.map (fun kv => kv.2.Id)).Nodup →
        ∀ kv ∈ docs, alreadyFresh (w4.db.documents.find? (fun d => documentHasKey d
          pipeline.Account pipeline.Id kv.2.Integration kv.2.DocumentType kv.2.Id)) kv.2 =
            true) ∧
      missingRows pipeline.Account pipeline.Id integrationConnection.Integration
        (docs.map (fun kv => kv.2.Id)) w4.db.documents = [] ∧
      indexedCounts w4.db = w.db.accounts.map (fun a =>
        (a.Id, if a.Id = account.Id ∧ account.IsUnlimited = false then
          a.TotalIndexedDocumentCount + (docs.length : Int)
        else a.TotalIndexedDocumentCount)) := by
  obtain ⟨client, listing, docs, v1, v2, v3, hclient, hlist, hquota, hingest, hdelete, hdocs, -⟩ :=
    runFullIndex_ok env dataSource integrationConnection pipeline pipelineRunStep startedAt
      account w w4 h
  refine ⟨client, listing, docs, hclient, hlist,
    checkQuotas_ok_eq env pipelineRunStep account listing docs _ v1 hquota, ?_, ?_, ?_⟩
  · intro hids kv hkv
    rw [hdocs, deleteDocuments_ok_find env integrationConnection pipeline docs v2 v3
      kv.2.Integration kv.2.DocumentType kv.2.Id (List.mem_map.mpr ⟨kv, hkv, rfl⟩) hdelete]
    exact ingest_ok_fresh env pipeline dataSource integrationConnection _ docs v1 v2 hids hingest
      kv hkv
  · rw [hdocs]
    exact deleteDocuments_ok_missing env integrationConnection pipeline docs v2 v3 hdelete
  · rw [runFullIndex_after_listing env dataSource integrationConnection pipeline pipelineRunStep
      startedAt account w client listing hclient hlist, M.bind_ok_iff] at h
    obtain ⟨docs', wq, hquota', htail⟩ := h
    rw [hquota] at hquota'
    cases hquota'
    have hpres := (preserves_iff _ _).mp (fullIndexTail_counts env dataSource
      integrationConnection pipeline pipelineRunStep startedAt account docs) v1
    rw [htail] at hpres
    rw [hpres]
    exact checkQuotas_ok_counts env pipelineRunStep account listing docs
      { w with trace := w.trace ++ [.ListDocuments integrationConnection] } v1 hquota

theorem recovery_last (env : Env) (account : Account) (pipelineRunId dataSourceId : String)
    (runError : RunError) (startedAt : Time) (err : Err) (w1 : World)
    (hstore : ∀ history ev, env.storeError history ev = none) :
    (M.bind (wrapErr "unable to check flagged and suspend: "
          (checkFlaggedAndSuspend env account err))
        (fun _ => wrapErr "unable to update pipeline run step, "
          (UpdatePipelineRunStep env pipelineRunId dataSourceId PipelineRunStepStatusFailed
            (some runError) (some startedAt) none)) w1).2.trace.getLast? =
      some (.UpdatePipelineRunStep pipelineRunId dataSourceId PipelineRunStepStatusFailed
        (some runError) (some startedAt) none) := by
  rw [recovery_apply]
  split
  · simp only [hstore]
    rw [updateStep_apply env _ _ _ _ _ _ _ _ hstore]
    simp
  · rw [updateStep_apply env _ _ _ _ _ _ _ _ hstore]
    simp

theorem not_completed_of_failed (step : PipelineRunStep) (pipelineRunId dataSourceId : String)
    (error : Option RunError) (startedAt completedAt : Option Time) :
    ¬ (Event.UpdatePipelineRunStep pipelineRunId dataSourceId PipelineRunStepStatusFailed error
      startedAt completedAt).isCompletedWrite step := by
  intro h
  exact absurd h.2.2.1 (by decide)

theorem not_completed_of_running (step : PipelineRunStep) (pipelineRunId dataSourceId : String)
    (error : Option RunError) (startedAt completedAt : Option Time) :
    ¬ (Event.UpdatePipelineRunStep pipelineRunId dataSourceId PipelineRunStepStatusRunning error
      startedAt completedAt).isCompletedWrite step := by
  intro h
  exact absurd h.2.2.1 (by decide)

theorem fullIndexCase_first (env : Env) (dataSource : PipelineDataSource)
    (integrationConnection : IntegrationConnection) (pipeline : Pipeline)
    (pipelineRunStep : PipelineRunStep) (startedAt : Time) (account : Account) (w w1 : World)
    (hstore : ∀ history ev, env.storeError history ev = none)
    (h : fullIndexCase env dataSource integrationConnection pipeline pipelineRunStep startedAt
      account w = (.ok (), w1))
    (hlast : ∃ ev, w1.trace.getLast? = some ev ∧ ev.isCompletedWrite pipelineRunStep) :
    runFullIndex env dataSource integrationConnection pipeline pipelineRunStep (some startedAt)
      account w = (.ok (), w1) := by
  rcases hr : runFullIndex env dataSource integrationConnection pipeline pipelineRunStep
      (some startedAt) account w with ⟨r, wB⟩
  cases r with
  | panic =>
    rw [fullIndexCase_of_panic _ _ _ _ _ _ _ _ _ hr] at h
    cases h
  | error e =>
    exfalso
    have hl := recovery_last env account pipelineRunStep.PipelineRun pipelineRunStep.DataSource
      { Code := "index_failed", Message := "Unable to run full index" } startedAt e wB hstore
    rw [← fullIndexCase_of_error _ _ _ _ _ _ _ _ _ _ hr, h] at hl
    obtain ⟨ev, hev, hc⟩ := hlast
    simp only at hl
    rw [hl] at hev
    cases hev
    exact not_completed_of_failed _ _ _ _ _ _ hc
  | ok u =>
    rw [fullIndexCase_of_ok _ _ _ _ _ _ _ _ _ hr] at h
    cases h
    rfl

theorem handleDocumentChange_keeps (env : Env) (dataSource : PipelineDataSource)
    (integrationConnection : IntegrationConnection) (pipeline : Pipeline)
    (change : DocumentChange) (tokenLimit : Int) :
    KeepsRows (handleDocumentChange env dataSource integrationConnection pipeline change
      tokenLimit) := by
  unfold handleDocumentChange retrieveIngestAndUpsert getDocumentTextContent CountDocumentTokens
    IngestDocument deleteDocument HelperDeleteDocument GetDocumentForIntegration
    IncreaseTotalDocumentTokens UpsertDocument DeleteDocument
  simp only [bind_eq, pure_eq]
  repeat' first
    | exact keeps_pure _
    | exact keeps_now _
    | exact keeps_deref _
    | exact keeps_remoteCall _ _
    | exact keeps_storeCall _ _ _ _ (fun db => SameRows.refl db)
    | exact keeps_storeCall _ _ _ _ (fun db => sameRows_documents db _)
    | exact keeps_storeCall _ _ _ _ (fun db => sameRows_accounts db _ (fun a => by
        split <;> rfl))
    | refine keeps_bind _ _ ?_ (fun _ => ?_)
    | refine keeps_wrapErr _ _ ?_
    | refine keeps_catchErr _ ?_
    | split

theorem handleDocumentChange_twice (env : Env) (dataSource : PipelineDataSource)
    (integrationConnection : IntegrationConnection) (pipeline : Pipeline)
    (change : DocumentChange) (tokenLimit tokenLimit' : Int) (w wh w' : World)
    (hstore : ∀ history ev, env.storeError history ev = none)
    (halike : RespondsAlike env)
    (h1 : handleDocumentChange env dataSource integrationConnection pipeline change tokenLimit
      w = (.ok (), wh))
    (hdocs : w'.db.documents = wh.db.documents) :
    ∃ w2, handleDocumentChange env dataSource integrationConnection pipeline change tokenLimit'
        w' = (.ok (), w2) ∧
      w2.db.documents = w'.db.documents ∧ w2.clockReads = w'.clockReads := by
  unfold handleDocumentChange at h1 ⊢
  by_cases hcu : change.Action = ChangeActionCreate ∨ change.Action = ChangeActionUpdate
  · simp only [hcu, if_true, bind_eq] at h1 ⊢
    rw [bind_deref] at h1 ⊢
    cases hclient : env.clients integrationConnection.Integration with
    | none =>
      rw [hclient] at h1
      simp at h1
    | some client =>
      rw [hclient] at h1
      simp only at h1 ⊢
      rw [M.bind_ok_iff] at h1
      obtain ⟨doc, wa, hget, hingest⟩ := h1
      rw [wrapErr_ok_iff, remoteCall_ok_iff] at hget
      obtain ⟨hdoc, hwa⟩ := hget
      have hfresh := retrieveIngestAndUpsert_ok_fresh env doc pipeline dataSource
        integrationConnection tokenLimit wa wh hingest
      rw [bind_wrapErr_remoteCall,
        ((halike.1 _ client hclient).2.2 w'.trace w.trace _ _ _), hdoc]
      simp only
      rw [retrieveIngestAndUpsert_of_fresh env doc pipeline dataSource integrationConnection
        tokenLimit' _ hstore (by
          rw [show ({ w' with trace := w'.trace ++
            [.GetDocument change.DocumentType change.DocumentId integrationConnection] } :
              World).db = w'.db from rfl, hdocs]
          exact hfresh)]
      exact ⟨_, rfl, rfl, rfl⟩
  · simp only [hcu, if_false] at h1 ⊢
    by_cases hd : change.Action = ChangeActionDelete
    · simp only [hd, if_true] at h1 ⊢
      have hwh := (deleteDocument_ok env integrationConnection.Integration change.DocumentType
        change.DocumentId pipeline w wh h1).1
      simp only [deleteDocument, bind_eq, HelperDeleteDocument, DeleteDocument] at h1 ⊢
      rw [bind_wrapErr_remoteCall] at h1 ⊢
      rw [halike.2.2.1 w'.trace w.trace]
      cases hhelper : env.documentHelper.DeleteDocument w.trace pipeline.Config.DataSinks
          integrationConnection.Integration change.DocumentType change.DocumentId with
      | some e =>
        rw [hhelper] at h1
        simp at h1
      | none =>
        simp only
        rw [wrapErr_storeCall]
        simp only [hstore]
        refine ⟨_, rfl, ?_, rfl⟩
        simp only [hdocs, hwh, List.filter_filter, Bool.and_self]
    · simp only [hd, if_false, pure_eq] at h1 ⊢
      exact ⟨w', rfl, rfl, rfl⟩

theorem singleDocumentSync_first (env : Env) (dataSource : PipelineDataSource)
    (integrationConnection : IntegrationConnection) (pipeline : Pipeline)
    (pipelineRun : PipelineRun) (pipelineRunStep : PipelineRunStep) (startedAt : Time)
    (account : Account) (w w1 : World)
    (hstore : ∀ history ev, env.storeError history ev = none)
    (h : singleDocumentSync env dataSource integrationConnection pipeline pipelineRun
      pipelineRunStep startedAt account w = (.ok (), w1))
    (hlast : ∃ ev, w1.trace.getLast? = some ev ∧ ev.isCompletedWrite pipelineRunStep) :
    ∃ wh, w1.db.documents = wh.db.documents ∧ SameRows w.db w1.db ∧
      (pipelineRun.Trigger = PipelineRunTriggerIntegrationChangeEvent →
        ∃ event, pipelineRun.IntegrationChangeEvent = some event ∧
          handleDocumentChange env dataSource integrationConnection pipeline event.Change
            (documentTokenLimit account.IsSubscriber) w = (.ok (), wh)) ∧
      (pipelineRun.Trigger ≠ PipelineRunTriggerIntegrationChangeEvent → wh = w) := by
  by_cases htrigger : pipelineRun.Trigger = PipelineRunTriggerIntegrationChangeEvent
  · cases hevent : pipelineRun.IntegrationChangeEvent with
    | none =>
      simp only [singleDocumentSync, bind_eq, htrigger, if_true, hevent] at h
      rw [bind_deref] at h
      simp at h
    | some event =>
      rcases hh : handleDocumentChange env dataSource integrationConnection pipeline event.Change
          (documentTokenLimit account.IsSubscriber) w with ⟨r, wh⟩
      cases r with
      | panic =>
        simp only [singleDocumentSync, bind_eq, htrigger, if_true, hevent, deref_some,
          M.pure_bind] at h
        unfold M.bind catchErr at h
        simp [hh] at h
      | error e =>
        exfalso
        have hl := recovery_last env account pipelineRunStep.PipelineRun
          pipelineRunStep.DataSource
          { Code := "single_document_sync_failed", Message := "Unable to sync single document" }
          startedAt e wh hstore
        rw [← singleDocumentSync_of_error env dataSource integrationConnection pipeline
          pipelineRun pipelineRunStep startedAt account event w wh e htrigger hevent hh, h] at hl
        obtain ⟨ev, hev, hc⟩ := hlast
        simp only at hl
        rw [hl] at hev
        cases hev
        exact not_completed_of_failed _ _ _ _ _ _ hc
      | ok u =>
        have hsync : singleDocumentSync env dataSource integrationConnection pipeline pipelineRun
            pipelineRunStep startedAt account w =
            M.bind (now env) (fun completedAt =>
              wrapErr "unable to update pipeline run step, "
                (UpdatePipelineRunStep env pipelineRunStep.PipelineRun
                  pipelineRunStep.DataSource PipelineRunStepStatusCompleted none
                  (some startedAt) (some completedAt))) wh := by
          simp only [singleDocumentSync, bind_eq, htrigger, if_true, hevent, deref_some,
            M.pure_bind]
          conv_lhs => unfold M.bind catchErr
          simp only [hh]
          rfl
        rw [hsync, bind_now, updateStep_apply env _ _ _ _ _ _ _ _ hstore] at h
        cases h
        refine ⟨wh, rfl, ?_, fun _ => ⟨event, rfl, hh⟩, fun hne => absurd htrigger hne⟩
        have hk := (keepsRows_iff _).mp (handleDocumentChange_keeps env dataSource
          integrationConnection pipeline event.Change (documentTokenLimit account.IsSubscriber)) w
        rw [hh] at hk
        exact hk.trans (sameRows_steps wh.db _ (fun s => by split <;> rfl))
  · simp only [singleDocumentSync, bind_eq, htrigger, if_false, pure_eq, M.pure_bind] at h
    rw [bind_now, updateStep_apply env _ _ _ _ _ _ _ _ hstore] at h
    cases h
    exact ⟨w, rfl, sameRows_steps w.db _ (fun s => by split <;> rfl),
      fun ht => absurd ht htrigger, fun _ => rfl⟩

theorem singleDocumentSync_again (env : Env) (dataSource : PipelineDataSource)
    (integrationConnection : IntegrationConnection) (pipeline : Pipeline)
    (pipelineRun : PipelineRun) (pipelineRunStep : PipelineRunStep) (startedAt : Time)
    (account : Account) (w0 w : World)
    (hstore : ∀ history ev, env.storeError history ev = none)
    (hdocs : w.db.documents = w0.db.documents)
    (hchange : pipelineRun.Trigger = PipelineRunTriggerIntegrationChangeEvent →
      ∃ event wh, pipelineRun.IntegrationChangeEvent = some event ∧
        handleDocumentChange env dataSource integrationConnection pipeline event.Change
          (documentTokenLimit account.IsSubscriber) w = (.ok (), wh) ∧
        wh.db.documents = w.db.documents) :
    ∃ w2, singleDocumentSync env dataSource integrationConnection pipeline pipelineRun
        pipelineRunStep startedAt account w = (.ok (), w2) ∧
      EndsCompleted pipelineRunStep w0 w2 := by
  by_cases htrigger : pipelineRun.Trigger = PipelineRunTriggerIntegrationChangeEvent
  · obtain ⟨event, wh, hevent, hh, hwh⟩ := hchange htrigger
    have hsync : singleDocumentSync env dataSource integrationConnection pipeline pipelineRun
        pipelineRunStep startedAt account w =
        M.bind (now env) (fun completedAt =>
          wrapErr "unable to update pipeline run step, "
            (UpdatePipelineRunStep env pipelineRunStep.PipelineRun
              pipelineRunStep.DataSource PipelineRunStepStatusCompleted none
              (some startedAt) (some completedAt))) wh := by
      simp only [singleDocumentSync, bind_eq, htrigger, if_true, hevent, deref_some,
        M.pure_bind]
      conv_lhs => unfold M.bind catchErr
      simp only [hh]
      rfl
    rw [hsync, bind_now]
    obtain ⟨w2, h2, hends, -⟩ := completedWrite_ends env pipelineRunStep (some startedAt)
      (some (env.clock wh.clockReads)) w0 { wh with clockReads := wh.clockReads + 1 } hstore
      (hwh.trans hdocs)
    exact ⟨w2, h2, hends⟩
  · simp only [singleDocumentSync, bind_eq, htrigger, if_false, pure_eq, M.pure_bind]
    rw [bind_now]
    obtain ⟨w2, h2, hends, -⟩ := completedWrite_ends env pipelineRunStep (some startedAt)
      (some (env.clock w.clockReads)) w0 { w with clockReads := w.clockReads + 1 } hstore hdocs
    exact ⟨w2, h2, hends⟩

theorem singleDocumentCase_first (env : Env) (dataSource : PipelineDataSource)
    (integrationConnection : IntegrationConnection) (pipeline : Pipeline)
    (pipelineRun : PipelineRun) (pipelineRunStep : PipelineRunStep) (startedAt : Time)
    (account : Account) (w w1 : World)
    (hstore : ∀ history ev, env.storeError history ev = none)
    (h : singleDocumentCase env dataSource integrationConnection pipeline pipelineRun
      pipelineRunStep startedAt account w = (.ok (), w1))
    (hlast : ∃ ev, w1.trace.getLast? = some ev ∧ ev.isCompletedWrite pipelineRunStep) :
    ∃ wq, wq.db.documents = w.db.documents ∧ SameRows w.db wq.db ∧
      singleDocumentSync env dataSource integrationConnection pipeline pipelineRun
        pipelineRunStep startedAt account wq = (.ok (), w1) := by
  unfold singleDocumentCase at h
  cases hunl : account.IsUnlimited with
  | true =>
    simp only [hunl, Bool.not_true, Bool.false_eq_true, if_false] at h
    exact ⟨w, rfl, SameRows.refl _, h⟩
  | false =>
    simp only [hunl, Bool.not_false, if_true] at h
    split at h
    · exfalso
      rw [updateStep_apply env _ _ _ _ _ _ _ _ hstore] at h
      cases h
      obtain ⟨ev, hev, hc⟩ := hlast
      simp at hev
      rw [← hev] at hc
      exact not_completed_of_failed _ _ _ _ _ _ hc
    · simp only [bind_eq, IncreaseTotalIndexedCount] at h
      rw [bind_wrapErr_storeCall] at h
      simp only [hstore] at h
      refine ⟨_, ?_, ?_, h⟩
      · rfl
      · exact sameRows_accounts w.db _ (fun a => by split <;> rfl)

theorem singleDocumentCase_again (env : Env) (dataSource : PipelineDataSource)
    (integrationConnection : IntegrationConnection) (pipeline : Pipeline)
    (pipelineRun : PipelineRun) (pipelineRunStep : PipelineRunStep) (startedAt : Time)
    (account : Account) (w : World)
    (hstore : ∀ history ev, env.storeError history ev = none)
    (hq : account.IsUnlimited = true ∨
      account.TotalIndexedDocumentCount + 1 < totalIndexedDocumentsLimit account.IsSubscriber)
    (hsync : ∀ wq : World, wq.db.documents = w.db.documents →
      ∃ w2, singleDocumentSync env dataSource integrationConnection pipeline pipelineRun
          pipelineRunStep startedAt account wq = (.ok (), w2) ∧
        EndsCompleted pipelineRunStep w w2) :
    ∃ w2, singleDocumentCase env dataSource integrationConnection pipeline pipelineRun
        pipelineRunStep startedAt account w = (.ok (), w2) ∧
      EndsCompleted pipelineRunStep w w2 := by
  unfold singleDocumentCase
  cases hunl : account.IsUnlimited with
  | true =>
    simp only [Bool.not_true, Bool.false_eq_true, if_false]
    exact hsync w rfl
  | false =>
    rcases hq with hq | hq
    · rw [hunl] at hq
      cases hq
    · have hpass : ¬ account.TotalIndexedDocumentCount + 1 ≥
          totalIndexedDocumentsLimit account.IsSubscriber := by omega
      simp only [Bool.not_false, if_true, hpass, if_false, bind_eq, IncreaseTotalIndexedCount]
      rw [bind_wrapErr_storeCall]
      simp only [hstore]
      exact hsync _ rfl

theorem isCompletedWrite_iff (step : PipelineRunStep) (ev : Event) :
    ev.isCompletedWrite step ↔ ∃ startedAt completedAt,
      ev = .UpdatePipelineRunStep step.PipelineRun step.DataSource
        PipelineRunStepStatusCompleted none startedAt completedAt := by
  cases ev <;> simp [Event.isCompletedWrite]

theorem endsCompleted_of_afterRunning (env : Env) (step : PipelineRunStep) (w w2 : World)
    (h : EndsCompleted step (afterRunning env step w) w2) : EndsCompleted step w w2 :=
  ⟨h.1, h.2⟩

theorem account_of_core (w w1 : World) (pipeline : Pipeline) (account : Account)
    (haccount : fetchedAccount w pipeline = some account)
    (ha : (fetchedAccount w1 pipeline).map accountCore =
      (fetchedAccount w pipeline).map accountCore) :
    ∃ account1, fetchedAccount w1 pipeline = some account1 ∧ account1.Id = account.Id ∧
      account1.IsSuspended = account.IsSuspended ∧ account1.IsSubscriber = account.IsSubscriber ∧
      account1.IsUnlimited = account.IsUnlimited := by
  rw [haccount] at ha
  cases h1 : fetchedAccount w1 pipeline with
  | none =>
    rw [h1] at ha
    cases ha
  | some account1 =>
    rw [h1] at ha
    simp only [Option.map_some', Option.some.injEq, accountCore, Prod.mk.injEq] at ha
    exact ⟨account1, rfl, ha.1, ha.2.1, ha.2.2.1, ha.2.2.2⟩

theorem dispatchSyncMode_first_keeps (env : Env) (dataSource : PipelineDataSource)
    (connection : IntegrationConnection) (pipeline : Pipeline) (run : PipelineRun)
    (step : PipelineRunStep) (startedAt : Time) (account : Account) (w w1 : World)
    (hstore : ∀ history ev, env.storeError history ev = none)
    (h1 : dispatchSyncMode env dataSource connection pipeline (some run) step startedAt account
      w = (.ok (), w1))
    (hlast : ∃ ev, w1.trace.getLast? = some ev ∧ ev.isCompletedWrite step) :
    SameRows w.db w1.db := by
  simp only [dispatchSyncMode, bind_eq, deref_some, M.pure_bind] at h1
  by_cases hfull : run.SyncMode = FullIndexSyncMode
  · simp only [hfull, if_true] at h1
    have hrun := fullIndexCase_first env dataSource connection pipeline step startedAt account w w1
      hstore h1 hlast
    have hk := (keepsRows_iff _).mp (runFullIndex_keeps env dataSource connection pipeline step
      (some startedAt) account) w
    rw [hrun] at hk
    exact hk
  · simp only [hfull, if_false] at h1
    by_cases hsingle : run.SyncMode = SingleDocumentSyncMode
    · simp only [hsingle, if_true] at h1
      obtain ⟨wq, -, hkq, hsync⟩ := singleDocumentCase_first env dataSource connection pipeline
        run step startedAt account w w1 hstore h1 hlast
      obtain ⟨wh, -, hkh, -, -⟩ := singleDocumentSync_first env dataSource connection pipeline
        run step startedAt account wq w1 hstore hsync hlast
      exact hkq.trans hkh
    · simp only [hsingle, if_false, pure_eq] at h1
      cases h1
      exact SameRows.refl _

theorem dispatchSyncMode_again (env : Env) (dataSource : PipelineDataSource)
    (connection : IntegrationConnection) (pipeline : Pipeline) (run : PipelineRun)
    (step step1 : PipelineRunStep) (startedAt startedAt1 : Time) (account account1 : Account)
    (w w1 v : World)
    (hstore : ∀ history ev, env.storeError history ev = none)
    (halike : RespondsAlike env)
    (hkeyed : ∀ integration client history connection listing,
      env.clients integration = some client →
      client.ListDocuments history connection = .ok listing → KeyedById listing)
    (h1 : dispatchSyncMode env dataSource connection pipeline (some run) step startedAt account
      w = (.ok (), w1))
    (hlast : ∃ ev, w1.trace.getLast? = some ev ∧ ev.isCompletedWrite step)
    (hw : ∀ ev, w.trace.getLast? = some ev → ¬ ev.isCompletedWrite step)
    (hacc : w.db.accounts.find? (fun a => decide (a.Id = pipeline.Account)) = some account)
    (hacc1 : w1.db.accounts.find? (fun a => decide (a.Id = pipeline.Account)) = some account1)
    (hsub : account1.IsSubscriber = account.IsSubscriber)
    (hunl : account1.IsUnlimited = account.IsUnlimited)
    (hq : QuotaAdmits env connection run account1)
    (hdocs : v.db.documents = w1.db.documents) :
    ∃ w2, dispatchSyncMode env dataSource connection pipeline (some run) step1 startedAt1
        account1 v = (.ok (), w2) ∧ EndsCompleted step1 v w2 := by
  simp only [dispatchSyncMode, bind_eq, deref_some, M.pure_bind] at h1 ⊢
  by_cases hfull : run.SyncMode = FullIndexSyncMode
  · simp only [hfull, if_true] at h1 ⊢
    have hrun := fullIndexCase_first env dataSource connection pipeline step startedAt account w w1
      hstore h1 hlast
    obtain ⟨client, listing, docs, hclient, hlist, hdocsq, hfresh, hmissing, hcounts⟩ :=
      runFullIndex_first env dataSource connection pipeline step (some startedAt) account w w1 hrun
    have hkl : KeyedById listing := hkeyed _ client _ _ listing hclient hlist
    have hids : listing.map (fun kv => kv.2.Id) = listing.map Prod.fst :=
      List.map_congr_left (fun kv hkv => (hkl.2 kv hkv).symm)
    have hid : account.Id = pipeline.Account := by
      simpa using List.find?_some hacc
    -- the counter that the second handling finds
    have hfind : (w1.db.accounts.find? (fun a => decide (a.Id = pipeline.Account))).map
          (fun a => (a.Id, a.TotalIndexedDocumentCount)) =
        (w.db.accounts.find? (fun a => decide (a.Id = pipeline.Account))).map (fun a =>
          (a.Id, if a.Id = account.Id ∧ account.IsUnlimited = false then
            a.TotalIndexedDocumentCount + (docs.length : Int)
          else a.TotalIndexedDocumentCount)) :=
      find?_of_map_eq_map (fun a : Account => (a.Id, a.TotalIndexedDocumentCount))
        (fun a : Account => (a.Id, if a.Id = account.Id ∧ account.IsUnlimited = false then
            a.TotalIndexedDocumentCount + (docs.length : Int)
          else a.TotalIndexedDocumentCount))
        (fun k => decide (k.1 = pipeline.Account)) _ _ hcounts
    rw [hacc, hacc1] at hfind
    simp only [Option.map_some', Option.some.injEq, Prod.mk.injEq, true_and] at hfind
    obtain ⟨-, hcount⟩ := hfind
    -- the first handling has ingested the whole listing
    have hq' : account1.IsUnlimited = true ∨
        (0 < totalIndexedDocumentsLimit account1.IsSubscriber -
            account1.TotalIndexedDocumentCount ∧
          (listing.length : Int) ≤ totalIndexedDocumentsLimit account1.IsSubscriber -
            account1.TotalIndexedDocumentCount) := by
      rcases hq with hq | ⟨hmode, -⟩ | ⟨-, hpos, hfit⟩
      · exact Or.inl hq
      · rw [hfull] at hmode
        exact absurd hmode (by decide)
      · exact Or.inr ⟨hpos, hfit client w.trace listing hclient hlist⟩
    have hall : docs = listing := by
      rw [hdocsq]
      unfold quotaTruncated
      cases hu : account.IsUnlimited with
      | true => simp
      | false =>
        simp only [Bool.false_eq_true, if_false]
        rcases hq' with hq' | ⟨hpos, hfit⟩
        · rw [hunl, hu] at hq'
          cases hq'
        · rw [hu] at hcount
          simp only [and_self, if_true] at hcount
          rw [hsub, hcount] at hfit
          apply sliceLoop_all _ listing hkl.1
          have : (0 : Int) ≤ (docs.length : Int) := Int.natCast_nonneg _
          omega
    subst hall
    obtain ⟨w2, h2, hends⟩ := runFullIndex_again env dataSource connection pipeline step1
      (some startedAt1) account1 v client docs hstore hclient
      (by rw [(halike.1 _ client hclient).1 v.trace w.trace]; exact hlist) hkl.1 hq'
      (by rw [hdocs]; exact hfresh (by rw [hids]; exact hkl.1))
      (by rw [hdocs]; exact hmissing)
    exact ⟨w2, fullIndexCase_of_ok _ _ _ _ _ _ _ _ _ h2, hends⟩
  · simp only [hfull, if_false] at h1 ⊢
    by_cases hsingle : run.SyncMode = SingleDocumentSyncMode
    · simp only [hsingle, if_true] at h1 ⊢
      obtain ⟨wq, -, -, hsync⟩ := singleDocumentCase_first env dataSource connection pipeline
        run step startedAt account w w1 hstore h1 hlast
      obtain ⟨wh, hw1docs, -, hev, -⟩ := singleDocumentSync_first env dataSource connection
        pipeline run step startedAt account wq w1 hstore hsync hlast
      have hq' : account1.IsUnlimited = true ∨ account1.TotalIndexedDocumentCount + 1 <
          totalIndexedDocumentsLimit account1.IsSubscriber := by
        rcases hq with hq | ⟨-, hpass⟩ | ⟨hmode, -⟩
        · exact Or.inl hq
        · exact Or.inr hpass
        · rw [hsingle] at hmode
          exact absurd hmode (by decide)
      refine singleDocumentCase_again env dataSource connection pipeline run step1 startedAt1
        account1 v hstore hq' (fun vq hvq => ?_)
      refine singleDocumentSync_again env dataSource connection pipeline run step1 startedAt1
        account1 v vq hstore hvq (fun htrigger => ?_)
      obtain ⟨event, hevent, hh⟩ := hev htrigger
      obtain ⟨w2, h2, hd2, -⟩ := handleDocumentChange_twice env dataSource connection pipeline
        event.Change (documentTokenLimit account.IsSubscriber)
        (documentTokenLimit account1.IsSubscriber) wq wh vq hstore halike hh
        (hvq.trans (hdocs.trans hw1docs))
      exact ⟨event, w2, hevent, h2, hd2⟩
    · exfalso
      simp only [hsingle, if_false, pure_eq] at h1
      cases h1
      obtain ⟨ev, hev, hc⟩ := hlast
      exact hw ev hev hc

theorem exEnv_respondsAlike (listing : DocMap) (tokens : Int) (ingestError : Option Err)
    (storeError : List Event → Event → Option Err) :
    RespondsAlike (exEnv listing tokens ingestError storeError) := by
  refine ⟨fun integration client hclient => ?_, fun _ _ _ _ _ _ _ _ _ => rfl,
    fun _ _ _ _ _ _ => rfl, fun _ _ _ => rfl⟩
  simp only [exEnv] at hclient
  split at hclient
  · cases hclient
    exact ⟨fun _ _ _ => rfl, fun _ _ _ _ _ => rfl, fun _ _ _ _ _ => rfl⟩
  · cases hclient

theorem exEnv_listing (listing : DocMap) (tokens : Int) (ingestError : Option Err)
    (storeError : List Event → Event → Option Err) (integration : Integration)
    (client : DataSourceApiClient) (history : List Event) (connection : IntegrationConnection)
    (listed : DocMap)
    (hclient : (exEnv listing tokens ingestError storeError).clients integration = some client)
    (hlisted : client.ListDocuments history connection = .ok listed) : listed = listing := by
  simp only [exEnv] at hclient
  split at hclient
  · cases hclient
    cases hlisted
    rfl
  · cases hclient

theorem exQuotaReplayWorld_first :
    processIndexMessage (exEnv [("A", exDoc "A" "f1")] 10 none noStoreError)
        { MessageId := "m1", Body := some "{}" }
        (exWorld 99 (exRun FullIndexSyncMode PipelineRunTriggerManual ChangeActionCreate) []) =
      (.ok (), exQuotaReplayWorld) := by
  rw [processIndexMessage_full_index (exEnv [("A", exDoc "A" "f1")] 10 none noStoreError)
    { MessageId := "m1", Body := some "{}" } "{}" exMessage
    (exWorld 99 (exRun FullIndexSyncMode PipelineRunTriggerManual ChangeActionCreate) [])
    exStep exPipeline exDataSource exConnection
    (exRun FullIndexSyncMode PipelineRunTriggerManual ChangeActionCreate)
    (exAccount 99) rfl rfl ⟨rfl, rfl, rfl, fun _ _ _ _ => rfl⟩ rfl rfl rfl rfl rfl rfl rfl]
  exact wrapErr_of_ok _ _ _ _ () (fullIndexCase_of_ok _ _ _ _ _ _ _ _ _ (by rfl))

/-! ## Theorems -/

/-- C1 (the code departs from the claim): a full index for a non-subscriber
account that stands exactly at its limit of 100 writes the step as failed with
`limit_exceeded`, but then carries on: it asks for the missing documents with
an empty id list, deletes the persisted document `X` from the sinks and from
the mirror, and finally writes the step as completed. -/
theorem runFullIndex_quota_exhausted_carries_on :
    runFullIndex (exEnv [("A", exDoc "A" "f1")] 10 none noStoreError) exDataSource exConnection
        exPipeline exStep (some 0) (exAccount 100)
        (exWorld 100 (exRun FullIndexSyncMode PipelineRunTriggerManual ChangeActionCreate)
          [exRow "X" "f0"]) =
      (.ok (),
        { db := { accounts := [exAccount 100], pipelines := [exPipeline],
                  pipelineRuns := [exRun FullIndexSyncMode PipelineRunTriggerManual ChangeActionCreate],
                  steps := [{ exStep with Status := PipelineRunStepStatusCompleted,
                                          StartedAt := some 0, CompletedAt := some 0 }],
                  connections := [exConnection], documents := [] },
          trace := [.ListDocuments exConnection,
                    .UpdatePipelineRunStep "R1" "D1" PipelineRunStepStatusFailed
                      (some { Code := "limit_exceeded",
                              Message := "Exceeded total indexed document limit" }) none none,
                    .IncreaseTotalIndexedCount "acct" 0,
                    .GetMissingDocuments "acct" "P1" "linear" [],
                    .HelperDeleteDocument [] "linear" "issue" "X",
                    .DeleteDocument "acct" "P1" "linear" "issue" "X",
                    .UpdatePipelineRunStep "R1" "D1" PipelineRunStepStatusCompleted none (some 0)
                      (some 0)],
          clockReads := 1 }) := by
  rfl

/-- C2 (the code departs from the claim): a full index for a non-subscriber
account that starts above its limit (101 of 100) is not truncated at all: the
listed document is ingested and the counter goes up to 102, above both the
limit and the count before the run. -/
theorem runFullIndex_over_limit_ingests :
    (runFullIndex (exEnv [("A", exDoc "A" "f1")] 10 none noStoreError) exDataSource exConnection
        exPipeline exStep (some 0) (exAccount 101)
        (exWorld 101 (exRun FullIndexSyncMode PipelineRunTriggerManual ChangeActionCreate)
          [])).2.db.accounts.map (fun a => a.TotalIndexedDocumentCount) = [102] ∧
    Event.HelperIngestDocument exSplitter { Typ := "openai", ApiKey := "k" } [] "key"
        (exDoc "A" "f1") "text" [] ∈
      (runFullIndex (exEnv [("A", exDoc "A" "f1")] 10 none noStoreError) exDataSource exConnection
        exPipeline exStep (some 0) (exAccount 101)
        (exWorld 101 (exRun FullIndexSyncMode PipelineRunTriggerManual ChangeActionCreate)
          [])).2.trace ∧
    max (101 : Int) (totalIndexedDocumentsLimit false) < 102 := by
  refine ⟨by rfl, ?_, by decide⟩
  decide

theorem alreadyFresh_of_rows (rows : List Document) (doc : IndexedDocument)
    (accountId pipelineId : String)
    (hex : ∃ row ∈ rows, documentHasKey row accountId pipelineId doc.Integration
      doc.DocumentType doc.Id = true)
    (hall : ∀ row ∈ rows, documentHasKey row accountId pipelineId doc.Integration
      doc.DocumentType doc.Id = true → row.FreshnessIndicator = some doc.FreshnessIndicator) :
    alreadyFresh (rows.find? (fun d => documentHasKey d accountId pipelineId doc.Integration
      doc.DocumentType doc.Id)) doc = true := by
  cases hf : rows.find? (fun d => documentHasKey d accountId pipelineId doc.Integration
      doc.DocumentType doc.Id) with
  | none =>
    obtain ⟨row, hmem, hkey⟩ := hex
    have := List.find?_eq_none.mp hf row hmem
    simp [hkey] at this
  | some r =>
    have hk := List.find?_some hf
    have hm := List.mem_of_find?_eq_some hf
    simp [alreadyFresh, hall r hm hk]

/-- C10: when no step row has the message's `(run_id, data_source_id)` and the
three reads go through, the handler returns success; the only calls it makes
are the three reads (step, pipeline, run), so the store is unchanged and no
store write, upstream call or helper call is made. -/
theorem processIndexMessage_stale_step (env : Env) (msg : Message) (w : World) (body : String)
    (m : IndexMessage)
    (hbody : msg.Body = some body) (hdecode : env.unmarshal body = .ok m)
    (hstale : ∀ s ∈ w.db.steps,
      ¬ (s.PipelineRun = m.Payload.RunId ∧ s.DataSource = m.Payload.DataSourceId))
    (hstep : env.storeError w.trace
      (.GetPipelineStep m.Payload.RunId m.Payload.DataSourceId) = none)
    (hpipeline : env.storeError
      (w.trace ++ [.GetPipelineStep m.Payload.RunId m.Payload.DataSourceId])
      (.GetPipeline m.Payload.PipelineId) = none)
    (hrun : env.storeError
      (w.trace ++ [.GetPipelineStep m.Payload.RunId m.Payload.DataSourceId,
        .GetPipeline m.Payload.PipelineId])
      (.GetPipelineRun m.Payload.RunId) = none) :
    processIndexMessage env msg w =
      (.ok (), { w with trace := w.trace ++
        [.GetPipelineStep m.Payload.RunId m.Payload.DataSourceId,
         .GetPipeline m.Payload.PipelineId, .GetPipelineRun m.Payload.RunId] }) ∧
    ∀ ev ∈ [Event.GetPipelineStep m.Payload.RunId m.Payload.DataSourceId,
        Event.GetPipeline m.Payload.PipelineId, Event.GetPipelineRun m.Payload.RunId],
      ev.isStoreWrite = false ∧ ev.isUpstreamCall = false ∧ ev.isHelperCall = false := by
  have hnone : w.db.steps.find? (fun s =>
      decide (s.PipelineRun = m.Payload.RunId) && decide (s.DataSource = m.Payload.DataSourceId)) =
      none := by
    rw [List.find?_eq_none]
    intro s hs
    simpa using hstale s hs
  constructor
  · simp [processIndexMessage, hbody, hdecode, innerHandler, bind_eq, M.bind, wrapErr,
      GetPipelineStep, GetPipeline, GetPipelineRun, storeCall, hstep, hpipeline, hrun, hnone,
      pure_eq, M.pure]
  · simp [Event.isStoreWrite, Event.isUpstreamCall, Event.isHelperCall]

/-- C5: when the mirror holds a row with the document's key, the rows with that
key carry the document's freshness indicator, and the lookup goes through,
`retrieveIngestAndUpsert` returns success after that single read: the store
is unchanged (no upsert, no counter update), no content is fetched, the helper
is not called and the clock is not read. -/
theorem retrieveIngestAndUpsert_fresh (env : Env) (doc : IndexedDocument) (pipeline : Pipeline)
    (dataSource : PipelineDataSource) (integrationConnection : IntegrationConnection)
    (tokenLimit : Int) (w : World)
    (hrow : ∃ row ∈ w.db.documents, documentHasKey row pipeline.Account pipeline.Id
      doc.Integration doc.DocumentType doc.Id = true)
    (hfresh : ∀ row ∈ w.db.documents, documentHasKey row pipeline.Account pipeline.Id
      doc.Integration doc.DocumentType doc.Id = true →
      row.FreshnessIndicator = some doc.FreshnessIndicator)
    (hread : env.storeError w.trace (.GetDocumentForIntegration pipeline.Account pipeline.Id
      doc.Integration doc.DocumentType doc.Id) = none) :
    retrieveIngestAndUpsert env doc pipeline dataSource integrationConnection tokenLimit w =
      (.ok (), { w with trace := w.trace ++ [.GetDocumentForIntegration pipeline.Account
        pipeline.Id doc.Integration doc.DocumentType doc.Id] }) := by
  have hf := alreadyFresh_of_rows w.db.documents doc pipeline.Account pipeline.Id hrow hfresh
  simp [retrieveIngestAndUpsert, bind_eq, M.bind, wrapErr, GetDocumentForIntegration, storeCall,
    hread, hf, pure_eq, M.pure]

/-- C6: token limit in `retrieveIngestAndUpsert`, the limit being
`documentTokenLimit` (100000 for subscribers, 1000 otherwise). For a document
that is not fresh, whose content is fetched and counted to `tokens`:
if `tokens` is above the limit, the calls made are the lookup, the content
fetch, the count and the upsert of a mirror row with `ExceedsTokenLimit = true`
and `TokenCount = tokens` (no ingest, no counter update, accounts unchanged);
if `tokens` is at most the limit and the ingest succeeds, the ingest is followed
by `IncreaseTotalDocumentTokens` with exactly `tokens` (which, when the store
accepts it, adds `tokens` to the account's token counter) and by the upsert of
a mirror row with `ExceedsTokenLimit = false`. -/
theorem retrieveIngestAndUpsert_token_limit (env : Env) (doc : IndexedDocument)
    (pipeline : Pipeline) (dataSource : PipelineDataSource)
    (integrationConnection : IntegrationConnection) (isSubscriber : Bool) (w : World)
    (client : DataSourceApiClient) (text : String) (metadata : Metadata) (tokens : Int)
    (hread : env.storeError w.trace (.GetDocumentForIntegration pipeline.Account pipeline.Id
      doc.Integration doc.DocumentType doc.Id) = none)
    (hstale : alreadyFresh (w.db.documents.find? (fun d => documentHasKey d pipeline.Account
      pipeline.Id doc.Integration doc.DocumentType doc.Id)) doc = false)
    (hclient : env.clients integrationConnection.Integration = some client)
    (hcontent : client.GetDocumentContent
      (w.trace ++ [.GetDocumentForIntegration pipeline.Account pipeline.Id doc.Integration
        doc.DocumentType doc.Id])
      doc.DocumentType doc.Id integrationConnection = .ok (text, metadata))
    (hcount : env.documentHelper.CountDocumentTokens
      (w.trace ++ [.GetDocumentForIntegration pipeline.Account pipeline.Id doc.Integration
        doc.DocumentType doc.Id,
        .GetDocumentContent doc.DocumentType doc.Id integrationConnection]) text = .ok tokens) :
    documentTokenLimit true = 100000 ∧ documentTokenLimit false = 1000 ∧
    (tokens > documentTokenLimit isSubscriber →
      (retrieveIngestAndUpsert env doc pipeline dataSource integrationConnection
          (documentTokenLimit isSubscriber) w).2.trace =
        w.trace ++ [.GetDocumentForIntegration pipeline.Account pipeline.Id doc.Integration
            doc.DocumentType doc.Id,
          .GetDocumentContent doc.DocumentType doc.Id integrationConnection,
          .HelperCountDocumentTokens text,
          .UpsertDocument
            { AccountId := pipeline.Account, PipelineId := pipeline.Id,
              Integration := doc.Integration, DocumentType := doc.DocumentType, Id := doc.Id,
              CreatedAt := env.clock w.clockReads, UpdatedAt := some (env.clock w.clockReads),
              Title := doc.Title, URL := doc.URL,
              FreshnessIndicator := some doc.FreshnessIndicator,
              TokenCount := tokens, ExceedsTokenLimit := true }] ∧
      (retrieveIngestAndUpsert env doc pipeline dataSource integrationConnection
          (documentTokenLimit isSubscriber) w).2.db.accounts = w.db.accounts) ∧
    (tokens ≤ documentTokenLimit isSubscriber →
      env.documentHelper.IngestDocument
        (w.trace ++ [.GetDocumentForIntegration pipeline.Account pipeline.Id doc.Integration
            doc.DocumentType doc.Id,
          .GetDocumentContent doc.DocumentType doc.Id integrationConnection,
          .HelperCountDocumentTokens text])
        dataSource.TextSplitter pipeline.Config.Embeddings pipeline.Config.DataSinks
        env.openAIApiKey doc text metadata = none →
      (retrieveIngestAndUpsert env doc pipeline dataSource integrationConnection
          (documentTokenLimit isSubscriber) w).2.trace =
        w.trace ++ [.GetDocumentForIntegration pipeline.Account pipeline.Id doc.Integration
            doc.DocumentType doc.Id,
          .GetDocumentContent doc.DocumentType doc.Id integrationConnection,
          .HelperCountDocumentTokens text,
          .HelperIngestDocument dataSource.TextSplitter pipeline.Config.Embeddings
            pipeline.Config.DataSinks env.openAIApiKey doc text metadata,
          .IncreaseTotalDocumentTokens pipeline.Account tokens,
          .UpsertDocument
            { AccountId := pipeline.Account, PipelineId := pipeline.Id,
              Integration := doc.Integration, DocumentType := doc.DocumentType, Id := doc.Id,
              CreatedAt := env.clock w.clockReads, UpdatedAt := some (env.clock w.clockReads),
              Title := doc.Title, URL := doc.URL,
              FreshnessIndicator := some doc.FreshnessIndicator,
              TokenCount := tokens, ExceedsTokenLimit := false }] ∧
      (env.storeError
          (w.trace ++ [.GetDocumentForIntegration pipeline.Account pipeline.Id doc.Integration
              doc.DocumentType doc.Id,
            .GetDocumentContent doc.DocumentType doc.Id integrationConnection,
            .HelperCountDocumentTokens text,
            .HelperIngestDocument dataSource.TextSplitter pipeline.Config.Embeddings
              pipeline.Config.DataSinks env.openAIApiKey doc text metadata])
          (.IncreaseTotalDocumentTokens pipeline.Account tokens) = none →
        (retrieveIngestAndUpsert env doc pipeline dataSource integrationConnection
            (documentTokenLimit isSubscriber) w).2.db.accounts =
          w.db.accounts.map (fun a =>
            if a.Id = pipeline.Account then
              { a with TotalIndexDocumentTokens := a.TotalIndexDocumentTokens + tokens }
            else a))) := by
  refine ⟨rfl, rfl, ?_, ?_⟩
  · intro hgt
    simp [retrieveIngestAndUpsert, bind_eq, pure_eq, M.pure_bind, deref_some,
      bind_wrapErr_storeCall, bind_wrapErr_remoteCall, wrapErr_storeCall, bind_now,
      GetDocumentForIntegration, hread, hstale, getDocumentTextContent, hclient,
      hcontent, CountDocumentTokens, hcount, hgt, UpsertDocument]
    constructor <;> split <;> simp
  · intro hle hingest
    have hngt : ¬ documentTokenLimit isSubscriber < tokens := not_lt.mpr hle
    simp [retrieveIngestAndUpsert, bind_eq, pure_eq, M.pure_bind, deref_some,
      bind_wrapErr_storeCall, bind_wrapErr_remoteCall, wrapErr_storeCall, bind_now,
      bind_catchErr_storeCall, IncreaseTotalDocumentTokens, IngestDocument,
      GetDocumentForIntegration, hread, hstale, getDocumentTextContent, hclient,
      hcontent, CountDocumentTokens, hcount, hngt, hingest, UpsertDocument]
    constructor
    · split <;> split <;> simp
    · intro hs
      simp [hs]
      split <;> simp

theorem processIndexMessage_stale_step_witness :
    processIndexMessage (exEnv [] 10 none noStoreError) { MessageId := "m1", Body := some "{}" }
        exStaleWorld =
      (.ok (), { exStaleWorld with trace := exStaleWorld.trace ++
        [.GetPipelineStep exMessage.Payload.RunId exMessage.Payload.DataSourceId,
         .GetPipeline exMessage.Payload.PipelineId, .GetPipelineRun exMessage.Payload.RunId] }) ∧
    ∀ ev ∈ [Event.GetPipelineStep exMessage.Payload.RunId exMessage.Payload.DataSourceId,
        Event.GetPipeline exMessage.Payload.PipelineId,
        Event.GetPipelineRun exMessage.Payload.RunId],
      ev.isStoreWrite = false ∧ ev.isUpstreamCall = false ∧ ev.isHelperCall = false :=
  processIndexMessage_stale_step (exEnv [] 10 none noStoreError)
    { MessageId := "m1", Body := some "{}" } exStaleWorld "{}" exMessage rfl rfl
    (by decide) rfl rfl rfl

theorem retrieveIngestAndUpsert_fresh_witness :
    retrieveIngestAndUpsert (exEnv [] 10 none noStoreError) (exDoc "A" "f1") exPipeline
        exDataSource exConnection 1000
        (exWorld 0 (exRun FullIndexSyncMode PipelineRunTriggerManual ChangeActionCreate)
          [exRow "A" "f1"]) =
      (.ok (), { exWorld 0 (exRun FullIndexSyncMode PipelineRunTriggerManual ChangeActionCreate)
          [exRow "A" "f1"] with
        trace := [] ++ [.GetDocumentForIntegration "acct" "P1" "linear" "issue" "A"] }) :=
  retrieveIngestAndUpsert_fresh (exEnv [] 10 none noStoreError) (exDoc "A" "f1") exPipeline
    exDataSource exConnection 1000
    (exWorld 0 (exRun FullIndexSyncMode PipelineRunTriggerManual ChangeActionCreate)
      [exRow "A" "f1"])
    (by decide) (by decide) rfl

theorem retrieveIngestAndUpsert_token_limit_witness :
    (retrieveIngestAndUpsert (exEnv [] 5000 none noStoreError) (exDoc "A" "f1") exPipeline
        exDataSource exConnection (documentTokenLimit false)
        (exWorld 0 (exRun FullIndexSyncMode PipelineRunTriggerManual ChangeActionCreate)
          [])).2.trace =
      [] ++ [.GetDocumentForIntegration "acct" "P1" "linear" "issue" "A",
        .GetDocumentContent "issue" "A" exConnection,
        .HelperCountDocumentTokens "text",
        .UpsertDocument
          { AccountId := "acct", PipelineId := "P1", Integration := "linear",
            DocumentType := "issue", Id := "A", CreatedAt := 0, UpdatedAt := some 0,
            Title := "t", URL := "u", FreshnessIndicator := some "f1",
            TokenCount := 5000, ExceedsTokenLimit := true }] ∧
    (retrieveIngestAndUpsert (exEnv [] 10 none noStoreError) (exDoc "A" "f1") exPipeline
        exDataSource exConnection (documentTokenLimit false)
        (exWorld 0 (exRun FullIndexSyncMode PipelineRunTriggerManual ChangeActionCreate)
          [])).2.db.accounts =
      [{ exAccount 0 with TotalIndexDocumentTokens := 0 + 10 }] :=
  ⟨((retrieveIngestAndUpsert_token_limit (exEnv [] 5000 none noStoreError) (exDoc "A" "f1")
      exPipeline exDataSource exConnection false
      (exWorld 0 (exRun FullIndexSyncMode PipelineRunTriggerManual ChangeActionCreate) [])
      (exClient []) "text" [] 5000 rfl rfl rfl rfl rfl).2.2.1 (by decide)).1,
   (((retrieveIngestAndUpsert_token_limit (exEnv [] 10 none noStoreError) (exDoc "A" "f1")
      exPipeline exDataSource exConnection false
      (exWorld 0 (exRun FullIndexSyncMode PipelineRunTriggerManual ChangeActionCreate) [])
      (exClient []) "text" [] 10 rfl rfl rfl rfl rfl).2.2.2 (by decide) rfl).2 rfl)⟩

/-- C7 (the code departs from the claim): a single-document run for a
non-subscriber account holding 99 of its 100 documents, so that one document
remains, is failed with `limit_exceeded`: after the step is set to running
the handler writes it as failed, makes no upstream or helper call, and leaves
the counter at 99. -/
theorem processIndexMessage_single_document_one_short :
    totalIndexedDocumentsLimit false - 99 = 1 ∧
    processIndexMessage (exEnv [] 10 none noStoreError) { MessageId := "m1", Body := some "{}" }
        (exWorld 99 (exRun SingleDocumentSyncMode PipelineRunTriggerIntegrationChangeEvent
          ChangeActionCreate) []) =
      (.ok (),
        { db := { accounts := [exAccount 99], pipelines := [exPipeline],
                  pipelineRuns := [exRun SingleDocumentSyncMode
                    PipelineRunTriggerIntegrationChangeEvent ChangeActionCreate],
                  steps := [{ exStep with
                    Status := PipelineRunStepStatusFailed,
                    Error := some { Code := "limit_exceeded",
                                    Message := "Exceeded total indexed document limit" },
                    StartedAt := some 0, CompletedAt := none }],
                  connections := [exConnection], documents := [] },
          trace := [.GetPipelineStep "R1" "D1", .GetPipeline "P1", .GetPipelineRun "R1",
                    .GetIntegrationConnection "acct" "linear", .GetAccount "acct",
                    .UpdatePipelineRunStep "R1" "D1" PipelineRunStepStatusRunning none (some 0)
                      none,
                    .UpdatePipelineRunStep "R1" "D1" PipelineRunStepStatusFailed
                      (some { Code := "limit_exceeded",
                              Message := "Exceeded total indexed document limit" })
                      (some 0) none],
          clockReads := 1 }) := by
  constructor
  · decide
  · rfl

/-- C8: flagged-content suspension. When `runFullIndex` (first part) or
`handleDocumentChange` (second part) returns an error, then among all calls
the handler's case makes from its start, `SuspendAccount(account.Id)` occurs
if and only if the cause chain of the error contains a `DocumentHelperError`
with code `flagged_content`, and no other account is ever suspended. When it
does and the suspension write goes through, the account rows with that id are
marked suspended, the next and last call is the write of the step as failed,
and if that write goes through the case returns success. -/
theorem suspension_iff_flagged_content (env : Env) (dataSource : PipelineDataSource)
    (integrationConnection : IntegrationConnection) (pipeline : Pipeline)
    (pipelineRunStep : PipelineRunStep) (startedAt : Time) (account : Account) (w w1 : World)
    (err : Err) :
    (runFullIndex env dataSource integrationConnection pipeline pipelineRunStep (some startedAt)
        account w = (.error err, w1) →
      (∃ suffix,
        (fullIndexCase env dataSource integrationConnection pipeline pipelineRunStep startedAt
          account w).2.trace = w.trace ++ suffix ∧
        (Event.SuspendAccount account.Id ∈ suffix ↔ err.chainHasFlaggedContent = true) ∧
        (∀ ev ∈ suffix, ev.isSuspension = true → ev = .SuspendAccount account.Id)) ∧
      (err.chainHasFlaggedContent = true →
        env.storeError w1.trace (.SuspendAccount account.Id) = none →
        (fullIndexCase env dataSource integrationConnection pipeline pipelineRunStep startedAt
          account w).2.trace =
          w1.trace ++ [.SuspendAccount account.Id,
            .UpdatePipelineRunStep pipelineRunStep.PipelineRun pipelineRunStep.DataSource
              PipelineRunStepStatusFailed
              (some { Code := "index_failed", Message := "Unable to run full index" })
              (some startedAt) none] ∧
        (fullIndexCase env dataSource integrationConnection pipeline pipelineRunStep startedAt
          account w).2.db.accounts = suspendRows account.Id w1.db.accounts ∧
        (env.storeError (w1.trace ++ [.SuspendAccount account.Id])
            (.UpdatePipelineRunStep pipelineRunStep.PipelineRun pipelineRunStep.DataSource
              PipelineRunStepStatusFailed
              (some { Code := "index_failed", Message := "Unable to run full index" })
              (some startedAt) none) = none →
          (fullIndexCase env dataSource integrationConnection pipeline pipelineRunStep startedAt
            account w).1 = .ok ()))) ∧
    (∀ (pipelineRun : PipelineRun) (event : IntegrationChangeEvent),
      pipelineRun.Trigger = PipelineRunTriggerIntegrationChangeEvent →
      pipelineRun.IntegrationChangeEvent = some event →
      handleDocumentChange env dataSource integrationConnection pipeline event.Change
        (documentTokenLimit account.IsSubscriber) w = (.error err, w1) →
      (∃ suffix,
        (singleDocumentSync env dataSource integrationConnection pipeline pipelineRun
          pipelineRunStep startedAt account w).2.trace = w.trace ++ suffix ∧
        (Event.SuspendAccount account.Id ∈ suffix ↔ err.chainHasFlaggedContent = true) ∧
        (∀ ev ∈ suffix, ev.isSuspension = true → ev = .SuspendAccount account.Id)) ∧
      (err.chainHasFlaggedContent = true →
        env.storeError w1.trace (.SuspendAccount account.Id) = none →
        (singleDocumentSync env dataSource integrationConnection pipeline pipelineRun
          pipelineRunStep startedAt account w).2.trace =
          w1.trace ++ [.SuspendAccount account.Id,
            .UpdatePipelineRunStep pipelineRunStep.PipelineRun pipelineRunStep.DataSource
              PipelineRunStepStatusFailed
              (some { Code := "single_document_sync_failed",
                      Message := "Unable to sync single document" })
              (some startedAt) none] ∧
        (singleDocumentSync env dataSource integrationConnection pipeline pipelineRun
          pipelineRunStep startedAt account w).2.db.accounts =
          suspendRows account.Id w1.db.accounts ∧
        (env.storeError (w1.trace ++ [.SuspendAccount account.Id])
            (.UpdatePipelineRunStep pipelineRunStep.PipelineRun pipelineRunStep.DataSource
              PipelineRunStepStatusFailed
              (some { Code := "single_document_sync_failed",
                      Message := "Unable to sync single document" })
              (some startedAt) none) = none →
          (singleDocumentSync env dataSource integrationConnection pipeline pipelineRun
            pipelineRunStep startedAt account w).1 = .ok ()))) := by
  constructor
  · intro h
    obtain ⟨s1, hw1, hs1⟩ := traceGrows_apply _ _
      (runFullIndex_no_suspension env dataSource integrationConnection pipeline pipelineRunStep
        (some startedAt) account) w w1 _ h
    have hp := recovery_post env account pipelineRunStep.PipelineRun pipelineRunStep.DataSource
      { Code := "index_failed", Message := "Unable to run full index" } startedAt err w w1 s1
      _ (fullIndexCase_of_error env dataSource integrationConnection pipeline pipelineRunStep
        startedAt account w w1 err h) hw1 hs1
    exact ⟨hp.1, hp.2.1⟩
  · intro pipelineRun event htrigger hevent h
    obtain ⟨s1, hw1, hs1⟩ := traceGrows_apply _ _
      (handleDocumentChange_no_suspension env dataSource integrationConnection pipeline
        event.Change (documentTokenLimit account.IsSubscriber)) w w1 _ h
    have hp := recovery_post env account pipelineRunStep.PipelineRun pipelineRunStep.DataSource
      { Code := "single_document_sync_failed", Message := "Unable to sync single document" }
      startedAt err w w1 s1
      _ (singleDocumentSync_of_error env dataSource integrationConnection pipeline pipelineRun
        pipelineRunStep startedAt account event w w1 err htrigger hevent h) hw1 hs1
    exact ⟨hp.1, hp.2.1⟩

theorem suspension_iff_flagged_content_witness :
    (fullIndexCase (exFlaggedEnv noStoreError) exDataSource exConnection exPipeline exStep 0
      (exAccount 0) exFullIndexWorld).1 = .ok () ∧
    (singleDocumentSync (exFlaggedEnv noStoreError) exDataSource exConnection exPipeline
      (exRun SingleDocumentSyncMode PipelineRunTriggerIntegrationChangeEvent ChangeActionCreate)
      exStep 0 (exAccount 0) exSingleDocumentWorld).1 = .ok () :=
  ⟨((((suspension_iff_flagged_content (exFlaggedEnv noStoreError) exDataSource exConnection
        exPipeline exStep 0 (exAccount 0) exFullIndexWorld
        (runFullIndex (exFlaggedEnv noStoreError) exDataSource exConnection exPipeline exStep
          (some 0) (exAccount 0) exFullIndexWorld).2
        (.wrap "unable to upsert documents, " (.wrap "unable to ingest document, " exFlagged))).1
      rfl).2 rfl rfl).2.2 rfl),
   ((((suspension_iff_flagged_content (exFlaggedEnv noStoreError) exDataSource exConnection
        exPipeline exStep 0 (exAccount 0) exSingleDocumentWorld
        (handleDocumentChange (exFlaggedEnv noStoreError) exDataSource exConnection exPipeline
          (exChangeEvent ChangeActionCreate).Change (documentTokenLimit false)
          exSingleDocumentWorld).2
        (.wrap "unable to ingest document, " exFlagged)).2
      (exRun SingleDocumentSyncMode PipelineRunTriggerIntegrationChangeEvent ChangeActionCreate)
      (exChangeEvent ChangeActionCreate) rfl rfl rfl).2 rfl rfl).2.2 rfl)⟩

/-- C9 as stated fails: the helper rejects the ingest as flagged content, so
`runFullIndex` returns an error, and the store refuses the suspension write.
The handler then returns an error to the consumer, and the last call it made
is the refused `SuspendAccount`: the step is never written as failed and stays
`running`. -/
theorem index_failure_without_failed_step :
    (runFullIndex (exFlaggedEnv suspendFails) exDataSource exConnection exPipeline exStep (some 0)
      (exAccount 0)
      { exFullIndexWorld with
        trace := [.GetPipelineStep "R1" "D1", .GetPipeline "P1", .GetPipelineRun "R1",
          .GetIntegrationConnection "acct" "linear", .GetAccount "acct",
          .UpdatePipelineRunStep "R1" "D1" PipelineRunStepStatusRunning none (some 0) none],
        clockReads := 1,
        db := { exFullIndexWorld.db with steps := [{ exStep with
          Status := PipelineRunStepStatusRunning, StartedAt := some 0 }] } }).1 =
      .error (.wrap "unable to upsert documents, "
        (.wrap "unable to ingest document, " exFlagged)) ∧
    processIndexMessage (exFlaggedEnv suspendFails) { MessageId := "m1", Body := some "{}" }
        exFullIndexWorld =
      (.error (.wrap "unable to process index message, "
          (.wrap "unable to check flagged and suspend: "
            (.wrap "unable to suspend account: " (.other "connection reset")))),
        { db := { exFullIndexWorld.db with
            accounts := [exAccount 1],
            steps := [{ exStep with
              Status := PipelineRunStepStatusRunning, StartedAt := some 0 }] },
          trace := [.GetPipelineStep "R1" "D1", .GetPipeline "P1", .GetPipelineRun "R1",
            .GetIntegrationConnection "acct" "linear", .GetAccount "acct",
            .UpdatePipelineRunStep "R1" "D1" PipelineRunStepStatusRunning none (some 0) none,
            .ListDocuments exConnection,
            .IncreaseTotalIndexedCount "acct" 1,
            .GetDocumentForIntegration "acct" "P1" "linear" "issue" "A",
            .GetDocumentContent "issue" "A" exConnection,
            .HelperCountDocumentTokens "text",
            .HelperIngestDocument exSplitter { Typ := "openai", ApiKey := "k" } [] "key"
              (exDoc "A" "f1") "text" [],
            .SuspendAccount "acct"],
          clockReads := 1 }) := by
  constructor <;> rfl

/-- C9, amended: when `runFullIndex` (first part) or `handleDocumentChange`
(second part) returns an error and the flagged-content check does not itself
fail (the error is not flagged content, or the suspension write goes through),
the last call of the handler's case is the write of the step as failed, with
code `index_failed` resp. `single_document_sync_failed`, `started_at` kept and
`completed_at` empty; and if that write goes through, the case returns
success. -/
theorem failure_is_mapped_to_failed_step (env : Env) (dataSource : PipelineDataSource)
    (integrationConnection : IntegrationConnection) (pipeline : Pipeline)
    (pipelineRunStep : PipelineRunStep) (startedAt : Time) (account : Account) (w w1 : World)
    (err : Err)
    (hcheck : err.chainHasFlaggedContent = false ∨
      env.storeError w1.trace (.SuspendAccount account.Id) = none) :
    (runFullIndex env dataSource integrationConnection pipeline pipelineRunStep (some startedAt)
        account w = (.error err, w1) →
      (fullIndexCase env dataSource integrationConnection pipeline pipelineRunStep startedAt
        account w).2.trace =
        (w1.trace ++ if err.chainHasFlaggedContent then [.SuspendAccount account.Id] else []) ++
          [.UpdatePipelineRunStep pipelineRunStep.PipelineRun pipelineRunStep.DataSource
            PipelineRunStepStatusFailed
            (some { Code := "index_failed", Message := "Unable to run full index" })
            (some startedAt) none] ∧
      (env.storeError
          (w1.trace ++ if err.chainHasFlaggedContent then [.SuspendAccount account.Id] else [])
          (.UpdatePipelineRunStep pipelineRunStep.PipelineRun pipelineRunStep.DataSource
            PipelineRunStepStatusFailed
            (some { Code := "index_failed", Message := "Unable to run full index" })
            (some startedAt) none) = none →
        (fullIndexCase env dataSource integrationConnection pipeline pipelineRunStep startedAt
          account w).1 = .ok ())) ∧
    (∀ (pipelineRun : PipelineRun) (event : IntegrationChangeEvent),
      pipelineRun.Trigger = PipelineRunTriggerIntegrationChangeEvent →
      pipelineRun.IntegrationChangeEvent = some event →
      handleDocumentChange env dataSource integrationConnection pipeline event.Change
        (documentTokenLimit account.IsSubscriber) w = (.error err, w1) →
      (singleDocumentSync env dataSource integrationConnection pipeline pipelineRun
        pipelineRunStep startedAt account w).2.trace =
        (w1.trace ++ if err.chainHasFlaggedContent then [.SuspendAccount account.Id] else []) ++
          [.UpdatePipelineRunStep pipelineRunStep.PipelineRun pipelineRunStep.DataSource
            PipelineRunStepStatusFailed
            (some { Code := "single_document_sync_failed",
                    Message := "Unable to sync single document" })
            (some startedAt) none] ∧
      (env.storeError
          (w1.trace ++ if err.chainHasFlaggedContent then [.SuspendAccount account.Id] else [])
          (.UpdatePipelineRunStep pipelineRunStep.PipelineRun pipelineRunStep.DataSource
            PipelineRunStepStatusFailed
            (some { Code := "single_document_sync_failed",
                    Message := "Unable to sync single document" })
            (some startedAt) none) = none →
        (singleDocumentSync env dataSource integrationConnection pipeline pipelineRun
          pipelineRunStep startedAt account w).1 = .ok ())) := by
  constructor
  · intro h
    obtain ⟨s1, hw1, hs1⟩ := traceGrows_apply _ _
      (runFullIndex_no_suspension env dataSource integrationConnection pipeline pipelineRunStep
        (some startedAt) account) w w1 _ h
    have hp := recovery_post env account pipelineRunStep.PipelineRun pipelineRunStep.DataSource
      { Code := "index_failed", Message := "Unable to run full index" } startedAt err w w1 s1
      _ (fullIndexCase_of_error env dataSource integrationConnection pipeline pipelineRunStep
        startedAt account w w1 err h) hw1 hs1
    cases hflag : err.chainHasFlaggedContent with
    | false => simpa using hp.2.2 hflag
    | true =>
      have hs : env.storeError w1.trace (.SuspendAccount account.Id) = none := by
        rcases hcheck with h | h
        · rw [hflag] at h
          exact absurd h (by decide)
        · exact h
      obtain ⟨ht, _, hok⟩ := hp.2.1 hflag hs
      exact ⟨by simpa using ht, by simpa using hok⟩
  · intro pipelineRun event htrigger hevent h
    obtain ⟨s1, hw1, hs1⟩ := traceGrows_apply _ _
      (handleDocumentChange_no_suspension env dataSource integrationConnection pipeline
        event.Change (documentTokenLimit account.IsSubscriber)) w w1 _ h
    have hp := recovery_post env account pipelineRunStep.PipelineRun pipelineRunStep.DataSource
      { Code := "single_document_sync_failed", Message := "Unable to sync single document" }
      startedAt err w w1 s1
      _ (singleDocumentSync_of_error env dataSource integrationConnection pipeline pipelineRun
        pipelineRunStep startedAt account event w w1 err htrigger hevent h) hw1 hs1
    cases hflag : err.chainHasFlaggedContent with
    | false => simpa using hp.2.2 hflag
    | true =>
      have hs : env.storeError w1.trace (.SuspendAccount account.Id) = none := by
        rcases hcheck with h | h
        · rw [hflag] at h
          exact absurd h (by decide)
        · exact h
      obtain ⟨ht, _, hok⟩ := hp.2.1 hflag hs
      exact ⟨by simpa using ht, by simpa using hok⟩

theorem failure_is_mapped_to_failed_step_witness :
    (fullIndexCase (exFlaggedEnv noStoreError) exDataSource exConnection exPipeline exStep 0
      (exAccount 0) exFullIndexWorld).1 = .ok () ∧
    (singleDocumentSync (exFlaggedEnv noStoreError) exDataSource exConnection exPipeline
      (exRun SingleDocumentSyncMode PipelineRunTriggerIntegrationChangeEvent ChangeActionCreate)
      exStep 0 (exAccount 0) exSingleDocumentWorld).1 = .ok () :=
  ⟨((failure_is_mapped_to_failed_step (exFlaggedEnv noStoreError) exDataSource exConnection
        exPipeline exStep 0 (exAccount 0) exFullIndexWorld
        (runFullIndex (exFlaggedEnv noStoreError) exDataSource exConnection exPipeline exStep
          (some 0) (exAccount 0) exFullIndexWorld).2
        (.wrap "unable to upsert documents, " (.wrap "unable to ingest document, " exFlagged))
        (Or.inr rfl)).1 rfl).2 rfl,
   ((failure_is_mapped_to_failed_step (exFlaggedEnv noStoreError) exDataSource exConnection
        exPipeline exStep 0 (exAccount 0) exSingleDocumentWorld
        (handleDocumentChange (exFlaggedEnv noStoreError) exDataSource exConnection exPipeline
          (exChangeEvent ChangeActionCreate).Change (documentTokenLimit false)
          exSingleDocumentWorld).2
        (.wrap "unable to ingest document, " exFlagged)
        (Or.inr rfl)).2
      (exRun SingleDocumentSyncMode PipelineRunTriggerIntegrationChangeEvent ChangeActionCreate)
      (exChangeEvent ChangeActionCreate) rfl rfl rfl).2 rfl⟩

/-- C4: drift deletion. Take a full-index run that returns without error,
whose upstream listing `listing` carries the integration of the connection on
every document, and let `processed` be the listing after the quota truncation
of the code (the listing itself for an unlimited account). After the run the
ids of the mirror rows of `(account, pipeline, integration)` are exactly the
ids of `processed`; and every row persisted before the run for that triple
whose id is not among them is gone from the mirror, the helper having been
asked during the run to delete it from the sinks. -/
theorem runFullIndex_drift_deletion (env : Env) (dataSource : PipelineDataSource)
    (integrationConnection : IntegrationConnection) (pipeline : Pipeline)
    (pipelineRunStep : PipelineRunStep) (startedAt : Option Time) (account : Account)
    (w w4 : World) (client : DataSourceApiClient) (listing : DocMap)
    (hclient : env.clients integrationConnection.Integration = some client)
    (hlist : client.ListDocuments w.trace integrationConnection = .ok listing)
    (hint : ∀ kv ∈ listing, kv.2.Integration = integrationConnection.Integration)
    (hrun : runFullIndex env dataSource integrationConnection pipeline pipelineRunStep startedAt
      account w = (.ok (), w4)) :
    (∀ id : String,
      (∃ row ∈ w4.db.documents, row.AccountId = pipeline.Account ∧
        row.PipelineId = pipeline.Id ∧ row.Integration = integrationConnection.Integration ∧
        row.Id = id) ↔
      ∃ kv ∈ (if account.IsUnlimited then listing else
          sliceLoop (totalIndexedDocumentsLimit account.IsSubscriber -
            account.TotalIndexedDocumentCount) listing []),
        kv.2.Id = id) ∧
    (∀ row ∈ w.db.documents, row.AccountId = pipeline.Account → row.PipelineId = pipeline.Id →
      row.Integration = integrationConnection.Integration →
      (∀ kv ∈ (if account.IsUnlimited then listing else
          sliceLoop (totalIndexedDocumentsLimit account.IsSubscriber -
            account.TotalIndexedDocumentCount) listing []),
        kv.2.Id ≠ row.Id) →
      row ∉ w4.db.documents ∧
      ∃ suffix, w4.trace = w.trace ++ suffix ∧
        Event.HelperDeleteDocument pipeline.Config.DataSinks row.Integration row.DocumentType
          row.Id ∈ suffix) := by
  obtain ⟨client', listing', docs, w1, w2, w3, hclient', hlist', hquota, hingest, hdelete, hdocs4,
    htrace4⟩ := runFullIndex_ok env dataSource integrationConnection pipeline pipelineRunStep
      startedAt account w w4 hrun
  rw [hclient] at hclient'
  cases hclient'
  rw [hlist] at hlist'
  cases hlist'
  obtain ⟨hq1, hq2, hq3⟩ := checkQuotas_ok env pipelineRunStep account listing docs _ w1 hquota
  have hproc : (if account.IsUnlimited then listing else
      sliceLoop (totalIndexedDocumentsLimit account.IsSubscriber -
        account.TotalIndexedDocumentCount) listing []) = docs := by
    cases hunl : account.IsUnlimited with
    | true => simp [(hq2 hunl).1]
    | false => simp [(hq3 hunl).1]
  rw [hproc]
  have hsub : ∀ kv ∈ docs, kv ∈ listing := by
    intro kv hkv
    cases hunl : account.IsUnlimited with
    | true => rw [(hq2 hunl).1] at hkv; exact hkv
    | false =>
      rw [(hq3 hunl).1] at hkv
      rcases mem_sliceLoop _ _ _ _ hkv with h | h
      · simp at h
      · exact h
  have hw1 : w1.db.documents = w.db.documents := hq1
  obtain ⟨i1, i2, i3, -⟩ := ingest_ok_rows env pipeline dataSource integrationConnection
    (documentTokenLimit account.IsSubscriber) docs w1 w2 hingest
  obtain ⟨d1, sdel, hsdel, d2⟩ := deleteDocuments_ok env integrationConnection pipeline docs w2 w3
    hdelete
  have hmissing : ∀ row ∈ w2.db.documents, row.AccountId = pipeline.Account →
      row.PipelineId = pipeline.Id → row.Integration = integrationConnection.Integration →
      (∀ kv ∈ docs, kv.2.Id ≠ row.Id) →
      row ∈ missingRows pipeline.Account pipeline.Id integrationConnection.Integration
        (docs.map (fun kv => kv.2.Id)) w2.db.documents := by
    intro row hrow ha hp hi hid
    simp only [missingRows, List.mem_filter, decide_eq_true_eq, List.mem_map, not_exists, not_and]
    exact ⟨hrow, ha, hp, hi, fun kv hkv => hid kv hkv⟩
  have hself : ∀ row : Document, row.AccountId = pipeline.Account →
      row.PipelineId = pipeline.Id →
      documentHasKey row pipeline.Account pipeline.Id row.Integration row.DocumentType row.Id =
        true := by
    intro row ha hp
    simp [documentHasKey, ha, hp]
  constructor
  · intro id
    rw [hdocs4]
    constructor
    · rintro ⟨row, hrow, ha, hp, hi, hid⟩
      obtain ⟨hrow2, hkeep⟩ := (d1 row).mp hrow
      by_contra hno
      have hnot : ∀ kv ∈ docs, kv.2.Id ≠ row.Id := fun kv hkv hk => hno ⟨kv, hkv, hk.trans hid⟩
      have := hkeep row (hmissing row hrow2 ha hp hi hnot)
      rw [hself row ha hp] at this
      exact absurd this (by decide)
    · rintro ⟨kv, hkv, hid⟩
      obtain ⟨row, hrow2, hkey⟩ := i3 kv hkv
      have hk := hkey
      simp only [documentHasKey, decide_eq_true_eq] at hk
      obtain ⟨ha, hp, hi, ht, hrid⟩ := hk
      refine ⟨row, (d1 row).mpr ⟨hrow2, ?_⟩, ha, hp, hi.trans (hint kv (hsub kv hkv)),
        hrid.trans hid⟩
      intro x hx
      simp only [missingRows, List.mem_filter, decide_eq_true_eq, List.mem_map, not_exists,
        not_and] at hx
      have hxid : x.Id ≠ row.Id := fun hxr => hx.2.2.2.2 kv hkv (hrid.symm.trans hxr.symm)
      simp only [documentHasKey, decide_eq_false_iff_not, not_and]
      intro _ _ _ _ hrx
      exact hxid hrx.symm
  · intro row hrow ha hp hi hid
    have hrow1 : row ∈ w1.db.documents := by rw [hw1]; exact hrow
    have hrow2 : row ∈ w2.db.documents := by
      refine i2 row hrow1 (fun kv hkv => ?_)
      simp only [documentHasKey, decide_eq_false_iff_not, not_and]
      intro _ _ _ _ hrid
      exact hid kv hkv hrid.symm
    have hmiss := hmissing row hrow2 ha hp hi hid
    constructor
    · rw [hdocs4]
      intro hrow3
      have := ((d1 row).mp hrow3).2 row hmiss
      rw [hself row ha hp] at this
      exact absurd this (by decide)
    · obtain ⟨s1, hs1, -⟩ := traceGrows_apply _ _
        (checkQuotas_no_suspension env pipelineRunStep account listing) _ w1 _ hquota
      obtain ⟨s2, hs2, -⟩ := traceGrows_apply _ _
        (grows_errgroupRun (fun ev => ev.isSuspension = false) _
          (fun kv => retrieveIngestAndUpsert_no_suspension env kv.2 pipeline dataSource
            integrationConnection (documentTokenLimit account.IsSubscriber)) docs) w1 w2 _ hingest
      refine ⟨[.ListDocuments integrationConnection] ++ s1 ++ s2 ++ sdel ++
        [.UpdatePipelineRunStep pipelineRunStep.PipelineRun pipelineRunStep.DataSource
          PipelineRunStepStatusCompleted none startedAt (some (env.clock w3.clockReads))], ?_, ?_⟩
      · rw [htrace4, hsdel, hs2, hs1]
        simp
      · have := d2 row hmiss
        simp [this]

/-- C3: quota truncation in `runFullIndex`. Let `listing` be the upstream
listing, a map (no key twice), and `quotaTruncated account listing` what the
quota block hands on. For an account that is not unlimited with
`remaining = limit - count ≥ 0` it is a sub-list of the listing (hence a
sub-map) with exactly `min (size of listing) remaining` entries; for an
unlimited account it is the whole listing. In every run, whatever its outcome,
each document looked up for ingestion belongs to it, and the indexed-document
counter is only ever updated for an account that is not unlimited, by
`IncreaseTotalIndexedCount` with exactly its size. In a run that returns
without error the documents looked up are exactly its entries, in order, and
the counter is updated exactly once (never for an unlimited account). -/
theorem runFullIndex_quota_truncation (env : Env) (dataSource : PipelineDataSource)
    (integrationConnection : IntegrationConnection) (pipeline : Pipeline)
    (pipelineRunStep : PipelineRunStep) (startedAt : Option Time) (account : Account)
    (w : World) (client : DataSourceApiClient) (listing : DocMap)
    (hclient : env.clients integrationConnection.Integration = some client)
    (hlist : client.ListDocuments w.trace integrationConnection = .ok listing)
    (hkeys : (listing.map Prod.fst).Nodup) :
    (account.IsUnlimited = false →
      0 ≤ totalIndexedDocumentsLimit account.IsSubscriber - account.TotalIndexedDocumentCount →
      (quotaTruncated account listing).Sublist listing ∧
      ((quotaTruncated account listing).length : Int) =
        min (listing.length : Int)
          (totalIndexedDocumentsLimit account.IsSubscriber -
            account.TotalIndexedDocumentCount)) ∧
    (account.IsUnlimited = true → quotaTruncated account listing = listing) ∧
    ∃ suffix,
      (runFullIndex env dataSource integrationConnection pipeline pipelineRunStep startedAt
        account w).2.trace = w.trace ++ Event.ListDocuments integrationConnection :: suffix ∧
      (∀ ev ∈ suffix, ev.isLookup = true →
        ∃ kv ∈ quotaTruncated account listing, ev = lookupOf pipeline kv) ∧
      (∀ ev ∈ suffix, ev.isIndexedCountUpdate = true →
        account.IsUnlimited = false ∧
        ev = .IncreaseTotalIndexedCount account.Id
          ((quotaTruncated account listing).length : Int)) ∧
      ((runFullIndex env dataSource integrationConnection pipeline pipelineRunStep startedAt
          account w).1 = .ok () →
        suffix.filter Event.isLookup =
          (quotaTruncated account listing).map (lookupOf pipeline) ∧
        suffix.filter Event.isIndexedCountUpdate =
          if account.IsUnlimited then []
          else [.IncreaseTotalIndexedCount account.Id
            ((quotaTruncated account listing).length : Int)]) := by
  refine ⟨?_, ?_, ?_⟩
  · intro hunl hrem
    have htake : quotaTruncated account listing = listing.take
        (totalIndexedDocumentsLimit account.IsSubscriber -
          account.TotalIndexedDocumentCount).toNat := by
      simp only [quotaTruncated, hunl, Bool.false_eq_true, if_false]
      exact sliceLoop_take _ listing hkeys hrem
    rw [htake]
    refine ⟨List.take_sublist _ _, ?_⟩
    rw [List.length_take]
    omega
  · intro hunl
    simp [quotaTruncated, hunl]
  · obtain ⟨suffix, htrace, hcalls⟩ := runFullIndex_calls env dataSource integrationConnection
      pipeline pipelineRunStep startedAt account w client listing hclient hlist
    refine ⟨suffix, htrace, fun ev hev => (hcalls ev hev).1, fun ev hev => (hcalls ev hev).2, ?_⟩
    intro hok
    have hrun : runFullIndex env dataSource integrationConnection pipeline pipelineRunStep
        startedAt account w = (.ok (), (runFullIndex env dataSource integrationConnection
          pipeline pipelineRunStep startedAt account w).2) := by
      rw [← hok]
    obtain ⟨suffix', htrace', hl, hc⟩ := runFullIndex_ok_calls env dataSource
      integrationConnection pipeline pipelineRunStep startedAt account w _ client listing
      hclient hlist hrun
    have hsame : suffix = suffix' := by
      rw [htrace] at htrace'
      have := List.append_cancel_left htrace'
      simpa using this
    rw [hsame]
    exact ⟨hl, hc⟩

theorem runFullIndex_quota_truncation_witness :
    ((quotaTruncated (exAccount 99) exListing).Sublist exListing ∧
      ((quotaTruncated (exAccount 99) exListing).length : Int) =
        min (exListing.length : Int) (totalIndexedDocumentsLimit false - 99)) ∧
    (runFullIndex (exEnv exListing 10 none noStoreError) exDataSource exConnection exPipeline
      exStep (some 0) (exAccount 99)
      (exWorld 99 (exRun FullIndexSyncMode PipelineRunTriggerManual ChangeActionCreate)
        [])).1 = .ok () :=
  ⟨(runFullIndex_quota_truncation (exEnv exListing 10 none noStoreError) exDataSource
      exConnection exPipeline exStep (some 0) (exAccount 99)
      (exWorld 99 (exRun FullIndexSyncMode PipelineRunTriggerManual ChangeActionCreate) [])
      (exClient exListing) exListing rfl rfl (by decide)).1 rfl (by decide),
   rfl⟩

theorem runFullIndex_drift_deletion_witness :
    exRow "X" "f0" ∉
      (runFullIndex (exEnv [("A", exDoc "A" "f1")] 10 none noStoreError) exDataSource
        exConnection exPipeline exStep (some 0) (exAccount 0)
        (exWorld 0 (exRun FullIndexSyncMode PipelineRunTriggerManual ChangeActionCreate)
          [exRow "X" "f0"])).2.db.documents :=
  ((runFullIndex_drift_deletion (exEnv [("A", exDoc "A" "f1")] 10 none noStoreError)
      exDataSource exConnection exPipeline exStep (some 0) (exAccount 0)
      (exWorld 0 (exRun FullIndexSyncMode PipelineRunTriggerManual ChangeActionCreate)
        [exRow "X" "f0"])
      (runFullIndex (exEnv [("A", exDoc "A" "f1")] 10 none noStoreError) exDataSource
        exConnection exPipeline exStep (some 0) (exAccount 0)
        (exWorld 0 (exRun FullIndexSyncMode PipelineRunTriggerManual ChangeActionCreate)
          [exRow "X" "f0"])).2
      (exClient [("A", exDoc "A" "f1")]) [("A", exDoc "A" "f1")] rfl rfl (by decide) rfl).2
    (exRow "X" "f0") (by decide) rfl rfl rfl (by decide)).1

/-- C11 as stated fails: the step exists and the pipeline has no data source
with its id; the handler returns the error `data source not found` to the
queue consumer, after the three reads and without any write. -/
theorem missing_data_source_returns_error :
    processIndexMessage (exEnv [] 10 none noStoreError) { MessageId := "m1", Body := some "{}" }
        exNoSourceWorld =
      (.error (.wrap "unable to process index message, " (.other "data source not found")),
        { exNoSourceWorld with
          trace := [.GetPipelineStep "R1" "D1", .GetPipeline "P1", .GetPipelineRun "R1"] }) := by
  rfl

/-- C11, amended: when the step and the pipeline exist, the three reads go
through and the pipeline configuration has no data source with the step's
data-source id, the handler returns the error `data source not found` to the
queue consumer (the outcome on which the consumer asks for redelivery); it
has made the three reads and nothing else, so the store is unchanged. -/
theorem processIndexMessage_missing_data_source (env : Env) (msg : Message) (w : World)
    (body : String) (m : IndexMessage) (step : PipelineRunStep) (pipeline : Pipeline)
    (hbody : msg.Body = some body) (hdecode : env.unmarshal body = .ok m)
    (hstep : w.db.steps.find? (fun s =>
      decide (s.PipelineRun = m.Payload.RunId ∧ s.DataSource = m.Payload.DataSourceId)) =
        some step)
    (hpipeline : w.db.pipelines.find? (fun p => decide (p.Id = m.Payload.PipelineId)) =
      some pipeline)
    (hsource : ∀ s ∈ pipeline.Config.DataSources, s.Id ≠ step.DataSource)
    (hread1 : env.storeError w.trace
      (.GetPipelineStep m.Payload.RunId m.Payload.DataSourceId) = none)
    (hread2 : env.storeError
      (w.trace ++ [.GetPipelineStep m.Payload.RunId m.Payload.DataSourceId])
      (.GetPipeline m.Payload.PipelineId) = none)
    (hread3 : env.storeError
      (w.trace ++ [.GetPipelineStep m.Payload.RunId m.Payload.DataSourceId,
        .GetPipeline m.Payload.PipelineId])
      (.GetPipelineRun m.Payload.RunId) = none) :
    processIndexMessage env msg w =
      (.error (.wrap "unable to process index message, " (.other "data source not found")),
        { w with trace := w.trace ++
          [.GetPipelineStep m.Payload.RunId m.Payload.DataSourceId,
           .GetPipeline m.Payload.PipelineId, .GetPipelineRun m.Payload.RunId] }) := by
  have hstep' : w.db.steps.find? (fun s =>
      decide (s.PipelineRun = m.Payload.RunId) && decide (s.DataSource = m.Payload.DataSourceId)) =
      some step := by
    simpa using hstep
  have hnone : getDataSource pipeline.Config.DataSources step.DataSource = none := by
    unfold getDataSource
    rw [List.find?_eq_none]
    intro s hs
    simpa using hsource s hs
  simp [processIndexMessage, hbody, hdecode, innerHandler, bind_eq, M.bind, wrapErr,
    GetPipelineStep, GetPipeline, GetPipelineRun, storeCall, hread1, hread2, hread3, hstep',
    hpipeline, hnone, pure_eq, M.pure, deref, fail]

theorem processIndexMessage_missing_data_source_witness :
    processIndexMessage (exEnv [] 10 none noStoreError) { MessageId := "m1", Body := some "{}" }
        exNoSourceWorld =
      (.error (.wrap "unable to process index message, " (.other "data source not found")),
        { exNoSourceWorld with trace := exNoSourceWorld.trace ++
          [.GetPipelineStep exMessage.Payload.RunId exMessage.Payload.DataSourceId,
           .GetPipeline exMessage.Payload.PipelineId,
           .GetPipelineRun exMessage.Payload.RunId] }) :=
  processIndexMessage_missing_data_source (exEnv [] 10 none noStoreError)
    { MessageId := "m1", Body := some "{}" } exNoSourceWorld "{}" exMessage exStep
    { exPipeline with Config := { exPipeline.Config with DataSources := [] } }
    rfl rfl rfl rfl (by decide) rfl rfl rfl

/-- C12, the code at the failing input: the data source is enabled, the account
is active and no integration connection exists; the handler sets the step to
`running`, then returns success and leaves the step row in status `running`
with no completion time. -/
theorem missing_connection_leaves_step_running :
    processIndexMessage (exEnv [] 10 none noStoreError) { MessageId := "m1", Body := some "{}" }
        exNoConnectionWorld =
      (.ok (),
        { db := { exNoConnectionWorld.db with
            steps := [{ exStep with Status := PipelineRunStepStatusRunning
                                    StartedAt := some 0, CompletedAt := none, Error := none }] }
          trace := [.GetPipelineStep "R1" "D1", .GetPipeline "P1", .GetPipelineRun "R1",
            .GetIntegrationConnection "acct" "linear", .GetAccount "acct",
            .UpdatePipelineRunStep "R1" "D1" PipelineRunStepStatusRunning none (some 0) none]
          clockReads := 1 }) := by
  rfl

/-- C13 as stated fails: for a disabled data source the completed write carries
two readings of the clock, here `started_at = 0` and `completed_at = 1`. -/
theorem gatekeeping_timestamps_differ :
    processIndexMessage (exEnv [] 10 none noStoreError) { MessageId := "m1", Body := some "{}" }
        exDisabledWorld =
      (.ok (),
        { db := { exDisabledWorld.db with
            steps := [{ exStep with Status := PipelineRunStepStatusCompleted
                                    StartedAt := some 0, CompletedAt := some 1, Error := none }] }
          trace := [.GetPipelineStep "R1" "D1", .GetPipeline "P1", .GetPipelineRun "R1",
            .GetIntegrationConnection "acct" "linear", .GetAccount "acct",
            .UpdatePipelineRunStep "R1" "D1" PipelineRunStepStatusCompleted none (some 0)
              (some 1)]
          clockReads := 2 }) := by
  rfl

/-- C14 as stated fails: a full index whose ingestion is rejected ends with the
step set to `failed` and no completion time. -/
theorem failed_step_has_no_completion_time :
    (processIndexMessage (exFlaggedEnv noStoreError) { MessageId := "m1", Body := some "{}" }
        exFullIndexWorld).2.db.steps =
      [{ exStep with
          Status := PipelineRunStepStatusFailed
          Error := some { Code := "index_failed", Message := "Unable to run full index" }
          StartedAt := some 0
          CompletedAt := none }] := by
  rfl

/-- C14, amended: whatever the message and the surroundings, every write that
the handler sends for the step row sets `running` with a start time and no
completion time, or `completed` with a start time and a completion time, or
`failed` with no completion time, and with a start time when the error code
is `index_failed` or `single_document_sync_failed`. -/
theorem processIndexMessage_step_timestamps (env : Env) (msg : Message) (w : World) :
    ∃ calls, (processIndexMessage env msg w).2.trace = w.trace ++ calls ∧
      ∀ ev ∈ calls, StepTimestamps ev := by
  have h : TraceGrows StepTimestamps (processIndexMessage env msg) := by
    unfold processIndexMessage innerHandler GetPipelineStep GetPipeline GetPipelineRun
      GetIntegrationConnection GetAccount UpdatePipelineRunStep
    simp only [bind_eq, pure_eq]
    repeat' first
      | exact grows_pure _ _
      | exact grows_now _ _
      | exact grows_deref _ _
      | exact grows_fail _ _
      | exact gate_grows _ _ _
      | exact (dispatchSyncMode_stepWrites _ _ _ _ _ _ _ _).mono
          (stepTimestamps_of_dispatch _ _)
      | exact grows_storeCall _ _ _ _ _ (by simp [StepTimestamps])
      | refine grows_bind _ _ _ ?_ (fun _ => ?_)
      | refine grows_wrapErr _ _ _ ?_
      | split
  exact (traceGrows_iff _ _).mp h w

/-- C15 as stated fails: the step row is already `completed` and no integration
connection exists; handling the message writes `running` to that step and
leaves it in status `running`. -/
theorem completed_step_is_set_running :
    exCompletedWorld.db.steps.map (fun s => s.Status) = [PipelineRunStepStatusCompleted] ∧
    (processIndexMessage (exEnv [] 10 none noStoreError) { MessageId := "m1", Body := some "{}" }
        { exCompletedWorld with
          db := { exCompletedWorld.db with connections := [] } }).2.trace =
      [.GetPipelineStep "R1" "D1", .GetPipeline "P1", .GetPipelineRun "R1",
       .GetIntegrationConnection "acct" "linear", .GetAccount "acct",
       .UpdatePipelineRunStep "R1" "D1" PipelineRunStepStatusRunning none (some 0) none] ∧
    (processIndexMessage (exEnv [] 10 none noStoreError) { MessageId := "m1", Body := some "{}" }
        { exCompletedWorld with
          db := { exCompletedWorld.db with connections := [] } }).2.db.steps.map
      (fun s => s.Status) = [PipelineRunStepStatusRunning] := by
  refine ⟨rfl, rfl, rfl⟩

/-- C15, amended: within one handling of a message, whatever the status stored
for the step, the handler never writes `pending`, and a write of `running` is
the first write it sends for the step row: every call before it in this
handling is something other than a step write. -/
theorem processIndexMessage_running_first (env : Env) (msg : Message) (w : World) :
    ∃ calls, (processIndexMessage env msg w).2.trace = w.trace ++ calls ∧
      ∀ pre ev post, calls = pre ++ ev :: post →
        ev.stepStatus ≠ some PipelineRunStepStatusPending ∧
        (ev.stepStatus = some PipelineRunStepStatusRunning → ∀ e ∈ pre, e.stepStatus = none) := by
  have h : TraceShape RunningFirst (processIndexMessage env msg) := by
    unfold processIndexMessage innerHandler GetPipelineStep GetPipeline GetPipelineRun
      GetIntegrationConnection GetAccount UpdatePipelineRunStep
    simp only [bind_eq, pure_eq]
    repeat' first
      | exact shape_of_grows _ (grows_pure _ _)
      | exact shape_of_grows _ (grows_fail _ _)
      | exact shape_of_grows _ (grows_wrapErr _ _ _ (grows_storeCall _ _ _ _ _ rfl))
      | refine shape_bind_reads _ _
          (by first
            | exact grows_now _ _
            | exact grows_deref _ _
            | exact gate_grows _ _ _
            | exact grows_wrapErr _ _ _ (grows_storeCall _ _ _ _ _ rfl)) (fun _ => ?_)
      | refine shape_running_first _ _ _ _ _ rfl (fun _ => ?_)
      | refine shape_wrapErr _ _ _ ?_
      | exact (dispatchSyncMode_stepWrites _ _ _ _ _ _ _ _).mono (terminal_of_dispatch _ _)
      | exact grows_pure _ _
      | split
  exact (traceShape_iff _ _).mp h w

/-- C13, amended: once the step, the pipeline and the data source are fetched,
if the data source is disabled or the account is suspended, the handler makes
exactly one call after the five reads, a step write that sets `completed`
with no error, `started_at` the first reading of the clock and `completed_at`
the next reading of the clock (the two readings need not be equal); the
reads are no store write, upstream call or helper call, and the handler
returns success when the store accepts the write. If instead the data source
is enabled and the account is not suspended, the first call after the reads
is a step write that sets `running` with `started_at` set and `completed_at`
unset. -/
theorem processIndexMessage_gatekeeping (env : Env) (msg : Message) (body : String)
    (m : IndexMessage) (w : World) (step : PipelineRunStep) (pipeline : Pipeline)
    (dataSource : PipelineDataSource)
    (hbody : msg.Body = some body) (hdecode : env.unmarshal body = .ok m)
    (hf : Fetched env m w step pipeline dataSource) :
    ((dataSource.IsEnabled = false ∨
        ∃ a, fetchedAccount w pipeline = some a ∧ a.IsSuspended = true) →
      (processIndexMessage env msg w).2.trace =
        w.trace ++ fetchCalls m pipeline dataSource ++
          [.UpdatePipelineRunStep step.PipelineRun step.DataSource
            PipelineRunStepStatusCompleted none (some (env.clock w.clockReads))
            (some (env.clock (w.clockReads + 1)))] ∧
      (∀ ev ∈ fetchCalls m pipeline dataSource,
        ev.isStoreWrite = false ∧ ev.isUpstreamCall = false ∧ ev.isHelperCall = false) ∧
      (env.storeError (w.trace ++ fetchCalls m pipeline dataSource)
          (.UpdatePipelineRunStep step.PipelineRun step.DataSource
            PipelineRunStepStatusCompleted none (some (env.clock w.clockReads))
            (some (env.clock (w.clockReads + 1)))) = none →
        (processIndexMessage env msg w).1 = .ok ())) ∧
    (∀ a, dataSource.IsEnabled = true → fetchedAccount w pipeline = some a →
      a.IsSuspended = false →
      ∃ rest, (processIndexMessage env msg w).2.trace =
        w.trace ++ fetchCalls m pipeline dataSource ++
          (.UpdatePipelineRunStep step.PipelineRun step.DataSource
            PipelineRunStepStatusRunning none (some (env.clock w.clockReads)) none :: rest)) := by
  rw [processIndexMessage_fetched env msg body m w step pipeline dataSource hbody hdecode hf]
  constructor
  · intro hgate
    have hnone : gate dataSource (fetchedAccount w pipeline) = M.pure none := by
      unfold gate
      rcases hgate with h | ⟨a, ha, hs⟩
      · simp [h, pure_eq]
      · rw [ha]
        cases hen : dataSource.IsEnabled <;> simp [hs, pure_eq, bind_eq, deref_some, M.pure_bind]
    refine ⟨?_, ?_, ?_⟩
    · rw [wrapErr_snd]
      simp only [runIndexSegment, bind_eq, hnone, M.pure_bind, bind_now, UpdatePipelineRunStep]
      rw [wrapErr_snd, storeCall_trace]
      rfl
    · intro ev hev
      simp only [fetchCalls, List.mem_cons, List.mem_singleton, List.not_mem_nil, or_false]
        at hev
      rcases hev with h | h | h | h | h <;> subst h <;> exact ⟨rfl, rfl, rfl⟩
    · intro hstore
      refine wrapErr_fst_ok _ _ _ _ ?_
      simp only [runIndexSegment, bind_eq, hnone, M.pure_bind, bind_now, UpdatePipelineRunStep]
      refine wrapErr_fst_ok _ _ _ _ ?_
      rw [storeCall_fst_ok _ _ _ _ _ hstore]
  · intro a hen ha hs
    have hsome : gate dataSource (fetchedAccount w pipeline) = M.pure (some a) := by
      unfold gate
      simp [hen, ha, hs, pure_eq, bind_eq, deref_some, M.pure_bind]
    rw [wrapErr_snd]
    simp only [runIndexSegment, bind_eq, hsome, M.pure_bind, bind_now, UpdatePipelineRunStep]
    have hk : ∀ u : Unit, TraceGrows (fun _ => True)
        (match fetchedConnection w pipeline dataSource with
          | none => pure ()
          | some integrationConnection =>
            dispatchSyncMode env dataSource integrationConnection pipeline (fetchedRun w m) step
              (env.clock w.clockReads) a) := by
      intro _
      split
      · exact grows_pure _ _
      · exact (dispatchSyncMode_stepWrites _ _ _ _ _ _ _ _).mono (fun _ _ => trivial)
    obtain ⟨s, hs, _⟩ := grows_after_first (fun _ => True) "unable to update pipeline run step, "
      env (.UpdatePipelineRunStep step.PipelineRun step.DataSource PipelineRunStepStatusRunning
        none (some (env.clock w.clockReads)) none) (fun _ => ()) _ _ hk
      { afterFetch w m pipeline dataSource with clockReads := w.clockReads + 1 }
    refine ⟨s, ?_⟩
    simp only [afterFetch] at hs ⊢
    exact hs

theorem processIndexMessage_gatekeeping_witness :
    ((processIndexMessage (exEnv [] 10 none noStoreError)
          { MessageId := "m1", Body := some "{}" } exDisabledWorld).2.trace =
        exDisabledWorld.trace ++
          fetchCalls exMessage
            { exPipeline with Config := { exPipeline.Config with
                DataSources := [{ exDataSource with IsEnabled := false }] } }
            { exDataSource with IsEnabled := false } ++
          [.UpdatePipelineRunStep exStep.PipelineRun exStep.DataSource
            PipelineRunStepStatusCompleted none (some 0) (some 1)] ∧
      (processIndexMessage (exEnv [] 10 none noStoreError)
          { MessageId := "m1", Body := some "{}" } exDisabledWorld).1 = .ok ()) ∧
    ∃ rest, (processIndexMessage (exEnv [] 10 none noStoreError)
        { MessageId := "m1", Body := some "{}" } exFullIndexWorld).2.trace =
      exFullIndexWorld.trace ++ fetchCalls exMessage exPipeline exDataSource ++
        (.UpdatePipelineRunStep exStep.PipelineRun exStep.DataSource
          PipelineRunStepStatusRunning none (some 0) none :: rest) :=
  ⟨⟨((processIndexMessage_gatekeeping (exEnv [] 10 none noStoreError)
        { MessageId := "m1", Body := some "{}" } "{}" exMessage exDisabledWorld exStep
        { exPipeline with Config := { exPipeline.Config with
            DataSources := [{ exDataSource with IsEnabled := false }] } }
        { exDataSource with IsEnabled := false } rfl rfl
        ⟨rfl, rfl, rfl, fun _ _ _ _ => rfl⟩).1 (Or.inl rfl)).1,
     ((processIndexMessage_gatekeeping (exEnv [] 10 none noStoreError)
        { MessageId := "m1", Body := some "{}" } "{}" exMessage exDisabledWorld exStep
        { exPipeline with Config := { exPipeline.Config with
            DataSources := [{ exDataSource with IsEnabled := false }] } }
        { exDataSource with IsEnabled := false } rfl rfl
        ⟨rfl, rfl, rfl, fun _ _ _ _ => rfl⟩).1 (Or.inl rfl)).2.2 rfl⟩,
   (processIndexMessage_gatekeeping (exEnv [] 10 none noStoreError)
      { MessageId := "m1", Body := some "{}" } "{}" exMessage exFullIndexWorld exStep
      exPipeline exDataSource rfl rfl
      (exFetched 0 _ [] [] 10 none)).2 (exAccount 0) rfl rfl rfl⟩

/-- C17: a single-document run whose trigger is not an integration change event,
for an enabled data source with a connection, an active account within its
quota and a store that accepts every write: after the five reads the handler
sets the step to `running`, adds one to the indexed-document counter unless
the account is unlimited, and sets the step to `completed` with `started_at`
and `completed_at` set; it returns success, the mirror rows are unchanged,
and none of its calls is an upstream call, a helper call, a document upsert
or a document delete. -/
theorem processIndexMessage_single_document_without_event (env : Env) (msg : Message)
    (body : String) (m : IndexMessage) (w : World) (step : PipelineRunStep)
    (pipeline : Pipeline) (dataSource : PipelineDataSource)
    (connection : IntegrationConnection) (run : PipelineRun) (account : Account)
    (hbody : msg.Body = some body) (hdecode : env.unmarshal body = .ok m)
    (hf : Fetched env m w step pipeline dataSource)
    (hconnection : fetchedConnection w pipeline dataSource = some connection)
    (hrun : fetchedRun w m = some run)
    (haccount : fetchedAccount w pipeline = some account)
    (henabled : dataSource.IsEnabled = true) (hactive : account.IsSuspended = false)
    (hmode : run.SyncMode = SingleDocumentSyncMode)
    (htrigger : run.Trigger ≠ PipelineRunTriggerIntegrationChangeEvent)
    (hquota : account.IsUnlimited = true ∨
      account.TotalIndexedDocumentCount + 1 < totalIndexedDocumentsLimit account.IsSubscriber)
    (hstore : ∀ history ev, ev.isStoreWrite = true → env.storeError history ev = none) :
    (processIndexMessage env msg w).1 = .ok () ∧
    (processIndexMessage env msg w).2.trace =
      w.trace ++ fetchCalls m pipeline dataSource ++
        [.UpdatePipelineRunStep step.PipelineRun step.DataSource PipelineRunStepStatusRunning
          none (some (env.clock w.clockReads)) none] ++
        (if account.IsUnlimited then [] else [.IncreaseTotalIndexedCount account.Id 1]) ++
        [.UpdatePipelineRunStep step.PipelineRun step.DataSource PipelineRunStepStatusCompleted
          none (some (env.clock w.clockReads)) (some (env.clock (w.clockReads + 1)))] ∧
    (processIndexMessage env msg w).2.db.documents = w.db.documents ∧
    ∀ ev ∈ (processIndexMessage env msg w).2.trace.drop w.trace.length,
      ev.isUpstreamCall = false ∧ ev.isHelperCall = false ∧
      (∀ d, ev ≠ .UpsertDocument d) ∧ (∀ a p i t d, ev ≠ .DeleteDocument a p i t d) := by
  have hgate : gate dataSource (some account) = M.pure (some account) := by
    unfold gate
    simp [henabled, hactive, pure_eq, bind_eq, deref_some, M.pure_bind]
  have hne : SingleDocumentSyncMode ≠ FullIndexSyncMode := by decide
  have hrunning := hstore (w.trace ++ fetchCalls m pipeline dataSource)
    (.UpdatePipelineRunStep step.PipelineRun step.DataSource PipelineRunStepStatusRunning
      none (some (env.clock w.clockReads)) none) rfl
  have hrun1 : processIndexMessage env msg w =
      wrapErr "unable to process index message, "
        (singleDocumentCase env dataSource connection pipeline run step (env.clock w.clockReads)
          account)
        { db := { w.db with steps := w.db.steps.map (fun s =>
              if s.PipelineRun = step.PipelineRun ∧ s.DataSource = step.DataSource then
                { s with Status := PipelineRunStepStatusRunning, Error := none,
                         CompletedAt := none, StartedAt := some (env.clock w.clockReads) }
              else s) }
          trace := w.trace ++ fetchCalls m pipeline dataSource ++
            [.UpdatePipelineRunStep step.PipelineRun step.DataSource
              PipelineRunStepStatusRunning none (some (env.clock w.clockReads)) none]
          clockReads := w.clockReads + 1 } := by
    rw [processIndexMessage_fetched env msg body m w step pipeline dataSource hbody hdecode hf]
    unfold wrapErr
    simp only [runIndexSegment, hconnection, hrun, haccount, bind_eq, hgate, M.pure_bind,
      bind_now, UpdatePipelineRunStep, afterFetch]
    rw [bind_wrapErr_storeCall]
    simp only [hrunning, dispatchSyncMode, bind_eq, deref_some, M.pure_bind, hmode, hne,
      if_false, if_true]
  have hcompleted : ∀ (w1 : World) (t : Time),
      singleDocumentSync env dataSource connection pipeline run step t account w1 =
        (.ok (),
          { db := { w1.db with steps := w1.db.steps.map (fun s =>
              if s.PipelineRun = step.PipelineRun ∧ s.DataSource = step.DataSource then
                { s with Status := PipelineRunStepStatusCompleted, Error := none,
                         CompletedAt := some (env.clock w1.clockReads), StartedAt := some t }
              else s) }
            trace := w1.trace ++ [.UpdatePipelineRunStep step.PipelineRun step.DataSource
              PipelineRunStepStatusCompleted none (some t) (some (env.clock w1.clockReads))]
            clockReads := w1.clockReads + 1 }) := by
    intro w1 t
    simp only [singleDocumentSync, htrigger, if_false, bind_eq, pure_eq, M.pure_bind, bind_now,
      UpdatePipelineRunStep]
    rw [wrapErr_storeCall]
    simp only [hstore, Event.isStoreWrite]
  rw [hrun1]
  cases hunl : account.IsUnlimited with
  | true =>
    have hinner : ∀ w1, singleDocumentCase env dataSource connection pipeline run step
        (env.clock w.clockReads) account w1 =
          singleDocumentSync env dataSource connection pipeline run step
            (env.clock w.clockReads) account w1 := by
      intro w1
      simp only [singleDocumentCase, hunl, Bool.not_true, Bool.false_eq_true, if_false]
    refine ⟨?_, ?_, ?_, ?_⟩
    · refine wrapErr_fst_ok _ _ _ _ ?_
      rw [hinner, hcompleted]
    · rw [wrapErr_snd, hinner, hcompleted]
      simp
    · rw [wrapErr_snd, hinner, hcompleted]
    · rw [wrapErr_snd, hinner, hcompleted]
      intro ev hev
      simp [fetchCalls] at hev
      rcases hev with h | h | h | h | h | h | h <;> subst h <;>
        exact ⟨rfl, rfl, fun _ => by simp, fun _ _ _ _ _ => by simp⟩
  | false =>
    have hlt : ¬ account.TotalIndexedDocumentCount + 1 ≥
        totalIndexedDocumentsLimit account.IsSubscriber := by
      rcases hquota with h | h
      · rw [hunl] at h
        cases h
      · exact not_le.mpr h
    have hinner : ∀ w1, singleDocumentCase env dataSource connection pipeline run step
        (env.clock w.clockReads) account w1 =
          singleDocumentSync env dataSource connection pipeline run step
            (env.clock w.clockReads) account
            { w1 with
              trace := w1.trace ++ [.IncreaseTotalIndexedCount account.Id 1]
              db := { w1.db with accounts := w1.db.accounts.map (fun a =>
                if a.Id = account.Id then
                  { a with TotalIndexedDocumentCount := a.TotalIndexedDocumentCount + 1 }
                else a) } } := by
      intro w1
      simp only [singleDocumentCase, hunl, Bool.not_false, if_true, hlt, if_false, bind_eq,
        IncreaseTotalIndexedCount]
      rw [bind_wrapErr_storeCall]
      simp only [hstore, Event.isStoreWrite]
    refine ⟨?_, ?_, ?_, ?_⟩
    · refine wrapErr_fst_ok _ _ _ _ ?_
      rw [hinner, hcompleted]
    · rw [wrapErr_snd, hinner, hcompleted]
      simp
    · rw [wrapErr_snd, hinner, hcompleted]
    · rw [wrapErr_snd, hinner, hcompleted]
      intro ev hev
      simp [fetchCalls] at hev
      rcases hev with h | h | h | h | h | h | h | h <;> subst h <;>
        exact ⟨rfl, rfl, fun _ => by simp, fun _ _ _ _ _ => by simp⟩

theorem processIndexMessage_single_document_without_event_witness :
    (processIndexMessage (exEnv [] 10 none noStoreError) { MessageId := "m1", Body := some "{}" }
      (exWorld 0 (exRun SingleDocumentSyncMode PipelineRunTriggerManual ChangeActionCreate)
        [exRow "A" "f1"])).1 = .ok () ∧
    (processIndexMessage (exEnv [] 10 none noStoreError) { MessageId := "m1", Body := some "{}" }
      (exWorld 0 (exRun SingleDocumentSyncMode PipelineRunTriggerManual ChangeActionCreate)
        [exRow "A" "f1"])).2.trace =
      [] ++ fetchCalls exMessage exPipeline exDataSource ++
        [.UpdatePipelineRunStep "R1" "D1" PipelineRunStepStatusRunning none (some 0) none] ++
        [.IncreaseTotalIndexedCount "acct" 1] ++
        [.UpdatePipelineRunStep "R1" "D1" PipelineRunStepStatusCompleted none (some 0)
          (some 1)] ∧
    (processIndexMessage (exEnv [] 10 none noStoreError) { MessageId := "m1", Body := some "{}" }
      (exWorld 0 (exRun SingleDocumentSyncMode PipelineRunTriggerManual ChangeActionCreate)
        [exRow "A" "f1"])).2.db.documents = [exRow "A" "f1"] :=
  have h := processIndexMessage_single_document_without_event
    (exEnv [] 10 none noStoreError) { MessageId := "m1", Body := some "{}" } "{}" exMessage
    (exWorld 0 (exRun SingleDocumentSyncMode PipelineRunTriggerManual ChangeActionCreate)
      [exRow "A" "f1"])
    exStep exPipeline exDataSource exConnection
    (exRun SingleDocumentSyncMode PipelineRunTriggerManual ChangeActionCreate) (exAccount 0)
    rfl rfl (exFetched 0 _ _ [] 10 none) rfl rfl rfl rfl rfl rfl (by decide)
    (Or.inr (by decide)) (fun _ _ _ => rfl)
  ⟨h.1, h.2.1, h.2.2.1⟩

/-- C18: for a change with action `delete`, `handleDocumentChange` first asks
the helper to delete the document; when the helper fails, the error is
returned (wrapped) and the mirror is unchanged, no store delete having been
sent; when the helper succeeds, the store delete of the row with the
connection's integration, the change's document type and id follows, and
once the store accepts it exactly the rows with that key are gone. For an
action other than `create`, `update` and `delete` it returns success without
any call. -/
theorem handleDocumentChange_delete (env : Env) (dataSource : PipelineDataSource)
    (integrationConnection : IntegrationConnection) (pipeline : Pipeline)
    (change : DocumentChange) (tokenLimit : Int) (w : World) :
    (change.Action = ChangeActionDelete →
      (∀ e, env.documentHelper.DeleteDocument w.trace pipeline.Config.DataSinks
          integrationConnection.Integration change.DocumentType change.DocumentId = some e →
        handleDocumentChange env dataSource integrationConnection pipeline change tokenLimit w =
          (.error (.wrap "unable to delete document from sinks: " e),
            { w with trace := w.trace ++
              [.HelperDeleteDocument pipeline.Config.DataSinks integrationConnection.Integration
                change.DocumentType change.DocumentId] })) ∧
      (env.documentHelper.DeleteDocument w.trace pipeline.Config.DataSinks
          integrationConnection.Integration change.DocumentType change.DocumentId = none →
        (handleDocumentChange env dataSource integrationConnection pipeline change tokenLimit
            w).2.trace =
          w.trace ++
            [.HelperDeleteDocument pipeline.Config.DataSinks integrationConnection.Integration
              change.DocumentType change.DocumentId,
             .DeleteDocument pipeline.Account pipeline.Id integrationConnection.Integration
              change.DocumentType change.DocumentId] ∧
        (env.storeError
            (w.trace ++
              [.HelperDeleteDocument pipeline.Config.DataSinks integrationConnection.Integration
                change.DocumentType change.DocumentId])
            (.DeleteDocument pipeline.Account pipeline.Id integrationConnection.Integration
              change.DocumentType change.DocumentId) = none →
          (handleDocumentChange env dataSource integrationConnection pipeline change tokenLimit
              w).1 = .ok () ∧
          (handleDocumentChange env dataSource integrationConnection pipeline change tokenLimit
              w).2.db.documents =
            w.db.documents.filter (fun d =>
              !(documentHasKey d pipeline.Account pipeline.Id integrationConnection.Integration
                change.DocumentType change.DocumentId))))) ∧
    (change.Action ≠ ChangeActionCreate → change.Action ≠ ChangeActionUpdate →
      change.Action ≠ ChangeActionDelete →
      handleDocumentChange env dataSource integrationConnection pipeline change tokenLimit w =
        (.ok (), w)) := by
  constructor
  · intro hdelete
    have hne : ¬ (ChangeActionDelete = ChangeActionCreate ∨
        ChangeActionDelete = ChangeActionUpdate) := by decide
    have hrun : handleDocumentChange env dataSource integrationConnection pipeline change
        tokenLimit = deleteDocument env integrationConnection.Integration change.DocumentType
          change.DocumentId pipeline := by
      simp only [handleDocumentChange, hdelete, hne, if_false, if_true]
    rw [hrun]
    simp only [deleteDocument, bind_eq, HelperDeleteDocument, DeleteDocument]
    rw [bind_wrapErr_remoteCall]
    refine ⟨fun e he => ?_, fun hok => ?_⟩
    · simp only [he]
    · simp only [hok]
      refine ⟨?_, fun hstore => ?_⟩
      · rw [wrapErr_snd, storeCall_trace]
        simp
      · rw [wrapErr_storeCall]
        simp only [hstore, and_self]
  · intro h1 h2 h3
    simp [handleDocumentChange, h1, h2, h3, pure_eq, M.pure]

theorem handleDocumentChange_delete_witness :
    handleDocumentChange exDeleteFailsEnv exDataSource exConnection exPipeline
        { Action := ChangeActionDelete, DocumentId := "A", DocumentType := "issue" } 1000
        (exWorld 0 (exRun SingleDocumentSyncMode PipelineRunTriggerIntegrationChangeEvent
          ChangeActionDelete) [exRow "A" "f1"]) =
      (.error (.wrap "unable to delete document from sinks: " (.other "sink unreachable")),
        { exWorld 0 (exRun SingleDocumentSyncMode PipelineRunTriggerIntegrationChangeEvent
            ChangeActionDelete) [exRow "A" "f1"] with
          trace := [] ++ [.HelperDeleteDocument [] "linear" "issue" "A"] }) ∧
    ((handleDocumentChange (exEnv [] 10 none noStoreError) exDataSource exConnection exPipeline
        { Action := ChangeActionDelete, DocumentId := "A", DocumentType := "issue" } 1000
        (exWorld 0 (exRun SingleDocumentSyncMode PipelineRunTriggerIntegrationChangeEvent
          ChangeActionDelete) [exRow "A" "f1", exRow "B" "f2"])).1 = .ok () ∧
     (handleDocumentChange (exEnv [] 10 none noStoreError) exDataSource exConnection exPipeline
        { Action := ChangeActionDelete, DocumentId := "A", DocumentType := "issue" } 1000
        (exWorld 0 (exRun SingleDocumentSyncMode PipelineRunTriggerIntegrationChangeEvent
          ChangeActionDelete) [exRow "A" "f1", exRow "B" "f2"])).2.db.documents =
      [exRow "A" "f1", exRow "B" "f2"].filter (fun d =>
        !(documentHasKey d "acct" "P1" "linear" "issue" "A"))) ∧
    handleDocumentChange (exEnv [] 10 none noStoreError) exDataSource exConnection exPipeline
        { Action := "archive", DocumentId := "A", DocumentType := "issue" } 1000
        exSingleDocumentWorld = (.ok (), exSingleDocumentWorld) :=
  ⟨((handleDocumentChange_delete exDeleteFailsEnv exDataSource exConnection exPipeline
      { Action := ChangeActionDelete, DocumentId := "A", DocumentType := "issue" } 1000
      (exWorld 0 (exRun SingleDocumentSyncMode PipelineRunTriggerIntegrationChangeEvent
        ChangeActionDelete) [exRow "A" "f1"])).1 rfl).1 _ rfl,
   (((handleDocumentChange_delete (exEnv [] 10 none noStoreError) exDataSource exConnection
      exPipeline { Action := ChangeActionDelete, DocumentId := "A", DocumentType := "issue" } 1000
      (exWorld 0 (exRun SingleDocumentSyncMode PipelineRunTriggerIntegrationChangeEvent
        ChangeActionDelete) [exRow "A" "f1", exRow "B" "f2"])).1 rfl).2 rfl).2 rfl,
   (handleDocumentChange_delete (exEnv [] 10 none noStoreError) exDataSource exConnection
      exPipeline { Action := "archive", DocumentId := "A", DocumentType := "issue" } 1000
      exSingleDocumentWorld).2 (by decide) (by decide) (by decide)⟩

/-- C19 as stated fails: a response with status 204, which is a 2xx status, is
classified as a permanent failure. -/
theorem sendRequest_no_content_is_permanent :
    sendRequestAttempt exDecodeHelperError none (.response { StatusCode := 204, Body := "" }) =
      .permanent (some { StatusCode := 204, Body := "" })
        (.other "unexpected status code 204") := by
  rfl

/-- C19, amended: for a request that was built and answered, whatever the
status and the body: the attempt succeeds exactly when the status is 200; a
429 response is transient; a 400 response whose body decodes to an error
with a non-empty code is returned as that typed `DocumentHelperError`, as a
transient failure if its `is_transient` flag is true and as a permanent one
otherwise; a 400 response whose body does not decode or decodes to an empty
code is permanent; every other response, a 2xx status other than 200
included, is permanent with the message `unexpected status code`. -/
theorem sendRequestAttempt_classification (decode : String → Except Err DocumentHelperError)
    (res : HttpResponse) :
    ((sendRequestAttempt decode none (.response res)).isSuccess = true ↔
      res.StatusCode = StatusOK) ∧
    (res.StatusCode = StatusOK →
      sendRequestAttempt decode none (.response res) = .success res) ∧
    (res.StatusCode = StatusTooManyRequests →
      sendRequestAttempt decode none (.response res) =
        .transient (some res) (.other "too many requests")) ∧
    (res.StatusCode = StatusBadRequest → ∀ respError, decode res.Body = .ok respError →
      respError.Code ≠ "" →
      ((sendRequestAttempt decode none (.response res)).isTransient = true ↔
        respError.IsTransient = true) ∧
      (sendRequestAttempt decode none (.response res) = .transient (some res) (.helper respError) ∨
       sendRequestAttempt decode none (.response res) =
        .permanent (some res) (.helper respError))) ∧
    (res.StatusCode = StatusBadRequest →
      (∀ respError, decode res.Body = .ok respError → respError.Code = "") →
      (sendRequestAttempt decode none (.response res)).isPermanent = true) ∧
    (res.StatusCode ≠ StatusOK → res.StatusCode ≠ StatusTooManyRequests →
      res.StatusCode ≠ StatusBadRequest →
      sendRequestAttempt decode none (.response res) =
        .permanent (some res)
          (.other ("unexpected status code " ++ toString res.StatusCode))) := by
  have h1 : StatusOK ≠ StatusTooManyRequests := by decide
  have h2 : StatusOK ≠ StatusBadRequest := by decide
  have h3 : StatusBadRequest ≠ StatusTooManyRequests := by decide
  refine ⟨?_, ?_, ?_, ?_, ?_, ?_⟩
  · unfold sendRequestAttempt
    simp only []
    constructor
    · intro h
      by_contra hne
      split at h
      · cases h
      · split at h
        · split at h
          · cases h
          · split at h
            · split at h <;> cases h
            · cases h
        · cases h
    · intro h
      simp [h, h1, h2, Attempt.isSuccess]
  · intro h
    simp [sendRequestAttempt, h, h1, h2]
  · intro h
    simp [sendRequestAttempt, h]
  · intro h respError hd hcode
    simp only [sendRequestAttempt, h, h3, if_false, if_true, hd, hcode, ne_eq, not_false_eq_true]
    cases respError.IsTransient <;> simp [Attempt.isTransient]
  · intro h hd
    simp only [sendRequestAttempt, h, h3, if_false, if_true]
    cases hdec : decode res.Body with
    | error e => rfl
    | ok respError => simp [hd respError hdec, Attempt.isPermanent]
  · intro h200 h429 h400
    simp [sendRequestAttempt, h200, h429, h400]

theorem sendRequestAttempt_classification_witness :
    sendRequestAttempt exDecodeHelperError none (.response { StatusCode := 200, Body := "ok" }) =
      .success { StatusCode := 200, Body := "ok" } ∧
    sendRequestAttempt exDecodeHelperError none (.response { StatusCode := 429, Body := "" }) =
      .transient (some { StatusCode := 429, Body := "" }) (.other "too many requests") ∧
    (sendRequestAttempt exDecodeHelperError none
        (.response { StatusCode := 400, Body := "transient" })).isTransient = true ∧
    (sendRequestAttempt exDecodeHelperError none
        (.response { StatusCode := 400, Body := "garbage" })).isPermanent = true ∧
    sendRequestAttempt exDecodeHelperError none (.response { StatusCode := 500, Body := "" }) =
      .permanent (some { StatusCode := 500, Body := "" })
        (.other ("unexpected status code " ++ toString (500 : Int))) :=
  ⟨(sendRequestAttempt_classification exDecodeHelperError
      { StatusCode := 200, Body := "ok" }).2.1 rfl,
   (sendRequestAttempt_classification exDecodeHelperError
      { StatusCode := 429, Body := "" }).2.2.1 rfl,
   (((sendRequestAttempt_classification exDecodeHelperError
      { StatusCode := 400, Body := "transient" }).2.2.2.1 rfl
      { Code := "vector_store_upsert_failed", Message := "try again", IsTransient := true }
      rfl (by decide)).1).mpr rfl,
   (sendRequestAttempt_classification exDecodeHelperError
      { StatusCode := 400, Body := "garbage" }).2.2.2.2.1 rfl
      (fun _ h => by simp [exDecodeHelperError] at h),
   (sendRequestAttempt_classification exDecodeHelperError
      { StatusCode := 500, Body := "" }).2.2.2.2.2 (by decide) (by decide) (by decide)⟩

/-- C20 as stated fails: a 429 response whose body decodes to an empty error
list is a permanent failure of the attempt, and a 500 response whose body
does not decode is a transient one, in `listIssues` and in `getIssue`. -/
theorem linear_too_many_requests_is_permanent :
    listIssuesAttempt exDecodeLinearErrors id (.response { StatusCode := 429, Body := "none" }) =
      .permanent none (.other "unexpected error 429") ∧
    getIssueAttempt exDecodeLinearErrors id (.response { StatusCode := 429, Body := "none" }) =
      .permanent none (.other "unexpected error 429") ∧
    listIssuesAttempt exDecodeLinearErrors id (.response { StatusCode := 500, Body := "<html>" }) =
      .transient none (.other "invalid character") ∧
    getIssueAttempt exDecodeLinearErrors id (.response { StatusCode := 500, Body := "<html>" }) =
      .transient none (.other "invalid character") := by
  exact ⟨rfl, rfl, rfl, rfl⟩

/-- C20, amended: for every response with a status other than 200 whose error
body decodes, the attempt of `listIssues` and of `getIssue` is transient if
and only if the first error of the body has the code `RATELIMITED`, and
is a permanent failure otherwise, whatever the status (429 included). -/
theorem linearAttempt_classification (decode : String → Except Err (List LinearError))
    (quote : String → String) (res : HttpResponse) (errors : List LinearError)
    (hstatus : res.StatusCode ≠ StatusOK) (hdecode : decode res.Body = .ok errors) :
    ((listIssuesAttempt decode quote (.response res)).isTransient = true ↔
      ∃ first rest, errors = first :: rest ∧ first.Code = "RATELIMITED") ∧
    ((listIssuesAttempt decode quote (.response res)).isTransient = false →
      (listIssuesAttempt decode quote (.response res)).isPermanent = true) ∧
    ((getIssueAttempt decode quote (.response res)).isTransient = true ↔
      ∃ first rest, errors = first :: rest ∧ first.Code = "RATELIMITED") ∧
    ((getIssueAttempt decode quote (.response res)).isTransient = false →
      (getIssueAttempt decode quote (.response res)).isPermanent = true) := by
  simp only [listIssuesAttempt, getIssueAttempt, hstatus, ne_eq, not_false_eq_true, if_true,
    hdecode]
  cases errors with
  | nil => simp [Attempt.isTransient, Attempt.isPermanent]
  | cons first rest =>
    by_cases hc : first.Code = "RATELIMITED" <;>
      simp [hc, Attempt.isTransient, Attempt.isPermanent]

theorem linearAttempt_classification_witness :
    ((listIssuesAttempt exDecodeLinearErrors id
        (.response { StatusCode := 400, Body := "ratelimited" })).isTransient = true ↔
      ∃ first rest, [({ Message := "slow down", Code := "RATELIMITED" } : LinearError)] =
        first :: rest ∧ first.Code = "RATELIMITED") ∧
    ((getIssueAttempt exDecodeLinearErrors id
        (.response { StatusCode := 400, Body := "ratelimited" })).isTransient = true ↔
      ∃ first rest, [({ Message := "slow down", Code := "RATELIMITED" } : LinearError)] =
        first :: rest ∧ first.Code = "RATELIMITED") :=
  have h := linearAttempt_classification exDecodeLinearErrors id
    { StatusCode := 400, Body := "ratelimited" }
    [{ Message := "slow down", Code := "RATELIMITED" }] (by decide) rfl
  ⟨h.1, h.2.2.1⟩

/-- C25, the code at four failing inputs, in each of which the step row exists:
without the pipeline row the handler dereferences the nil pipeline after the
three reads; without the account row it dereferences the nil account in the
gatekeeping condition; without the run row it dereferences the nil run after
it has set the step to `running`; and for a run triggered by an integration
change event that carries no event it dereferences the nil event after it has
set the step to `running` and raised the indexed-document counter. Each time
the outcome is a panic, not a returned value. -/
theorem missing_rows_panic :
    processIndexMessage (exEnv [] 10 none noStoreError) { MessageId := "m1", Body := some "{}" }
        exNoPipelineWorld =
      (.panic, { exNoPipelineWorld with
        trace := [.GetPipelineStep "R1" "D1", .GetPipeline "P1", .GetPipelineRun "R1"] }) ∧
    processIndexMessage (exEnv [] 10 none noStoreError) { MessageId := "m1", Body := some "{}" }
        exNoAccountWorld =
      (.panic, { exNoAccountWorld with
        trace := [.GetPipelineStep "R1" "D1", .GetPipeline "P1", .GetPipelineRun "R1",
          .GetIntegrationConnection "acct" "linear", .GetAccount "acct"]
        clockReads := 1 }) ∧
    (processIndexMessage (exEnv [] 10 none noStoreError) { MessageId := "m1", Body := some "{}" }
        exNoRunWorld).1 = .panic ∧
    (processIndexMessage (exEnv [] 10 none noStoreError) { MessageId := "m1", Body := some "{}" }
        exNoRunWorld).2.trace =
      [.GetPipelineStep "R1" "D1", .GetPipeline "P1", .GetPipelineRun "R1",
       .GetIntegrationConnection "acct" "linear", .GetAccount "acct",
       .UpdatePipelineRunStep "R1" "D1" PipelineRunStepStatusRunning none (some 0) none] ∧
    (processIndexMessage (exEnv [] 10 none noStoreError) { MessageId := "m1", Body := some "{}" }
        exNoEventWorld).1 = .panic ∧
    (processIndexMessage (exEnv [] 10 none noStoreError) { MessageId := "m1", Body := some "{}" }
        exNoEventWorld).2.trace =
      [.GetPipelineStep "R1" "D1", .GetPipeline "P1", .GetPipelineRun "R1",
       .GetIntegrationConnection "acct" "linear", .GetAccount "acct",
       .UpdatePipelineRunStep "R1" "D1" PipelineRunStepStatusRunning none (some 0) none,
       .IncreaseTotalIndexedCount "acct" 1] := by
  exact ⟨rfl, rfl, rfl, rfl, rfl, rfl⟩

/-- C28: when the listing and the quota block of a full index go through and the
ingest fan-out over the documents they hand on returns an error, `runFullIndex`
returns that error (wrapped) in the very world in which the fan-out stopped:
nothing is called afterwards. The calls of the fan-out contain no query for
missing documents, no delete at the helper or in the mirror, no step write
and no update of the indexed-document counter, and the counter of every
account row is what the quota block left. -/
theorem runFullIndex_ingestion_failure (env : Env) (dataSource : PipelineDataSource)
    (integrationConnection : IntegrationConnection) (pipeline : Pipeline)
    (pipelineRunStep : PipelineRunStep) (startedAt : Option Time) (account : Account)
    (w w1 w2 : World) (client : DataSourceApiClient) (listing docs : DocMap) (e : Err)
    (hclient : env.clients integrationConnection.Integration = some client)
    (hlist : client.ListDocuments w.trace integrationConnection = .ok listing)
    (hquota : checkQuotas env pipelineRunStep account listing
      { w with trace := w.trace ++ [.ListDocuments integrationConnection] } = (.ok docs, w1))
    (hingest : errgroupRun (fun kv => retrieveIngestAndUpsert env kv.2 pipeline dataSource
      integrationConnection (documentTokenLimit account.IsSubscriber)) docs w1 = (.error e, w2)) :
    runFullIndex env dataSource integrationConnection pipeline pipelineRunStep startedAt account
        w = (.error (.wrap "unable to upsert documents, " e), w2) ∧
    (∃ calls, w2.trace = w1.trace ++ calls ∧
      ∀ ev ∈ calls, ev.isDriftStep = false ∧ ev.isStepWrite = false ∧
        ev.isIndexedCountUpdate = false) ∧
    indexedCounts w2.db = indexedCounts w1.db := by
  refine ⟨?_, ?_, ?_⟩
  · rw [runFullIndex_after_listing env dataSource integrationConnection pipeline pipelineRunStep
      startedAt account w client listing hclient hlist]
    rw [M.bind_of_ok _ _ _ _ _ hquota]
    unfold retrieveAndIngestDocuments
    exact M.bind_of_error _ _ _ _ _ (wrapErr_of_error _ _ _ _ _ hingest)
  · exact traceGrows_apply _ _
      (grows_errgroupRun _ _ (fun kv => retrieveIngestAndUpsert_ingest_only env kv.2 pipeline
        dataSource integrationConnection (documentTokenLimit account.IsSubscriber)) docs)
      w1 w2 _ hingest
  · have h := (preserves_iff _ _).mp
      (preserves_errgroupRun indexedCounts _ (fun kv => retrieveIngestAndUpsert_counts env kv.2
        pipeline dataSource integrationConnection (documentTokenLimit account.IsSubscriber))
        docs) w1
    rw [hingest] at h
    exact h

theorem runFullIndex_ingestion_failure_witness :
    (runFullIndex (exFlaggedEnv noStoreError) exDataSource exConnection exPipeline exStep
        (some 0) (exAccount 0) exFullIndexWorld).1 =
      .error (.wrap "unable to upsert documents, " (.wrap "unable to ingest document, " exFlagged)) ∧
    indexedCounts (runFullIndex (exFlaggedEnv noStoreError) exDataSource exConnection exPipeline
        exStep (some 0) (exAccount 0) exFullIndexWorld).2.db = [("acct", 1)] := by
  have h := runFullIndex_ingestion_failure (exFlaggedEnv noStoreError) exDataSource exConnection
    exPipeline exStep (some 0) (exAccount 0) exFullIndexWorld
    { db := { exFullIndexWorld.db with accounts := [exAccount 1] }
      trace := [.ListDocuments exConnection, .IncreaseTotalIndexedCount "acct" 1]
      clockReads := 0 }
    { db := { exFullIndexWorld.db with accounts := [exAccount 1] }
      trace := [.ListDocuments exConnection, .IncreaseTotalIndexedCount "acct" 1,
        .GetDocumentForIntegration "acct" "P1" "linear" "issue" "A",
        .GetDocumentContent "issue" "A" exConnection,
        .HelperCountDocumentTokens "text",
        .HelperIngestDocument exSplitter exPipeline.Config.Embeddings [] "key" (exDoc "A" "f1")
          "text" []]
      clockReads := 0 }
    (exClient [("A", exDoc "A" "f1")]) [("A", exDoc "A" "f1")] [("A", exDoc "A" "f1")]
    (.wrap "unable to ingest document, " exFlagged) rfl rfl rfl rfl
  rw [h.1]
  exact ⟨rfl, h.2.2.trans rfl⟩

/-- C29: a single-document run for an enabled data source with a connection and
an active account that is not unlimited and passes the quota check
(`count + 1 < limit`), the store accepting the `running` write and the counter
update. Whatever the trigger, the change action and the outcome of the
document change (success, skip, error or panic), after the handling the
indexed-document counter of the account's row is one more than before and
that of every other row is unchanged; the counter update `+1` is the call
right after the `running` write, and no later call updates that counter. -/
theorem processIndexMessage_single_document_quota (env : Env) (msg : Message) (body : String)
    (m : IndexMessage) (w : World) (step : PipelineRunStep) (pipeline : Pipeline)
    (dataSource : PipelineDataSource) (connection : IntegrationConnection) (run : PipelineRun)
    (account : Account)
    (hbody : msg.Body = some body) (hdecode : env.unmarshal body = .ok m)
    (hf : Fetched env m w step pipeline dataSource)
    (hconnection : fetchedConnection w pipeline dataSource = some connection)
    (hrun : fetchedRun w m = some run) (hmode : run.SyncMode = SingleDocumentSyncMode)
    (haccount : fetchedAccount w pipeline = some account)
    (henabled : dataSource.IsEnabled = true) (hactive : account.IsSuspended = false)
    (hlimited : account.IsUnlimited = false)
    (hquota : account.TotalIndexedDocumentCount + 1 <
      totalIndexedDocumentsLimit account.IsSubscriber)
    (hrunning : env.storeError (w.trace ++ fetchCalls m pipeline dataSource)
      (.UpdatePipelineRunStep step.PipelineRun step.DataSource PipelineRunStepStatusRunning
        none (some (env.clock w.clockReads)) none) = none)
    (hincrease : env.storeError
      (w.trace ++ fetchCalls m pipeline dataSource ++
        [.UpdatePipelineRunStep step.PipelineRun step.DataSource PipelineRunStepStatusRunning
          none (some (env.clock w.clockReads)) none])
      (.IncreaseTotalIndexedCount account.Id 1) = none) :
    indexedCounts (processIndexMessage env msg w).2.db =
      w.db.accounts.map (fun a =>
        (a.Id, if a.Id = account.Id then a.TotalIndexedDocumentCount + 1
          else a.TotalIndexedDocumentCount)) ∧
    ∃ rest, (processIndexMessage env msg w).2.trace =
        w.trace ++ fetchCalls m pipeline dataSource ++
          [.UpdatePipelineRunStep step.PipelineRun step.DataSource PipelineRunStepStatusRunning
            none (some (env.clock w.clockReads)) none,
           .IncreaseTotalIndexedCount account.Id 1] ++ rest ∧
      ∀ ev ∈ rest, ev.isIndexedCountUpdate = false := by
  have hlt : ¬ account.TotalIndexedDocumentCount + 1 ≥
      totalIndexedDocumentsLimit account.IsSubscriber := not_le.mpr hquota
  rw [processIndexMessage_single_document env msg body m w step pipeline dataSource connection
    run account hbody hdecode hf hconnection hrun hmode haccount henabled hactive hrunning]
  rw [wrapErr_snd]
  simp only [singleDocumentCase, hlimited, Bool.not_false, if_true, hlt, if_false, bind_eq,
    IncreaseTotalIndexedCount]
  rw [bind_wrapErr_storeCall]
  simp only [hincrease]
  constructor
  · rw [(preserves_iff _ _).mp (singleDocumentSync_counts env dataSource connection pipeline run
      step (env.clock w.clockReads) account)]
    simp only [indexedCounts, List.map_map]
    apply List.map_congr_left
    intro a _
    simp only [Function.comp]
    split <;> rfl
  · obtain ⟨rest, hrest, hp⟩ := (traceGrows_iff _ _).mp
      (singleDocumentSync_no_countUpdate env dataSource connection pipeline run step
        (env.clock w.clockReads) account)
      { db := { w.db with
            steps := w.db.steps.map (fun s =>
              if s.PipelineRun = step.PipelineRun ∧ s.DataSource = step.DataSource then
                { s with Status := PipelineRunStepStatusRunning, Error := none,
                         CompletedAt := none, StartedAt := some (env.clock w.clockReads) }
              else s)
            accounts := w.db.accounts.map (fun a =>
              if a.Id = account.Id then
                { a with TotalIndexedDocumentCount := a.TotalIndexedDocumentCount + 1 }
              else a) }
        trace := w.trace ++ fetchCalls m pipeline dataSource ++
          [.UpdatePipelineRunStep step.PipelineRun step.DataSource
            PipelineRunStepStatusRunning none (some (env.clock w.clockReads)) none] ++
          [.IncreaseTotalIndexedCount account.Id 1]
        clockReads := w.clockReads + 1 }
    refine ⟨rest, ?_, hp⟩
    rw [hrest]
    simp

theorem processIndexMessage_single_document_quota_witness :
    indexedCounts (processIndexMessage (exEnv [] 10 none noStoreError)
        { MessageId := "m1", Body := some "{}" }
        (exWorld 0 (exRun SingleDocumentSyncMode PipelineRunTriggerIntegrationChangeEvent
          ChangeActionDelete) [exRow "A" "f1"])).2.db =
      [exAccount 0].map (fun a =>
        (a.Id, if a.Id = (exAccount 0).Id then a.TotalIndexedDocumentCount + 1
          else a.TotalIndexedDocumentCount)) :=
  (processIndexMessage_single_document_quota (exEnv [] 10 none noStoreError)
    { MessageId := "m1", Body := some "{}" } "{}" exMessage
    (exWorld 0 (exRun SingleDocumentSyncMode PipelineRunTriggerIntegrationChangeEvent
      ChangeActionDelete) [exRow "A" "f1"])
    exStep exPipeline exDataSource exConnection
    (exRun SingleDocumentSyncMode PipelineRunTriggerIntegrationChangeEvent ChangeActionDelete)
    (exAccount 0) rfl rfl (exFetched 0 _ _ [] 10 none) rfl rfl rfl rfl rfl rfl rfl
    (by decide) rfl rfl).1

/-- C30, the code at the failing input: the caller passes a reader over the
22 bytes of a JSON body, the first attempt is answered with 429 and the
second with 200. The first request carries the 22 bytes; the second is built
from the same reader, of which nothing is left, and carries an empty body
with content length 0; it is the one that succeeds. -/
theorem sendRequest_retry_sends_empty_body :
    sendRequest exDecodeHelperError none exThrottledOnce "POST" "http://helper/count"
        "\x7b\"document_text\":\"hi\"\x7d" =
      ([{ Method := "POST", URL := "http://helper/count", ContentLength := 22,
          Body := "\x7b\"document_text\":\"hi\"\x7d" },
        { Method := "POST", URL := "http://helper/count", ContentLength := 0, Body := "" }],
       .success { StatusCode := 200, Body := "" }) := by
  rfl

/-- C21: `MarshalJSON` of `VectorStore`, `TextSplitter`, `PipelineDataSink` and
`PipelineEmbeddingConfig` returns an error, and so no output, for every value
whose discriminator is none of the declared variants of its type. -/
theorem MarshalJSON_unknown_discriminator (compact : RawMessage → Except Err RawMessage) :
    (∀ v : VectorStore,
      v.StoreType ∉ [VectorStoreTypeWeaviate, VectorStoreTypeQdrant, VectorStoreTypeMilvus,
        VectorStoreTypePinecone] →
      v.MarshalJSON compact = .error (.other "unknown vector store type")) ∧
    (∀ t : TextSplitter,
      t.Typ ∉ [TextSplitterTypeCharacter, TextSplitterTypeRecursiveCharacter,
        TextSplitterTypeToken] →
      t.MarshalJSON = .error (.other "unknown text splitter type")) ∧
    (∀ d : PipelineDataSink,
      d.Typ ∉ [DataSinkTypeVectorStore] →
      d.MarshalJSON compact = .error (.other "unknown data sink type")) ∧
    (∀ e : PipelineEmbeddingConfig,
      e.Typ ∉ [EmbeddingTypeOpenAI] →
      e.MarshalJSON = .error (.other "unknown embedding type")) := by
  refine ⟨?_, ?_, ?_, ?_⟩
  · intro v hv
    simp only [List.mem_cons, List.mem_singleton, List.not_mem_nil, or_false, not_or] at hv
    unfold VectorStore.MarshalJSON
    rw [if_neg hv.2.2.2, if_neg hv.1]
  · intro t ht
    simp only [List.mem_cons, List.mem_singleton, List.not_mem_nil, or_false, not_or] at ht
    unfold TextSplitter.MarshalJSON
    rw [if_neg ht.2.1]
  · intro d hd
    simp only [List.mem_cons, List.mem_singleton, List.not_mem_nil, or_false, not_or] at hd
    unfold PipelineDataSink.MarshalJSON
    rw [if_neg hd]
  · intro e he
    simp only [List.mem_cons, List.mem_singleton, List.not_mem_nil, or_false, not_or] at he
    unfold PipelineEmbeddingConfig.MarshalJSON
    rw [if_neg he]

theorem MarshalJSON_unknown_discriminator_witness :
    VectorStore.MarshalJSON exCompact
        { StoreType := "chroma", PineconeConfig := some "\x7b\x7d", WeaviateConfig := none }
      = .error (.other "unknown vector store type") ∧
    TextSplitter.MarshalJSON { zeroTextSplitter with Typ := "sentence" }
      = .error (.other "unknown text splitter type") ∧
    PipelineDataSink.MarshalJSON exCompact { zeroPipelineDataSink with Typ := "file" }
      = .error (.other "unknown data sink type") ∧
    PipelineEmbeddingConfig.MarshalJSON { Typ := "cohere", ApiKey := "k" }
      = .error (.other "unknown embedding type") :=
  ⟨(MarshalJSON_unknown_discriminator exCompact).1 _ (by decide),
    (MarshalJSON_unknown_discriminator exCompact).2.1 _ (by decide),
    (MarshalJSON_unknown_discriminator exCompact).2.2.1 _ (by decide),
    (MarshalJSON_unknown_discriminator exCompact).2.2.2 _ (by decide)⟩

/-- C22, as stated, fails: a store of the declared type `qdrant` or `milvus` is
refused by `VectorStore.MarshalJSON`, and so is a data sink carrying it; a
`pinecone` store whose payload is no JSON text is refused as well. -/
theorem VectorStore_MarshalJSON_declared_refused :
    VectorStore.MarshalJSON exCompact
        { StoreType := VectorStoreTypeQdrant, PineconeConfig := some "\x7b\x7d"
          WeaviateConfig := none }
      = .error (.other "unknown vector store type") ∧
    VectorStore.MarshalJSON exCompact
        { StoreType := VectorStoreTypeMilvus, PineconeConfig := none
          WeaviateConfig := some "\x7b\x7d" }
      = .error (.other "unknown vector store type") ∧
    PipelineDataSink.MarshalJSON exCompact
        { Id := "sink", Typ := DataSinkTypeVectorStore, IsEnabled := true
          Config := { StoreType := VectorStoreTypeQdrant, PineconeConfig := some "\x7b\x7d"
                      WeaviateConfig := none } }
      = .error (.wrap "json: error calling MarshalJSON for type main.VectorStore: "
          (.other "unknown vector store type")) ∧
    VectorStore.MarshalJSON exCompact
        { StoreType := VectorStoreTypePinecone, PineconeConfig := some ""
          WeaviateConfig := none }
      = .error (.wrap "json: error calling MarshalJSON for type json.RawMessage: "
          (.other "unexpected end of JSON input")) :=
  ⟨rfl, rfl, rfl, rfl⟩

/-- C22, amended: for a store of type `pinecone` or `weaviate` whose payload of
that variant is nil or bytes that `json.Compact` accepts, `MarshalJSON` returns
the object of `store_type` and `config`, the payload compacted, or `null` for
a nil one, and a data sink of type `vector_store` carrying the store returns
the object of its base fields and that `config`. -/
theorem VectorStore_MarshalJSON_implemented (compact : RawMessage → Except Err RawMessage)
    (v : VectorStore) (cfg : Option RawMessage) (config : Json)
    (hvariant : (v.StoreType = VectorStoreTypePinecone ∧ v.PineconeConfig = cfg) ∨
      (v.StoreType = VectorStoreTypeWeaviate ∧ v.WeaviateConfig = cfg))
    (hconfig : (cfg = none ∧ config = .null) ∨
      ∃ text out, cfg = some text ∧ compact text = .ok out ∧ config = .raw out) :
    v.MarshalJSON compact
      = .ok (.object [("store_type", .string v.StoreType), ("config", config)]) ∧
    ∀ d : PipelineDataSink, d.Typ = DataSinkTypeVectorStore → d.Config = v →
      d.MarshalJSON compact
        = .ok (.object [("id", .string d.Id), ("type", .string d.Typ),
            ("is_enabled", .bool d.IsEnabled),
            ("config", .object [("store_type", .string v.StoreType), ("config", config)])]) := by
  have hraw : marshalRawMessage compact cfg = .ok config := by
    rcases hconfig with ⟨hc, hj⟩ | ⟨text, out, hc, ho, hj⟩
    · rw [hc, hj]; rfl
    · rw [hc, hj]; simp [marshalRawMessage, ho]
  have hv : v.MarshalJSON compact
      = .ok (.object [("store_type", .string v.StoreType), ("config", config)]) := by
    unfold VectorStore.MarshalJSON
    rcases hvariant with ⟨ht, hp⟩ | ⟨ht, hp⟩
    · rw [if_pos ht, hp, hraw]
    · have hne : ¬ v.StoreType = VectorStoreTypePinecone := by
        rw [ht]; decide
      rw [if_neg hne, if_pos ht, hp, hraw]
  refine ⟨hv, ?_⟩
  intro d hd hdv
  unfold PipelineDataSink.MarshalJSON
  rw [if_pos hd, hdv, hv]

theorem VectorStore_MarshalJSON_implemented_witness :
    ((exSpacedStore.StoreType = VectorStoreTypePinecone ∧
        exSpacedStore.PineconeConfig = some "\x7b\"environment\": \"us-east\"\x7d") ∨
      (exSpacedStore.StoreType = VectorStoreTypeWeaviate ∧
        exSpacedStore.WeaviateConfig = some "\x7b\"environment\": \"us-east\"\x7d")) ∧
    exSpacedStore.MarshalJSON exCompact
      = .ok (.object [("store_type", .string "pinecone"),
          ("config", .raw "\x7b\"environment\":\"us-east\"\x7d")]) :=
  ⟨Or.inl ⟨rfl, rfl⟩,
    (VectorStore_MarshalJSON_implemented exCompact exSpacedStore
      (some "\x7b\"environment\": \"us-east\"\x7d")
      (.raw "\x7b\"environment\":\"us-east\"\x7d") (Or.inl ⟨rfl, rfl⟩)
      (Or.inr ⟨_, _, rfl, rfl, rfl⟩)).1⟩

/-- C23, as stated, fails: an object whose discriminator is no declared variant
is decoded without error, into a value that holds the base fields and an empty
payload. -/
theorem UnmarshalJSON_unknown_discriminator_accepted :
    zeroVectorStore.UnmarshalJSON
        (.object [("store_type", .string "chroma"), ("config", .raw "\x7b\"index\":\"a\"\x7d")])
      = .ok { StoreType := "chroma", PineconeConfig := none, WeaviateConfig := none } ∧
    zeroIntegrationConnection.UnmarshalJSON
        (.object [("account", .string "acct"), ("integration_name", .string "github"),
          ("connected_at", .string "2023-07-01"),
          ("config", .object [("access_token", .string "secret")])])
      = .ok { zeroIntegrationConnection with
              Account := "acct", Integration := "github", ConnectedAt := "2023-07-01" } :=
  ⟨rfl, rfl⟩

/-- C23, amended: when the base fields of a JSON text decode and the
discriminator they give is none of the variants that the decoder handles, which
is the case of every discriminator that is no declared variant, `UnmarshalJSON`
returns no error and leaves the receiver with the decoded base fields and the
payload it had before, the empty one for a fresh receiver. -/
theorem UnmarshalJSON_unhandled_discriminator :
    (∀ (v v' : VectorStore) (data : Json),
      unmarshalStruct vectorStoreBaseField data v = .ok v' →
      v'.StoreType ≠ VectorStoreTypePinecone → v'.StoreType ≠ VectorStoreTypeWeaviate →
      v.UnmarshalJSON data = .ok v' ∧
        v'.PineconeConfig = v.PineconeConfig ∧ v'.WeaviateConfig = v.WeaviateConfig) ∧
    (∀ (t t' : TextSplitter) (data : Json),
      unmarshalStruct textSplitterBaseField data t = .ok t' →
      t'.Typ ≠ TextSplitterTypeRecursiveCharacter →
      t.UnmarshalJSON data = .ok t' ∧ t'.Config = t.Config) ∧
    (∀ (d d' : PipelineDataSink) (data : Json),
      unmarshalStruct pipelineDataSinkBaseField data d = .ok d' →
      d'.Typ ≠ DataSinkTypeVectorStore →
      d.UnmarshalJSON data = .ok d' ∧ d'.Config = d.Config) ∧
    (∀ (e e' : PipelineEmbeddingConfig) (data : Json),
      unmarshalStruct pipelineEmbeddingConfigBaseField data e = .ok e' →
      e'.Typ ≠ EmbeddingTypeOpenAI →
      e.UnmarshalJSON data = .ok e' ∧ e'.ApiKey = e.ApiKey) ∧
    (∀ (i i' : IntegrationConnection) (data : Json),
      unmarshalStruct integrationConnectionBaseField data i = .ok i' →
      i'.Integration ≠ IntegrationNotion → i'.Integration ≠ IntegrationLinear →
      i.UnmarshalJSON data = .ok i' ∧ i'.Notion = i.Notion ∧ i'.Linear = i.Linear) ∧
    (∀ (p p' : PipelineDataSource) (data : Json),
      unmarshalStruct pipelineDataSourceBaseField data p = .ok p' →
      p'.IntegrationName ≠ IntegrationNotion → p'.IntegrationName ≠ IntegrationLinear →
      p.UnmarshalJSON data = .ok p') := by
  refine ⟨?_, ?_, ?_, ?_, ?_, ?_⟩
  · intro v v' data hbase h1 h2
    have hpay := unmarshalStruct_invariant vectorStoreBaseField
      (fun v => (v.PineconeConfig, v.WeaviateConfig)) vectorStoreBaseField_payload data v v' hbase
    refine ⟨?_, congrArg Prod.fst hpay, congrArg Prod.snd hpay⟩
    unfold VectorStore.UnmarshalJSON
    rw [hbase]
    simp only
    rw [if_neg h1, if_neg h2]
  · intro t t' data hbase h1
    refine ⟨?_, unmarshalStruct_invariant textSplitterBaseField (fun t => t.Config)
      textSplitterBaseField_payload data t t' hbase⟩
    unfold TextSplitter.UnmarshalJSON
    rw [hbase]
    simp only
    rw [if_neg h1]
  · intro d d' data hbase h1
    refine ⟨?_, unmarshalStruct_invariant pipelineDataSinkBaseField (fun d => d.Config)
      pipelineDataSinkBaseField_payload data d d' hbase⟩
    unfold PipelineDataSink.UnmarshalJSON
    rw [hbase]
    simp only
    rw [if_neg h1]
  · intro e e' data hbase h1
    refine ⟨?_, unmarshalStruct_invariant pipelineEmbeddingConfigBaseField (fun e => e.ApiKey)
      pipelineEmbeddingConfigBaseField_payload data e e' hbase⟩
    unfold PipelineEmbeddingConfig.UnmarshalJSON
    rw [hbase]
    simp only
    rw [if_neg h1]
  · intro i i' data hbase h1 h2
    have hpay := unmarshalStruct_invariant integrationConnectionBaseField
      (fun i => (i.Notion, i.Linear)) integrationConnectionBaseField_payload data i i' hbase
    refine ⟨?_, congrArg Prod.fst hpay, congrArg Prod.snd hpay⟩
    unfold IntegrationConnection.UnmarshalJSON
    rw [hbase]
    simp only
    rw [if_neg h1, if_neg h2]
  · intro p p' data hbase h1 h2
    unfold PipelineDataSource.UnmarshalJSON
    rw [hbase]
    simp only
    rw [if_neg h1, if_neg h2]

theorem UnmarshalJSON_unhandled_discriminator_witness :
    zeroVectorStore.UnmarshalJSON
        (.object [("store_type", .string "qdrant"), ("config", .raw "\x7b\"index\":\"a\"\x7d")])
      = .ok { zeroVectorStore with StoreType := "qdrant" } ∧
    zeroTextSplitter.UnmarshalJSON
        (.object [("type", .string "token"), ("config", .object [("chunk_size", .number 5)])])
      = .ok { zeroTextSplitter with Typ := "token" } :=
  ⟨(UnmarshalJSON_unhandled_discriminator.1 zeroVectorStore
      { zeroVectorStore with StoreType := "qdrant" }
      (.object [("store_type", .string "qdrant"), ("config", .raw "\x7b\"index\":\"a\"\x7d")])
      rfl (by decide) (by decide)).1,
    (UnmarshalJSON_unhandled_discriminator.2.1 zeroTextSplitter
      { zeroTextSplitter with Typ := "token" }
      (.object [("type", .string "token"), ("config", .object [("chunk_size", .number 5)])])
      rfl (by decide)).1⟩

/-- C27, as stated, fails: the encoder compacts the bytes of the payload, so a
Pinecone store whose payload has a blank after a colon comes back from the
round trip with other bytes. -/
theorem VectorStore_round_trip_compacts :
    exSpacedStore.MarshalJSON exCompact
      = .ok (.object [("store_type", .string "pinecone"),
          ("config", .raw "\x7b\"environment\":\"us-east\"\x7d")]) ∧
    zeroVectorStore.UnmarshalJSON
        (.object [("store_type", .string "pinecone"),
          ("config", .raw "\x7b\"environment\":\"us-east\"\x7d")])
      = .ok { exSpacedStore with PineconeConfig := some "\x7b\"environment\":\"us-east\"\x7d" } ∧
    ({ exSpacedStore with PineconeConfig := some "\x7b\"environment\":\"us-east\"\x7d" }
        : VectorStore) ≠ exSpacedStore :=
  ⟨rfl, rfl, by decide⟩

/-- C27, amended: a `VectorStore` of type `pinecone` or `weaviate` with exactly
the payload of its type populated, by bytes that the encoder emits as they are
(a JSON text in compact form), a `PipelineDataSink` of type `vector_store`
around such a store, a `PipelineEmbeddingConfig` of type `openai` and a
`TextSplitter` of type `recursive_character` are encoded without error, and
decoding the output into a fresh value gives the original value back, which
for a store has exactly the payload of its type populated. -/
theorem MarshalJSON_UnmarshalJSON_round_trip (compact : RawMessage → Except Err RawMessage) :
    (∀ (v : VectorStore) (cfg : RawMessage), v.Populated cfg → compact cfg = .ok cfg →
      ∃ out decoded, v.MarshalJSON compact = .ok out ∧
        zeroVectorStore.UnmarshalJSON out = .ok decoded ∧
        decoded = v ∧ decoded.Populated cfg) ∧
    (∀ (d : PipelineDataSink) (cfg : RawMessage), d.Typ = DataSinkTypeVectorStore →
      d.Config.Populated cfg → compact cfg = .ok cfg →
      ∃ out decoded, d.MarshalJSON compact = .ok out ∧
        zeroPipelineDataSink.UnmarshalJSON out = .ok decoded ∧
        decoded = d ∧ decoded.Config.Populated cfg) ∧
    (∀ e : PipelineEmbeddingConfig, e.Typ = EmbeddingTypeOpenAI →
      ∃ out, e.MarshalJSON = .ok out ∧ zeroPipelineEmbeddingConfig.UnmarshalJSON out = .ok e) ∧
    (∀ t : TextSplitter, t.Typ = TextSplitterTypeRecursiveCharacter →
      ∃ out, t.MarshalJSON = .ok out ∧ zeroTextSplitter.UnmarshalJSON out = .ok t) := by
  refine ⟨?_, ?_, ?_, ?_⟩
  · intro v cfg hv hcfg
    exact ⟨_, v, (vectorStore_round_trip compact v cfg hv hcfg).1,
      (vectorStore_round_trip compact v cfg hv hcfg).2, rfl, hv⟩
  · intro d cfg hd hv hcfg
    have h := vectorStore_round_trip compact d.Config cfg hv hcfg
    refine ⟨.object [("id", .string d.Id), ("type", .string d.Typ),
      ("is_enabled", .bool d.IsEnabled),
      ("config", .object [("store_type", .string d.Config.StoreType), ("config", .raw cfg)])],
      d, ?_, ?_, rfl, hv⟩
    · unfold PipelineDataSink.MarshalJSON
      rw [if_pos hd, h.1]
    · obtain ⟨id, typ, enabled, config⟩ := d
      simp only at hd h
      subst hd
      simp [PipelineDataSink.UnmarshalJSON, unmarshalStruct, unmarshalMembers,
        pipelineDataSinkBaseField, vectorStoreDataSinkField, unmarshalString, unmarshalBool,
        zeroPipelineDataSink, h.2]
  · intro e he
    obtain ⟨typ, key⟩ := e
    simp only at he
    subst he
    exact ⟨_, rfl, by
      simp [PipelineEmbeddingConfig.UnmarshalJSON, unmarshalStruct, unmarshalMembers,
        pipelineEmbeddingConfigBaseField, openAIEmbeddingConfigField, openAIConfigField,
        unmarshalString, zeroPipelineEmbeddingConfig]⟩
  · intro t ht
    obtain ⟨typ, size, overlap, separators⟩ := t
    simp only at ht
    subst ht
    exact ⟨_, rfl, by
      simp [TextSplitter.UnmarshalJSON, unmarshalStruct, unmarshalMembers,
        textSplitterBaseField, recursiveCharacterTextSplitterField,
        recursiveCharacterConfigField, unmarshalString, unmarshalInt,
        unmarshalStrings_marshalStrings, zeroTextSplitter]⟩

theorem MarshalJSON_UnmarshalJSON_round_trip_witness :
    VectorStore.Populated
      { StoreType := VectorStoreTypeWeaviate, PineconeConfig := none
        WeaviateConfig := some "\x7b\"host\":\"w\"\x7d" } "\x7b\"host\":\"w\"\x7d" ∧
    exCompact "\x7b\"host\":\"w\"\x7d" = .ok "\x7b\"host\":\"w\"\x7d" ∧
    ∃ out decoded,
      VectorStore.MarshalJSON exCompact
        { StoreType := VectorStoreTypeWeaviate, PineconeConfig := none
          WeaviateConfig := some "\x7b\"host\":\"w\"\x7d" } = .ok out ∧
      zeroVectorStore.UnmarshalJSON out = .ok decoded ∧
      decoded = { StoreType := VectorStoreTypeWeaviate, PineconeConfig := none
                  WeaviateConfig := some "\x7b\"host\":\"w\"\x7d" } ∧
      decoded.Populated "\x7b\"host\":\"w\"\x7d" :=
  ⟨Or.inr rfl, rfl,
    (MarshalJSON_UnmarshalJSON_round_trip exCompact).1 _ "\x7b\"host\":\"w\"\x7d"
      (Or.inr rfl) rfl⟩

/-- C24: let the search for pages deliver the result pages `freePages`, the
search for databases the result pages `databases`, and the query of every
database so found the result pages `pages id`. Then `ListDocuments`, given a
bound on the requests of a loop that covers these, returns a map whose keys are
the ids of the free pages together with the ids of the pages of every
database, each key once and each the `Id` of its document, and the document of
an id is built from the last result that carries it, the free pages counted
first and the databases after them in the order in which they were found. -/
theorem NotionListDocuments_union (api : NotionApi) (fuel : Nat)
    (freePages databases : List NotionSearchResponse)
    (pages : String → List NotionSearchResponse)
    (hfree : Paged api.searchPages none freePages)
    (hdatabases : Paged api.searchDatabases none databases)
    (hpages : ∀ id ∈ (allResults databases).map (fun result => result.Id),
      Paged (api.queryDatabase id) none (pages id))
    (hfuelFree : freePages.length ≤ fuel) (hfuelDatabases : databases.length ≤ fuel)
    (hfuelPages : ∀ id ∈ (allResults databases).map (fun result => result.Id),
      (pages id).length ≤ fuel) :
    ∃ listed, NotionListDocuments api fuel = some (.ok listed) ∧
      (∀ k, k ∈ listed.map Prod.fst ↔
        (∃ result ∈ allResults freePages, result.Id = k) ∨
        ∃ id ∈ (allResults databases).map (fun result => result.Id),
          ∃ result ∈ allResults (pages id), result.Id = k) ∧
      (listed.map Prod.fst).Nodup ∧
      (∀ kv ∈ listed, kv.2.Id = kv.1) ∧
      (∀ k, mapGet listed k =
        ((allResults freePages ++
            ((allResults databases).map (fun result => result.Id)).flatMap
              (fun id => allResults (pages id))).reverse.find?
          (fun result => decide (result.Id = k))).map notionPage) := by
  have hload : NotionListDocuments api fuel = some (.ok
      ((((allResults freePages ++
            ((allResults databases).map (fun result => result.Id)).flatMap
              (fun id => allResults (pages id))).map notionPage).foldl
          (fun docs page => mapSet docs page.Id page) []))) := by
    unfold NotionListDocuments loadAllPages loadDatabaseIds
    rw [loadAllPagesFrom_paged api freePages fuel none [] hfree hfuelFree,
      loadDatabaseIdsFrom_paged api databases fuel none [] hdatabases hfuelDatabases]
    simp only [List.nil_append]
    rw [loadDatabases_of_ok api fuel (fun id => (allResults (pages id)).map notionPage)
      ((allResults databases).map (fun result => result.Id)) _ (fun id hid => by
        unfold loadDatabasePages
        rw [loadDatabasePagesFrom_paged api id (pages id) fuel none [] (hpages id hid)
          (hfuelPages id hid)]
        simp)]
    simp only [List.map_append, List.foldl_append, List.foldl_map, List.map_flatMap]
    rfl
  have hget : ∀ k, mapGet ((((allResults freePages ++
            ((allResults databases).map (fun result => result.Id)).flatMap
              (fun id => allResults (pages id))).map notionPage).foldl
          (fun docs page => mapSet docs page.Id page) [])) k =
        ((allResults freePages ++
            ((allResults databases).map (fun result => result.Id)).flatMap
              (fun id => allResults (pages id))).reverse.find?
          (fun result => decide (result.Id = k))).map notionPage := by
    intro k
    rw [mapGet_foldl_mapSet, ← List.map_reverse, List.find?_map]
    simp only [mapGet, List.find?_nil, Option.map_none', Option.or_none]
    rfl
  refine ⟨_, hload, ?_, nodup_keys_foldl_mapSet _ [] (by simp),
    keyed_foldl_mapSet _ [] (by simp), hget⟩
  intro k
  rw [← mapGet_isSome_iff, hget, Option.isSome_map', List.find?_isSome]
  simp only [List.mem_reverse, List.mem_append, List.mem_flatMap, decide_eq_true_eq]
  constructor
  · rintro ⟨result, hmem | ⟨id, hid, hmem⟩, hk⟩
    · exact Or.inl ⟨result, hmem, hk⟩
    · exact Or.inr ⟨id, hid, result, hmem, hk⟩
  · rintro (⟨result, hmem, hk⟩ | ⟨id, hid, result, hmem, hk⟩)
    · exact ⟨result, Or.inl hmem, hk⟩
    · exact ⟨result, Or.inr ⟨id, hid, hmem⟩, hk⟩

theorem NotionListDocuments_union_witness :
    Paged exNotionApi.searchPages none exNotionFreePages ∧
    Paged exNotionApi.searchDatabases none exNotionDatabases ∧
    ∃ listed, NotionListDocuments exNotionApi 2 = some (.ok listed) ∧
      (∀ k, k ∈ listed.map Prod.fst ↔
        (∃ result ∈ allResults exNotionFreePages, result.Id = k) ∨
        ∃ id ∈ (allResults exNotionDatabases).map (fun result => result.Id),
          ∃ result ∈ allResults exNotionDatabasePages, result.Id = k) ∧
      (listed.map Prod.fst).Nodup ∧
      (∀ kv ∈ listed, kv.2.Id = kv.1) ∧
      (∀ k, mapGet listed k =
        ((allResults exNotionFreePages ++
            ((allResults exNotionDatabases).map (fun result => result.Id)).flatMap
              (fun _ => allResults exNotionDatabasePages)).reverse.find?
          (fun result => decide (result.Id = k))).map notionPage) :=
  ⟨⟨rfl, rfl, rfl, rfl⟩, ⟨rfl, rfl⟩,
    NotionListDocuments_union exNotionApi 2 exNotionFreePages exNotionDatabases
      (fun _ => exNotionDatabasePages) ⟨rfl, rfl, rfl, rfl⟩ ⟨rfl, rfl⟩
      (fun _ _ => ⟨rfl, rfl, rfl, rfl⟩) (by decide) (by decide)
      (fun _ _ => show exNotionDatabasePages.length ≤ 2 by decide)⟩

/-- C26, as stated, fails: the worker is shut down while a handler runs that
then returns success; the health check resets the visibility of the message to
0, and the loop deletes the message after it. -/
theorem shutdown_resets_visibility_of_handled_message :
    (consumeMessage [.shutdown] exReceived
        (fun m => (processIndexMessage (exEnv [] 10 none noStoreError) m
          exStaleWorld).1)).healthCheck = [.ChangeMessageVisibility (some "rh") 0] ∧
    (consumeMessage [.shutdown] exReceived
        (fun m => (processIndexMessage (exEnv [] 10 none noStoreError) m
          exStaleWorld).1)).worker = [.DeleteMessage (some "rh")] :=
  ⟨rfl, rfl⟩

/-- C26, amended: for every received message and whatever happens while its
handler runs, the health check makes one call per event, extending the
visibility to 15 on a tick and resetting it to 0 on a shutdown, and then the
loop makes one call. When the handler returns success that call is
`DeleteMessage` for the receipt handle of the message, and the visibility of
the message is reset to 0 by some call if and only if a shutdown occurred
while the handler ran. When the handler returns an error that call is
`ChangeMessageVisibility` with timeout 0 for the receipt handle, and no call
deletes the message. -/
theorem consumeMessage_ack_nack (events : List HealthEvent) (msg : ReceivedMessage)
    (handler : Message → Res Unit) :
    (consumeMessage events msg handler).healthCheck = events.map (healthCheckCall msg) ∧
    (handler msg.Message = .ok () →
      (consumeMessage events msg handler).worker = [.DeleteMessage msg.ReceiptHandle] ∧
      (QueueCall.ChangeMessageVisibility msg.ReceiptHandle 0 ∈
          (consumeMessage events msg handler).healthCheck ++
            (consumeMessage events msg handler).worker ↔
        HealthEvent.shutdown ∈ events)) ∧
    (∀ e, handler msg.Message = .error e →
      (consumeMessage events msg handler).worker =
        [.ChangeMessageVisibility msg.ReceiptHandle 0] ∧
      ∀ h, QueueCall.DeleteMessage h ∉
        (consumeMessage events msg handler).healthCheck ++
          (consumeMessage events msg handler).worker) := by
  have hc : (consumeMessage events msg handler).healthCheck =
      events.map (healthCheckCall msg) := by
    unfold consumeMessage applySQSHealthCheck
    cases handler msg.Message <;> rfl
  have hreset : QueueCall.ChangeMessageVisibility msg.ReceiptHandle 0 ∈
      events.map (healthCheckCall msg) ↔ HealthEvent.shutdown ∈ events := by
    rw [List.mem_map]
    constructor
    · rintro ⟨ev, hev, hcall⟩
      cases ev with
      | tick => simp [healthCheckCall] at hcall
      | shutdown => exact hev
    · intro hev
      exact ⟨_, hev, rfl⟩
  have hdelete : ∀ h, QueueCall.DeleteMessage h ∉ events.map (healthCheckCall msg) := by
    intro h hmem
    obtain ⟨ev, -, hcall⟩ := List.mem_map.mp hmem
    cases ev <;> simp [healthCheckCall] at hcall
  refine ⟨hc, fun h => ?_, fun e h => ?_⟩
  · have hw : (consumeMessage events msg handler).worker = [.DeleteMessage msg.ReceiptHandle] := by
      simp [consumeMessage, applySQSHealthCheck, h]
    refine ⟨hw, ?_⟩
    rw [hc, hw, List.mem_append, hreset]
    simp
  · have hw : (consumeMessage events msg handler).worker =
        [.ChangeMessageVisibility msg.ReceiptHandle 0] := by
      simp [consumeMessage, applySQSHealthCheck, h]
    refine ⟨hw, fun h' => ?_⟩
    rw [hc, hw, List.mem_append]
    rintro (hm | hm)
    · exact hdelete h' hm
    · simp at hm

theorem consumeMessage_ack_nack_witness :
    (consumeMessage [.tick, .tick] exReceived
        (fun m => (processIndexMessage (exEnv [] 10 none noStoreError) m
          exStaleWorld).1)).worker = [.DeleteMessage (some "rh")] ∧
    QueueCall.ChangeMessageVisibility (some "rh") 0 ∉
      (consumeMessage [.tick, .tick] exReceived
        (fun m => (processIndexMessage (exEnv [] 10 none noStoreError) m
          exStaleWorld).1)).healthCheck ++
      (consumeMessage [.tick, .tick] exReceived
        (fun m => (processIndexMessage (exEnv [] 10 none noStoreError) m
          exStaleWorld).1)).worker ∧
    (consumeMessage [.tick] exReceived
        (fun m => (processIndexMessage (exEnv [] 10 none noStoreError) m
          exNoSourceWorld).1)).worker = [.ChangeMessageVisibility (some "rh") 0] :=
  ⟨((consumeMessage_ack_nack [.tick, .tick] exReceived
      (fun m => (processIndexMessage (exEnv [] 10 none noStoreError) m
        exStaleWorld).1)).2.1 rfl).1,
   fun hmem => absurd (((consumeMessage_ack_nack [.tick, .tick] exReceived
      (fun m => (processIndexMessage (exEnv [] 10 none noStoreError) m
        exStaleWorld).1)).2.1 rfl).2.mp hmem) (by decide),
   ((consumeMessage_ack_nack [.tick] exReceived
      (fun m => (processIndexMessage (exEnv [] 10 none noStoreError) m
        exNoSourceWorld).1)).2.2 _ rfl).1⟩

/-- C16 as stated fails, in three ways. A single-document run for an account
that stands at 98 of its 100 documents is handled twice, the upstream and the
helper answering alike: the first handling takes the account to 99 and ends
with the step `completed`, the second finds the quota used up and ends with
the step `failed`. A full index of the one issue `A` for an account that
stands at 99 ends `completed` with `A` persisted; the second handling finds
nothing left of the quota, cuts the listing to nothing, deletes `A` and ends
`completed` over an empty mirror. A full index whose ingest the helper rejects
as flagged content ends `failed` and suspends the account; the second handling
is stopped by the gatekeeping and ends `completed`. -/
theorem second_handling_ends_failed :
    ((processIndexMessage (exEnv [] 10 none noStoreError) { MessageId := "m1", Body := some "{}" }
      (exWorld 98 (exRun SingleDocumentSyncMode PipelineRunTriggerManual ChangeActionCreate)
        [])).2.db.steps.map (fun s => s.Status) = [PipelineRunStepStatusCompleted] ∧
    (processIndexMessage (exEnv [] 10 none noStoreError) { MessageId := "m1", Body := some "{}" }
      (processIndexMessage (exEnv [] 10 none noStoreError)
        { MessageId := "m1", Body := some "{}" }
        (exWorld 98 (exRun SingleDocumentSyncMode PipelineRunTriggerManual ChangeActionCreate)
          [])).2).2.db.steps.map (fun s => s.Status) = [PipelineRunStepStatusFailed]) ∧
    (processIndexMessage (exEnv [("A", exDoc "A" "f1")] 10 none noStoreError)
        { MessageId := "m1", Body := some "{}" }
        (exWorld 99 (exRun FullIndexSyncMode PipelineRunTriggerManual ChangeActionCreate) []) =
      (.ok (), exQuotaReplayWorld) ∧
    exQuotaReplayWorld.db.documents.map (fun d => d.Id) = ["A"] ∧
    (processIndexMessage (exEnv [("A", exDoc "A" "f1")] 10 none noStoreError)
      { MessageId := "m1", Body := some "{}" } exQuotaReplayWorld).2.db.documents = [] ∧
    (processIndexMessage (exEnv [("A", exDoc "A" "f1")] 10 none noStoreError)
      { MessageId := "m1", Body := some "{}" } exQuotaReplayWorld).2.db.steps.map
        (fun s => s.Status) = [PipelineRunStepStatusCompleted]) ∧
    ((processIndexMessage (exFlaggedEnv noStoreError) { MessageId := "m1", Body := some "{}" }
      exFullIndexWorld).2.db.steps.map (fun s => s.Status) = [PipelineRunStepStatusFailed] ∧
    (processIndexMessage (exFlaggedEnv noStoreError) { MessageId := "m1", Body := some "{}" }
      (processIndexMessage (exFlaggedEnv noStoreError) { MessageId := "m1", Body := some "{}" }
        exFullIndexWorld).2).2.db.steps.map (fun s => s.Status) =
          [PipelineRunStepStatusCompleted]) := by
  exact ⟨⟨rfl, rfl⟩, ⟨exQuotaReplayWorld_first, rfl, rfl, rfl⟩, ⟨rfl, rfl⟩⟩

/-- C16, amended: take a store that accepts every statement, upstream clients
and a helper that answer a call by its arguments alone, and listings that
hold every document once, under its id. If the first handling of a message
returned success and ended by setting the step to `completed`, and the quota
of the account, as the second handling finds it, admits the run (the account
is unlimited, or the check of the single-document branch passes, or something
is left of the quota and the listing of the full index fits into it), then
handling the same message again returns success, leaves the persisted
documents as they were, and again ends by setting the step to `completed`,
which is then the status of every row of the step. This holds for a full
index, for a single-document run of any trigger and change action, and for a
run that the gatekeeping stops. -/
theorem processIndexMessage_replay (env : Env) (msg : Message) (body : String)
    (m : IndexMessage) (w w1 : World) (step : PipelineRunStep) (pipeline : Pipeline)
    (dataSource : PipelineDataSource)
    (hbody : msg.Body = some body) (hdecode : env.unmarshal body = .ok m)
    (hf : Fetched env m w step pipeline dataSource)
    (hstore : ∀ history ev, env.storeError history ev = none)
    (halike : RespondsAlike env)
    (hkeyed : ∀ integration client history connection listing,
      env.clients integration = some client →
      client.ListDocuments history connection = .ok listing → KeyedById listing)
    (hfirst : processIndexMessage env msg w = (.ok (), w1))
    (hcompleted : ∃ startedAt completedAt, w1.trace.getLast? =
      some (.UpdatePipelineRunStep step.PipelineRun step.DataSource
        PipelineRunStepStatusCompleted none startedAt completedAt))
    (hquota : ∀ connection run account,
      fetchedConnection w1 pipeline dataSource = some connection →
      fetchedRun w1 m = some run → fetchedAccount w1 pipeline = some account →
      dataSource.IsEnabled = true → account.IsSuspended = false →
      QuotaAdmits env connection run account) :
    ∃ w2, processIndexMessage env msg w1 = (.ok (), w2) ∧
      w2.db.documents = w1.db.documents ∧
      (∃ startedAt completedAt, w2.trace.getLast? =
        some (.UpdatePipelineRunStep step.PipelineRun step.DataSource
          PipelineRunStepStatusCompleted none startedAt completedAt)) ∧
      ∀ row ∈ w2.db.steps, row.PipelineRun = step.PipelineRun →
        row.DataSource = step.DataSource → row.Status = PipelineRunStepStatusCompleted := by
  have hends : ∃ ev, w1.trace.getLast? = some ev ∧ ev.isCompletedWrite step := by
    obtain ⟨s, c, h⟩ := hcompleted
    exact ⟨_, h, rfl, rfl, rfl, rfl⟩
  have hseg := hfirst
  rw [processIndexMessage_fetched env msg body m w step pipeline dataSource hbody hdecode hf,
    wrapErr_ok_iff] at hseg
  suffices hmain : SameRows w.db w1.db ∧
      ∀ step1, Fetched env m w1 step1 pipeline dataSource →
        step1.PipelineRun = step.PipelineRun → step1.DataSource = step.DataSource →
        fetchedConnection w1 pipeline dataSource = fetchedConnection w pipeline dataSource →
        fetchedRun w1 m = fetchedRun w m →
        (fetchedAccount w1 pipeline).map accountCore =
          (fetchedAccount w pipeline).map accountCore →
        ∃ w2, runIndexSegment env dataSource (fetchedConnection w1 pipeline dataSource) pipeline
            (fetchedRun w1 m) step1 (fetchedAccount w1 pipeline)
            (afterFetch w1 m pipeline dataSource) = (.ok (), w2) ∧
          EndsCompleted step1 w1 w2 by
    obtain ⟨hk, hsecond⟩ := hmain
    obtain ⟨step1, hf1, hr, hd, hc, hrn, ha⟩ :=
      fetched_transfer env m w w1 step pipeline dataSource hf hstore hk
    obtain ⟨w2, h2, hdocs, ⟨ev, hev, hcw⟩, hrows⟩ := hsecond step1 hf1 hr hd hc hrn ha
    refine ⟨w2, ?_, hdocs, ?_, ?_⟩
    · rw [processIndexMessage_fetched env msg body m w1 step1 pipeline dataSource hbody hdecode
        hf1]
      exact wrapErr_of_ok _ _ _ _ () h2
    · obtain ⟨s, c, hs⟩ := (isCompletedWrite_iff step1 ev).mp hcw
      rw [hs, hr, hd] at hev
      exact ⟨s, c, hev⟩
    · intro row hrow h1 h2'
      exact hrows row hrow (h1.trans hr.symm) (h2'.trans hd.symm)
  -- a run that the gatekeeping stops, the first time and again
  have hgated : gate dataSource (fetchedAccount w pipeline) = M.pure none →
      SameRows w.db w1.db ∧
      ∀ step1, Fetched env m w1 step1 pipeline dataSource →
        step1.PipelineRun = step.PipelineRun → step1.DataSource = step.DataSource →
        fetchedConnection w1 pipeline dataSource = fetchedConnection w pipeline dataSource →
        fetchedRun w1 m = fetchedRun w m →
        (fetchedAccount w1 pipeline).map accountCore =
          (fetchedAccount w pipeline).map accountCore →
        (gate dataSource (fetchedAccount w1 pipeline) = M.pure none) →
        ∃ w2, runIndexSegment env dataSource (fetchedConnection w1 pipeline dataSource) pipeline
            (fetchedRun w1 m) step1 (fetchedAccount w1 pipeline)
            (afterFetch w1 m pipeline dataSource) = (.ok (), w2) ∧
          EndsCompleted step1 w1 w2 := by
    intro hg
    rw [runIndexSegment_gated _ _ _ _ _ _ _ _ hg] at hseg
    obtain ⟨w1', h1', -, hk'⟩ := completedWrite_ends env step
      (some (env.clock (afterFetch w m pipeline dataSource).clockReads))
      (some (env.clock ((afterFetch w m pipeline dataSource).clockReads + 1))) w
      { afterFetch w m pipeline dataSource with
        clockReads := (afterFetch w m pipeline dataSource).clockReads + 1 + 1 } hstore rfl
    rw [h1'] at hseg
    cases hseg
    refine ⟨hk', fun step1 _ _ _ _ _ _ hg1 => ?_⟩
    rw [runIndexSegment_gated _ _ _ _ _ _ _ _ hg1]
    obtain ⟨w2, h2, hends2, -⟩ := completedWrite_ends env step1
      (some (env.clock (afterFetch w1 m pipeline dataSource).clockReads))
      (some (env.clock ((afterFetch w1 m pipeline dataSource).clockReads + 1))) w1
      { afterFetch w1 m pipeline dataSource with
        clockReads := (afterFetch w1 m pipeline dataSource).clockReads + 1 + 1 } hstore rfl
    exact ⟨w2, h2, hends2⟩
  by_cases henabled : dataSource.IsEnabled = true
  swap
  · have hdis : dataSource.IsEnabled = false := by simpa using henabled
    obtain ⟨hk, hsecond⟩ := hgated (gate_of_disabled _ _ hdis)
    exact ⟨hk, fun step1 hf1 hr hd hc hrn ha =>
      hsecond step1 hf1 hr hd hc hrn ha (gate_of_disabled _ _ hdis)⟩
  cases haccount : fetchedAccount w pipeline with
  | none =>
    exfalso
    simp [runIndexSegment, gate, henabled, haccount, bind_eq, M.bind, now, deref, nilPanic]
      at hseg
  | some account =>
    by_cases hsusp : account.IsSuspended = true
    · have hg : gate dataSource (some account) = M.pure none := by
        rw [gate_of_account _ _ henabled]
        simp [hsusp]
      rw [haccount] at hgated
      obtain ⟨hk, hsecond⟩ := hgated hg
      refine ⟨hk, fun step1 hf1 hr hd hc hrn ha => hsecond step1 hf1 hr hd hc hrn ha ?_⟩
      obtain ⟨account1, ha1, -, hs1, -, -⟩ := account_of_core w w1 pipeline account haccount
        (by rw [haccount]; exact ha)
      rw [ha1, gate_of_account _ _ henabled]
      simp [hs1, hsusp]
    · have hact : account.IsSuspended = false := by simpa using hsusp
      have hg : gate dataSource (some account) = M.pure (some account) := by
        rw [gate_of_account _ _ henabled]
        simp [hact]
      rw [haccount, runIndexSegment_running env dataSource _ pipeline _ step (some account)
        account _ hstore hg] at hseg
      have hwlast : ∀ ev, (afterRunning env step (afterFetch w m pipeline dataSource)).trace.getLast?
          = some ev → ¬ ev.isCompletedWrite step := by
        intro ev hev
        simp [afterRunning] at hev
        rw [← hev]
        exact not_completed_of_running _ _ _ _ _ _
      cases hconn : fetchedConnection w pipeline dataSource with
      | none =>
        exfalso
        rw [hconn] at hseg
        simp only at hseg
        cases hseg
        obtain ⟨ev, hev, hc⟩ := hends
        exact hwlast ev hev hc
      | some connection =>
        rw [hconn] at hseg
        simp only at hseg
        cases hrun : fetchedRun w m with
        | none =>
          exfalso
          rw [hrun] at hseg
          simp [dispatchSyncMode, bind_eq, M.bind, deref, nilPanic] at hseg
        | some run =>
          rw [hrun] at hseg
          have hk := dispatchSyncMode_first_keeps env dataSource connection pipeline run step _
            account _ w1 hstore hseg hends
          refine ⟨(sameRows_afterRunning env step (afterFetch w m pipeline dataSource)).trans hk,
            fun step1 hf1 hr hd hc hrn ha => ?_⟩
          obtain ⟨account1, ha1, -, hs1, hsub, hunl⟩ := account_of_core w w1 pipeline account
            haccount (by rw [haccount]; exact ha)
          have hact1 : account1.IsSuspended = false := hs1.trans hact
          have hg1 : gate dataSource (some account1) = M.pure (some account1) := by
            rw [gate_of_account _ _ henabled]
            simp [hact1]
          rw [ha1, runIndexSegment_running env dataSource _ pipeline _ step1 (some account1)
            account1 _ hstore hg1, hc, hrn]
          simp only
          obtain ⟨w2, h2, hends2⟩ := dispatchSyncMode_again env dataSource connection pipeline
            run step step1 (env.clock (afterFetch w m pipeline dataSource).clockReads)
            (env.clock (afterFetch w1 m pipeline dataSource).clockReads) account account1
            (afterRunning env step (afterFetch w m pipeline dataSource)) w1
            (afterRunning env step1 (afterFetch w1 m pipeline dataSource))
            hstore halike hkeyed hseg hends hwlast haccount ha1 hsub hunl
            (hquota connection run account1 hc hrn ha1 henabled hact1)
            rfl
          exact ⟨w2, h2, hends2.1, hends2.2⟩

theorem processIndexMessage_replay_witness :
    ∃ w2,
      processIndexMessage (exEnv [("A", exDoc "A" "f1")] 10 none noStoreError)
          { MessageId := "m1", Body := some "{}" } exSingleDocumentReplayWorld = (.ok (), w2) ∧
      w2.db.documents = exSingleDocumentReplayWorld.db.documents ∧
      ∀ row ∈ w2.db.steps, row.PipelineRun = exStep.PipelineRun →
        row.DataSource = exStep.DataSource → row.Status = PipelineRunStepStatusCompleted := by
  have hfetched : Fetched (exEnv [("A", exDoc "A" "f1")] 10 none noStoreError) exMessage
      exSingleDocumentWorld exStep exPipeline exDataSource :=
    ⟨rfl, rfl, rfl, fun _ _ _ _ => rfl⟩
  have hfirst : processIndexMessage (exEnv [("A", exDoc "A" "f1")] 10 none noStoreError)
      { MessageId := "m1", Body := some "{}" } exSingleDocumentWorld =
        (.ok (), exSingleDocumentReplayWorld) := by
    rw [processIndexMessage_single_document (exEnv [("A", exDoc "A" "f1")] 10 none noStoreError)
      { MessageId := "m1", Body := some "{}" } "{}" exMessage exSingleDocumentWorld
      exStep exPipeline exDataSource exConnection
      (exRun SingleDocumentSyncMode PipelineRunTriggerIntegrationChangeEvent ChangeActionCreate)
      (exAccount 0) rfl rfl hfetched rfl rfl rfl rfl rfl rfl rfl]
    exact wrapErr_of_ok _ _ _ _ () (by rfl)
  obtain ⟨w2, h1, h2, -, h3⟩ := processIndexMessage_replay
    (exEnv [("A", exDoc "A" "f1")] 10 none noStoreError)
    { MessageId := "m1", Body := some "{}" } "{}" exMessage exSingleDocumentWorld
    exSingleDocumentReplayWorld exStep exPipeline exDataSource rfl rfl hfetched
    (fun _ _ => rfl) (exEnv_respondsAlike _ _ _ _)
    (fun integration client history connection listing hclient hlisting => by
      rw [exEnv_listing _ _ _ _ integration client history connection listing hclient hlisting]
      exact ⟨by decide, fun kv hkv => by
        rw [List.mem_singleton] at hkv
        subst hkv
        rfl⟩)
    hfirst ⟨some 0, some 2, rfl⟩
    (fun connection run account hconnection hrun haccount _ _ => by
      cases (Option.some.inj hrun :
        exRun SingleDocumentSyncMode PipelineRunTriggerIntegrationChangeEvent
          ChangeActionCreate = run)
      cases (Option.some.inj haccount :
        ({ exAccount 1 with TotalIndexDocumentTokens := 10 } : Account) = account)
      exact Or.inr (Or.inl ⟨rfl, by decide⟩))
  exact ⟨w2, h1, h2, h3⟩

end Worker
